import Mathlib

/-!
# Mistborn: Allomancy Sandbox — simulation core

A shallow embedding of `src/game.js` (the `World` chunk streamer and generator
and the `Player` movement state machine) together with the properties proved
about it.

Conventions of the embedding.

* JavaScript numbers are rationals (`ℚ`); `NaN`, the infinities and binary
  rounding are not modelled.  Chunk indices, which the source obtains with
  `Math.floor`, are integers (`ℤ`).
* `Math.sqrt`, `Math.hypot` and `Math.sin` have no exact rational counterpart;
  they are supplied by a `JsMath` record, so every theorem that quantifies over
  `JsMath` holds for any implementation of them.
* `Math.random()` reads the next element of a stream `rnd : ℕ → ℚ`; the number
  of draws consumed so far is kept in the history field `World.draws`.
* JavaScript object identity (`===` on objects) is structural equality.
* Fields that only the renderer reads (colours) are left out.
-/

namespace Mistborn

/-! ## Host library -/

/-- The irrational-valued members of the host `Math` object. -/
structure JsMath where
  sqrt : ℚ → ℚ
  sin : ℚ → ℚ

/-- `Math.hypot(a, b)`. -/
def JsMath.hypot (E : JsMath) (a b : ℚ) : ℚ := E.sqrt (a * a + b * b)

/-- The bit-by-bit integer square root: `isqrtBits n b r` decides the bits below
`b` of the root of `n`, given the higher bits `r`. -/
def isqrtBits (n : ℕ) : ℕ → ℕ → ℕ
  | 0, r => r
  | b + 1, r => isqrtBits n b (if (r + 2 ^ b) * (r + 2 ^ b) ≤ n then r + 2 ^ b else r)

/-- The least `b ≥ b0` with `n < 4 ^ b`, searched upwards with `fuel` steps. -/
def rootBits (n : ℕ) : ℕ → ℕ → ℕ
  | 0, b => b
  | fuel + 1, b => if n < 4 ^ b then b else rootBits n fuel (b + 1)

/-- The integer square root, rounded down. -/
def isqrt (n : ℕ) : ℕ := isqrtBits n (rootBits n n 0) 0

/-- A square root that is exact on squares of rationals (and rounds the
numerator down otherwise); used to evaluate the model on concrete inputs. -/
def sqrtQ (q : ℚ) : ℚ := (isqrt (q.num.toNat * q.den) : ℚ) / (q.den : ℚ)

/-- A concrete host library: `sqrtQ` and a `sin` that is exact at `0` only. -/
def exactMath : JsMath := ⟨sqrtQ, fun _ => 0⟩

/-- `Math.floor`. -/
def jsFloor (x : ℚ) : ℤ := ⌊x⌋

/-- `Math.round`: the nearest integer, halves rounded up. -/
def jsRound (x : ℚ) : ℤ := ⌊x + 1 / 2⌋

/-- `clamp(value, min, max)` (game.js 602). -/
def clamp (value lo hi : ℚ) : ℚ := max lo (min hi value)

/-! ## Data model -/

/-- A window rectangle of a building facade. -/
structure Rect where
  x : ℚ
  y : ℚ
  width : ℚ
  height : ℚ
deriving DecidableEq, Repr

/-- An entry of `BUILDING_WINDOW_STYLES`; an absent field is `none`. -/
structure WindowStyle where
  windowWidth : Option ℚ
  windowHeight : Option ℚ
  marginX : Option ℚ
  marginTop : Option ℚ
  marginBottom : Option ℚ
  minColumns : Option ℚ
  maxColumns : Option ℚ
  minRows : Option ℚ
  maxRows : Option ℚ
  horizontalSpacing : Option ℚ
  verticalSpacing : Option ℚ
  randomOmissions : Option ℚ
deriving DecidableEq, Repr

/-- A platform: the object built by `createPlatform` (game.js 1871). The
fields after `biome` are set for `type = "building"` only. -/
structure Platform where
  x : ℚ
  y : ℚ
  width : ℚ
  height : ℚ
  type : String
  biome : String
  windowStyleKey : Option String
  windowStyle : Option WindowStyle
  buildingTypeKey : Option String
  windowRects : List Rect
deriving DecidableEq, Repr

/-- A street lamp (game.js 2224). -/
structure StreetLamp where
  x : ℚ
  baseY : ℚ
  height : ℚ
  biome : String
deriving DecidableEq, Repr

/-- A manhole, an entry of `groundMetals` (game.js 2249). -/
structure Manhole where
  x : ℚ
  y : ℚ
  width : ℚ
  height : ℚ
  biome : String
deriving DecidableEq, Repr

/-- A tree (game.js 2276). -/
structure Tree where
  x : ℚ
  baseY : ℚ
  height : ℚ
  crownRadius : ℚ
  trunkWidth : ℚ
  lean : ℚ
  biome : String
deriving DecidableEq, Repr

/-- A metal source; the shape-specific fields that an object literal of the
source does not set are `none`. -/
structure MetalSource where
  x : ℚ
  y : ℚ
  shape : String
  size : Option ℚ
  width : Option ℚ
  height : Option ℚ
  orientation : Option String
  base : Option ℚ
  cornerX : Option ℚ
  cornerY : Option ℚ
  sourceType : Option String
  sourcePlatform : Option Platform
  streetLamp : Option StreetLamp
  manhole : Option Manhole
deriving DecidableEq, Repr

/-- The `extras.rooftop` record of a building archetype. -/
structure Rooftop where
  overhang : ℚ
  thickness : Option ℚ
  verticalOffset : ℚ
deriving DecidableEq, Repr

/-- An entry of `BUILDING_TYPES`. -/
structure BuildingType where
  widthRange : Option (List ℚ)
  heightRange : Option (List ℚ)
  windowStyleKey : String
  attachMetals : Bool
  rooftop : Option Rooftop
deriving DecidableEq, Repr

/-- An entry of `BIOME_CONFIGS`. -/
structure BiomeConfig where
  buildingTypes : List String
  buildingCountRange : Option (List ℚ)
  spacingRange : Option (List ℚ)
  edgePaddingRange : Option (List ℚ)
  streetLampSpacingRange : Option (List ℚ)
  streetLampHeightRange : Option (List ℚ)
  streetLampChance : Option ℚ
  manholeChance : Option ℚ
  manholeCountRange : Option (List ℚ)
  treeChance : Option ℚ
  treeCountRange : Option (List ℚ)
deriving DecidableEq, Repr

/-- The `{ x, width, height }` records of `chunkBuildings` (game.js 2108). -/
structure BuildingSpan where
  x : ℚ
  width : ℚ
  height : ℚ
deriving DecidableEq, Repr

/-- The state of a `World` object. `chunkBiomes` (a `Map`) and
`generatedChunks` (a `Set`) are kept in insertion order. `draws` and
`bodyRuns` are history fields that the source does not have: the number of
`Math.random()` calls made so far, and the chunk indices for which the
content-generation body of `generateChunk` has run, in order. -/
structure World where
  platforms : List Platform
  metalSources : List MetalSource
  buildings : List Platform
  streetLamps : List StreetLamp
  groundMetals : List Manhole
  trees : List Tree
  chunkBiomes : List (ℤ × String)
  generatedChunks : List ℤ
  draws : ℕ
  bodyRuns : List ℤ
deriving DecidableEq, Repr

/-! ## Configuration tables -/

/-- `BUILDING_WINDOW_STYLES` (game.js 503). -/
def BUILDING_WINDOW_STYLES (key : String) : Option WindowStyle :=
  if key = "default" then
    some ⟨some 16, some 22, some 12, some 18, some 16, some 2, some 3, some 2, some 4,
      some 14, some 24, some 0⟩
  else if key = "slums" then
    some ⟨some 12, some 20, some 10, some 14, some 14, some 1, some 4, some 1, some 6,
      some 10, some 22, some (3 / 10)⟩
  else if key = "noble_housing" then
    some ⟨some 18, some 28, some 16, some 20, some 18, some 2, some 3, some 2, some 5,
      some 18, some 26, some (25 / 1000)⟩
  else if key = "town_square" then
    some ⟨some 20, some 22, some 12, some 16, some 18, some 2, some 4, some 1, some 3,
      some 12, some 16, some 0⟩
  else if key = "marketplace" then
    some ⟨some 24, some 24, some 6, some 18, some 12, some 2, some 2, some 1, some 1,
      some 4, some 0, some 0⟩
  else if key = "grand_keep" then
    some ⟨some 18, some 30, some 18, some 26, some 24, some 3, some 4, some 3, some 6,
      some 14, some 26, some (2 / 100)⟩
  else none

/-- `BUILDING_TYPES.default`. -/
def BUILDING_TYPES_default : BuildingType :=
  ⟨some [80, 110], some [200, 320], "default", true, none⟩

/-- `BUILDING_TYPES` (game.js 622). -/
def BUILDING_TYPES (key : String) : Option BuildingType :=
  if key = "default" then some BUILDING_TYPES_default
  else if key = "slum_shack" then
    some ⟨some [72, 100], some [120, 360], "slums", true, none⟩
  else if key = "noble_estate" then
    some ⟨some [120, 160], some [280, 420], "noble_housing", true, some ⟨12, some 10, 0⟩⟩
  else if key = "town_square_hall" then
    some ⟨some [140, 160], some [100, 140], "town_square", true, none⟩
  else if key = "marketplace_stall" then
    some ⟨some [64, 96], some [48, 64], "marketplace", true, none⟩
  else if key = "keep_tower" then
    some ⟨some [160, 200], some [540, 720], "grand_keep", true, some ⟨20, some 20, 0⟩⟩
  else none

/-- `BIOME_CONFIGS.default`. -/
def BIOME_CONFIGS_default : BiomeConfig :=
  ⟨["default"], some [3, 4], some [40, 80], some [30, 50], some [150, 210], some [130, 160],
    some (8 / 10), some (3 / 10), some [0, 2], none, none⟩

/-- `BIOME_CONFIGS` (game.js 691). -/
def BIOME_CONFIGS (key : String) : Option BiomeConfig :=
  if key = "slums" then
    some ⟨["slum_shack"], some [3, 5], some [20, 50], some [6, 20], some [150, 220],
      some [110, 150], some (33 / 100), some (8 / 10), some [1, 3], some (2 / 10), some [0, 2]⟩
  else if key = "noble_housing" then
    some ⟨["noble_estate"], some [2, 3], some [60, 110], some [40, 70], some [200, 260],
      some [140, 180], some 2, some (2 / 10), some [1, 2], some (3 / 10), some [0, 3]⟩
  else if key = "town_square" then
    some ⟨["town_square_hall"], some [1, 1], some [0, 0], some [120, 120], some [140, 200],
      some [80, 120], some (15 / 10), some (35 / 100), some [0, 2], some 1, some [4, 6]⟩
  else if key = "marketplace" then
    some ⟨["marketplace_stall"], some [4, 6], some [0, 40], some [25, 40], some [130, 180],
      some [80, 100], some (85 / 100), some (45 / 100), some [1, 3], some (6 / 10), some [1, 5]⟩
  else if key = "grand_keep" then
    some ⟨["keep_tower"], some [1, 2], some [120, 160], some [80, 100], some [220, 260],
      some [180, 220], some (6 / 10), some (15 / 100), some [0, 1], some (6 / 10), some [2, 4]⟩
  else if key = "default" then some BIOME_CONFIGS_default
  else none

/-- `World.chunkSize`, set once in the constructor (game.js 1865). -/
def chunkSize : ℚ := 480

/-- `World.renderDistance`, set once in the constructor (game.js 1866). -/
def renderDistance : ℤ := 3

/-- `World.biomes`, set once in the constructor (game.js 1861). -/
def biomes : List String :=
  ["slums", "noble_housing", "town_square", "marketplace", "grand_keep"]

/-- `World.getGroundY` (game.js 2387). -/
def getGroundY : ℚ := 600

/-- The derived chunk index `Math.floor(x / this.chunkSize)` of a position. -/
def chunkOf (x : ℚ) : ℤ := jsFloor (x / chunkSize)

/-! ## Random numbers -/

/-- `Math.random()`: the next element of the stream. -/
def World.random (rnd : ℕ → ℚ) (w : World) : ℚ × World :=
  (rnd w.draws, { w with draws := w.draws + 1 })

/-- `randomInRange(range, fallback)` (game.js 606). A range is an array; a
draw is made only when it has at least two elements. -/
def randomInRange (rnd : ℕ → ℚ) (range : Option (List ℚ)) (fallback : ℚ) (w : World) :
    ℚ × World :=
  match range with
  | none => (fallback, w)
  | some [] => (fallback, w)
  | some [lo] => (lo, w)
  | some (lo :: hi :: _) => (lo + (w.random rnd).1 * (hi - lo), (w.random rnd).2)

/-- `randomIntInRange(range, fallback)` (game.js 617). -/
def randomIntInRange (rnd : ℕ → ℚ) (range : Option (List ℚ)) (fallback : ℚ) (w : World) :
    ℤ × World :=
  (jsRound (randomInRange rnd range fallback w).1, (randomInRange rnd range fallback w).2)

/-- The value of `s || d` for a string `s` that may be `null`. -/
def orString (s : Option String) (d : String) : String :=
  match s with
  | none => d
  | some k => if k = "" then d else k

/-! ## Platforms, windows and roof metals -/

/-- `World.pseudoRandom(x, y)` (game.js 2028). -/
def pseudoRandom (E : JsMath) (x y : ℚ) : ℚ :=
  E.sin (x * (1271 / 10) + y * (3117 / 10)) * (437585453 / 10000)
    - (jsFloor (E.sin (x * (1271 / 10) + y * (3117 / 10)) * (437585453 / 10000)) : ℚ)

/-- `World.getWindowStyle(key)` (game.js 1969). -/
def getWindowStyle (key : String) : WindowStyle :=
  match BUILDING_WINDOW_STYLES key with
  | some s => s
  | none => ⟨some 16, some 22, some 12, some 18, some 16, some 2, some 3, some 2, some 4,
      some 14, some 24, some 0⟩

/-- The number of iterations of `for (let i = 0; i < n; i++)`. -/
def loopCount (n : ℚ) : ℕ := ⌈n⌉.toNat

/-- `World.generateWindowRects(platform, style)` (game.js 1974). -/
def generateWindowRects (E : JsMath) (platform : Platform) (style : WindowStyle) : List Rect :=
  let marginX := style.marginX.getD 12
  let marginTop := style.marginTop.getD 16
  let marginBottom := style.marginBottom.getD 16
  let availableWidth := max 0 (platform.width - marginX * 2)
  let availableHeight := max 0 (platform.height - marginTop - marginBottom)
  let windowWidth := style.windowWidth.getD 16
  let horizontalSpacing := style.horizontalSpacing.getD 12
  let windowHeight := style.windowHeight.getD 22
  let verticalSpacing := style.verticalSpacing.getD 24
  let maxColumns : ℚ := max 1
    (jsFloor ((availableWidth + horizontalSpacing) / max 1 (windowWidth + horizontalSpacing)))
  let minColumns := style.minColumns.getD 1
  let desiredColumns := style.maxColumns.getD maxColumns
  let columns := clamp desiredColumns minColumns maxColumns
  let actualColumns : ℚ := max minColumns (min (jsFloor columns : ℚ) maxColumns)
  let totalWindowWidth := actualColumns * windowWidth
  let spacingX :=
    if actualColumns > 1 then max 0 ((availableWidth - totalWindowWidth) / (actualColumns - 1))
    else 0
  let maxRows : ℚ := max 1
    (jsFloor ((availableHeight + verticalSpacing) / max 1 (windowHeight + verticalSpacing)))
  let minRows := style.minRows.getD 1
  let desiredRows := style.maxRows.getD maxRows
  let rows := clamp desiredRows minRows maxRows
  let actualRows : ℚ := max minRows (min (jsFloor rows : ℚ) maxRows)
  let totalWindowHeight := actualRows * windowHeight
  let spacingY :=
    if actualRows > 1 then max 0 ((availableHeight - totalWindowHeight) / (actualRows - 1))
    else 0
  let omissionChance := clamp (style.randomOmissions.getD 0) 0 (9 / 10)
  ((List.range (loopCount actualRows)).map fun row =>
    (List.range (loopCount actualColumns)).filterMap fun col =>
      let rowY := platform.y + marginTop + (row : ℚ) * (windowHeight + spacingY)
      let colX := platform.x + marginX + (col : ℚ) * (windowWidth + spacingX)
      if rowY + windowHeight > platform.y + platform.height - marginBottom + 1 / 10 then none
      else if pseudoRandom E (platform.x + (col : ℚ) * (1337 / 100))
          (platform.y + (row : ℚ) * (791 / 100)) < omissionChance then none
      else some ⟨colX, rowY, windowWidth, windowHeight⟩).flatten

/-- The radius computed at the head of `addRoofMetalSources` (game.js 1922-1929). -/
def roofRadius (width height : ℚ) : ℚ :=
  let radiusBase := min width height * (12 / 100)
  let radius := clamp radiusBase (45 / 10) 11
  let maxRadiusByWidth := max (35 / 10) ((width - 4) / 2)
  let radius := clamp radius (35 / 10) maxRadiusByWidth
  if radius < 35 / 10 then max (35 / 10) maxRadiusByWidth else radius

/-- `triangleBase` of `addRoofMetalSources` (game.js 1931). -/
def roofTriangleBase (platform : Platform) : ℚ :=
  min (roofRadius platform.width platform.height * (18 / 10)) (platform.width * (45 / 100))

/-- `triangleHeight` of `addRoofMetalSources` (game.js 1932). -/
def roofTriangleHeight (platform : Platform) : ℚ :=
  min (roofRadius platform.width platform.height * (15 / 10)) (platform.height * (35 / 100))

/-- The two corner triangles built by `addRoofMetalSources` (game.js 1938-1964). -/
def roofTriangles (platform : Platform) : List MetalSource :=
  let triangleBase := roofTriangleBase platform
  let triangleHeight := roofTriangleHeight platform
  let leftCornerX := platform.x
  let rightCornerX := platform.x + platform.width
  let cornerY := platform.y
  [ { x := leftCornerX + triangleBase / 3, y := cornerY + triangleHeight / 3,
      shape := "triangle", size := some (max triangleBase triangleHeight * (45 / 100)),
      width := none, height := some triangleHeight, orientation := some "left",
      base := some triangleBase, cornerX := some leftCornerX, cornerY := some cornerY,
      sourceType := none, sourcePlatform := some platform, streetLamp := none,
      manhole := none },
    { x := rightCornerX - triangleBase / 3, y := cornerY + triangleHeight / 3,
      shape := "triangle", size := some (max triangleBase triangleHeight * (45 / 100)),
      width := none, height := some triangleHeight, orientation := some "right",
      base := some triangleBase, cornerX := some rightCornerX, cornerY := some cornerY,
      sourceType := none, sourcePlatform := some platform, streetLamp := none,
      manhole := none } ]

/-- `World.addRoofMetalSources(platform)` (game.js 1919). -/
def addRoofMetalSources (platform : Platform) (w : World) : World :=
  { w with metalSources := w.metalSources ++ roofTriangles platform }

/-- The platform object that `createPlatform` builds (game.js 1872-1883). -/
def mkPlatform (E : JsMath) (x y width height : ℚ) (type biome : String)
    (windowStyleKey buildingTypeKey : Option String) : Platform :=
  let bare : Platform := ⟨x, y, width, height, type, biome, none, none, none, []⟩
  if type = "building" then
    let windowStyle := getWindowStyle (orString windowStyleKey biome)
    let tagged : Platform :=
      { bare with
        windowStyleKey := some (orString windowStyleKey biome)
        windowStyle := some windowStyle
        buildingTypeKey := buildingTypeKey }
    { tagged with windowRects := generateWindowRects E tagged windowStyle }
  else bare

/-- `World.createPlatform({...})` (game.js 1871); returns the platform and the
updated world. -/
def createPlatform (E : JsMath) (x y width height : ℚ) (type biome : String)
    (attachMetals : Bool) (windowStyleKey buildingTypeKey : Option String) (w : World) :
    Platform × World :=
  let platform := mkPlatform E x y width height type biome windowStyleKey buildingTypeKey
  let w1 := if type = "building" then { w with buildings := w.buildings ++ [platform] } else w
  let w2 := { w1 with platforms := w1.platforms ++ [platform] }
  (platform, if attachMetals then addRoofMetalSources platform w2 else w2)

/-- `World.createBuilding(x, width, height, biome, options)` (game.js 1896), with
the `attachMetals`, `windowStyleKey` and `buildingTypeKey` options. -/
def createBuilding (E : JsMath) (x width height : ℚ) (biome : String) (attachMetals : Bool)
    (windowStyleKey : String) (buildingTypeKey : String) (w : World) : Platform × World :=
  createPlatform E x (getGroundY - height) width height "building" biome attachMetals
    (some (orString (some windowStyleKey) biome))
    (if buildingTypeKey = "" then none else some buildingTypeKey) w

/-! ## Biome generators -/

/-- The `options` object that `generateChunk` passes to `generateBiome`
(game.js 2101-2106); every field is always supplied there. -/
structure BuildOptions where
  width : ℚ
  height : ℚ
  buildingTypeKey : String
  buildingDefinition : BuildingType
deriving DecidableEq, Repr

/-- The value of `s || d` for strings. -/
def orKey (s d : String) : String := if s = "" then d else s

/-- The rooftop platform added by `generateNobleHousing` and `generateGrandKeep`
(game.js 2490-2505, 2566-2581). -/
def addRooftop (E : JsMath) (building : Platform) (roof : Option Rooftop) (biome : String)
    (attachMetals : Bool) (w : World) : World :=
  match roof with
  | none => w
  | some roof =>
    let rooftopWidth := building.width + roof.overhang * 2
    let rooftopHeight := roof.thickness.getD 16
    let rooftopY := building.y - rooftopHeight + roof.verticalOffset
    let rooftopX := building.x - roof.overhang
    (createPlatform E rooftopX rooftopY rooftopWidth rooftopHeight "rooftop" biome attachMetals
      none none w).2

/-- `World.generateSlums(x, options)` (game.js 2465). -/
def generateSlums (E : JsMath) (x : ℚ) (options : BuildOptions) (w : World) : World :=
  let d := options.buildingDefinition
  let width : ℚ := max 60 (jsRound options.width)
  let height : ℚ := max 140 (jsRound options.height)
  (createBuilding E x width height "slums" d.attachMetals d.windowStyleKey
    (orKey options.buildingTypeKey "slum_shack") w).2

/-- `World.generateNobleHousing(x, options)` (game.js 2478). -/
def generateNobleHousing (E : JsMath) (x : ℚ) (options : BuildOptions) (w : World) : World :=
  let d := options.buildingDefinition
  let width : ℚ := jsRound options.width
  let height : ℚ := jsRound options.height
  let r := createBuilding E x width height "noble_housing" d.attachMetals d.windowStyleKey
    (orKey options.buildingTypeKey "noble_estate") w
  addRooftop E r.1 d.rooftop "noble_housing" false r.2

/-- `World.generateTownSquare(x, options)` (game.js 2508). -/
def generateTownSquare (E : JsMath) (x : ℚ) (options : BuildOptions) (w : World) : World :=
  let d := options.buildingDefinition
  let width : ℚ := jsRound options.width
  let height : ℚ := jsRound options.height
  (createBuilding E x width height "town_square" d.attachMetals d.windowStyleKey
    (orKey options.buildingTypeKey "town_square_hall") w).2

/-- `World.generateMarketplace(x, options)` (game.js 2521). -/
def generateMarketplace (E : JsMath) (x : ℚ) (options : BuildOptions) (w : World) : World :=
  let d := options.buildingDefinition
  let width : ℚ := jsRound options.width
  let height : ℚ := jsRound options.height
  (createBuilding E x width height "marketplace" d.attachMetals d.windowStyleKey
    (orKey options.buildingTypeKey "marketplace_stall") w).2

/-- One mid-level metal of `generateGrandKeep` (game.js 2554-2562). -/
def midLevelMetal (px py : ℚ) (building : Platform) : MetalSource :=
  { x := px, y := py, shape := "rect", size := none, width := some 8, height := some 16,
    orientation := none, base := none, cornerX := none, cornerY := none, sourceType := none,
    sourcePlatform := some building, streetLamp := none, manhole := none }

/-- `World.generateGrandKeep(x, options)` (game.js 2534). -/
def generateGrandKeep (E : JsMath) (x : ℚ) (options : BuildOptions) (w : World) : World :=
  let d := options.buildingDefinition
  let width : ℚ := jsRound options.width
  let height : ℚ := jsRound options.height
  let r := createBuilding E x width height "grand_keep" d.attachMetals d.windowStyleKey
    (orKey options.buildingTypeKey "keep_tower") w
  let building := r.1
  let w1 := { r.2 with
    metalSources := r.2.metalSources ++
      [ midLevelMetal x (height / 3) building, midLevelMetal x (height / 3 * 2) building,
        midLevelMetal (x + width) (height / 3) building,
        midLevelMetal (x + width) (height / 3 * 2) building ] }
  addRooftop E building d.rooftop "grand_keep" true w1

/-- `World.generateBiome(x, biome, options)` (game.js 2445). -/
def generateBiome (E : JsMath) (x : ℚ) (biome : String) (options : BuildOptions) (w : World) :
    World :=
  if biome = "slums" then generateSlums E x options w
  else if biome = "noble_housing" then generateNobleHousing E x options w
  else if biome = "town_square" then generateTownSquare E x options w
  else if biome = "marketplace" then generateMarketplace E x options w
  else if biome = "grand_keep" then generateGrandKeep E x options w
  else w

/-! ## Street features -/

/-- `World.positionOverlapsBuilding(x, buildings, buffer)` (game.js 2117). -/
def positionOverlapsBuilding (x : ℚ) (buildings : List BuildingSpan) (buffer : ℚ) : Bool :=
  buildings.any fun building =>
    decide (x ≥ building.x - buffer ∧ x ≤ building.x + building.width + buffer)

/-- `World.hasNearbyGroundMetal(x, radius)` (game.js 2126). -/
def hasNearbyGroundMetal (w : World) (x radius : ℚ) : Bool :=
  w.groundMetals.any fun feature => decide (|feature.x - x| ≤ radius)

/-- `World.createStreetLamp(x, groundY, biome, biomeConfig)` (game.js 2222). -/
def createStreetLamp (rnd : ℕ → ℚ) (x groundY : ℚ) (biome : String) (biomeConfig : BiomeConfig)
    (w : World) : World :=
  let r := randomInRange rnd biomeConfig.streetLampHeightRange 140 w
  let height := max 100 r.1
  let lamp : StreetLamp := ⟨x, groundY, height, biome⟩
  { r.2 with
    streetLamps := r.2.streetLamps ++ [lamp]
    metalSources := r.2.metalSources ++
      [ { x := x, y := groundY - height - 10 / 2, shape := "rect", size := some 7,
          width := some 18, height := some 10, orientation := none, base := none,
          cornerX := none, cornerY := none, sourceType := some "streetlamp",
          sourcePlatform := none, streetLamp := some lamp, manhole := none } ] }

/-- `World.createManhole(x, groundY, biome)` (game.js 2246). -/
def createManhole (x groundY : ℚ) (biome : String) (w : World) : World :=
  let manhole : Manhole := ⟨x, groundY, 24, 6, biome⟩
  { w with
    groundMetals := w.groundMetals ++ [manhole]
    metalSources := w.metalSources ++
      [ { x := x, y := manhole.y, shape := "rect", size := some (max 24 6 * (1 / 2)),
          width := some 24, height := some 6, orientation := none, base := none,
          cornerX := none, cornerY := none, sourceType := some "manhole",
          sourcePlatform := none, streetLamp := none, manhole := some manhole } ] }

/-- `World.createTree(x, groundY, biome)` (game.js 2271): four draws. -/
def createTree (rnd : ℕ → ℚ) (x groundY : ℚ) (biome : String) (w : World) : World :=
  let r1 := w.random rnd
  let r2 := r1.2.random rnd
  let r3 := r2.2.random rnd
  let r4 := r3.2.random rnd
  { r4.2 with
    trees := r4.2.trees ++
      [⟨x, groundY, 70 + r1.1 * 80, 16 + r2.1 * 18, 6 + r3.1 * 3, (r4.1 - 1 / 2) * 6, biome⟩] }

/-- The lamp loop of `placeChunkStreetFeatures` (game.js 2144-2150); `fuel` is
the number of iterations still allowed by `iterations < 20`. -/
def lampLoop (rnd : ℕ → ℚ) (endX : ℚ) (biomeConfig : BiomeConfig) (biome : String)
    (buildings : List BuildingSpan) : ℕ → ℚ → World → World
  | 0, _, w => w
  | fuel + 1, lampX, w =>
    if lampX < endX - 20 then
      let c := w.random rnd
      let w1 :=
        if c.1 ≤ biomeConfig.streetLampChance.getD 1 ∧
            positionOverlapsBuilding lampX buildings 12 = false then
          createStreetLamp rnd lampX getGroundY biome biomeConfig c.2
        else c.2
      let s := randomInRange rnd biomeConfig.streetLampSpacingRange 180 w1
      lampLoop rnd endX biomeConfig biome buildings fuel (lampX + max 40 s.1) s.2
    else w

/-- The manhole loop of `placeChunkStreetFeatures` (game.js 2158-2169); `fuel`
is the number of attempts still allowed by `attempts < manholeCount * 6`, and
`toPlace` is `manholeCount - placed`. -/
def manholeLoop (rnd : ℕ → ℚ) (startX : ℚ) (manholeChance : ℚ) (biome : String)
    (buildings : List BuildingSpan) : ℕ → ℕ → World → World
  | 0, _, w => w
  | fuel + 1, toPlace, w =>
    if 0 < toPlace then
      let o := randomInRange rnd (some [40, chunkSize - 40]) (chunkSize / 2) w
      let x := startX + o.1
      let c := o.2.random rnd
      if c.1 ≤ manholeChance ∧ positionOverlapsBuilding x buildings 25 = false ∧
          hasNearbyGroundMetal c.2 x 60 = false then
        manholeLoop rnd startX manholeChance biome buildings fuel (toPlace - 1)
          (createManhole x getGroundY biome c.2)
      else manholeLoop rnd startX manholeChance biome buildings fuel toPlace c.2
    else w

/-- A gap between buildings (game.js 2191). -/
structure Gap where
  start : ℚ
  stop : ℚ
deriving DecidableEq, Repr

/-- The gap scan of `placeTreesInOpenSpaces` (game.js 2187-2194): the gaps found
and the final cursor. -/
def scanGaps : List BuildingSpan → ℚ → List Gap → List Gap × ℚ
  | [], cursor, gaps => (gaps, cursor)
  | building :: rest, cursor, gaps =>
    scanGaps rest (max cursor (building.x + building.width))
      (if building.x - cursor > 25 then gaps ++ [⟨cursor, building.x⟩] else gaps)

/-- The inner tree loop of `placeTreesInOpenSpaces` (game.js 2210-2218) over the
remaining `desiredCount - i` iterations. -/
def treeLoop (rnd : ℕ → ℚ) (gap : Gap) (treeChance : ℚ) (biome : String) : ℕ → World → World
  | 0, w => w
  | n + 1, w =>
    let c := w.random rnd
    if c.1 > treeChance then treeLoop rnd gap treeChance biome n c.2
    else
      let r := c.2.random rnd
      let x := gap.start + 12 + r.1 * max 1 (gap.stop - gap.start - 12 * 2)
      treeLoop rnd gap treeChance biome n (createTree rnd x getGroundY biome r.2)

/-- The loop over gaps of `placeTreesInOpenSpaces` (game.js 2202-2219). -/
def gapLoop (rnd : ℕ → ℚ) (biomeConfig : BiomeConfig) (treeChance : ℚ) (biome : String) :
    List Gap → World → World
  | [], w => w
  | gap :: rest, w =>
    if gap.stop - gap.start < 25 then gapLoop rnd biomeConfig treeChance biome rest w
    else
      let maxTreesInGap : ℤ := max 1 (jsFloor ((gap.stop - gap.start) / 40))
      let d := randomIntInRange rnd biomeConfig.treeCountRange 1 w
      let desiredCount : ℤ := min (max 0 d.1) maxTreesInGap
      gapLoop rnd biomeConfig treeChance biome rest
        (treeLoop rnd gap treeChance biome desiredCount.toNat d.2)

/-- `World.placeTreesInOpenSpaces(startX, endX, biomeConfig, buildings, biome)`
(game.js 2177). -/
def placeTreesInOpenSpaces (rnd : ℕ → ℚ) (startX endX : ℚ) (biomeConfig : BiomeConfig)
    (buildings : List BuildingSpan) (biome : String) (w : World) : World :=
  let treeChance := max 0 (biomeConfig.treeChance.getD 0)
  if treeChance ≤ 0 then w
  else
    let sorted := buildings.insertionSort fun a b => a.x ≤ b.x
    let s := scanGaps sorted startX []
    let gaps := if endX - s.2 > 25 then s.1 ++ [⟨s.2, endX⟩] else s.1
    gapLoop rnd biomeConfig treeChance biome gaps w

/-- The lamp block of `placeChunkStreetFeatures` (game.js 2138-2151). -/
def placeLamps (rnd : ℕ → ℚ) (startX endX : ℚ) (biomeConfig : BiomeConfig) (biome : String)
    (buildings : List BuildingSpan) (w : World) : World :=
  match biomeConfig.streetLampSpacingRange with
  | none => w
  | some _ =>
    lampLoop rnd endX biomeConfig biome buildings 20
      (startX + (randomInRange rnd biomeConfig.edgePaddingRange 40 w).1)
      (randomInRange rnd biomeConfig.edgePaddingRange 40 w).2

/-- The manhole block of `placeChunkStreetFeatures` (game.js 2153-2170). -/
def placeManholes (rnd : ℕ → ℚ) (startX : ℚ) (biomeConfig : BiomeConfig) (biome : String)
    (buildings : List BuildingSpan) (w : World) : World :=
  match biomeConfig.manholeChance with
  | none => w
  | some manholeChance =>
    if manholeChance > 0 then
      manholeLoop rnd startX manholeChance biome buildings
        ((max 0 (randomIntInRange rnd biomeConfig.manholeCountRange 0 w).1).toNat * 6)
        (max 0 (randomIntInRange rnd biomeConfig.manholeCountRange 0 w).1).toNat
        (randomIntInRange rnd biomeConfig.manholeCountRange 0 w).2
    else w

/-- The tree block of `placeChunkStreetFeatures` (game.js 2172-2174). -/
def placeTrees (rnd : ℕ → ℚ) (startX endX : ℚ) (biomeConfig : BiomeConfig)
    (buildings : List BuildingSpan) (biome : String) (w : World) : World :=
  match biomeConfig.treeChance, biomeConfig.treeCountRange with
  | some treeChance, some _ =>
    if treeChance > 0 then placeTreesInOpenSpaces rnd startX endX biomeConfig buildings biome w
    else w
  | _, _ => w

/-- `World.placeChunkStreetFeatures(startX, endX, biomeConfig, biome, buildings)`
(game.js 2135): lamps, then manholes, then trees. -/
def placeChunkStreetFeatures (rnd : ℕ → ℚ) (startX endX : ℚ) (biomeConfig : BiomeConfig)
    (biome : String) (buildings : List BuildingSpan) (w : World) : World :=
  placeTrees rnd startX endX biomeConfig buildings biome
    (placeManholes rnd startX biomeConfig biome buildings
      (placeLamps rnd startX endX biomeConfig biome buildings w))

/-! ## Chunk generation and streaming -/

/-- The building loop of `generateChunk` (game.js 2086-2112). `fuel` is
`buildingCount - i`; the result is the world and `chunkBuildings`. -/
def buildingLoop (E : JsMath) (rnd : ℕ → ℚ) (biomeConfig : BiomeConfig) (biome : String)
    (buildingTypes : List String) (startX endX edgePadding : ℚ) :
    ℕ → ℕ → ℚ → List BuildingSpan → World → World × List BuildingSpan
  | 0, _, _, chunkBuildings, w => (w, chunkBuildings)
  | fuel + 1, i, currentX, chunkBuildings, w =>
    if currentX < endX - edgePadding then
      let typeKey := buildingTypes.getD (i % buildingTypes.length) "undefined"
      let buildingDef := (BUILDING_TYPES typeKey).getD BUILDING_TYPES_default
      let rw := randomInRange rnd buildingDef.widthRange 90 w
      let rh := randomInRange rnd buildingDef.heightRange 240 rw.2
      let width := rw.1
      let height := rh.1
      if currentX + width > endX - edgePadding ∧ i ≠ 0 then (rh.2, chunkBuildings)
      else
        let placedX :=
          if currentX + width > endX - edgePadding then
            max (startX + edgePadding) (endX - edgePadding - width)
          else currentX
        let w1 := generateBiome E placedX biome ⟨width, height, typeKey, buildingDef⟩ rh.2
        let rs := randomInRange rnd biomeConfig.spacingRange 50 w1
        buildingLoop E rnd biomeConfig biome buildingTypes startX endX edgePadding fuel (i + 1)
          (placedX + width + max 10 rs.1) (chunkBuildings ++ [⟨placedX, width, height⟩]) rs.2
    else (w, chunkBuildings)

/-- The biome selection `force_biome || this.biomes[Math.floor(Math.random() *
this.biomes.length)]` (game.js 2070). An index outside the array, which no
draw in `[0, 1)` produces, yields the placeholder `"undefined"`. -/
def selectBiome (rnd : ℕ → ℚ) (force_biome : Option String) (w : World) : String × World :=
  match force_biome with
  | some b =>
    if b = "" then
      (if 0 ≤ jsFloor ((w.random rnd).1 * (biomes.length : ℚ)) then
          biomes.getD (jsFloor ((w.random rnd).1 * (biomes.length : ℚ))).toNat "undefined"
        else "undefined", (w.random rnd).2)
    else (b, w)
  | none =>
    (if 0 ≤ jsFloor ((w.random rnd).1 * (biomes.length : ℚ)) then
        biomes.getD (jsFloor ((w.random rnd).1 * (biomes.length : ℚ))).toNat "undefined"
      else "undefined", (w.random rnd).2)

/-- `Map.prototype.set` on an insertion-ordered association list. -/
def mapSet (m : List (ℤ × String)) (k : ℤ) (v : String) : List (ℤ × String) :=
  if m.any (fun e => e.1 = k) then m.map fun e => if e.1 = k then (k, v) else e
  else m ++ [(k, v)]

/-- The content-generation body of `generateChunk` (game.js 2067-2114), run
when the chunk is not yet marked generated. -/
def generateChunkBody (E : JsMath) (rnd : ℕ → ℚ) (chunkX : ℤ) (force_biome : Option String)
    (w : World) : World :=
  let w0 := { w with
    generatedChunks := w.generatedChunks ++ [chunkX]
    bodyRuns := w.bodyRuns ++ [chunkX] }
  let sel := selectBiome rnd force_biome w0
  let biome := sel.1
  let biomeConfig := (BIOME_CONFIGS biome).getD BIOME_CONFIGS_default
  let w1 := { sel.2 with chunkBiomes := mapSet sel.2.chunkBiomes chunkX biome }
  let startX : ℚ := (chunkX : ℚ) * chunkSize
  let endX := startX + chunkSize
  let buildingTypes :=
    if biomeConfig.buildingTypes.length ≠ 0 then biomeConfig.buildingTypes
    else BIOME_CONFIGS_default.buildingTypes
  let pad := randomInRange rnd biomeConfig.edgePaddingRange 40 w1
  let edgePadding := pad.1
  let cnt := randomIntInRange rnd biomeConfig.buildingCountRange 3 pad.2
  let buildingCount : ℤ := max 1 cnt.1
  let r := buildingLoop E rnd biomeConfig biome buildingTypes startX endX edgePadding
    buildingCount.toNat 0 (startX + edgePadding) [] cnt.2
  placeChunkStreetFeatures rnd startX endX biomeConfig biome r.2 r.1

/-- `World.generateChunk(chunkX, force_biome)` (game.js 2059). -/
def generateChunk (E : JsMath) (rnd : ℕ → ℚ) (chunkX : ℤ) (force_biome : Option String)
    (w : World) : World :=
  if chunkX ∈ w.generatedChunks then w
  else generateChunkBody E rnd chunkX force_biome w

/-- The predicate of the six `filter` calls of `cleanupDistantChunks`. -/
def keepChunk (playerChunk : ℤ) (c : ℤ) : Bool :=
  decide (c ≥ playerChunk - (renderDistance + 10) ∧ c ≤ playerChunk + (renderDistance + 10))

/-- `World.cleanupDistantChunks(playerChunk)` (game.js 2302). -/
def cleanupDistantChunks (playerChunk : ℤ) (w : World) : World :=
  let minKeepChunk := playerChunk - (renderDistance + 10)
  let maxKeepChunk := playerChunk + (renderDistance + 10)
  let chunksToRemove :=
    w.generatedChunks.filter fun chunkKey =>
      decide (chunkKey < minKeepChunk ∨ chunkKey > maxKeepChunk)
  { w with
    platforms := w.platforms.filter fun platform => keepChunk playerChunk (chunkOf platform.x)
    buildings := w.buildings.filter fun building => keepChunk playerChunk (chunkOf building.x)
    metalSources := w.metalSources.filter fun metal => keepChunk playerChunk (chunkOf metal.x)
    streetLamps := w.streetLamps.filter fun lamp => keepChunk playerChunk (chunkOf lamp.x)
    groundMetals := w.groundMetals.filter fun feature =>
      keepChunk playerChunk (chunkOf feature.x)
    trees := w.trees.filter fun tree => keepChunk playerChunk (chunkOf tree.x)
    generatedChunks := w.generatedChunks.filter fun c => decide (c ∉ chunksToRemove)
    chunkBiomes := w.chunkBiomes.filter fun e => decide (e.1 ∉ chunksToRemove) }

/-- The loop `for (chunkX = minChunk; chunkX <= maxChunk; chunkX++)
this.generateChunk(chunkX)` (game.js 2294 and 2054) over `n` chunks from
`chunkX`. -/
def generateChunksFrom (E : JsMath) (rnd : ℕ → ℚ) (force_biome : Option String) :
    ℕ → ℤ → World → World
  | 0, _, w => w
  | n + 1, chunkX, w =>
    generateChunksFrom E rnd force_biome n (chunkX + 1) (generateChunk E rnd chunkX force_biome w)

/-- `World.checkAndGenerate(playerX)` (game.js 2288). -/
def checkAndGenerate (E : JsMath) (rnd : ℕ → ℚ) (playerX : ℚ) (w : World) : World :=
  let playerChunk := jsFloor (playerX / chunkSize)
  let minChunk := playerChunk - renderDistance
  let maxChunk := playerChunk + renderDistance
  cleanupDistantChunks playerChunk
    (generateChunksFrom E rnd none (maxChunk + 1 - minChunk).toNat minChunk w)

/-- The world before `generateWorld` fills it: empty registries. -/
def World.empty : World := ⟨[], [], [], [], [], [], [], [], 0, []⟩

/-- `World.generateWorld()` (game.js 2033). -/
def generateWorld (E : JsMath) (rnd : ℕ → ℚ) (w : World) : World :=
  let w0 := { w with
    platforms := [], metalSources := [], buildings := [], streetLamps := [], groundMetals := [],
    trees := [], chunkBiomes := [], generatedChunks := [] }
  let w1 := generateChunk E rnd (-3) (some "slums") w0
  let w2 := generateChunk E rnd (-2) (some "marketplace") w1
  let w3 := generateChunk E rnd (-1) (some "noble_housing") w2
  let w4 := generateChunk E rnd 0 (some "grand_keep") w3
  let w5 := generateChunk E rnd 1 (some "slums") w4
  let w6 := generateChunk E rnd 2 (some "slums") w5
  generateChunk E rnd 3 (some "town_square") w6

/-- `new World()` (game.js 1853). -/
def World.new (E : JsMath) (rnd : ℕ → ℚ) : World := generateWorld E rnd World.empty

/-- The world after `new World()` and a sequence of `checkAndGenerate(playerX)`
calls, one per element of `xs`, in order. -/
def runChecks (E : JsMath) (rnd : ℕ → ℚ) (xs : List ℚ) : World :=
  xs.foldl (fun w playerX => checkAndGenerate E rnd playerX w) (World.new E rnd)

/-! ## World queries -/

/-- `World.getNearbyMetalSources(x, y, range)` (game.js 2430). -/
def getNearbyMetalSources (w : World) (x y range : ℚ) : List MetalSource :=
  w.metalSources.filter fun metal =>
    decide ((metal.x - x) * (metal.x - x) + (metal.y - y) * (metal.y - y) ≤ range * range)

/-- `World.isNearSurface(player, tolerance)` (game.js 2405) for an entity with
centre `(px, py)` and extent `pw` by `ph`. -/
def isNearSurface (w : World) (px py pw ph tolerance : ℚ) : Bool :=
  let tol := max 0 tolerance
  let bottom := py + ph / 2
  if bottom ≥ getGroundY - tol ∧ bottom ≤ getGroundY + tol then true
  else
    w.platforms.any fun platform =>
      decide ((px + pw / 2 > platform.x ∧ px - pw / 2 < platform.x + platform.width) ∧
        (bottom ≥ platform.y - tol ∧ bottom ≤ platform.y + tol))

/-! ## Player -/

/-- An entry of `lingeringAllomancyLines` (game.js 1080). -/
structure LingeringLine where
  metal : MetalSource
  age : ℚ
  duration : ℚ
  strengthLevel : String
  strengthValue : ℚ
  isPull : Bool
deriving DecidableEq, Repr

/-- An entry of `windRushes` (game.js 1320). -/
structure WindRush where
  x : ℚ
  y : ℚ
  dirX : ℚ
  dirY : ℚ
  baseLength : ℚ
  baseWidth : ℚ
  currentLength : ℚ
  currentWidth : ℚ
  speed : ℚ
  duration : ℚ
  age : ℚ
deriving DecidableEq, Repr

/-- The mutable state of a `Player` (game.js 802). The physics constants, which
the constructor sets and nothing reassigns, are the definitions below; the
`tassels` cloth state, written by `updateTassels` and read by the renderer
only, is left out. -/
structure Player where
  x : ℚ
  y : ℚ
  vx : ℚ
  vy : ℚ
  onGround : Bool
  facing : ℚ
  steelTarget : Option MetalSource
  ironTarget : Option MetalSource
  allomancyStrength : ℚ
  burstCooldownRemaining : ℚ
  previousSpaceDown : Bool
  activeAirMetals : List MetalSource
  airAllomancyStrengthLevel : String
  airAllomancyStrengthValue : ℚ
  lingeringAllomancyLines : List LingeringLine
  currentAllomancyShift : Bool
  targetedMetal : Option MetalSource
  targeterSource : Option String
  targeterStrengthLevel : String
  targeterStrengthValue : ℚ
  windRushes : List WindRush
  hasJumpedSinceGround : Bool
  airAllomancyDirection : Option (ℚ × ℚ)
  tiltAngle : ℚ
deriving DecidableEq, Repr

namespace Player

/-- `this.width`. -/
def width : ℚ := 20
/-- `this.height`. -/
def height : ℚ := 32
/-- `this.gravity`. -/
def gravity : ℚ := 600
/-- `this.maxSpeedX`. -/
def maxSpeedX : ℚ := 260
/-- `this.maxSpeedY`. -/
def maxSpeedY : ℚ := 260
/-- `this.jumpPower`. -/
def jumpPower : ℚ := -300
/-- `this.acceleration`. -/
def acceleration : ℚ := 1000
/-- `this.groundFriction`. -/
def groundFriction : ℚ := 85 / 100
/-- `this.airFriction`. -/
def airFriction : ℚ := 95 / 100
/-- `this.allomancyRange`. -/
def allomancyRange : ℚ := 150
/-- `this.airAllomancyForce`. -/
def airAllomancyForce : ℚ := 750
/-- `this.shiftAllomancyMultiplier`. -/
def shiftAllomancyMultiplier : ℚ := 14 / 10
/-- `this.burstImpulse`. -/
def burstImpulse : ℚ := 900
/-- `this.burstCooldownDuration`. -/
def burstCooldownDuration : ℚ := 2
/-- `this.jumpForgivenessPixels`. -/
def jumpForgivenessPixels : ℚ := 6

/-- `new Player(x, y)` (game.js 802). -/
def new (x y : ℚ) : Player :=
  { x := x, y := y, vx := 0, vy := 0, onGround := false, facing := 1, steelTarget := none,
    ironTarget := none, allomancyStrength := 0, burstCooldownRemaining := 0,
    previousSpaceDown := false, activeAirMetals := [], airAllomancyStrengthLevel := "none",
    airAllomancyStrengthValue := 0, lingeringAllomancyLines := [],
    currentAllomancyShift := false, targetedMetal := none, targeterSource := none,
    targeterStrengthLevel := "none", targeterStrengthValue := 0, windRushes := [],
    hasJumpedSinceGround := false, airAllomancyDirection := none, tiltAngle := 0 }

end Player

/-- The keys of `keys` that the simulation reads. -/
structure Keys where
  KeyA : Bool
  KeyD : Bool
  KeyS : Bool
  KeyW : Bool
  ShiftLeft : Bool
  ShiftRight : Bool
  Space : Bool
deriving DecidableEq, Repr

/-- The fields of `controller` that the simulation reads (game.js 37). -/
structure Controller where
  leftStickX : ℚ
  leftStickY : ℚ
  rightStickX : ℚ
  rightStickY : ℚ
  a : Bool
  leftTrigger : Bool
  leftBumper : Bool
  rightBumper : Bool
deriving DecidableEq, Repr

/-- The `mouse` record (game.js 36). -/
structure Mouse where
  x : ℚ
  y : ℚ
  leftDown : Bool
  rightDown : Bool
deriving DecidableEq, Repr

/-- The fields of the camera that the player reads. -/
structure Camera where
  x : ℚ
  y : ℚ
deriving DecidableEq, Repr

/-- No key held. -/
def Keys.none : Keys := ⟨false, false, false, false, false, false, false⟩

/-- The controller state after `resetControllerState` (game.js 123). -/
def Controller.idle : Controller := ⟨0, 0, 0, 0, false, false, false, false⟩

namespace Player

/-- `updateCooldowns(deltaTime)` (game.js 881). -/
def updateCooldowns (deltaTime : ℚ) (p : Player) : Player :=
  if p.burstCooldownRemaining > 0 then
    { p with burstCooldownRemaining := max 0 (p.burstCooldownRemaining - deltaTime) }
  else p

/-- `updateLingeringLines(deltaTime)` (game.js 887). -/
def updateLingeringLines (deltaTime : ℚ) (p : Player) : Player :=
  { p with
    lingeringAllomancyLines :=
      (p.lingeringAllomancyLines.map fun line => { line with age := line.age + deltaTime }).filter
        fun line => decide (line.age < line.duration) }

/-- The per-element update of `updateWindRushes` (game.js 904-910). -/
def stepWindRush (deltaTime : ℚ) (rush : WindRush) : WindRush :=
  let age := rush.age + deltaTime
  let decay := 1 - min (age / rush.duration) 1
  { rush with
    age := age
    x := rush.x + rush.dirX * rush.speed * deltaTime
    y := rush.y + rush.dirY * rush.speed * (35 / 100) * deltaTime
    currentWidth := rush.baseWidth * (1 / 2 + decay * (1 / 2))
    currentLength := rush.baseLength * (7 / 10 + decay * (6 / 10)) }

/-- `updateWindRushes(deltaTime)` (game.js 898). -/
def updateWindRushes (deltaTime : ℚ) (p : Player) : Player :=
  { p with
    windRushes := (p.windRushes.map (stepWindRush deltaTime)).filter
      fun rush => decide (rush.age < rush.duration) }

/-- `updateTilt(deltaTime, world)` (game.js 915). -/
def updateTilt (deltaTime : ℚ) (w : World) (p : Player) : Player :=
  let target := p.vx / maxSpeedX * (2 / 10)
  let target :=
    if p.onGround = false ∧ p.vy > 300 ∧ isNearSurface w p.x p.y width height 70 = true then
      target * -1
    else target
  let target := clamp target (-(6 / 10)) (6 / 10)
  { p with tiltAngle := p.tiltAngle + (target - p.tiltAngle) * min 1 (deltaTime * 10) }

/-- The squared distance from the player to a metal. -/
def distSq (p : Player) (metal : MetalSource) : ℚ :=
  (metal.x - p.x) * (metal.x - p.x) + (metal.y - p.y) * (metal.y - p.y)

/-- `getNearbyMetals(world, limit)` (game.js 1099). -/
def getNearbyMetals (p : Player) (w : World) (limit : Option ℕ) : List MetalSource :=
  let metals := (getNearbyMetalSources w p.x p.y allomancyRange).insertionSort
    fun a b => p.distSq a ≤ p.distSq b
  match limit with
  | none => metals
  | some n => if metals.length > n then metals.take n else metals

/-- `calculateMetalInfluence(metals)` (game.js 1116). -/
def calculateMetalInfluence (E : JsMath) (p : Player) (metals : List MetalSource) : ℚ :=
  min (15 / 10)
    (metals.foldl
      (fun contribution metal =>
        contribution +
          max 0 (1 - min (E.hypot (metal.x - p.x) (metal.y - p.y) / allomancyRange) 1))
      0)

/-- `canUseJumpForgiveness(world)` (game.js 1129). -/
def canUseJumpForgiveness (p : Player) (w : World) : Bool :=
  if p.onGround = true ∨ p.hasJumpedSinceGround = true then false
  else isNearSurface w p.x p.y width height jumpForgivenessPixels

/-- `isPullingTowardsMetal(metal)` (game.js 1137). -/
def isPullingTowardsMetal (E : JsMath) (p : Player) (metal : MetalSource) : Bool :=
  if p.ironTarget = some metal then true
  else if p.activeAirMetals.length = 0 then false
  else
    let dx := metal.x - p.x
    let dy := metal.y - p.y
    let ax := (p.airAllomancyDirection.map Prod.fst).getD 0
    let ay := (p.airAllomancyDirection.map Prod.snd).getD 0
    let dirLength := E.hypot ax ay
    let metalDirLength := E.hypot dx dy
    if dirLength > 0 ∧ metalDirLength > 0 then
      decide (ax / dirLength * (dx / metalDirLength) + ay / dirLength * (dy / metalDirLength)
        > 2 / 10)
    else false

/-- `spawnWindRushEffect(dirX, dirY, influence, shiftMultiplier)` (game.js 1305). -/
def spawnWindRushEffect (dirX dirY influence shiftMultiplier : ℚ) (p : Player) : Player :=
  let length := 32 + influence * 40
  let width := 20 + shiftMultiplier * 10
  let offsetDistance := 20 + influence * 18
  let rush : WindRush :=
    { x := p.x + -dirX * offsetDistance, y := p.y + -dirY * offsetDistance, dirX := -dirX,
      dirY := -dirY, baseLength := length, baseWidth := width, currentLength := length,
      currentWidth := width, speed := 90 + influence * 140,
      duration := 45 / 100 + influence * (15 / 100), age := 0 }
  let rushes := p.windRushes ++ [rush]
  { p with windRushes := if rushes.length > 10 then rushes.drop (rushes.length - 10) else rushes }

/-- `handleAirDirectionalAllomancy(deltaTime, inputX, inputY, shiftActive, world)`
(game.js 989). -/
def handleAirDirectionalAllomancy (E : JsMath) (deltaTime inputX inputY : ℚ)
    (shiftActive : Bool) (w : World) (p : Player) : Player :=
  let p := { p with activeAirMetals := [] }
  let directionLength := E.hypot inputX inputY
  if directionLength = 0 then { p with airAllomancyDirection := none }
  else
    let metals := p.getNearbyMetals w (some 5)
    if metals.length = 0 then { p with airAllomancyDirection := none }
    else
      let influence := calculateMetalInfluence E p metals
      if influence ≤ 0 then { p with airAllomancyDirection := none }
      else
        let dirX := inputX / directionLength
        let dirY := inputY / directionLength
        let strengthValue := if shiftActive then shiftAllomancyMultiplier else 1
        let force := airAllomancyForce * influence * strengthValue
        let speedLimitMultiplier : ℚ := if shiftActive then 2 else 15 / 10
        let maxX := maxSpeedX * speedLimitMultiplier
        let maxY := maxSpeedY * speedLimitMultiplier
        { p with
          vx := max (-maxX) (min maxX (p.vx + dirX * force * deltaTime))
          vy := max (-maxY) (min maxY (p.vy + dirY * force * deltaTime))
          airAllomancyDirection := some (dirX, dirY)
          activeAirMetals := metals
          airAllomancyStrengthLevel := if shiftActive then "shift" else "normal"
          airAllomancyStrengthValue := strengthValue }

/-- The metals a burst works with (game.js 1036-1037). -/
def burstMetals (p : Player) (w : World) : List MetalSource :=
  (if p.activeAirMetals.length ≠ 0 then p.activeAirMetals
    else p.getNearbyMetals w (some 5)).take 5

/-- The effect of a burst that fires (game.js 1062-1096), along the unit
direction `(dirX, dirY)`. -/
def burstApply (E : JsMath) (dirX dirY influence : ℚ) (shiftActive : Bool)
    (metals : List MetalSource) (p : Player) : Player :=
  let shiftMultiplier := if shiftActive then shiftAllomancyMultiplier else 1
  let impulse := burstImpulse * influence * shiftMultiplier
  let burstLimitMultiplier : ℚ := if shiftActive then 3 else 25 / 10
  let maxX := maxSpeedX * burstLimitMultiplier
  let maxY := maxSpeedY * burstLimitMultiplier
  let p1 := { p with
    vx := max (-maxX) (min maxX (p.vx + dirX * impulse))
    vy := max (-maxY) (min maxY (p.vy + dirY * impulse))
    activeAirMetals := metals
    airAllomancyStrengthLevel := "launch"
    airAllomancyStrengthValue := shiftMultiplier }
  let lines := p1.lingeringAllomancyLines ++
    metals.map fun metal =>
      ⟨metal, 0, 75 / 100, "launch", shiftMultiplier, isPullingTowardsMetal E p1 metal⟩
  let p2 := { p1 with
    lingeringAllomancyLines :=
      if lines.length > 20 then lines.drop (lines.length - 20) else lines }
  let p3 := spawnWindRushEffect dirX dirY influence shiftMultiplier p2
  { p3 with burstCooldownRemaining := burstCooldownDuration }

/-- `tryAllomancyBurst(inputX, inputY, shiftActive, world)` (game.js 1031). -/
def tryAllomancyBurst (E : JsMath) (inputX inputY : ℚ) (shiftActive : Bool) (w : World)
    (p : Player) : Player :=
  if p.onGround = true ∨ p.burstCooldownRemaining > 0 then p
  else if (burstMetals p w).length = 0 then p
  else if calculateMetalInfluence E p (burstMetals p w) ≤ 0 then p
  else
    let dirX := if inputX = 0 ∧ inputY = 0 then p.facing else inputX
    let dirY := if inputX = 0 ∧ inputY = 0 then -(4 / 10) else inputY
    if E.hypot dirX dirY = 0 then p
    else
      burstApply E (dirX / E.hypot dirX dirY) (dirY / E.hypot dirX dirY)
        (calculateMetalInfluence E p (burstMetals p w)) shiftActive (burstMetals p w) p

/-- `combinedX` of `handleMovement` (game.js 931-937). -/
def combinedX (keys : Keys) (controller : Controller) : ℚ :=
  clamp (((if keys.KeyD then 1 else 0) - (if keys.KeyA then 1 else 0) : ℚ) +
    clamp controller.leftStickX (-1) 1) (-1) 1

/-- `combinedY` of `handleMovement` (game.js 932-938). -/
def combinedY (keys : Keys) (controller : Controller) : ℚ :=
  clamp (((if keys.KeyS then 1 else 0) - (if keys.KeyW then 1 else 0) : ℚ) +
    clamp controller.leftStickY (-1) 1) (-1) 1

/-- `shiftActive` of `handleMovement` (game.js 940). -/
def shiftActive (keys : Keys) (controller : Controller) : Bool :=
  keys.ShiftLeft || keys.ShiftRight || controller.leftTrigger

/-- `spacePressed` of `handleMovement` (game.js 941). -/
def spacePressed (keys : Keys) (controller : Controller) : Bool :=
  keys.Space || controller.a

/-- The grounded branch of `handleMovement` (game.js 947-960). -/
def groundMove (deltaTime : ℚ) (keys : Keys) (controller : Controller)
    (justPressedSpace : Bool) (p : Player) : Player :=
  let p :=
    if |combinedX keys controller| > 1 / 10 then
      { p with
        vx := p.vx + combinedX keys controller * acceleration * deltaTime
        facing := if combinedX keys controller > 0 then 1 else -1 }
    else { p with vx := p.vx * groundFriction }
  let p := { p with vx := clamp p.vx (-maxSpeedX) maxSpeedX }
  if justPressedSpace = true then
    { p with vy := jumpPower, onGround := false, hasJumpedSinceGround := true }
  else p

/-- The airborne branch of `handleMovement` (game.js 963-975). -/
def airMove (E : JsMath) (keys : Keys) (controller : Controller) (w : World)
    (justPressedSpace : Bool) (p : Player) : Player :=
  let p :=
    if justPressedSpace = true then
      if p.canUseJumpForgiveness w = true then
        { p with vy := jumpPower, hasJumpedSinceGround := true, onGround := false }
      else
        tryAllomancyBurst E (combinedX keys controller) (combinedY keys controller)
          (shiftActive keys controller) w p
    else p
  if |combinedX keys controller| < 1 / 10 then { p with vx := p.vx * airFriction } else p

/-- The tail of `handleMovement` (game.js 978-986): the air-sense step, the
facing update and the edge detector. -/
def finishMove (E : JsMath) (deltaTime : ℚ) (keys : Keys) (controller : Controller) (w : World)
    (p : Player) : Player :=
  let p := handleAirDirectionalAllomancy E deltaTime (combinedX keys controller)
    (combinedY keys controller) (shiftActive keys controller) w p
  let p :=
    if p.onGround = false ∧ |p.vx| > 2 then { p with facing := if p.vx > 0 then 1 else -1 }
    else p
  { p with previousSpaceDown := spacePressed keys controller }

/-- `handleMovement(deltaTime, keys, controller, world)` (game.js 927). -/
def handleMovement (E : JsMath) (deltaTime : ℚ) (keys : Keys) (controller : Controller)
    (w : World) (p : Player) : Player :=
  let justPressedSpace := spacePressed keys controller && !p.previousSpaceDown
  let p := { p with currentAllomancyShift := shiftActive keys controller }
  finishMove E deltaTime keys controller w
    (if p.onGround = true then groundMove deltaTime keys controller justPressedSpace p
      else airMove E keys controller w justPressedSpace p)

/-- The record returned by `findDirectionalMetal` (game.js 1375). -/
structure DirectionalMatch where
  metal : MetalSource
  distance : ℚ
  alignment : ℚ
deriving DecidableEq, Repr

/-- One iteration of the loop of `findDirectionalMetal` (game.js 1355-1377). The
state is `bestMatch` with its `bestScore`; `none` stands for the initial
`bestScore = -Infinity`, `bestDistance = Infinity`. -/
def directionalStep (E : JsMath) (p : Player) (dirX dirY : ℚ)
    (best : Option (DirectionalMatch × ℚ)) (metal : MetalSource) :
    Option (DirectionalMatch × ℚ) :=
  let dx := metal.x - p.x
  let dy := metal.y - p.y
  let distance := E.hypot dx dy
  if distance > allomancyRange ∨ distance = 0 then best
  else
    let alignment := dirX * (dx / distance) + dirY * (dy / distance)
    if alignment < 45 / 100 then best
    else
      let score := alignment - distance / allomancyRange * (25 / 100)
      match best with
      | none => some (⟨metal, distance, alignment⟩, score)
      | some (b, bestScore) =>
        if score > bestScore ∨ (|score - bestScore| < 1 / 1000000 ∧ distance < b.distance) then
          some (⟨metal, distance, alignment⟩, score)
        else best

/-- `findDirectionalMetal(world, direction, minMagnitude)` (game.js 1339). -/
def findDirectionalMetal (E : JsMath) (p : Player) (w : World) (direction : ℚ × ℚ)
    (minMagnitude : ℚ) : Option DirectionalMatch :=
  let magnitude := E.hypot direction.1 direction.2
  if magnitude < minMagnitude then none
  else
    (w.metalSources.foldl
      (directionalStep E p (direction.1 / magnitude) (direction.2 / magnitude)) none).map
      Prod.fst

/-- `updateTargeter(mouse, controller, world, camera)` (game.js 1382). -/
def updateTargeter (E : JsMath) (mouse : Mouse) (controller : Controller) (w : World)
    (camera : Camera) (p : Player) : Player :=
  let controllerResult :=
    findDirectionalMetal E p w (controller.rightStickX, controller.rightStickY) (25 / 100)
  let worldMouseX := mouse.x + camera.x
  let worldMouseY := mouse.y + camera.y
  let mouseResult := findDirectionalMetal E p w (worldMouseX - p.x, worldMouseY - p.y) (5 / 100)
  let chosen : Option (DirectionalMatch × String) :=
    match controllerResult, mouseResult with
    | some c, _ => some (c, "controller")
    | none, some m => some (m, "mouse")
    | none, none => none
  match chosen with
  | some (c, source) =>
    { p with
      targetedMetal := some c.metal
      targeterSource := some source
      targeterStrengthLevel :=
        if p.airAllomancyStrengthLevel ≠ "none" then p.airAllomancyStrengthLevel
        else if p.currentAllomancyShift then "shift" else "normal"
      targeterStrengthValue :=
        if p.airAllomancyStrengthLevel ≠ "none" then p.airAllomancyStrengthValue
        else if p.currentAllomancyShift then shiftAllomancyMultiplier else 1 }
  | none =>
    { p with
      targetedMetal := none
      targeterSource := none
      targeterStrengthLevel := "none"
      targeterStrengthValue := 0 }

/-- One iteration of the closest-metal loop of `handleAllomancy`
(game.js 1437-1446); `none` stands for `closestDistance = Infinity`. -/
def closestStep (E : JsMath) (worldMouseX worldMouseY : ℚ) (best : Option (MetalSource × ℚ))
    (metal : MetalSource) : Option (MetalSource × ℚ) :=
  let dx := metal.x - worldMouseX
  let dy := metal.y - worldMouseY
  let distance := E.sqrt (dx * dx + dy * dy)
  match best with
  | none => if distance < allomancyRange then some (metal, distance) else none
  | some (_, closestDistance) =>
    if distance < allomancyRange ∧ distance < closestDistance then some (metal, distance)
    else best

/-- The strength computed when a target is held (game.js 1467-1472, 1488-1493). -/
def targetStrength (E : JsMath) (p : Player) (target : MetalSource) : ℚ :=
  max (1 / 10)
    (1 - E.sqrt ((target.x - p.x) * (target.x - p.x) + (target.y - p.y) * (target.y - p.y))
      / allomancyRange)

/-- The force added by one branch of `applyAllomancy` along `(dx, dy)`
(game.js 1508-1515, 1522-1529). -/
def applyForce (E : JsMath) (dx dy force : ℚ) (p : Player) : Player :=
  let distance := E.sqrt (dx * dx + dy * dy)
  if distance > 0 then
    { p with
      vx := p.vx + dx / distance * force * (16 / 1000)
      vy := p.vy + dy / distance * force * (16 / 1000) }
  else p

/-- `applyAllomancy()` (game.js 1501). -/
def applyAllomancy (E : JsMath) (p : Player) : Player :=
  let force := airAllomancyForce * 2 * p.allomancyStrength
  let p :=
    match p.steelTarget with
    | some t => applyForce E (p.x - t.x) (p.y - t.y) force p
    | none => p
  match p.ironTarget with
  | some t => applyForce E (t.x - p.x) (t.y - p.y) force p
  | none => p

/-- The target held after the acquisition logic of one input of `handleAllomancy`
(game.js 1457-1465 and 1478-1486): `current` is the held target, `bumper` the
controller bumper of that input. -/
def acquireTarget (current preferredTarget candidate : Option MetalSource) (bumper : Bool) :
    Option MetalSource :=
  let t :=
    match current with
    | none => candidate
    | some c =>
      match preferredTarget with
      | some pt => if bumper = true ∧ c ≠ pt then some pt else some c
      | none => some c
  match t with
  | none => candidate
  | some c => some c

/-- `handleAllomancy(mouse, controller, world, camera)` (game.js 1423). -/
def handleAllomancy (E : JsMath) (mouse : Mouse) (controller : Controller) (w : World)
    (camera : Camera) (p : Player) : Player :=
  let worldMouseX := mouse.x + camera.x
  let worldMouseY := mouse.y + camera.y
  let steelInput := mouse.leftDown || controller.rightBumper
  let ironInput := mouse.rightDown || controller.leftBumper
  let p := updateTargeter E mouse controller w camera p
  let closestMetal :=
    (w.metalSources.foldl (closestStep E worldMouseX worldMouseY) none).map Prod.fst
  let preferredTarget := p.targetedMetal
  let steelTargetCandidate :=
    if controller.rightBumper then preferredTarget.orElse fun _ => closestMetal
    else closestMetal
  let ironTargetCandidate :=
    if controller.leftBumper then preferredTarget.orElse fun _ => closestMetal
    else closestMetal
  let p :=
    if steelInput = true then
      let p := { p with
        steelTarget :=
          acquireTarget p.steelTarget preferredTarget steelTargetCandidate
            controller.rightBumper }
      match p.steelTarget with
      | some t => { p with allomancyStrength := targetStrength E p t }
      | none => p
    else { p with steelTarget := none }
  let p :=
    if ironInput = true then
      let p := { p with
        ironTarget :=
          acquireTarget p.ironTarget preferredTarget ironTargetCandidate controller.leftBumper }
      match p.ironTarget with
      | some t => { p with allomancyStrength := targetStrength E p t }
      | none => p
    else { p with ironTarget := none }
  applyAllomancy E p

/-- `applyPhysics(deltaTime)` (game.js 1533). -/
def applyPhysics (deltaTime : ℚ) (p : Player) : Player :=
  let p := if p.onGround = false then { p with vy := p.vy + gravity * deltaTime } else p
  { p with x := p.x + p.vx * deltaTime, y := p.y + p.vy * deltaTime }

/-- `checkPlatformCollision(platform)` (game.js 1598). -/
def checkPlatformCollision (p : Player) (platform : Platform) : Bool :=
  decide (p.x + width / 2 > platform.x ∧ p.x - width / 2 < platform.x + platform.width ∧
    p.y + height / 2 > platform.y ∧ p.y - height / 2 < platform.y + platform.height)

/-- The `chunkRanges` of `checkCollisions` (game.js 1559-1575), as
`(start, end)` pairs. -/
def collisionChunkRanges (p : Player) : List (ℚ × ℚ) :=
  let currentChunk := jsFloor (p.x / chunkSize)
  let fallbackDirection : ℚ := if p.facing < 0 then -1 else 1
  let direction : ℚ :=
    if p.vx ≠ 0 then (if p.vx > 0 then 1 else -1) else fallbackDirection
  let forwardEdgeX := if direction ≥ 0 then p.x + width / 2 else p.x - width / 2
  let movingChunk := jsFloor (forwardEdgeX / chunkSize)
  let range := fun (c : ℤ) => ((c : ℚ) * chunkSize, (c : ℚ) * chunkSize + chunkSize)
  if movingChunk = currentChunk then [range currentChunk]
  else [range currentChunk, range movingChunk]

/-- One iteration of the platform loop of `checkCollisions` (game.js 1577-1595). -/
def collideStep (chunkRanges : List (ℚ × ℚ)) (p : Player) (platform : Platform) : Player :=
  if chunkRanges.any
      (fun range => decide (platform.x + platform.width > range.1 ∧ platform.x < range.2))
      = false then p
  else if p.checkPlatformCollision platform = true ∧ p.vy > 0 ∧ p.y - height / 2 < platform.y then
    { p with
      y := platform.y - height / 2, vy := 0, onGround := true, hasJumpedSinceGround := false }
  else p

/-- `checkCollisions(world)` (game.js 1544). -/
def checkCollisions (w : World) (p : Player) : Player :=
  let p := { p with onGround := false }
  let p :=
    if p.y + height / 2 ≥ getGroundY then
      { p with
        y := getGroundY - height / 2, vy := 0, onGround := true, hasJumpedSinceGround := false }
    else p
  w.platforms.foldl (collideStep (collisionChunkRanges p)) p

/-- The head of `update` (game.js 856-865): the timers and effect lists advance
and the per-tick allomancy fields are reset. -/
def beginTick (deltaTime : ℚ) (p : Player) : Player :=
  let p := updateCooldowns deltaTime p
  let p := updateLingeringLines deltaTime p
  let p := updateWindRushes deltaTime p
  { p with
    activeAirMetals := [], airAllomancyStrengthLevel := "none", airAllomancyStrengthValue := 0,
    targetedMetal := none, targeterSource := none, targeterStrengthLevel := "none",
    targeterStrengthValue := 0 }

/-- `update(deltaTime, keys, mouse, controller, world, camera)` (game.js 855). -/
def update (E : JsMath) (deltaTime : ℚ) (keys : Keys) (mouse : Mouse) (controller : Controller)
    (w : World) (camera : Camera) (p : Player) : Player :=
  let p := beginTick deltaTime p
  let p := handleMovement E deltaTime keys controller w p
  let p := handleAllomancy E mouse controller w camera p
  let p := applyPhysics deltaTime p
  let p := checkCollisions w p
  updateTilt deltaTime w p

end Player

/-! ## Specification vocabulary -/

/-- The chunk bookkeeping of a world: the generated set, the history of body
runs and the biome map. -/
def World.track (w : World) : List ℤ × List ℤ × List (ℤ × String) :=
  (w.generatedChunks, w.bodyRuns, w.chunkBiomes)

/-- Every entity of the six registries has an `x` that satisfies `P`. -/
structure World.AllX (P : ℚ → Prop) (w : World) : Prop where
  platforms : ∀ e ∈ w.platforms, P e.x
  buildings : ∀ e ∈ w.buildings, P e.x
  metalSources : ∀ e ∈ w.metalSources, P e.x
  streetLamps : ∀ e ∈ w.streetLamps, P e.x
  groundMetals : ∀ e ∈ w.groundMetals, P e.x
  trees : ∀ e ∈ w.trees, P e.x

/-- Registry/chunk consistency: the derived chunk index of every entity is
marked generated. -/
def World.Consistent (w : World) : Prop :=
  w.AllX fun x => chunkOf x ∈ w.generatedChunks

/-- The interval test `playerChunk - 13 ≤ c ≤ playerChunk + 13`. -/
def inKeepWindow (playerChunk c : ℤ) : Prop :=
  playerChunk - 13 ≤ c ∧ c ≤ playerChunk + 13

instance (playerChunk c : ℤ) : Decidable (inKeepWindow playerChunk c) := by
  unfold inKeepWindow; infer_instance

/-- The effect of one `generateChunk(K)` call on the pair (generated set, body
runs): nothing when `K` is marked generated, else `K` is appended to both. -/
def genStep (K : ℤ) (s : List ℤ × List ℤ) : List ℤ × List ℤ :=
  if K ∈ s.1 then s else (s.1 ++ [K], s.2 ++ [K])

/-- The effect of `n` consecutive `generateChunk` calls from chunk `c`. -/
def genSteps : ℕ → ℤ → List ℤ × List ℤ → List ℤ × List ℤ
  | 0, _, s => s
  | n + 1, c, s => genSteps n (c + 1) (genStep c s)

/-- The effect of one `checkAndGenerate` call with player chunk `pc` on the pair
(generated set, body runs). -/
def checkStep (pc : ℤ) (s : List ℤ × List ℤ) : List ℤ × List ℤ :=
  ((genSteps 7 (pc - 3) s).1.filter fun c => decide (inKeepWindow pc c), (genSteps 7 (pc - 3) s).2)

/-- The pair (generated set, body runs) of a world. -/
def World.genRuns (w : World) : List ℤ × List ℤ := (w.generatedChunks, w.bodyRuns)

/-- Every registry of `w` is an initial segment of the same registry of
`w2`: the step from `w` to `w2` only appended entities. -/
structure World.Extends (w w2 : World) : Prop where
  platforms : w.platforms <+: w2.platforms
  buildings : w.buildings <+: w2.buildings
  metalSources : w.metalSources <+: w2.metalSources
  streetLamps : w.streetLamps <+: w2.streetLamps
  groundMetals : w.groundMetals <+: w2.groundMetals
  trees : w.trees <+: w2.trees

/-- A lamp-head metal at `x = 100` (chunk 0), as `createStreetLamp` builds it
for a lamp of height 110. -/
def lampMetal : MetalSource :=
  { x := 100, y := 485, shape := "rect", size := some 7, width := some 18, height := some 10,
    orientation := none, base := none, cornerX := none, cornerY := none,
    sourceType := some "streetlamp", sourcePlatform := none,
    streetLamp := some ⟨100, 600, 110, "slums"⟩, manhole := none }

/-- A world whose only metal source is `lampMetal`, with chunk 0 marked
generated. -/
def lampWorld : World :=
  { World.empty with
    metalSources := [lampMetal]
    streetLamps := [⟨100, 600, 110, "slums"⟩]
    chunkBiomes := [(0, "slums")]
    generatedChunks := [0] }

/-- A player at `x = 7000` (chunk 14) who still holds `lampMetal` as push
target. -/
def farPlayer : Player := { Player.new 7000 584 with steelTarget := some lampMetal }

/-- The invariant behind the amended C6: chunk `K` has at most one body run,
and if it has one it is still marked generated. -/
def onceWhileKept (K : ℤ) (s : List ℤ × List ℤ) : Prop :=
  s.2.count K ≤ 1 ∧ (K ∈ s.2 → K ∈ s.1)

/-- A grounded player sliding at `vx = 400`, as after landing from an air-sense
flight (whose speed limit is 390 or 520). -/
def slidingPlayer : Player := { Player.new 100 584 with vx := 400, onGround := true }

/-- A player standing at rest on the ground below the lamp of `lampWorld`. -/
def restingPlayer : Player := { Player.new 100 584 with onGround := true }

/-- Jump and up (`Space` and `KeyW`) held. -/
def keysJumpUp : Keys := { Keys.none with Space := true, KeyW := true }

/-- Only the jump key (`Space`) held. -/
def keysJump : Keys := { Keys.none with Space := true }

/-- The input with the jump released: `Space` up. -/
def Keys.releaseJump (keys : Keys) : Keys := { keys with Space := false }

/-- The input with the jump released: button `a` up. -/
def Controller.releaseJump (c : Controller) : Controller := { c with a := false }

/-- A player one tick after a ground jump: airborne 5 pixels above the ground,
rising, with `hasJumpedSinceGround` set and the jump key released again. -/
def risingPlayer : Player :=
  { Player.new 100 579 with vy := -290, hasJumpedSinceGround := true }

/-- The overhang of the rooftop of a building archetype (0 without rooftop). -/
def BuildingType.overhang (d : BuildingType) : ℚ := (d.rooftop.map Rooftop.overhang).getD 0

/-- The numeric conditions on a biome's layout parameters under which every
entity of a chunk lies inside the chunk: edge padding drawn from `[plo, phi]`,
building widths from `[wlo, whi]` with `wlo ≥ 60` (so that no width is raised
by `generateSlums`), the rooftop overhang plus the rounding slack below the
least padding, and the widest building fitting between the paddings. -/
structure LayoutOK (biomeConfig : BiomeConfig) (buildingTypes : List String) (plo phi : ℚ) :
    Prop where
  padding : biomeConfig.edgePaddingRange = some [plo, phi]
  plo_le : plo ≤ phi
  nonempty : buildingTypes ≠ []
  types : ∀ key ∈ buildingTypes, ∃ wlo whi : ℚ,
    ((BUILDING_TYPES key).getD BUILDING_TYPES_default).widthRange = some [wlo, whi] ∧
    60 ≤ wlo ∧ wlo ≤ whi ∧ whi + 2 * phi ≤ 480 ∧
    0 ≤ ((BUILDING_TYPES key).getD BUILDING_TYPES_default).overhang ∧
    ((BUILDING_TYPES key).getD BUILDING_TYPES_default).overhang + 1 / 2 < plo

/-- A grounded player already running at the ground speed cap below the lamp of
`lampWorld`. -/
def runningPlayer : Player := { Player.new 100 584 with vx := 260, onGround := true }

/-- Only the move-right key (`KeyD`) held. -/
def keysRight : Keys := { Keys.none with KeyD := true }

namespace Player

/-- The loop body of the unfiltered variant of `checkCollisions` that the spec
compares with: the overlap test and the snap of game.js 1586-1593, run for
every platform, without the `intersectsRelevantChunk` test. -/
def collideStepAll (p : Player) (platform : Platform) : Player :=
  if p.checkPlatformCollision platform = true ∧ p.vy > 0 ∧ p.y - height / 2 < platform.y then
    { p with
      y := platform.y - height / 2, vy := 0, onGround := true, hasJumpedSinceGround := false }
  else p

/-- The unfiltered variant of `checkCollisions`: the ground test of
game.js 1545-1554, then `collideStepAll` over every platform. -/
def checkCollisionsAll (w : World) (p : Player) : Player :=
  let p := { p with onGround := false }
  let p :=
    if p.y + height / 2 ≥ getGroundY then
      { p with
        y := getGroundY - height / 2, vy := 0, onGround := true, hasJumpedSinceGround := false }
    else p
  w.platforms.foldl collideStepAll p

/-- `direction` of `checkCollisions` (game.js 1560-1561): the sign of `vx`, or
of `facing` when `vx` is zero. -/
def travelDirection (p : Player) : ℚ :=
  if p.vx ≠ 0 then (if p.vx > 0 then 1 else -1) else (if p.facing < 0 then -1 else 1)

/-- The side of the player's box that faces away from the direction of
travel lies in the player's current chunk. -/
def trailingEdgeInChunk (p : Player) : Prop :=
  if travelDirection p ≥ 0 then (jsFloor (p.x / chunkSize) : ℚ) * chunkSize ≤ p.x - width / 2
  else p.x + width / 2 ≤ (jsFloor (p.x / chunkSize) : ℚ) * chunkSize + chunkSize

instance (p : Player) : Decidable (trailingEdgeInChunk p) := by
  unfold trailingEdgeInChunk; infer_instance

end Player

/-- A ledge that ends 5 pixels before the boundary between chunk -1 and
chunk 0. -/
def ledge : Platform := ⟨-50, 310, 45, 20, "platform", "slums", none, none, none, []⟩

/-- A world whose only platform is `ledge`. -/
def ledgeWorld : World := { World.empty with platforms := [ledge] }

/-- A player falling at `x = 2`, facing right, whose box `[-8, 12]` reaches
over the end of `ledge`. -/
def fallingPlayer : Player := { Player.new 2 300 with vy := 100 }
namespace Player

/-- The steel half of the targeting part of `handleAllomancy`
(game.js 1456-1475). -/
def steelBlock (E : JsMath) (steelInput : Bool) (preferredTarget candidate : Option MetalSource)
    (bumper : Bool) (p : Player) : Player :=
  if steelInput = true then
    let p := { p with
      steelTarget := acquireTarget p.steelTarget preferredTarget candidate bumper }
    match p.steelTarget with
    | some t => { p with allomancyStrength := targetStrength E p t }
    | none => p
  else { p with steelTarget := none }

/-- The iron half of the targeting part of `handleAllomancy`
(game.js 1477-1496). -/
def ironBlock (E : JsMath) (ironInput : Bool) (preferredTarget candidate : Option MetalSource)
    (bumper : Bool) (p : Player) : Player :=
  if ironInput = true then
    let p := { p with
      ironTarget := acquireTarget p.ironTarget preferredTarget candidate bumper }
    match p.ironTarget with
    | some t => { p with allomancyStrength := targetStrength E p t }
    | none => p
  else { p with ironTarget := none }

/-- The metal that the closest-metal loop of `handleAllomancy` finds
(game.js 1434-1446). -/
def closestMetal (E : JsMath) (w : World) (aimX aimY : ℚ) : Option MetalSource :=
  (w.metalSources.foldl (closestStep E aimX aimY) none).map Prod.fst

/-- The candidate of one input (game.js 1449-1454). -/
def targetCandidate (bumper : Bool) (preferredTarget closest : Option MetalSource) :
    Option MetalSource :=
  if bumper then preferredTarget.orElse fun _ => closest else closest

/-- The targeting part of `handleAllomancy` (game.js 1424-1496): all of it but
the closing call of `applyAllomancy`. -/
def lockTargets (E : JsMath) (mouse : Mouse) (controller : Controller) (w : World)
    (camera : Camera) (p : Player) : Player :=
  let u := updateTargeter E mouse controller w camera p
  let closest := closestMetal E w (mouse.x + camera.x) (mouse.y + camera.y)
  ironBlock E (mouse.rightDown || controller.leftBumper) u.targetedMetal
    (targetCandidate controller.leftBumper u.targetedMetal closest) controller.leftBumper
    (steelBlock E (mouse.leftDown || controller.rightBumper) u.targetedMetal
      (targetCandidate controller.rightBumper u.targetedMetal closest) controller.rightBumper u)

/-- The distance from the player to a metal as `handleAllomancy` computes it
(game.js 1468-1470). -/
def distanceTo (E : JsMath) (p : Player) (t : MetalSource) : ℚ :=
  E.sqrt ((t.x - p.x) * (t.x - p.x) + (t.y - p.y) * (t.y - p.y))

/-- The per-tick velocity change of a push or pull whose strength comes from a
target at distance `d`: `airAllomancyForce * 2 * max(0.1, 1 - d/range) * 0.016`. -/
def pushPullStep (d : ℚ) : ℚ :=
  airAllomancyForce * 2 * max (1 / 10) (1 - d / allomancyRange) * (16 / 1000)

/-- The distance from a metal to the aim point as the closest-metal loop
computes it (game.js 1438-1440). -/
def aimDistance (E : JsMath) (aimX aimY : ℚ) (m : MetalSource) : ℚ :=
  E.sqrt ((m.x - aimX) * (m.x - aimX) + (m.y - aimY) * (m.y - aimY))

/-- What the closest-metal loop may return for a registry `l`: nothing when no
entry is closer than `allomancyRange` to the aim point, else an entry closer
than `allomancyRange`, strictly closer than every earlier entry and at least
as close as every later one. -/
def ClosestAt (E : JsMath) (aimX aimY : ℚ) (l : List MetalSource) : Option MetalSource → Prop
  | none => ∀ m ∈ l, allomancyRange ≤ aimDistance E aimX aimY m
  | some t =>
    aimDistance E aimX aimY t < allomancyRange ∧
    ∃ l1 l2, l = l1 ++ t :: l2 ∧
      (∀ m ∈ l1, aimDistance E aimX aimY t < aimDistance E aimX aimY m) ∧
      (∀ m ∈ l2, aimDistance E aimX aimY t ≤ aimDistance E aimX aimY m)

end Player

/-- A metal 30 pixels to the right of the origin. -/
def pushMetal : MetalSource := { lampMetal with x := 30, y := 0 }

/-- A metal 120 pixels below the origin. -/
def pullMetal : MetalSource := { lampMetal with x := 0, y := 120 }

/-- A world whose metal sources are `pushMetal` and `pullMetal`. -/
def twoMetalWorld : World := { World.empty with metalSources := [pushMetal, pullMetal] }

/-- A player at the origin who holds `pushMetal` as push target and `pullMetal`
as pull target. -/
def twinPlayer : Player :=
  { Player.new 0 0 with steelTarget := some pushMetal, ironTarget := some pullMetal }

namespace Player

/-- The `alignment` of a metal in the loop of `findDirectionalMetal`
(game.js 1363-1365) for the unit aim direction `(dirX, dirY)`. -/
def aimAlignment (E : JsMath) (p : Player) (dirX dirY : ℚ) (m : MetalSource) : ℚ :=
  dirX * ((m.x - p.x) / distanceTo E p m) + dirY * ((m.y - p.y) / distanceTo E p m)

/-- The `score` of a metal in the loop of `findDirectionalMetal` (game.js 1370). -/
def aimScore (E : JsMath) (p : Player) (dirX dirY : ℚ) (m : MetalSource) : ℚ :=
  aimAlignment E p dirX dirY m - distanceTo E p m / allomancyRange * (25 / 100)

/-- A metal qualifies for the targeter: its distance lies in `(0, 150]` and
its alignment is at least `0.45`. -/
def AimQualifies (E : JsMath) (p : Player) (dirX dirY : ℚ) (m : MetalSource) : Prop :=
  0 < distanceTo E p m ∧ distanceTo E p m ≤ allomancyRange ∧
    45 / 100 ≤ aimAlignment E p dirX dirY m

instance (E : JsMath) (p : Player) (dirX dirY : ℚ) (m : MetalSource) :
    Decidable (AimQualifies E p dirX dirY m) := by
  unfold AimQualifies; infer_instance

/-- A metal that the loop of `findDirectionalMetal` passes over
(game.js 1359-1368). -/
def AimSkipped (E : JsMath) (p : Player) (dirX dirY : ℚ) (m : MetalSource) : Prop :=
  (distanceTo E p m > allomancyRange ∨ distanceTo E p m = 0) ∨
    aimAlignment E p dirX dirY m < 45 / 100

end Player

/-- A metal 30 pixels from the origin, off the x axis (alignment `0.8` with
the aim direction `(1, 0)`, score `0.75`). -/
def nearAimMetal : MetalSource := { lampMetal with x := 24, y := 18 }

/-- A metal 149.9997 pixels from the origin on the x axis (alignment `1`,
score `0.7500005`). -/
def farAimMetal : MetalSource := { lampMetal with x := 1499997 / 10000, y := 0 }

/-- A world whose registry lists `nearAimMetal` before `farAimMetal`. -/
def aimWorld : World := { World.empty with metalSources := [nearAimMetal, farAimMetal] }
namespace Player

/-- The influence as the spec words it: `min(1.5, Σ max(0, 1 - dist/150))` over
a list of metals. -/
def influenceOf (E : JsMath) (p : Player) (metals : List MetalSource) : ℚ :=
  min (3 / 2) ((metals.map fun m => max 0 (1 - distanceTo E p m / allomancyRange)).sum)

end Player

namespace Player

/-- The test that decides the tag of a lingering line for `metal`
(game.js 1138-1162), read on the state `p` before the burst: the metal is the
iron target, or the direction from the player to the metal has alignment above
`0.2` with `airAllomancyDirection`, the direction that the last air-sense step
left. -/
def PullAligned (E : JsMath) (p : Player) (metal : MetalSource) : Prop :=
  p.ironTarget = some metal ∨
    (E.hypot ((p.airAllomancyDirection.map Prod.fst).getD 0)
        ((p.airAllomancyDirection.map Prod.snd).getD 0) > 0 ∧
      E.hypot (metal.x - p.x) (metal.y - p.y) > 0 ∧
      (p.airAllomancyDirection.map Prod.fst).getD 0 /
          E.hypot ((p.airAllomancyDirection.map Prod.fst).getD 0)
            ((p.airAllomancyDirection.map Prod.snd).getD 0) *
          ((metal.x - p.x) / E.hypot (metal.x - p.x) (metal.y - p.y)) +
        (p.airAllomancyDirection.map Prod.snd).getD 0 /
          E.hypot ((p.airAllomancyDirection.map Prod.fst).getD 0)
            ((p.airAllomancyDirection.map Prod.snd).getD 0) *
          ((metal.y - p.y) / E.hypot (metal.x - p.x) (metal.y - p.y)) > 2 / 10)

instance (E : JsMath) (p : Player) (metal : MetalSource) : Decidable (PullAligned E p metal) := by
  unfold PullAligned; infer_instance

/-- `dirX` of `tryAllomancyBurst` before normalisation (game.js 1047-1052). -/
def burstDirX (p : Player) (inputX inputY : ℚ) : ℚ :=
  if inputX = 0 ∧ inputY = 0 then p.facing else inputX

/-- `dirY` of `tryAllomancyBurst` before normalisation (game.js 1047-1052). -/
def burstDirY (inputX inputY : ℚ) : ℚ :=
  if inputX = 0 ∧ inputY = 0 then -(4 / 10) else inputY

end Player

/-- An airborne player 15 pixels below the lamp head of `lampWorld`, with no
air-sense direction yet. -/
def hoverPlayer : Player := Player.new 100 500
/-- The arguments of one `Player.update` call (game.js 855). -/
structure Tick where
  deltaTime : ℚ
  keys : Keys
  mouse : Mouse
  controller : Controller
  world : World
  camera : Camera

namespace Player

/-- The player after a sequence of `update` calls, one per element of `ticks`,
in order. -/
def runUpdates (E : JsMath) (ticks : List Tick) (p : Player) : Player :=
  ticks.foldl
    (fun p t => update E t.deltaTime t.keys t.mouse t.controller t.world t.camera p) p

/-- The two effect lists of a player. -/
def effects (p : Player) : List LingeringLine × List WindRush :=
  (p.lingeringAllomancyLines, p.windRushes)

/-- The caps on the effect lists: at most 20 lingering lines, each of duration
`0.75` and younger than that, and at most 10 wind rushes. -/
def EffectsCapped (s : List LingeringLine × List WindRush) : Prop :=
  s.1.length ≤ 20 ∧ s.2.length ≤ 10 ∧ ∀ line ∈ s.1, line.duration = 75 / 100 ∧ line.age < 75 / 100

end Player
/-- One iteration of the loop of `getSpawnPoint` (game.js 2360-2376); `none`
stands for `bestPlatform = null`, `bestDistance = Infinity`. -/
def spawnStep (best : Option (Platform × ℚ)) (platform : Platform) : Option (Platform × ℚ) :=
  if platform.type ≠ "rooftop" then best
  else
    let centerX := platform.x + platform.width / 2
    let chunk := jsFloor (centerX / chunkSize)
    if chunk ≠ 0 ∧ ¬ (platform.x < chunkSize ∧ platform.x + platform.width > 0) then best
    else
      let distance := |centerX - chunkSize * (1 / 2)|
      match best with
      | none => some (platform, distance)
      | some (_, bestDistance) =>
        if distance < bestDistance then some (platform, distance) else best

/-- `World.getSpawnPoint()` (game.js 2352), as the pair `(x, y)`. Every platform
has a `y`, so the `?? this.getGroundY()` of the source is never taken. -/
def getSpawnPoint (w : World) : ℚ × ℚ :=
  match (w.platforms.foldl spawnStep none).map Prod.fst with
  | none => (chunkSize * (1 / 2), getGroundY - 12)
  | some bestPlatform => (bestPlatform.x + bestPlatform.width / 2, bestPlatform.y - 12)

/-- A platform that `getSpawnPoint` considers: a rooftop whose centre is in
chunk 0 or which intersects the span `(0, 480)`. -/
def SpawnEligible (pf : Platform) : Prop :=
  pf.type = "rooftop" ∧
    (jsFloor ((pf.x + pf.width / 2) / chunkSize) = 0 ∨
      (pf.x < chunkSize ∧ pf.x + pf.width > 0))

instance (pf : Platform) : Decidable (SpawnEligible pf) := by
  unfold SpawnEligible; infer_instance

/-- The distance from the centre of a platform to the centre of chunk 0. -/
def spawnDistance (pf : Platform) : ℚ := |pf.x + pf.width / 2 - 240|

/-- What the loop of `getSpawnPoint` may select from a platform list: nothing
when no platform is eligible, else an eligible platform that is strictly
nearer to the centre of chunk 0 than every eligible platform before it and at
least as near as every eligible platform after it. -/
def SpawnBest (l : List Platform) : Option Platform → Prop
  | none => ∀ pf ∈ l, ¬ SpawnEligible pf
  | some p =>
    SpawnEligible p ∧ ∃ l1 l2, l = l1 ++ p :: l2 ∧
      (∀ q ∈ l1, SpawnEligible q → spawnDistance p < spawnDistance q) ∧
      (∀ q ∈ l2, SpawnEligible q → spawnDistance p ≤ spawnDistance q)

/-- A rooftop platform in chunk 0, centred at `x = 140`. -/
def keepRoof : Platform := ⟨60, 40, 160, 20, "rooftop", "grand_keep", none, none, none, []⟩

/-- A second rooftop in chunk 0, centred at `x = 340`, as far from the chunk
centre as `keepRoof`. -/
def keepRoof2 : Platform := ⟨260, 80, 160, 20, "rooftop", "grand_keep", none, none, none, []⟩
/-! ## The game loop -/

/-- The whole `Camera` object (game.js 1817); `Camera` above is the part of it
that the player reads. `smoothness` is the constant `0.1`. -/
structure GameCamera where
  width : ℚ
  height : ℚ
  x : ℚ
  y : ℚ
  targetX : ℚ
  targetY : ℚ
deriving DecidableEq, Repr

/-- The `x` and `y` of the camera, as `Player.update` receives them. -/
def GameCamera.view (c : GameCamera) : Camera := ⟨c.x, c.y⟩

/-- `World.getGroundHeight` (game.js 2391). -/
def getGroundHeight : ℚ := 100

/-- `Camera.follow(player, world)` (game.js 1833). -/
def GameCamera.follow (c : GameCamera) (player : Player) : GameCamera :=
  let targetX := player.x - c.width / 2
  let desiredY := player.y - c.height / 2
  let groundBottom := getGroundY + getGroundHeight
  let minY := groundBottom - c.height
  let targetY := min desiredY minY
  let x := c.x + (targetX - c.x) * (1 / 10)
  let y := c.y + (targetY - c.y) * (1 / 10)
  { c with targetX := targetX, targetY := targetY, x := x, y := if y > minY then minY else y }

/-- The state of a `Game` that the simulation reads and writes (game.js 19-50):
the timing fields, `playing` for `gameState === 'playing'`, the input state and
the game objects. -/
structure Game where
  lastTime : ℚ
  accumulator : ℚ
  playing : Bool
  keys : Keys
  mouse : Mouse
  controller : Controller
  player : Player
  world : World
  camera : GameCamera

/-- `Game.frameInterval = 1000 / targetFPS` with `targetFPS = 60` (game.js 23-24). -/
def frameInterval : ℚ := 1000 / 60

/-- `Game.fixedTimeStep = 1 / targetFPS` (game.js 26). -/
def fixedTimeStep : ℚ := 1 / 60

/-- `Game.update(deltaTime)` (game.js 282), without the debug read-out. -/
def Game.update (E : JsMath) (rnd : ℕ → ℚ) (deltaTime : ℚ) (g : Game) : Game :=
  let player := Player.update E deltaTime g.keys g.mouse g.controller g.world g.camera.view g.player
  let camera := g.camera.follow player
  { g with player := player, camera := camera, world := checkAndGenerate E rnd player.x g.world }

/-- The body of the fixed-timestep loop of `gameLoop` (game.js 271-274). -/
def Game.frameBody (E : JsMath) (rnd : ℕ → ℚ) (g : Game) : Game :=
  { (if g.playing = true then g.update E rnd fixedTimeStep else g) with
    accumulator := g.accumulator - frameInterval }

/-- The loop `while (this.accumulator >= this.frameInterval)` of `gameLoop`
(game.js 270-275), with at most `fuel` iterations. -/
def Game.catchUp (E : JsMath) (rnd : ℕ → ℚ) : ℕ → Game → Game
  | 0, g => g
  | fuel + 1, g =>
    if g.accumulator ≥ frameInterval then Game.catchUp E rnd fuel (g.frameBody E rnd) else g

/-- The state of `gameLoop` when it reaches the fixed-timestep loop
(game.js 257-267): the capped delta is added to the accumulator, and
`controller` and `playing` are what `pollGamepad` leaves. -/
def Game.enterFrame (currentTime : ℚ) (controller : Controller) (playing : Bool) (g : Game) :
    Game :=
  { g with
    lastTime := currentTime
    accumulator := g.accumulator + min (currentTime - g.lastTime) (frameInterval * 2)
    controller := controller
    playing := playing }

/-- `Game.gameLoop(currentTime)` (game.js 255), up to the render call. The
loop gets as many iterations as whole frame intervals fit in the accumulator. -/
def Game.gameLoop (E : JsMath) (rnd : ℕ → ℚ) (currentTime : ℚ) (controller : Controller)
    (playing : Bool) (g : Game) : Game :=
  Game.catchUp E rnd
    ⌊(g.enterFrame currentTime controller playing).accumulator / frameInterval⌋.toNat
    (g.enterFrame currentTime controller playing)

/-- A game right after construction, with the player at `(140, 28)` in the
empty world and `accumulator = 10`. -/
def stalledGame : Game :=
  { lastTime := 0, accumulator := 10, playing := true, keys := Keys.none,
    mouse := ⟨0, 0, false, false⟩, controller := Controller.idle, player := Player.new 140 28,
    world := World.empty, camera := ⟨800, 600, 0, 0, 0, 0⟩ }

/-- `actualColumns` of `generateWindowRects` (game.js 1986-1990). -/
def windowColumns (platform : Platform) (style : WindowStyle) : ℚ :=
  let marginX := style.marginX.getD 12
  let availableWidth := max 0 (platform.width - marginX * 2)
  let windowWidth := style.windowWidth.getD 16
  let horizontalSpacing := style.horizontalSpacing.getD 12
  let maxColumns : ℚ := max 1
    (jsFloor ((availableWidth + horizontalSpacing) / max 1 (windowWidth + horizontalSpacing)))
  let minColumns := style.minColumns.getD 1
  let desiredColumns := style.maxColumns.getD maxColumns
  let columns := clamp desiredColumns minColumns maxColumns
  max minColumns (min (jsFloor columns : ℚ) maxColumns)

/-- `spacingX` of `generateWindowRects` (game.js 1992-1993). -/
def windowSpacingX (platform : Platform) (style : WindowStyle) : ℚ :=
  let marginX := style.marginX.getD 12
  let availableWidth := max 0 (platform.width - marginX * 2)
  let windowWidth := style.windowWidth.getD 16
  let actualColumns := windowColumns platform style
  let totalWindowWidth := actualColumns * windowWidth
  if actualColumns > 1 then max 0 ((availableWidth - totalWindowWidth) / (actualColumns - 1))
  else 0

/-- `actualRows` of `generateWindowRects` (game.js 1995-1999). -/
def windowRows (platform : Platform) (style : WindowStyle) : ℚ :=
  let marginTop := style.marginTop.getD 16
  let marginBottom := style.marginBottom.getD 16
  let availableHeight := max 0 (platform.height - marginTop - marginBottom)
  let windowHeight := style.windowHeight.getD 22
  let verticalSpacing := style.verticalSpacing.getD 24
  let maxRows : ℚ := max 1
    (jsFloor ((availableHeight + verticalSpacing) / max 1 (windowHeight + verticalSpacing)))
  let minRows := style.minRows.getD 1
  let desiredRows := style.maxRows.getD maxRows
  let rows := clamp desiredRows minRows maxRows
  max minRows (min (jsFloor rows : ℚ) maxRows)

/-- `spacingY` of `generateWindowRects` (game.js 2001-2002). -/
def windowSpacingY (platform : Platform) (style : WindowStyle) : ℚ :=
  let marginTop := style.marginTop.getD 16
  let marginBottom := style.marginBottom.getD 16
  let availableHeight := max 0 (platform.height - marginTop - marginBottom)
  let windowHeight := style.windowHeight.getD 22
  let actualRows := windowRows platform style
  let totalWindowHeight := actualRows * windowHeight
  if actualRows > 1 then max 0 ((availableHeight - totalWindowHeight) / (actualRows - 1))
  else 0

/-- `omissionChance` of `generateWindowRects` (game.js 2005). -/
def omissionChance (style : WindowStyle) : ℚ := clamp (style.randomOmissions.getD 0) 0 (9 / 10)

/-- The omission test of `generateWindowRects` for the cell `(row, col)` of a
building at `(px, py)` (game.js 2016-2017). -/
def WindowOmitted (E : JsMath) (px py : ℚ) (row col : ℕ) (chance : ℚ) : Prop :=
  pseudoRandom E (px + (col : ℚ) * (1337 / 100)) (py + (row : ℚ) * (791 / 100)) < chance

instance (E : JsMath) (px py : ℚ) (row col : ℕ) (chance : ℚ) :
    Decidable (WindowOmitted E px py row col chance) :=
  inferInstanceAs (Decidable (_ < _))

/-- The body of the inner loop of `generateWindowRects` (game.js 2009-2022): the
rectangle of cell `(row, col)`, if one is pushed. -/
def windowCell (E : JsMath) (platform : Platform) (style : WindowStyle) (row col : ℕ) :
    Option Rect :=
  let rowY := platform.y + style.marginTop.getD 16 +
    (row : ℚ) * (style.windowHeight.getD 22 + windowSpacingY platform style)
  let colX := platform.x + style.marginX.getD 12 +
    (col : ℚ) * (style.windowWidth.getD 16 + windowSpacingX platform style)
  if rowY + style.windowHeight.getD 22 >
      platform.y + platform.height - style.marginBottom.getD 16 + 1 / 10 then none
  else if WindowOmitted E platform.x platform.y row col (omissionChance style) then none
  else some ⟨colX, rowY, style.windowWidth.getD 16, style.windowHeight.getD 22⟩

/-- How many columns fit the facade: the floor inside `maxColumns`
(game.js 1986). -/
def fitColumns (platform : Platform) (style : WindowStyle) : ℤ :=
  jsFloor ((max 0 (platform.width - style.marginX.getD 12 * 2) + style.horizontalSpacing.getD 12)
    / max 1 (style.windowWidth.getD 16 + style.horizontalSpacing.getD 12))

/-- A market stall facade 40 wide and 60 high, too narrow for the two columns
that the marketplace window style asks for. -/
def narrowStall : Platform :=
  ⟨0, 540, 40, 60, "building", "marketplace", some "marketplace",
    some (getWindowStyle "marketplace"), some "marketplace_stall", []⟩

/-- The platform and building registries of a world. -/
def World.built (w : World) : List Platform × List Platform := (w.platforms, w.buildings)

/-- A row of buildings laid out from `lo` inside a span that ends at `hi`: each
is a `building` platform of positive width that starts at or after the right
edge of the one before it (the first at or after `lo`) and ends before `hi`. -/
def laidOut (hi : ℚ) : ℚ → List Platform → Prop
  | _, [] => True
  | lo, b :: rest =>
    b.type = "building" ∧ lo ≤ b.x ∧ 0 < b.width ∧ b.x + b.width < hi ∧
      laidOut hi (b.x + b.width) rest

/-- The test `platform.type === 'building'`. -/
def Platform.isBuilding (pf : Platform) : Bool := decide (pf.type = "building")

/-- What one chunk generation adds to the registries of `w` to give `w2`: the
platforms `added`, of which the `building` ones also join `buildings` and are
laid out from `cx` before `hi`, while every other one is a rooftop of biome
`b` inside `[lo, hi)`. -/
structure ChunkAdds (b : String) (lo hi cx : ℚ) (w w2 : World) (added : List Platform) :
    Prop where
  platforms : w2.platforms = w.platforms ++ added
  buildings : w2.buildings = w.buildings ++ added.filter Platform.isBuilding
  laid : laidOut hi cx (added.filter Platform.isBuilding)
  kinds : ∀ pf ∈ added, pf.type = "building" ∨
    (pf.type = "rooftop" ∧ pf.biome = b ∧ lo ≤ pf.x ∧ 0 < pf.width ∧ pf.x + pf.width < hi)

/-- Where a rooftop generated by `new World()` may sit: a `grand_keep` rooftop
inside the span of chunk 0, or a rooftop wholly left of `x = 0`, or one wholly
right of `x = 480`. -/
def RoofPlacement (pf : Platform) : Prop :=
  (pf.biome = "grand_keep" ∧ 0 ≤ pf.x ∧ 0 < pf.width ∧ pf.x + pf.width < 480) ∨
    (0 < pf.width ∧ pf.x + pf.width < 0) ∨ (0 < pf.width ∧ 480 ≤ pf.x)

/-- The state of a world during `generateWorld`: the generated set, the biome
map, the placement of every rooftop so far, and a `grand_keep` rooftop in
chunk 0 once chunk 0 is generated. -/
structure InitState (w : World) (gen : List ℤ) (bio : List (ℤ × String)) : Prop where
  gen_eq : w.generatedChunks = gen
  bio_eq : w.chunkBiomes = bio
  roofs : ∀ pf ∈ w.platforms, pf.type = "rooftop" → RoofPlacement pf
  keep : (0 : ℤ) ∈ gen → ∃ pf ∈ w.platforms, pf.type = "rooftop" ∧ pf.biome = "grand_keep" ∧
    0 ≤ pf.x ∧ 0 < pf.width ∧ pf.x + pf.width < 480

/-! # Theorems -/

/-! ## Frame lemmas: generation leaves the chunk bookkeeping alone -/

section Track

variable (E : JsMath) (rnd : ℕ → ℚ)

theorem track_random (w : World) : (w.random rnd).2.track = w.track := rfl

theorem track_randomInRange (range : Option (List ℚ)) (fb : ℚ) (w : World) :
    (randomInRange rnd range fb w).2.track = w.track := by
  unfold randomInRange
  split <;> rfl

theorem track_randomIntInRange (range : Option (List ℚ)) (fb : ℚ) (w : World) :
    (randomIntInRange rnd range fb w).2.track = w.track :=
  track_randomInRange rnd range fb w

theorem track_createPlatform (x y wd ht : ℚ) (ty b : String) (am : Bool)
    (k1 k2 : Option String) (w : World) :
    (createPlatform E x y wd ht ty b am k1 k2 w).2.track = w.track := by
  unfold createPlatform addRoofMetalSources World.track
  by_cases h1 : ty = "building" <;> cases am <;> simp [h1]

theorem track_createBuilding (x wd ht : ℚ) (b : String) (am : Bool) (k1 k2 : String)
    (w : World) : (createBuilding E x wd ht b am k1 k2 w).2.track = w.track :=
  track_createPlatform E _ _ _ _ _ _ _ _ _ w

theorem track_addRooftop (bld : Platform) (roof : Option Rooftop) (b : String) (am : Bool)
    (w : World) : (addRooftop E bld roof b am w).track = w.track := by
  unfold addRooftop
  cases roof with
  | none => rfl
  | some r => exact track_createPlatform E _ _ _ _ _ _ _ _ _ w

theorem track_generateBiome (x : ℚ) (b : String) (o : BuildOptions) (w : World) :
    (generateBiome E x b o w).track = w.track := by
  unfold generateBiome
  split_ifs
  · exact track_createBuilding E _ _ _ _ _ _ _ w
  · unfold generateNobleHousing
    simp only [track_addRooftop, track_createBuilding]
  · exact track_createBuilding E _ _ _ _ _ _ _ w
  · exact track_createBuilding E _ _ _ _ _ _ _ w
  · unfold generateGrandKeep
    simp only [track_addRooftop]
    exact track_createBuilding E _ _ _ _ _ _ _ w
  · rfl

theorem track_createStreetLamp (x g : ℚ) (b : String) (c : BiomeConfig) (w : World) :
    (createStreetLamp rnd x g b c w).track = w.track :=
  track_randomInRange rnd c.streetLampHeightRange 140 w

theorem track_createManhole (x g : ℚ) (b : String) (w : World) :
    (createManhole x g b w).track = w.track := rfl

theorem track_createTree (x g : ℚ) (b : String) (w : World) :
    (createTree rnd x g b w).track = w.track := rfl

theorem track_lampLoop (endX : ℚ) (c : BiomeConfig) (b : String) (bs : List BuildingSpan)
    (fuel : ℕ) : ∀ (lampX : ℚ) (w : World),
    (lampLoop rnd endX c b bs fuel lampX w).track = w.track := by
  induction fuel with
  | zero => intro _ _; rfl
  | succ n ih =>
    intro lampX w
    unfold lampLoop
    simp only []
    split_ifs <;>
      simp only [ih, track_randomInRange, track_createStreetLamp, track_random]

theorem track_manholeLoop (startX ch : ℚ) (b : String) (bs : List BuildingSpan) (fuel : ℕ) :
    ∀ (toPlace : ℕ) (w : World),
    (manholeLoop rnd startX ch b bs fuel toPlace w).track = w.track := by
  induction fuel with
  | zero => intro _ _; rfl
  | succ n ih =>
    intro toPlace w
    unfold manholeLoop
    simp only []
    split_ifs <;>
      simp only [ih, track_createManhole, track_random, track_randomInRange]

theorem track_treeLoop (gap : Gap) (tc : ℚ) (b : String) (n : ℕ) :
    ∀ w : World, (treeLoop rnd gap tc b n w).track = w.track := by
  induction n with
  | zero => intro _; rfl
  | succ n ih =>
    intro w
    unfold treeLoop
    simp only []
    split_ifs <;> simp only [ih, track_createTree, track_random]

theorem track_gapLoop (c : BiomeConfig) (tc : ℚ) (b : String) (gaps : List Gap) :
    ∀ w : World, (gapLoop rnd c tc b gaps w).track = w.track := by
  induction gaps with
  | nil => intro _; rfl
  | cons g rest ih =>
    intro w
    unfold gapLoop
    simp only []
    split_ifs <;> simp only [ih, track_treeLoop, track_randomIntInRange]

theorem track_placeTreesInOpenSpaces (startX endX : ℚ) (c : BiomeConfig)
    (bs : List BuildingSpan) (b : String) (w : World) :
    (placeTreesInOpenSpaces rnd startX endX c bs b w).track = w.track := by
  unfold placeTreesInOpenSpaces
  simp only []
  split_ifs <;> simp only [track_gapLoop]

theorem track_placeLamps (startX endX : ℚ) (c : BiomeConfig) (b : String)
    (bs : List BuildingSpan) (w : World) :
    (placeLamps rnd startX endX c b bs w).track = w.track := by
  unfold placeLamps
  split
  · rfl
  · simp only [track_lampLoop, track_randomInRange]

theorem track_placeManholes (startX : ℚ) (c : BiomeConfig) (b : String)
    (bs : List BuildingSpan) (w : World) :
    (placeManholes rnd startX c b bs w).track = w.track := by
  unfold placeManholes
  split
  · rfl
  · split_ifs
    · simp only [track_manholeLoop, track_randomIntInRange]
    · rfl

theorem track_placeTrees (startX endX : ℚ) (c : BiomeConfig) (bs : List BuildingSpan)
    (b : String) (w : World) : (placeTrees rnd startX endX c bs b w).track = w.track := by
  unfold placeTrees
  split
  · split_ifs
    · exact track_placeTreesInOpenSpaces rnd _ _ _ _ _ w
    · rfl
  · rfl

theorem track_placeChunkStreetFeatures (startX endX : ℚ) (c : BiomeConfig) (b : String)
    (bs : List BuildingSpan) (w : World) :
    (placeChunkStreetFeatures rnd startX endX c b bs w).track = w.track := by
  unfold placeChunkStreetFeatures
  rw [track_placeTrees, track_placeManholes, track_placeLamps]

theorem track_buildingLoop (c : BiomeConfig) (b : String) (types : List String)
    (startX endX pad : ℚ) (fuel : ℕ) : ∀ (i : ℕ) (cx : ℚ) (cb : List BuildingSpan) (w : World),
    (buildingLoop E rnd c b types startX endX pad fuel i cx cb w).1.track = w.track := by
  induction fuel with
  | zero => intro _ _ _ _; rfl
  | succ n ih =>
    intro i cx cb w
    unfold buildingLoop
    simp only []
    split_ifs <;> simp only [ih, track_randomInRange, track_generateBiome]

theorem track_selectBiome (fb : Option String) (w : World) :
    (selectBiome rnd fb w).2.track = w.track := by
  unfold selectBiome
  cases fb with
  | none => rfl
  | some b => by_cases hb : b = "" <;> simp [hb, track_random]

end Track

/-! ## The chunk bookkeeping of the streamer -/

section Streamer

variable (E : JsMath) (rnd : ℕ → ℚ)

theorem genRuns_generateChunkBody (K : ℤ) (fb : Option String) (w : World) :
    (generateChunkBody E rnd K fb w).genRuns = (w.generatedChunks ++ [K], w.bodyRuns ++ [K]) := by
  have h := track_placeChunkStreetFeatures rnd
  have key : (generateChunkBody E rnd K fb w).track =
      (w.generatedChunks ++ [K], w.bodyRuns ++ [K],
        mapSet w.chunkBiomes K (selectBiome rnd fb { w with
          generatedChunks := w.generatedChunks ++ [K]
          bodyRuns := w.bodyRuns ++ [K] }).1) := by
    unfold generateChunkBody
    simp only [track_placeChunkStreetFeatures, track_buildingLoop, track_randomIntInRange,
      track_randomInRange]
    have hs := track_selectBiome rnd fb { w with
          generatedChunks := w.generatedChunks ++ [K]
          bodyRuns := w.bodyRuns ++ [K] }
    simp only [World.track, Prod.mk.injEq] at hs ⊢
    obtain ⟨h1, h2, h3⟩ := hs
    exact ⟨h1, h2, by rw [h3]⟩
  simp only [World.track, Prod.mk.injEq] at key
  simp only [World.genRuns, Prod.mk.injEq]
  exact ⟨key.1, key.2.1⟩

theorem genRuns_generateChunk (K : ℤ) (fb : Option String) (w : World) :
    (generateChunk E rnd K fb w).genRuns = genStep K w.genRuns := by
  unfold generateChunk genStep
  by_cases h : K ∈ w.generatedChunks
  · simp [h, World.genRuns]
  · have hb := genRuns_generateChunkBody E rnd K fb w
    simpa [h, World.genRuns] using hb

theorem genRuns_generateChunksFrom (fb : Option String) (n : ℕ) :
    ∀ (c : ℤ) (w : World),
      (generateChunksFrom E rnd fb n c w).genRuns = genSteps n c w.genRuns := by
  induction n with
  | zero => intro _ _; rfl
  | succ n ih =>
    intro c w
    simp only [generateChunksFrom, genSteps, ih, genRuns_generateChunk]

theorem generatedChunks_cleanup (pc : ℤ) (w : World) :
    (cleanupDistantChunks pc w).generatedChunks =
      w.generatedChunks.filter fun c => decide (inKeepWindow pc c) := by
  unfold cleanupDistantChunks
  simp only []
  apply List.filter_congr
  intro k hk
  rw [decide_eq_decide]
  simp only [List.mem_filter, hk, true_and, decide_eq_true_eq, inKeepWindow, renderDistance]
  omega

theorem genRuns_cleanup (pc : ℤ) (w : World) :
    (cleanupDistantChunks pc w).genRuns =
      (w.generatedChunks.filter fun c => decide (inKeepWindow pc c), w.bodyRuns) := by
  simp only [World.genRuns, generatedChunks_cleanup]
  rfl

theorem genRuns_checkAndGenerate (playerX : ℚ) (w : World) :
    (checkAndGenerate E rnd playerX w).genRuns = checkStep (chunkOf playerX) w.genRuns := by
  unfold checkAndGenerate
  simp only [genRuns_cleanup]
  have h7 : (jsFloor (playerX / chunkSize) + renderDistance + 1 -
      (jsFloor (playerX / chunkSize) - renderDistance)).toNat = 7 := by
    simp only [renderDistance]
    have : jsFloor (playerX / chunkSize) + 3 + 1 - (jsFloor (playerX / chunkSize) - 3) = 7 := by
      ring
    rw [this]; rfl
  have hg := genRuns_generateChunksFrom E rnd none 7 (jsFloor (playerX / chunkSize) - renderDistance) w
  rw [h7]
  have hg1 := congrArg Prod.fst hg
  have hg2 := congrArg Prod.snd hg
  simp only [World.genRuns, renderDistance] at hg1 hg2
  simp only [checkStep, chunkOf, World.genRuns, renderDistance, hg1, hg2]

theorem genRuns_new : (World.new E rnd).genRuns = ([-3, -2, -1, 0, 1, 2, 3], [-3, -2, -1, 0, 1, 2, 3]) := by
  unfold World.new generateWorld
  simp only [genRuns_generateChunk]
  rfl

theorem genRuns_runChecks (xs : List ℚ) :
    (runChecks E rnd xs).genRuns =
      xs.foldl (fun s playerX => checkStep (chunkOf playerX) s)
        ([-3, -2, -1, 0, 1, 2, 3], [-3, -2, -1, 0, 1, 2, 3]) := by
  unfold runChecks
  rw [← genRuns_new E rnd]
  generalize World.new E rnd = w
  induction xs generalizing w with
  | nil => rfl
  | cons x xs ih =>
    simp only [List.foldl_cons]
    rw [ih, genRuns_checkAndGenerate]

end Streamer

/-! ## Frame lemmas: generation only appends to the registries -/

section Extends

variable (E : JsMath) (rnd : ℕ → ℚ)

theorem World.Extends.refl (w : World) : w.Extends w :=
  ⟨List.prefix_refl _, List.prefix_refl _, List.prefix_refl _, List.prefix_refl _,
    List.prefix_refl _, List.prefix_refl _⟩

theorem World.Extends.trans {a b c : World} (h1 : a.Extends b) (h2 : b.Extends c) :
    a.Extends c :=
  ⟨h1.platforms.trans h2.platforms, h1.buildings.trans h2.buildings,
    h1.metalSources.trans h2.metalSources, h1.streetLamps.trans h2.streetLamps,
    h1.groundMetals.trans h2.groundMetals, h1.trees.trans h2.trees⟩

theorem World.Extends.of_same {w w2 : World} (h1 : w2.platforms = w.platforms)
    (h2 : w2.buildings = w.buildings) (h3 : w2.metalSources = w.metalSources)
    (h4 : w2.streetLamps = w.streetLamps) (h5 : w2.groundMetals = w.groundMetals)
    (h6 : w2.trees = w.trees) : w.Extends w2 :=
  ⟨h1 ▸ List.prefix_refl _, h2 ▸ List.prefix_refl _, h3 ▸ List.prefix_refl _,
    h4 ▸ List.prefix_refl _, h5 ▸ List.prefix_refl _, h6 ▸ List.prefix_refl _⟩

theorem extends_random (w : World) : w.Extends (w.random rnd).2 :=
  World.Extends.of_same rfl rfl rfl rfl rfl rfl

theorem extends_randomInRange (range : Option (List ℚ)) (fb : ℚ) (w : World) :
    w.Extends (randomInRange rnd range fb w).2 := by
  unfold randomInRange
  split <;> exact World.Extends.of_same rfl rfl rfl rfl rfl rfl

theorem extends_randomIntInRange (range : Option (List ℚ)) (fb : ℚ) (w : World) :
    w.Extends (randomIntInRange rnd range fb w).2 :=
  extends_randomInRange rnd range fb w

theorem extends_createPlatform (x y wd ht : ℚ) (ty b : String) (am : Bool)
    (k1 k2 : Option String) (w : World) :
    w.Extends (createPlatform E x y wd ht ty b am k1 k2 w).2 := by
  unfold createPlatform addRoofMetalSources
  by_cases h1 : ty = "building" <;> cases am <;>
    constructor <;> simp [h1, List.prefix_refl]

theorem extends_createBuilding (x wd ht : ℚ) (b : String) (am : Bool) (k1 k2 : String)
    (w : World) : w.Extends (createBuilding E x wd ht b am k1 k2 w).2 :=
  extends_createPlatform E _ _ _ _ _ _ _ _ _ w

theorem extends_addRooftop (bld : Platform) (roof : Option Rooftop) (b : String) (am : Bool)
    (w : World) : w.Extends (addRooftop E bld roof b am w) := by
  unfold addRooftop
  cases roof with
  | none => exact World.Extends.refl w
  | some r => exact extends_createPlatform E _ _ _ _ _ _ _ _ _ w

theorem extends_addMetals (ms : List MetalSource) (w : World) :
    w.Extends { w with metalSources := w.metalSources ++ ms } := by
  constructor <;> simp [List.prefix_refl]

theorem extends_generateBiome (x : ℚ) (b : String) (o : BuildOptions) (w : World) :
    w.Extends (generateBiome E x b o w) := by
  unfold generateBiome
  split_ifs
  · exact extends_createBuilding E _ _ _ _ _ _ _ w
  · exact (extends_createBuilding E _ _ _ _ _ _ _ w).trans (extends_addRooftop E _ _ _ _ _)
  · exact extends_createBuilding E _ _ _ _ _ _ _ w
  · exact extends_createBuilding E _ _ _ _ _ _ _ w
  · exact ((extends_createBuilding E _ _ _ _ _ _ _ w).trans (extends_addMetals _ _)).trans
      (extends_addRooftop E _ _ _ _ _)
  · exact World.Extends.refl w

theorem extends_createStreetLamp (x g : ℚ) (b : String) (c : BiomeConfig) (w : World) :
    w.Extends (createStreetLamp rnd x g b c w) := by
  refine (extends_randomInRange rnd c.streetLampHeightRange 140 w).trans ?_
  unfold createStreetLamp
  constructor <;> simp [List.prefix_refl]

theorem extends_createManhole (x g : ℚ) (b : String) (w : World) :
    w.Extends (createManhole x g b w) := by
  unfold createManhole
  constructor <;> simp [List.prefix_refl]

theorem extends_createTree (x g : ℚ) (b : String) (w : World) :
    w.Extends (createTree rnd x g b w) := by
  unfold createTree World.random
  constructor <;> simp [List.prefix_refl]

theorem extends_lampLoop (endX : ℚ) (c : BiomeConfig) (b : String) (bs : List BuildingSpan)
    (fuel : ℕ) : ∀ (lampX : ℚ) (w : World), w.Extends (lampLoop rnd endX c b bs fuel lampX w) := by
  induction fuel with
  | zero => intro _ w; exact World.Extends.refl w
  | succ n ih =>
    intro lampX w
    unfold lampLoop
    simp only []
    split_ifs
    · exact (((extends_random rnd w).trans (extends_createStreetLamp rnd _ _ _ _ _)).trans
        (extends_randomInRange rnd _ _ _)).trans (ih _ _)
    · exact ((extends_random rnd w).trans (extends_randomInRange rnd _ _ _)).trans (ih _ _)
    · exact World.Extends.refl w

theorem extends_manholeLoop (startX ch : ℚ) (b : String) (bs : List BuildingSpan) (fuel : ℕ) :
    ∀ (toPlace : ℕ) (w : World), w.Extends (manholeLoop rnd startX ch b bs fuel toPlace w) := by
  induction fuel with
  | zero => intro _ w; exact World.Extends.refl w
  | succ n ih =>
    intro toPlace w
    unfold manholeLoop
    simp only []
    split_ifs
    · exact (((extends_randomInRange rnd _ _ w).trans (extends_random rnd _)).trans
        (extends_createManhole _ _ _ _)).trans (ih _ _)
    · exact ((extends_randomInRange rnd _ _ w).trans (extends_random rnd _)).trans (ih _ _)
    · exact World.Extends.refl w

theorem extends_treeLoop (gap : Gap) (tc : ℚ) (b : String) (n : ℕ) :
    ∀ w : World, w.Extends (treeLoop rnd gap tc b n w) := by
  induction n with
  | zero => intro w; exact World.Extends.refl w
  | succ n ih =>
    intro w
    unfold treeLoop
    simp only []
    split_ifs
    · exact (extends_random rnd w).trans (ih _)
    · exact (((extends_random rnd w).trans (extends_random rnd _)).trans
        (extends_createTree rnd _ _ _ _)).trans (ih _)

theorem extends_gapLoop (c : BiomeConfig) (tc : ℚ) (b : String) (gaps : List Gap) :
    ∀ w : World, w.Extends (gapLoop rnd c tc b gaps w) := by
  induction gaps with
  | nil => intro w; exact World.Extends.refl w
  | cons g rest ih =>
    intro w
    unfold gapLoop
    simp only []
    split_ifs
    · exact ih w
    · exact ((extends_randomIntInRange rnd _ _ w).trans (extends_treeLoop rnd _ _ _ _ _)).trans
        (ih _)

theorem extends_placeChunkStreetFeatures (startX endX : ℚ) (c : BiomeConfig) (b : String)
    (bs : List BuildingSpan) (w : World) :
    w.Extends (placeChunkStreetFeatures rnd startX endX c b bs w) := by
  have h1 : ∀ w : World, w.Extends (placeLamps rnd startX endX c b bs w) := by
    intro w
    unfold placeLamps
    split
    · exact World.Extends.refl w
    · exact (extends_randomInRange rnd _ _ w).trans (extends_lampLoop rnd _ _ _ _ _ _ _)
  have h2 : ∀ w : World, w.Extends (placeManholes rnd startX c b bs w) := by
    intro w
    unfold placeManholes
    split
    · exact World.Extends.refl w
    · split_ifs
      · exact (extends_randomIntInRange rnd _ _ w).trans (extends_manholeLoop rnd _ _ _ _ _ _ _)
      · exact World.Extends.refl w
  have h3 : ∀ w : World, w.Extends (placeTrees rnd startX endX c bs b w) := by
    intro w
    unfold placeTrees placeTreesInOpenSpaces
    split
    · simp only []
      split_ifs <;> first | exact World.Extends.refl w | exact extends_gapLoop rnd _ _ _ _ w
    · exact World.Extends.refl w
  exact ((h1 w).trans (h2 _)).trans (h3 _)

theorem extends_buildingLoop (c : BiomeConfig) (b : String) (types : List String)
    (startX endX pad : ℚ) (fuel : ℕ) : ∀ (i : ℕ) (cx : ℚ) (cb : List BuildingSpan) (w : World),
    w.Extends (buildingLoop E rnd c b types startX endX pad fuel i cx cb w).1 := by
  induction fuel with
  | zero => intro _ _ _ w; exact World.Extends.refl w
  | succ n ih =>
    intro i cx cb w
    unfold buildingLoop
    simp only []
    split_ifs <;> first
      | exact World.Extends.refl w
      | exact (extends_randomInRange rnd _ _ w).trans (extends_randomInRange rnd _ _ _)
      | exact ((((extends_randomInRange rnd _ _ w).trans (extends_randomInRange rnd _ _ _)).trans
          (extends_generateBiome E _ _ _ _)).trans (extends_randomInRange rnd _ _ _)).trans
          (ih _ _ _ _)

theorem extends_selectBiome (fb : Option String) (w : World) :
    w.Extends (selectBiome rnd fb w).2 := by
  unfold selectBiome
  cases fb with
  | none => exact World.Extends.of_same rfl rfl rfl rfl rfl rfl
  | some b => by_cases hb : b = "" <;> simp only [hb, if_true, if_false] <;>
      exact World.Extends.of_same rfl rfl rfl rfl rfl rfl

theorem extends_generateChunk (K : ℤ) (fb : Option String) (w : World) :
    w.Extends (generateChunk E rnd K fb w) := by
  unfold generateChunk
  split_ifs
  · exact World.Extends.refl w
  · unfold generateChunkBody
    simp only []
    refine World.Extends.trans ?_ (extends_placeChunkStreetFeatures rnd _ _ _ _ _ _)
    refine World.Extends.trans ?_ (extends_buildingLoop E rnd _ _ _ _ _ _ _ _ _ _ _)
    refine World.Extends.trans ?_ (extends_randomIntInRange rnd _ _ _)
    refine World.Extends.trans ?_ (extends_randomInRange rnd _ _ _)
    have hs := extends_selectBiome rnd fb { w with
      generatedChunks := w.generatedChunks ++ [K], bodyRuns := w.bodyRuns ++ [K] }
    exact ⟨hs.platforms, hs.buildings, hs.metalSources, hs.streetLamps, hs.groundMetals,
      hs.trees⟩

theorem extends_generateChunksFrom (fb : Option String) (n : ℕ) :
    ∀ (c : ℤ) (w : World), w.Extends (generateChunksFrom E rnd fb n c w) := by
  induction n with
  | zero => intro _ w; exact World.Extends.refl w
  | succ n ih =>
    intro c w
    exact (extends_generateChunk E rnd c fb w).trans (ih _ _)

end Extends

/-! ## Streaming window, cleanup and idempotence (C1, C2, C3) -/

theorem jsFloor_eq {x : ℚ} {n : ℤ} (h1 : (n : ℚ) ≤ x) (h2 : x < n + 1) : jsFloor x = n := by
  unfold jsFloor
  exact Int.floor_eq_iff.mpr ⟨h1, h2⟩

theorem subset_genStep (K : ℤ) (s : List ℤ × List ℤ) (k : ℤ) (h : k ∈ s.1) :
    k ∈ (genStep K s).1 := by
  unfold genStep
  split_ifs
  · exact h
  · exact List.mem_append_left _ h

theorem self_mem_genStep (K : ℤ) (s : List ℤ × List ℤ) : K ∈ (genStep K s).1 := by
  unfold genStep
  split_ifs with h
  · exact h
  · exact List.mem_append_right _ (List.mem_singleton_self K)

theorem subset_genSteps (n : ℕ) : ∀ (c : ℤ) (s : List ℤ × List ℤ) (k : ℤ),
    k ∈ s.1 → k ∈ (genSteps n c s).1 := by
  induction n with
  | zero => intro _ _ _ h; exact h
  | succ n ih => intro c s k h; exact ih _ _ _ (subset_genStep c s k h)

theorem mem_genSteps (n : ℕ) : ∀ (c : ℤ) (s : List ℤ × List ℤ) (k : ℤ),
    c ≤ k → k < c + n → k ∈ (genSteps n c s).1 := by
  induction n with
  | zero => intro c s k h1 h2; simp at h2; omega
  | succ n ih =>
    intro c s k h1 h2
    by_cases hk : k = c
    · subst hk
      exact subset_genSteps n _ _ _ (self_mem_genStep k s)
    · exact ih _ _ _ (by omega) (by push_cast at h2; omega)

/-- C1. After `checkAndGenerate(playerX)` every chunk index `k` with
`floor(playerX/480) - 3 ≤ k ≤ floor(playerX/480) + 3` is in `generatedChunks`:
the loop marks each of them and the cleanup at the end removes none. -/
theorem checkAndGenerate_covers_window (E : JsMath) (rnd : ℕ → ℚ) (w : World) (playerX : ℚ)
    (k : ℤ) (hlo : jsFloor (playerX / 480) - 3 ≤ k) (hhi : k ≤ jsFloor (playerX / 480) + 3) :
    k ∈ (checkAndGenerate E rnd playerX w).generatedChunks := by
  have h := congrArg Prod.fst (genRuns_checkAndGenerate E rnd playerX w)
  simp only [World.genRuns, checkStep] at h
  rw [h, List.mem_filter]
  have hc : chunkOf playerX = jsFloor (playerX / 480) := rfl
  refine ⟨mem_genSteps 7 _ _ k (by rw [hc]; omega) (by rw [hc]; push_cast; omega), ?_⟩
  simp only [decide_eq_true_eq, inKeepWindow, hc]
  omega

/-- C1, at `playerX = 1000` (player chunk 2) on the empty world: chunk 5 is
generated. -/
theorem checkAndGenerate_covers_window_witness :
    (jsFloor ((1000 : ℚ) / 480) - 3 ≤ 5 ∧ (5 : ℤ) ≤ jsFloor ((1000 : ℚ) / 480) + 3) ∧
      (5 : ℤ) ∈ (checkAndGenerate exactMath (fun _ => 1 / 2) 1000 World.empty).generatedChunks :=
  have hf : jsFloor ((1000 : ℚ) / 480) = 2 := jsFloor_eq (by norm_num) (by norm_num)
  ⟨⟨by rw [hf]; decide, by rw [hf]; decide⟩,
    checkAndGenerate_covers_window exactMath (fun _ => 1 / 2) World.empty 1000 5
      (by rw [hf]; decide) (by rw [hf]; decide)⟩

theorem keepChunk_eq (pc c : ℤ) : keepChunk pc c = decide (inKeepWindow pc c) := by
  unfold keepChunk inKeepWindow renderDistance
  rw [decide_eq_decide]
  omega

/-- C2. `cleanupDistantChunks(playerChunk)` replaces each of the six registries
by the sub-list, in the original order, of its entries whose derived chunk index
`floor(x/480)` lies in `[playerChunk-13, playerChunk+13]`; so no remaining entity
has a derived chunk index outside the interval. -/
theorem cleanupDistantChunks_registries (w : World) (playerChunk : ℤ) :
    ((cleanupDistantChunks playerChunk w).platforms =
        w.platforms.filter (fun e => decide (inKeepWindow playerChunk (chunkOf e.x))) ∧
      (cleanupDistantChunks playerChunk w).buildings =
        w.buildings.filter (fun e => decide (inKeepWindow playerChunk (chunkOf e.x))) ∧
      (cleanupDistantChunks playerChunk w).metalSources =
        w.metalSources.filter (fun e => decide (inKeepWindow playerChunk (chunkOf e.x))) ∧
      (cleanupDistantChunks playerChunk w).streetLamps =
        w.streetLamps.filter (fun e => decide (inKeepWindow playerChunk (chunkOf e.x))) ∧
      (cleanupDistantChunks playerChunk w).groundMetals =
        w.groundMetals.filter (fun e => decide (inKeepWindow playerChunk (chunkOf e.x))) ∧
      (cleanupDistantChunks playerChunk w).trees =
        w.trees.filter (fun e => decide (inKeepWindow playerChunk (chunkOf e.x)))) ∧
    (cleanupDistantChunks playerChunk w).AllX
      (fun x => playerChunk - 13 ≤ jsFloor (x / 480) ∧ jsFloor (x / 480) ≤ playerChunk + 13) := by
  have hreg : (cleanupDistantChunks playerChunk w).platforms =
        w.platforms.filter (fun e => decide (inKeepWindow playerChunk (chunkOf e.x))) ∧
      (cleanupDistantChunks playerChunk w).buildings =
        w.buildings.filter (fun e => decide (inKeepWindow playerChunk (chunkOf e.x))) ∧
      (cleanupDistantChunks playerChunk w).metalSources =
        w.metalSources.filter (fun e => decide (inKeepWindow playerChunk (chunkOf e.x))) ∧
      (cleanupDistantChunks playerChunk w).streetLamps =
        w.streetLamps.filter (fun e => decide (inKeepWindow playerChunk (chunkOf e.x))) ∧
      (cleanupDistantChunks playerChunk w).groundMetals =
        w.groundMetals.filter (fun e => decide (inKeepWindow playerChunk (chunkOf e.x))) ∧
      (cleanupDistantChunks playerChunk w).trees =
        w.trees.filter (fun e => decide (inKeepWindow playerChunk (chunkOf e.x))) := by
    unfold cleanupDistantChunks
    simp only [keepChunk_eq, and_self]
  obtain ⟨h1, h2, h3, h4, h5, h6⟩ := hreg
  refine ⟨⟨h1, h2, h3, h4, h5, h6⟩, ?_⟩
  have key : ∀ x : ℚ, inKeepWindow playerChunk (chunkOf x) →
      playerChunk - 13 ≤ jsFloor (x / 480) ∧ jsFloor (x / 480) ≤ playerChunk + 13 :=
    fun x h => h
  constructor
  · intro e he; rw [h1, List.mem_filter] at he; exact key _ (of_decide_eq_true he.2)
  · intro e he; rw [h2, List.mem_filter] at he; exact key _ (of_decide_eq_true he.2)
  · intro e he; rw [h3, List.mem_filter] at he; exact key _ (of_decide_eq_true he.2)
  · intro e he; rw [h4, List.mem_filter] at he; exact key _ (of_decide_eq_true he.2)
  · intro e he; rw [h5, List.mem_filter] at he; exact key _ (of_decide_eq_true he.2)
  · intro e he; rw [h6, List.mem_filter] at he; exact key _ (of_decide_eq_true he.2)

theorem self_mem_generateChunk (E : JsMath) (rnd : ℕ → ℚ) (K : ℤ) (fb : Option String)
    (w : World) : K ∈ (generateChunk E rnd K fb w).generatedChunks := by
  have h := congrArg Prod.fst (genRuns_generateChunk E rnd K fb w)
  simp only [World.genRuns] at h
  rw [h]
  exact self_mem_genStep K _

/-- C3. Chunk idempotence: when `K` is already in `generatedChunks`,
`generateChunk(K, anyBiome)` returns the world unchanged: the six registries,
`generatedChunks` and `chunkBiomes` (and the history fields) are the same. -/
theorem generateChunk_idempotent (E : JsMath) (rnd : ℕ → ℚ) (w : World) (K : ℤ)
    (anyBiome : Option String) (h : K ∈ w.generatedChunks) :
    generateChunk E rnd K anyBiome w = w := by
  unfold generateChunk
  rw [if_pos h]

/-- C3, generating chunk 0 twice from the empty world: the second call changes
nothing. -/
theorem generateChunk_idempotent_witness :
    (0 : ℤ) ∈ (generateChunk exactMath (fun _ => 1 / 2) 0 none World.empty).generatedChunks ∧
      generateChunk exactMath (fun _ => 1 / 2) 0 (some "slums")
          (generateChunk exactMath (fun _ => 1 / 2) 0 none World.empty) =
        generateChunk exactMath (fun _ => 1 / 2) 0 none World.empty :=
  ⟨self_mem_generateChunk _ _ _ _ _,
    generateChunk_idempotent exactMath (fun _ => 1 / 2) _ 0 (some "slums")
      (self_mem_generateChunk _ _ _ _ _)⟩

/-! ## Eviction and held targets (C5) -/

theorem metalSources_checkAndGenerate (E : JsMath) (rnd : ℕ → ℚ) (playerX : ℚ) (w : World)
    (m : MetalSource) :
    m ∈ (checkAndGenerate E rnd playerX w).metalSources ↔
      m ∈ (generateChunksFrom E rnd none 7 (chunkOf playerX - 3) w).metalSources ∧
        inKeepWindow (chunkOf playerX) (chunkOf m.x) := by
  have h7 : (jsFloor (playerX / chunkSize) + renderDistance + 1 -
      (jsFloor (playerX / chunkSize) - renderDistance)).toNat = 7 := by
    have : jsFloor (playerX / chunkSize) + renderDistance + 1 -
        (jsFloor (playerX / chunkSize) - renderDistance) = 7 := by
      simp only [renderDistance]; ring
    rw [this]; rfl
  unfold checkAndGenerate
  simp only [h7]
  rw [(cleanupDistantChunks_registries _ _).1.2.2.1, List.mem_filter, decide_eq_true_eq]
  rfl

/-- C5, refuted as stated. A player at `x = 7000` (chunk 14) holds as push
target a metal at `x = 100` (chunk 0) that is in `world.metalSources`; after
`checkAndGenerate(player.x)` the metal is no longer in `world.metalSources`. -/
theorem held_target_evicted :
    farPlayer.steelTarget = some lampMetal ∧ lampMetal ∈ lampWorld.metalSources ∧
      lampMetal ∉
        (checkAndGenerate exactMath (fun _ => 1 / 2) farPlayer.x lampWorld).metalSources := by
  refine ⟨rfl, List.mem_singleton_self _, ?_⟩
  rw [metalSources_checkAndGenerate]
  rintro ⟨-, h1, -⟩
  have hp : chunkOf farPlayer.x = 14 := by
    show jsFloor ((7000 : ℚ) / 480) = 14
    exact jsFloor_eq (by norm_num) (by norm_num)
  have hm : chunkOf lampMetal.x = 0 := by
    show jsFloor ((100 : ℚ) / 480) = 0
    exact jsFloor_eq (by norm_num) (by norm_num)
  rw [hp, hm] at h1
  exact absurd h1 (by decide)

/-- C5, amended. A held push or pull target that is in `world.metalSources` is
still in `world.metalSources` after `checkAndGenerate(player.x)` exactly when
its derived chunk index lies within 13 chunks of the player's chunk; eviction
does not look at the player's references. -/
theorem held_target_survives_iff (E : JsMath) (rnd : ℕ → ℚ) (w : World) (p : Player)
    (m : MetalSource) (_hheld : p.steelTarget = some m ∨ p.ironTarget = some m)
    (hm : m ∈ w.metalSources) :
    m ∈ (checkAndGenerate E rnd p.x w).metalSources ↔
      (jsFloor (p.x / 480) - 13 ≤ jsFloor (m.x / 480) ∧
        jsFloor (m.x / 480) ≤ jsFloor (p.x / 480) + 13) := by
  rw [metalSources_checkAndGenerate]
  have hsub := (extends_generateChunksFrom E rnd none 7 (chunkOf p.x - 3) w).metalSources.subset hm
  constructor
  · rintro ⟨-, h⟩; exact h
  · intro h; exact ⟨hsub, h⟩

/-- C5 amended, at a player in chunk 2 holding the lamp metal of chunk 0: the
target survives. -/
theorem held_target_survives_iff_witness :
    (({ Player.new 1000 584 with steelTarget := some lampMetal } : Player).steelTarget
        = some lampMetal ∨
      ({ Player.new 1000 584 with steelTarget := some lampMetal } : Player).ironTarget
        = some lampMetal) ∧
    lampMetal ∈ lampWorld.metalSources ∧
    (lampMetal ∈ (checkAndGenerate exactMath (fun _ => 1 / 2)
        ({ Player.new 1000 584 with steelTarget := some lampMetal } : Player).x
        lampWorld).metalSources ↔
      (jsFloor (({ Player.new 1000 584 with steelTarget := some lampMetal } : Player).x / 480)
          - 13 ≤ jsFloor (lampMetal.x / 480) ∧
        jsFloor (lampMetal.x / 480) ≤
          jsFloor (({ Player.new 1000 584 with steelTarget := some lampMetal } : Player).x / 480)
            + 13)) :=
  ⟨Or.inl rfl, List.mem_singleton_self _,
    held_target_survives_iff exactMath (fun _ => 1 / 2) lampWorld
      { Player.new 1000 584 with steelTarget := some lampMetal } lampMetal (Or.inl rfl)
      (List.mem_singleton_self _)⟩

/-! ## How often a chunk is generated (C6) -/

theorem chunkOf_eq {x : ℚ} {n : ℤ} (h1 : (n : ℚ) * 480 ≤ x) (h2 : x < (n + 1) * 480) :
    chunkOf x = n := by
  unfold chunkOf chunkSize
  apply jsFloor_eq
  · rw [le_div_iff₀ (by norm_num)]; exact h1
  · rw [div_lt_iff₀ (by norm_num)]; exact h2

/-- C6, refuted as stated. After `new World()`, `checkAndGenerate(9600)` and
`checkAndGenerate(0)`, the content-generation body of `generateChunk` has run
twice for chunk 0: walking 20 chunks away evicts chunk 0 from
`generatedChunks`, and coming back generates it again. -/
theorem chunk_zero_generated_twice :
    (runChecks exactMath (fun _ => 1 / 2) [9600, 0]).bodyRuns.count 0 = 2 := by
  have h := congrArg Prod.snd (genRuns_runChecks exactMath (fun _ => 1 / 2) [9600, 0])
  simp only [World.genRuns, List.foldl_cons, List.foldl_nil] at h
  have h1 : chunkOf 9600 = 20 := chunkOf_eq (by norm_num) (by norm_num)
  have h2 : chunkOf 0 = 0 := chunkOf_eq (by norm_num) (by norm_num)
  rw [h, h1, h2]
  decide

theorem onceWhileKept_genStep (K c : ℤ) (s : List ℤ × List ℤ) (h : onceWhileKept K s) :
    onceWhileKept K (genStep c s) := by
  unfold genStep
  split_ifs with hc
  · exact h
  · obtain ⟨h1, h2⟩ := h
    by_cases hk : c = K
    · subst hk
      have hr : c ∉ s.2 := fun hr => hc (h2 hr)
      refine ⟨?_, fun _ => List.mem_append_right _ (List.mem_singleton_self c)⟩
      simp [List.count_append, List.count_eq_zero_of_not_mem hr]
    · refine ⟨?_, ?_⟩
      · simpa [List.count_append, List.count_singleton, hk] using h1
      · intro hm
        simp only [List.mem_append, List.mem_singleton] at hm ⊢
        rcases hm with hm | hm
        · exact Or.inl (h2 hm)
        · exact absurd hm.symm hk

theorem onceWhileKept_genSteps (K : ℤ) (n : ℕ) : ∀ (c : ℤ) (s : List ℤ × List ℤ),
    onceWhileKept K s → onceWhileKept K (genSteps n c s) := by
  induction n with
  | zero => intro _ _ h; exact h
  | succ n ih => intro c s h; exact ih _ _ (onceWhileKept_genStep K c s h)

theorem onceWhileKept_checkStep (K pc : ℤ) (s : List ℤ × List ℤ) (hw : inKeepWindow pc K)
    (h : onceWhileKept K s) : onceWhileKept K (checkStep pc s) := by
  have key : ∀ t : List ℤ × List ℤ, onceWhileKept K t →
      onceWhileKept K (t.1.filter fun c => decide (inKeepWindow pc c), t.2) := by
    intro t ht
    refine ⟨ht.1, fun hm => ?_⟩
    simp only [List.mem_filter, decide_eq_true_eq]
    exact ⟨ht.2 hm, hw⟩
  unfold checkStep
  exact key _ (onceWhileKept_genSteps K 7 (pc - 3) s h)

/-- C6, amended. Over every sequence of `checkAndGenerate(playerX)` calls on a
new world during which the player's chunk stays within 13 chunks of `K` (so
that the cleanup never evicts `K`), the content-generation body of
`generateChunk` runs at most once for `K`. -/
theorem body_runs_once_while_kept (E : JsMath) (rnd : ℕ → ℚ) (xs : List ℚ) (K : ℤ)
    (hnear : ∀ x ∈ xs, jsFloor (x / 480) - 13 ≤ K ∧ K ≤ jsFloor (x / 480) + 13) :
    (runChecks E rnd xs).bodyRuns.count K ≤ 1 := by
  have h := congrArg Prod.snd (genRuns_runChecks E rnd xs)
  simp only [World.genRuns] at h
  rw [h]
  have init : onceWhileKept K ([-3, -2, -1, 0, 1, 2, 3], [-3, -2, -1, 0, 1, 2, 3]) := by
    refine ⟨?_, fun hm => hm⟩
    exact List.nodup_iff_count_le_one.mp (by decide) K
  suffices hs : ∀ (ys : List ℚ) (s : List ℤ × List ℤ),
      (∀ x ∈ ys, inKeepWindow (chunkOf x) K) → onceWhileKept K s →
        onceWhileKept K (ys.foldl (fun s playerX => checkStep (chunkOf playerX) s) s) from
    (hs xs _ hnear init).1
  intro ys
  induction ys with
  | nil => intro s _ hs; exact hs
  | cons y ys ih =>
    intro s hy hs
    simp only [List.foldl_cons]
    exact ih _ (fun x hx => hy x (List.mem_cons_of_mem _ hx))
      (onceWhileKept_checkStep K _ s (hy y (List.mem_cons_self _ _)) hs)

/-- C6 amended, for chunk 0 along the walk `1000, 2000, 1000` (player chunks 2,
4, 2). -/
theorem body_runs_once_while_kept_witness :
    (∀ x ∈ [(1000 : ℚ), 2000, 1000], jsFloor (x / 480) - 13 ≤ 0 ∧ (0 : ℤ) ≤ jsFloor (x / 480) + 13) ∧
      (runChecks exactMath (fun _ => 1 / 2) [1000, 2000, 1000]).bodyRuns.count 0 ≤ 1 :=
  have hw : ∀ x ∈ [(1000 : ℚ), 2000, 1000],
      jsFloor (x / 480) - 13 ≤ 0 ∧ (0 : ℤ) ≤ jsFloor (x / 480) + 13 := by
    have h1 : jsFloor ((1000 : ℚ) / 480) = 2 := jsFloor_eq (by norm_num) (by norm_num)
    have h2 : jsFloor ((2000 : ℚ) / 480) = 4 := jsFloor_eq (by norm_num) (by norm_num)
    intro x hx
    simp only [List.mem_cons, List.mem_singleton, List.not_mem_nil, or_false] at hx
    rcases hx with rfl | rfl | rfl
    · rw [h1]; decide
    · rw [h2]; decide
    · rw [h1]; decide
  ⟨hw, body_runs_once_while_kept exactMath (fun _ => 1 / 2) [1000, 2000, 1000] 0 hw⟩

/-! ## Player movement (C7 to C10) -/

namespace Player

section Movement

variable (E : JsMath)

theorem clamp_eq_self {v lo hi : ℚ} (h1 : lo ≤ v) (h2 : v ≤ hi) : clamp v lo hi = v := by
  unfold clamp
  rw [min_eq_right h2, max_eq_right h1]

theorem clamp_bounds {v lo hi : ℚ} (h : lo ≤ hi) : lo ≤ clamp v lo hi ∧ clamp v lo hi ≤ hi := by
  unfold clamp
  exact ⟨le_max_left _ _, max_le h (min_le_left _ _)⟩

/-- The fields that `handleAirDirectionalAllomancy` never writes. -/
theorem air_frame (dt ix iy : ℚ) (sh : Bool) (w : World) (p : Player) :
    (handleAirDirectionalAllomancy E dt ix iy sh w p).onGround = p.onGround ∧
    (handleAirDirectionalAllomancy E dt ix iy sh w p).hasJumpedSinceGround
      = p.hasJumpedSinceGround ∧
    (handleAirDirectionalAllomancy E dt ix iy sh w p).burstCooldownRemaining
      = p.burstCooldownRemaining ∧
    (handleAirDirectionalAllomancy E dt ix iy sh w p).lingeringAllomancyLines
      = p.lingeringAllomancyLines ∧
    (handleAirDirectionalAllomancy E dt ix iy sh w p).windRushes = p.windRushes := by
  unfold handleAirDirectionalAllomancy
  simp only []
  split_ifs <;> exact ⟨rfl, rfl, rfl, rfl, rfl⟩

theorem getNearbyMetals_eq_nil (w : World) (p : Player) (n : ℕ)
    (h : getNearbyMetalSources w p.x p.y allomancyRange = []) :
    p.getNearbyMetals w (some n) = [] := by
  unfold getNearbyMetals
  simp [h]

/-- The air-sense step leaves `vy` alone when the vertical input is zero or no
registry metal is in range, provided `vy` is within the smaller speed limit. -/
theorem air_vy (dt ix iy : ℚ) (sh : Bool) (w : World) (p : Player)
    (h : iy = 0 ∨ getNearbyMetalSources w p.x p.y allomancyRange = [])
    (hlo : -390 ≤ p.vy) (hhi : p.vy ≤ 390) :
    (handleAirDirectionalAllomancy E dt ix iy sh w p).vy = p.vy := by
  rcases h with h | h
  · subst h
    unfold handleAirDirectionalAllomancy
    simp only []
    split_ifs <;> first
      | rfl
      | (simp only [zero_div, zero_mul, add_zero]
         unfold maxSpeedY
         rw [min_eq_right (by linarith), max_eq_right (by linarith)])
  · have hn := getNearbyMetals_eq_nil w { p with activeAirMetals := [] } 5 h
    unfold handleAirDirectionalAllomancy
    simp only [hn, List.length_nil, if_true]
    split_ifs <;> rfl

/-- The air-sense step leaves `vx` alone when the horizontal input is zero or no
registry metal is in range, provided `vx` is within the smaller speed limit. -/
theorem air_vx (dt ix iy : ℚ) (sh : Bool) (w : World) (p : Player)
    (h : ix = 0 ∨ getNearbyMetalSources w p.x p.y allomancyRange = [])
    (hlo : -390 ≤ p.vx) (hhi : p.vx ≤ 390) :
    (handleAirDirectionalAllomancy E dt ix iy sh w p).vx = p.vx := by
  rcases h with h | h
  · subst h
    unfold handleAirDirectionalAllomancy
    simp only []
    split_ifs <;> first
      | rfl
      | (simp only [zero_div, zero_mul, add_zero]
         unfold maxSpeedX
         rw [min_eq_right (by linarith), max_eq_right (by linarith)])
  · have hn := getNearbyMetals_eq_nil w { p with activeAirMetals := [] } 5 h
    unfold handleAirDirectionalAllomancy
    simp only [hn, List.length_nil, if_true]
    split_ifs <;> rfl

end Movement

end Player

namespace Player

section Ground

variable (E : JsMath)

/-- On the ground with zero horizontal input, the velocity that enters the
air-sense step of `handleMovement` is the clamped friction product. -/
theorem handleMovement_vx_of_ground (dt : ℚ) (keys : Keys) (c : Controller) (w : World)
    (p : Player) (hg : p.onGround = true) (hx : combinedX keys c = 0) :
    (handleMovement E dt keys c w p).vx = clamp (p.vx * groundFriction) (-maxSpeedX) maxSpeedX := by
  have hb := @clamp_bounds (p.vx * groundFriction) (-maxSpeedX) maxSpeedX
    (by unfold maxSpeedX; norm_num)
  have hlo : -390 ≤ clamp (p.vx * groundFriction) (-maxSpeedX) maxSpeedX := by
    have := hb.1; unfold maxSpeedX at this ⊢; linarith
  have hhi : clamp (p.vx * groundFriction) (-maxSpeedX) maxSpeedX ≤ 390 := by
    have := hb.2; unfold maxSpeedX at this ⊢; linarith
  unfold handleMovement finishMove groundMove
  simp only [hg, hx, abs_zero, if_true]
  have h10 : ¬ ((0 : ℚ) > 1 / 10) := by norm_num
  simp only [h10, if_false]
  split_ifs <;> exact air_vx E _ _ _ _ _ _ (Or.inl rfl) hlo hhi

theorem collideStep_vx (r : List (ℚ × ℚ)) (p : Player) (pf : Platform) :
    (collideStep r p pf).vx = p.vx := by
  unfold collideStep
  split_ifs <;> rfl

theorem checkCollisions_vx (w : World) (p : Player) : (checkCollisions w p).vx = p.vx := by
  unfold checkCollisions
  simp only []
  have key : ∀ (r : List (ℚ × ℚ)) (l : List Platform) (q : Player),
      (l.foldl (collideStep r) q).vx = q.vx := by
    intro r l
    induction l with
    | nil => intro q; rfl
    | cons a l ih => intro q; rw [List.foldl_cons, ih, collideStep_vx]
  rw [key]
  split_ifs <;> rfl

theorem applyForce_none_vx (p : Player) (hs : p.steelTarget = none) (hi : p.ironTarget = none) :
    applyAllomancy E p = p := by
  unfold applyAllomancy
  simp only [hs, hi]

theorem handleAllomancy_vx_idle (mouse : Mouse) (c : Controller) (w : World) (camera : Camera)
    (p : Player) (hpush : mouse.leftDown = false ∧ c.rightBumper = false)
    (hpull : mouse.rightDown = false ∧ c.leftBumper = false) :
    (handleAllomancy E mouse c w camera p).vx = p.vx := by
  unfold handleAllomancy
  simp only [hpush.1, hpush.2, hpull.1, hpull.2, Bool.or_false, if_false, Bool.false_eq_true]
  rw [applyForce_none_vx E _ rfl rfl]
  unfold updateTargeter
  simp only []
  split <;> rfl

theorem applyPhysics_vx (dt : ℚ) (p : Player) : (applyPhysics dt p).vx = p.vx := by
  unfold applyPhysics
  simp only []
  split_ifs <;> rfl

theorem updateTilt_vx (dt : ℚ) (w : World) (p : Player) : (updateTilt dt w p).vx = p.vx := rfl

theorem beginTick_vx_onGround (dt : ℚ) (p : Player) :
    (beginTick dt p).vx = p.vx ∧ (beginTick dt p).onGround = p.onGround := by
  unfold beginTick updateWindRushes updateLingeringLines updateCooldowns
  split_ifs <;> exact ⟨rfl, rfl⟩

/-- The horizontal velocity after a whole `update` is the one that
`handleMovement` leaves, when neither push nor pull is held. -/
theorem update_vx_idle (dt : ℚ) (keys : Keys) (mouse : Mouse) (c : Controller) (w : World)
    (camera : Camera) (p : Player) (hpush : mouse.leftDown = false ∧ c.rightBumper = false)
    (hpull : mouse.rightDown = false ∧ c.leftBumper = false) :
    (update E dt keys mouse c w camera p).vx
      = (handleMovement E dt keys c w (beginTick dt p)).vx := by
  unfold update
  simp only []
  rw [updateTilt_vx, checkCollisions_vx, applyPhysics_vx,
    handleAllomancy_vx_idle E mouse c w camera _ hpush hpull]

/-- C10, refuted as stated. A grounded player with `vx = 400` and no input at
all: one `handleMovement` yields `vx = 260`, not `0.85 * 400 = 340`. -/
theorem ground_friction_not_exact :
    slidingPlayer.onGround = true ∧
      (handleMovement exactMath (1 / 60) Keys.none Controller.idle World.empty slidingPlayer).vx
        = 260 ∧
      (260 : ℚ) ≠ 85 / 100 * slidingPlayer.vx := by
  have hx : combinedX Keys.none Controller.idle = 0 := by
    norm_num [combinedX, clamp, Keys.none, Controller.idle]
  refine ⟨rfl, ?_, ?_⟩
  · rw [handleMovement_vx_of_ground exactMath _ _ _ _ _ rfl hx]
    norm_num [slidingPlayer, Player.new, clamp, groundFriction, maxSpeedX]
  · norm_num [slidingPlayer, Player.new]

/-- C10, amended. For every grounded player state and an input whose combined
movement axis is zero, with neither push nor pull held, one tick
(`handleMovement` alone, or the whole `update`) yields
`vx = clamp(0.85 * vx, -260, 260)`; this is `0.85 * vx` exactly whenever
`|0.85 * vx| ≤ 260`. -/
theorem ground_friction_clamped (E : JsMath) (dt : ℚ) (keys : Keys) (mouse : Mouse)
    (c : Controller) (w : World) (camera : Camera) (p : Player) (hg : p.onGround = true)
    (hx : combinedX keys c = 0) (hpush : mouse.leftDown = false ∧ c.rightBumper = false)
    (hpull : mouse.rightDown = false ∧ c.leftBumper = false) :
    (handleMovement E dt keys c w p).vx = clamp (85 / 100 * p.vx) (-260) 260 ∧
    (update E dt keys mouse c w camera p).vx = clamp (85 / 100 * p.vx) (-260) 260 ∧
    (-260 ≤ 85 / 100 * p.vx → 85 / 100 * p.vx ≤ 260 →
      (handleMovement E dt keys c w p).vx = 85 / 100 * p.vx ∧
        (update E dt keys mouse c w camera p).vx = 85 / 100 * p.vx) := by
  have h1 : (handleMovement E dt keys c w p).vx = clamp (85 / 100 * p.vx) (-260) 260 := by
    rw [handleMovement_vx_of_ground E dt keys c w p hg hx]
    unfold groundFriction maxSpeedX
    rw [mul_comm]
  have h2 : (update E dt keys mouse c w camera p).vx = clamp (85 / 100 * p.vx) (-260) 260 := by
    obtain ⟨hq1, hq2⟩ := beginTick_vx_onGround dt p
    rw [update_vx_idle E dt keys mouse c w camera p hpush hpull,
      handleMovement_vx_of_ground E dt keys c w _ (hq2.trans hg) hx, hq1]
    unfold groundFriction maxSpeedX
    rw [mul_comm]
  refine ⟨h1, h2, fun hlo hhi => ?_⟩
  rw [h1, h2, clamp_eq_self hlo hhi]
  exact ⟨rfl, rfl⟩

/-- C10 amended, at a grounded player with `vx = 200` and no input: one tick
gives `vx = 170`. -/
theorem ground_friction_clamped_witness :
    ({ Player.new 100 584 with vx := 200, onGround := true } : Player).onGround = true ∧
    combinedX Keys.none Controller.idle = 0 ∧
    (handleMovement exactMath (1 / 60) Keys.none Controller.idle World.empty
        { Player.new 100 584 with vx := 200, onGround := true }).vx = 170 := by
  have hx : combinedX Keys.none Controller.idle = 0 := by
    norm_num [combinedX, clamp, Keys.none, Controller.idle]
  have h := (ground_friction_clamped exactMath (1 / 60) Keys.none ⟨0, 0, false, false⟩
    Controller.idle World.empty ⟨0, 0⟩ { Player.new 100 584 with vx := 200, onGround := true }
    rfl hx ⟨rfl, rfl⟩ ⟨rfl, rfl⟩).2.2
  have hv : (85 : ℚ) / 100 * ({ Player.new 100 584 with vx := 200, onGround := true } :
      Player).vx = 170 := by
    norm_num [Player.new]
  rw [hv] at h
  exact ⟨rfl, hx, (h (by norm_num) (by norm_num)).1⟩

end Ground

end Player

namespace Player

section Jump

variable (E : JsMath)

theorem combinedX_releaseJump (keys : Keys) (c : Controller) :
    combinedX keys.releaseJump c.releaseJump = combinedX keys c := rfl

theorem combinedY_releaseJump (keys : Keys) (c : Controller) :
    combinedY keys.releaseJump c.releaseJump = combinedY keys c := rfl

theorem shiftActive_releaseJump (keys : Keys) (c : Controller) :
    shiftActive keys.releaseJump c.releaseJump = shiftActive keys c := rfl

theorem spacePressed_releaseJump (keys : Keys) (c : Controller) :
    spacePressed keys.releaseJump c.releaseJump = false := rfl

/-- Without a rising edge (the jump input was already down on the previous
tick) `handleMovement` does what it does with the jump released; only
`previousSpaceDown` records the held input. -/
theorem handleMovement_held (dt : ℚ) (keys : Keys) (c : Controller) (w : World) (p : Player)
    (hprev : p.previousSpaceDown = true) :
    handleMovement E dt keys c w p =
      { handleMovement E dt keys.releaseJump c.releaseJump w p with
        previousSpaceDown := spacePressed keys c } := by
  unfold handleMovement finishMove groundMove airMove
  simp only [combinedX_releaseJump, combinedY_releaseJump, shiftActive_releaseJump,
    spacePressed_releaseJump, hprev, Bool.not_true, Bool.and_false, Bool.false_and,
    Bool.false_eq_true, if_false]

theorem jumpPower_bounds : (-390 : ℚ) ≤ jumpPower ∧ jumpPower ≤ 390 := by
  unfold jumpPower; constructor <;> norm_num

/-- C7, refuted as stated. A player at rest on the ground (`vx = vy = 0`,
`previousSpaceDown = false`) below a lamp 99 pixels up presses jump while
holding up: `handleMovement` leaves `vy = -304.25`, not `-300`, because the
air-sense force of the same call is added to the jump velocity. -/
theorem jump_from_rest_with_up_held :
    restingPlayer.onGround = true ∧ restingPlayer.vx = 0 ∧ restingPlayer.vy = 0 ∧
      restingPlayer.previousSpaceDown = false ∧
      spacePressed keysJumpUp Controller.idle = true ∧
      (handleMovement exactMath (1 / 60) keysJumpUp Controller.idle lampWorld restingPlayer).vy
        = -(1217 / 4) := by
  decide!

/-- C7, amended. For a player with `onGround = true`, `vx = vy = 0` and
`previousSpaceDown = false`, `handleMovement` with the jump input pressed sets
`onGround = false`, `hasJumpedSinceGround = true` and `previousSpaceDown = true`;
it leaves `vy = -300` (`jumpPower`) when the combined vertical input is zero or
no metal source is within `allomancyRange`. On any later state in which
`previousSpaceDown` is still true, a held jump input triggers nothing: the
result is that of the same call with the jump released. -/
theorem jump_from_rest (E : JsMath) (dt : ℚ) (keys : Keys) (c : Controller) (w : World)
    (p : Player) (hg : p.onGround = true) (_hvx : p.vx = 0) (_hvy : p.vy = 0)
    (hprev : p.previousSpaceDown = false) (hsp : spacePressed keys c = true) :
    (handleMovement E dt keys c w p).onGround = false ∧
    (handleMovement E dt keys c w p).hasJumpedSinceGround = true ∧
    (handleMovement E dt keys c w p).previousSpaceDown = true ∧
    ((combinedY keys c = 0 ∨ getNearbyMetalSources w p.x p.y allomancyRange = []) →
      (handleMovement E dt keys c w p).vy = -300) ∧
    (∀ (dt2 : ℚ) (keys2 : Keys) (c2 : Controller) (w2 : World) (r : Player),
      r.previousSpaceDown = true →
      handleMovement E dt2 keys2 c2 w2 r =
        { handleMovement E dt2 keys2.releaseJump c2.releaseJump w2 r with
          previousSpaceDown := spacePressed keys2 c2 }) := by
  have hj : (-300 : ℚ) = jumpPower := rfl
  refine ⟨?_, ?_, ?_, ?_, fun dt2 keys2 c2 w2 r hr => handleMovement_held E dt2 keys2 c2 w2 r hr⟩
  all_goals
    unfold handleMovement finishMove groundMove
    simp only [hg, hsp, hprev, Bool.not_false, Bool.and_self, if_true]
  · split_ifs <;> exact (air_frame E _ _ _ _ _ _).1
  · split_ifs <;> exact (air_frame E _ _ _ _ _ _).2.1
  · intro h
    rw [hj]
    split_ifs <;> exact air_vy E _ _ _ _ _ _ h jumpPower_bounds.1 jumpPower_bounds.2

/-- C7 amended, at the resting player of `lampWorld` pressing jump alone. -/
theorem jump_from_rest_witness :
    (restingPlayer.onGround = true ∧ restingPlayer.vx = 0 ∧ restingPlayer.vy = 0 ∧
      restingPlayer.previousSpaceDown = false ∧ spacePressed keysJump Controller.idle = true ∧
      combinedY keysJump Controller.idle = 0) ∧
    (handleMovement exactMath (1 / 60) keysJump Controller.idle lampWorld restingPlayer).vy
      = -300 :=
  ⟨by decide!,
    (jump_from_rest exactMath (1 / 60) keysJump Controller.idle lampWorld restingPlayer rfl rfl rfl
      rfl rfl).2.2.2.1 (Or.inl (by decide!))⟩

end Jump

end Player

namespace Player

section Airborne

variable (E : JsMath)

/-- `isNearSurface` with tolerance 6, spelled out. -/
theorem isNearSurface_six (w : World) (px py : ℚ) :
    isNearSurface w px py width height 6 = true ↔
      (594 ≤ py + 16 ∧ py + 16 ≤ 606) ∨
      ∃ pf ∈ w.platforms, (px + 10 > pf.x ∧ px - 10 < pf.x + pf.width) ∧
        (pf.y - 6 ≤ py + 16 ∧ py + 16 ≤ pf.y + 6) := by
  have e1 : py + height / 2 = py + 16 := by unfold height; norm_num
  have e2 : px + width / 2 = px + 10 := by unfold width; norm_num
  have e3 : px - width / 2 = px - 10 := by unfold width; norm_num
  have e4 : max (0 : ℚ) 6 = 6 := by norm_num
  unfold isNearSurface
  simp only [e1, e2, e3, e4, getGroundY, ge_iff_le, gt_iff_lt]
  have g1 : (600 : ℚ) - 6 = 594 := by norm_num
  have g2 : (600 : ℚ) + 6 = 606 := by norm_num
  rw [g1, g2]
  by_cases hg : 594 ≤ py + 16 ∧ py + 16 ≤ 606
  · simp only [hg, and_self, if_true, true_or]
  · simp only [hg, if_false, false_or, List.any_eq_true, decide_eq_true_eq]

theorem burstApply_shift (dx dy inf : ℚ) (sh : Bool) (ms : List MetalSource) (p : Player)
    (s : Bool) :
    burstApply E dx dy inf sh ms { p with currentAllomancyShift := s } =
      { burstApply E dx dy inf sh ms p with currentAllomancyShift := s } := rfl

theorem tryAllomancyBurst_shift (ix iy : ℚ) (sh : Bool) (w : World) (p : Player) (s : Bool) :
    tryAllomancyBurst E ix iy sh w { p with currentAllomancyShift := s } =
      { tryAllomancyBurst E ix iy sh w p with currentAllomancyShift := s } := by
  have h1 : burstMetals { p with currentAllomancyShift := s } w = burstMetals p w := rfl
  have h2 : ∀ ms, calculateMetalInfluence E { p with currentAllomancyShift := s } ms
      = calculateMetalInfluence E p ms := fun _ => rfl
  unfold tryAllomancyBurst
  simp only [h1, h2, burstApply_shift]
  split_ifs <;> rfl

theorem burstApply_onGround (dx dy inf : ℚ) (sh : Bool) (ms : List MetalSource) (p : Player) :
    (burstApply E dx dy inf sh ms p).onGround = p.onGround := rfl

theorem tryAllomancyBurst_onGround (ix iy : ℚ) (sh : Bool) (w : World) (p : Player) :
    (tryAllomancyBurst E ix iy sh w p).onGround = p.onGround := by
  unfold tryAllomancyBurst
  simp only []
  split_ifs <;> rfl

theorem canUseJumpForgiveness_shift (w : World) (p : Player) (s : Bool) :
    canUseJumpForgiveness { p with currentAllomancyShift := s } w = canUseJumpForgiveness p w :=
  rfl

theorem canUseJumpForgiveness_of_far (w : World) (p : Player)
    (h : isNearSurface w p.x p.y width height 6 = false) : canUseJumpForgiveness p w = false := by
  unfold canUseJumpForgiveness jumpForgivenessPixels
  rw [h]
  split_ifs <;> rfl

theorem finishMove_releaseJump (dt : ℚ) (keys : Keys) (c : Controller) (w : World)
    (p : Player) :
    finishMove E dt keys c w p =
      { finishMove E dt keys.releaseJump c.releaseJump w p with
        previousSpaceDown := spacePressed keys c } := by
  unfold finishMove
  simp only [combinedX_releaseJump, combinedY_releaseJump, shiftActive_releaseJump]

theorem airMove_releaseJump (keys : Keys) (c : Controller) (w : World) (b : Bool)
    (p : Player) : airMove E keys.releaseJump c.releaseJump w b p = airMove E keys c w b p := by
  unfold airMove
  simp only [combinedX_releaseJump, combinedY_releaseJump, shiftActive_releaseJump]

/-- The airborne branch without a rising edge only applies air friction. -/
theorem airMove_no_edge (keys : Keys) (c : Controller) (w : World) (p : Player) :
    airMove E keys c w false p =
      if |combinedX keys c| < 1 / 10 then { p with vx := p.vx * airFriction } else p := by
  unfold airMove
  simp only [Bool.false_eq_true, if_false]

/-- While airborne `handleMovement` is the airborne branch followed by the
tail. -/
theorem handleMovement_airborne (dt : ℚ) (keys : Keys) (c : Controller) (w : World)
    (p : Player) (hair : p.onGround = false) :
    handleMovement E dt keys c w p =
      finishMove E dt keys c w
        (airMove E keys c w (spacePressed keys c && !p.previousSpaceDown)
          { p with currentAllomancyShift := shiftActive keys c }) := by
  have h1 : ¬ (({ p with currentAllomancyShift := shiftActive keys c } : Player).onGround
      = true) := by
    show ¬ (p.onGround = true)
    rw [hair]; decide
  unfold handleMovement
  simp only []
  rw [if_neg h1]

/-- An airborne rising edge that is not eligible for the forgiveness jump:
`handleMovement` is the burst attempt followed by what it does with the jump
released. -/
theorem handleMovement_airborne_press (dt : ℚ) (keys : Keys) (c : Controller) (w : World)
    (p : Player) (hair : p.onGround = false) (hfar : canUseJumpForgiveness p w = false)
    (hsp : spacePressed keys c = true) (hprev : p.previousSpaceDown = false) :
    handleMovement E dt keys c w p =
      { handleMovement E dt keys.releaseJump c.releaseJump w
          (tryAllomancyBurst E (combinedX keys c) (combinedY keys c) (shiftActive keys c) w p) with
        previousSpaceDown := true } := by
  have hb := tryAllomancyBurst_onGround E (combinedX keys c) (combinedY keys c)
    (shiftActive keys c) w p
  have hj : (spacePressed keys c && !p.previousSpaceDown) = true := by rw [hsp, hprev]; rfl
  have hq : airMove E keys c w true { p with currentAllomancyShift := shiftActive keys c } =
      airMove E keys c w false
        { tryAllomancyBurst E (combinedX keys c) (combinedY keys c) (shiftActive keys c) w p with
          currentAllomancyShift := shiftActive keys c } := by
    rw [airMove_no_edge, ← tryAllomancyBurst_shift]
    unfold airMove
    simp only [canUseJumpForgiveness_shift, hfar, Bool.false_eq_true, if_false, if_true]
  rw [handleMovement_airborne E dt keys c w p hair,
    handleMovement_airborne E dt _ _ w _ (hb.trans hair), hj, hq, finishMove_releaseJump, hsp,
    airMove_releaseJump, spacePressed_releaseJump, shiftActive_releaseJump, Bool.false_and]

theorem influence_of_far (p : Player) (ms : List MetalSource)
    (h : ∀ m ∈ ms, allomancyRange ≤ E.hypot (m.x - p.x) (m.y - p.y)) :
    calculateMetalInfluence E p ms = 0 := by
  have key : ∀ (l : List MetalSource),
      (∀ m ∈ l, allomancyRange ≤ E.hypot (m.x - p.x) (m.y - p.y)) →
      l.foldl (fun contribution metal => contribution +
        max 0 (1 - min (E.hypot (metal.x - p.x) (metal.y - p.y) / allomancyRange) 1)) 0 = 0 := by
    intro l
    induction l with
    | nil => intro _; rfl
    | cons a l ih =>
      intro hl
      have ha := hl a (List.mem_cons_self _ _)
      have h1 : (1 : ℚ) ≤ E.hypot (a.x - p.x) (a.y - p.y) / allomancyRange := by
        rw [le_div_iff₀ (by unfold allomancyRange; norm_num)]
        linarith
      rw [List.foldl_cons, min_eq_right h1]
      simp only [sub_self, max_self, add_zero]
      exact ih fun m hm => hl m (List.mem_cons_of_mem _ hm)
  unfold calculateMetalInfluence
  rw [key ms h]
  norm_num

/-- The burst does nothing while its cooldown runs, and nothing when no metal
of the registry or of `activeAirMetals` is within range. -/
theorem tryAllomancyBurst_eq_self (ix iy : ℚ) (sh : Bool) (w : World) (p : Player)
    (h : p.burstCooldownRemaining > 0 ∨
      (getNearbyMetalSources w p.x p.y allomancyRange = [] ∧
        ∀ m ∈ p.activeAirMetals, allomancyRange ≤ E.hypot (m.x - p.x) (m.y - p.y))) :
    tryAllomancyBurst E ix iy sh w p = p := by
  unfold tryAllomancyBurst
  rcases h with h | ⟨h1, h2⟩
  · rw [if_pos (Or.inr h)]
  · by_cases h0 : p.onGround = true ∨ p.burstCooldownRemaining > 0
    · rw [if_pos h0]
    · rw [if_neg h0]
      by_cases hl : (burstMetals p w).length = 0
      · rw [if_pos hl]
      · rw [if_neg hl]
        have hinf : calculateMetalInfluence E p (burstMetals p w) = 0 := by
          apply influence_of_far
          intro m hm
          unfold burstMetals at hm
          by_cases ha : p.activeAirMetals.length ≠ 0
          · rw [if_pos ha] at hm
            exact h2 m (List.mem_of_mem_take hm)
          · rw [if_neg ha, getNearbyMetals_eq_nil w p 5 h1] at hm
            simp at hm
        rw [if_pos (le_of_eq hinf)]

theorem air_no_metal (dt ix iy : ℚ) (sh : Bool) (w : World) (p : Player)
    (h : getNearbyMetalSources w p.x p.y allomancyRange = []) :
    (handleAirDirectionalAllomancy E dt ix iy sh w p).vy = p.vy := by
  have hn := getNearbyMetals_eq_nil w { p with activeAirMetals := [] } 5 h
  unfold handleAirDirectionalAllomancy
  simp only [hn, List.length_nil, if_true]
  split_ifs <;> rfl

theorem finishMove_frame (dt : ℚ) (keys : Keys) (c : Controller) (w : World) (p : Player) :
    (finishMove E dt keys c w p).onGround = p.onGround ∧
    (finishMove E dt keys c w p).hasJumpedSinceGround = p.hasJumpedSinceGround ∧
    (finishMove E dt keys c w p).burstCooldownRemaining = p.burstCooldownRemaining ∧
    (finishMove E dt keys c w p).lingeringAllomancyLines = p.lingeringAllomancyLines ∧
    (finishMove E dt keys c w p).windRushes = p.windRushes ∧
    (finishMove E dt keys c w p).vy =
      (handleAirDirectionalAllomancy E dt (combinedX keys c) (combinedY keys c)
        (shiftActive keys c) w p).vy := by
  obtain ⟨h1, h2, h3, h4, h5⟩ := air_frame E dt (combinedX keys c) (combinedY keys c)
    (shiftActive keys c) w p
  unfold finishMove
  simp only []
  split_ifs <;> exact ⟨h1, h2, h3, h4, h5, rfl⟩

/-- The forgiveness jump: the state that the airborne branch hands to the tail
of `handleMovement`. -/
theorem airMove_forgiveness (keys : Keys) (c : Controller) (w : World) (p : Player)
    (h : canUseJumpForgiveness p w = true) :
    airMove E keys c w true p =
      if |combinedX keys c| < 1 / 10 then
        { p with
          vx := p.vx * airFriction, vy := jumpPower, hasJumpedSinceGround := true,
          onGround := false }
      else { p with vy := jumpPower, hasJumpedSinceGround := true, onGround := false } := by
  unfold airMove
  simp only [h, if_true]

end Airborne

end Player

namespace Player

section Claims

/-- C8. For an airborne player for whom `isNearSurface(player, 6)` is false, a
rising edge of the jump input in `handleMovement` takes no jump branch: the
result is `tryAllomancyBurst` followed by what `handleMovement` does with the
jump released (only `previousSpaceDown` records the press). When the burst
cooldown is running, or no metal of the registry or of `activeAirMetals` is
within `allomancyRange`, the burst does nothing, so the press leaves `vy` (and
everything but `previousSpaceDown`) as it is without the press. -/
theorem airborne_press_far_from_surface (E : JsMath) (dt : ℚ) (keys : Keys) (c : Controller)
    (w : World) (p : Player) (hair : p.onGround = false)
    (hfar : isNearSurface w p.x p.y width height 6 = false)
    (hsp : spacePressed keys c = true) (hprev : p.previousSpaceDown = false) :
    handleMovement E dt keys c w p =
      { handleMovement E dt keys.releaseJump c.releaseJump w
          (tryAllomancyBurst E (combinedX keys c) (combinedY keys c) (shiftActive keys c) w p) with
        previousSpaceDown := true } ∧
    ((p.burstCooldownRemaining > 0 ∨
        (getNearbyMetalSources w p.x p.y allomancyRange = [] ∧
          ∀ m ∈ p.activeAirMetals, allomancyRange ≤ E.hypot (m.x - p.x) (m.y - p.y))) →
      handleMovement E dt keys c w p =
          { handleMovement E dt keys.releaseJump c.releaseJump w p with
            previousSpaceDown := true } ∧
        (handleMovement E dt keys c w p).vy
          = (handleMovement E dt keys.releaseJump c.releaseJump w p).vy) := by
  have h := handleMovement_airborne_press E dt keys c w p hair
    (canUseJumpForgiveness_of_far w p hfar) hsp hprev
  refine ⟨h, fun hidle => ?_⟩
  rw [tryAllomancyBurst_eq_self E _ _ _ w p hidle] at h
  exact ⟨h, by rw [h]⟩

/-- C8, at a player high in the air (bottom edge at `y = 416`) above the empty
world, with the burst cooldown running. -/
theorem airborne_press_far_from_surface_witness :
    (({ Player.new 100 400 with burstCooldownRemaining := 1 } : Player).onGround = false ∧
      isNearSurface World.empty 100 400 width height 6 = false ∧
      spacePressed keysJump Controller.idle = true ∧
      ({ Player.new 100 400 with burstCooldownRemaining := 1 } : Player).previousSpaceDown
        = false) ∧
    (handleMovement exactMath (1 / 60) keysJump Controller.idle World.empty
        { Player.new 100 400 with burstCooldownRemaining := 1 }).vy
      = (handleMovement exactMath (1 / 60) keysJump.releaseJump Controller.idle.releaseJump
          World.empty { Player.new 100 400 with burstCooldownRemaining := 1 }).vy :=
  ⟨by decide!,
    ((airborne_press_far_from_surface exactMath (1 / 60) keysJump Controller.idle World.empty
      { Player.new 100 400 with burstCooldownRemaining := 1 } rfl (by decide!) rfl rfl).2
      (Or.inl (by decide!))).2⟩

/-- C9, refuted as stated. One tick after a ground jump the player is airborne
with its bottom edge at `y = 595`, within 6 pixels of the ground plane; a new
rising edge of the jump input leaves `vy = -290`: no jump is performed,
because `hasJumpedSinceGround` is set. -/
theorem forgiveness_jump_refused :
    risingPlayer.onGround = false ∧ risingPlayer.previousSpaceDown = false ∧
      (594 ≤ risingPlayer.y + 16 ∧ risingPlayer.y + 16 ≤ 606) ∧
      isNearSurface World.empty risingPlayer.x risingPlayer.y width height 6 = true ∧
      spacePressed keysJump Controller.idle = true ∧
      (handleMovement exactMath (1 / 60) keysJump Controller.idle World.empty risingPlayer).vy
        = -290 := by
  decide!

/-- C9, amended. For every airborne player state with `hasJumpedSinceGround =
false` whose bottom edge (`y + 16`) is within 6 pixels of the ground plane
(`y = 600`) or of the top of a platform it overlaps horizontally, a rising edge
of the jump input in `handleMovement` performs the jump instead of a
dash-burst: `onGround` stays false, `hasJumpedSinceGround` becomes true, the
burst cooldown and the effect lists are untouched, and `vy = -300` when the
combined vertical input is zero or no metal source is within `allomancyRange`
(otherwise the air-sense step of the same call acts on `vy = -300`). -/
theorem forgiveness_jump (E : JsMath) (dt : ℚ) (keys : Keys) (c : Controller) (w : World)
    (p : Player) (hair : p.onGround = false) (hnot : p.hasJumpedSinceGround = false)
    (hnear : (594 ≤ p.y + 16 ∧ p.y + 16 ≤ 606) ∨
      ∃ pf ∈ w.platforms, (p.x + 10 > pf.x ∧ p.x - 10 < pf.x + pf.width) ∧
        (pf.y - 6 ≤ p.y + 16 ∧ p.y + 16 ≤ pf.y + 6))
    (hsp : spacePressed keys c = true) (hprev : p.previousSpaceDown = false) :
    (handleMovement E dt keys c w p).onGround = false ∧
    (handleMovement E dt keys c w p).hasJumpedSinceGround = true ∧
    (handleMovement E dt keys c w p).burstCooldownRemaining = p.burstCooldownRemaining ∧
    (handleMovement E dt keys c w p).lingeringAllomancyLines = p.lingeringAllomancyLines ∧
    (handleMovement E dt keys c w p).windRushes = p.windRushes ∧
    (∃ q : Player, q.x = p.x ∧ q.y = p.y ∧ q.vy = -300 ∧
      (handleMovement E dt keys c w p).vy =
        (handleAirDirectionalAllomancy E dt (combinedX keys c) (combinedY keys c)
          (shiftActive keys c) w q).vy) ∧
    ((combinedY keys c = 0 ∨ getNearbyMetalSources w p.x p.y allomancyRange = []) →
      (handleMovement E dt keys c w p).vy = -300) := by
  have hcan : canUseJumpForgiveness { p with currentAllomancyShift := shiftActive keys c } w
      = true := by
    rw [canUseJumpForgiveness_shift]
    unfold canUseJumpForgiveness jumpForgivenessPixels
    rw [hair, hnot, (isNearSurface_six w p.x p.y).mpr hnear]
    rfl
  have hj : (spacePressed keys c && !p.previousSpaceDown) = true := by rw [hsp, hprev]; rfl
  rw [handleMovement_airborne E dt keys c w p hair, hj, airMove_forgiveness E keys c w _ hcan]
  obtain ⟨f1, f2, f3, f4, f5, f6⟩ := finishMove_frame E dt keys c w
    { p with
      currentAllomancyShift := shiftActive keys c, vx := p.vx * airFriction, vy := jumpPower,
      hasJumpedSinceGround := true, onGround := false }
  obtain ⟨g1, g2, g3, g4, g5, g6⟩ := finishMove_frame E dt keys c w
    { p with
      currentAllomancyShift := shiftActive keys c, vy := jumpPower,
      hasJumpedSinceGround := true, onGround := false }
  have hvy : ∀ q : Player, q.x = p.x → q.y = p.y → q.vy = jumpPower →
      (combinedY keys c = 0 ∨ getNearbyMetalSources w p.x p.y allomancyRange = []) →
      (handleAirDirectionalAllomancy E dt (combinedX keys c) (combinedY keys c)
        (shiftActive keys c) w q).vy = -300 := by
    intro q hx hy hv h
    rw [air_vy E dt _ _ _ w q (by rw [hx, hy]; exact h) (by rw [hv]; exact jumpPower_bounds.1)
      (by rw [hv]; exact jumpPower_bounds.2), hv]
    rfl
  split_ifs
  · exact ⟨f1, f2, f3, f4, f5,
      ⟨{ p with
          currentAllomancyShift := shiftActive keys c, vx := p.vx * airFriction,
          vy := jumpPower, hasJumpedSinceGround := true, onGround := false },
        rfl, rfl, rfl, f6⟩,
      fun h => f6.trans (hvy _ rfl rfl rfl h)⟩
  · exact ⟨g1, g2, g3, g4, g5,
      ⟨{ p with
          currentAllomancyShift := shiftActive keys c, vy := jumpPower,
          hasJumpedSinceGround := true, onGround := false },
        rfl, rfl, rfl, g6⟩,
      fun h => g6.trans (hvy _ rfl rfl rfl h)⟩

/-- C9 amended, at a player who walked off a ledge and is 3 pixels above the
ground, pressing jump alone over the empty world. -/
theorem forgiveness_jump_witness :
    ((Player.new 100 581).onGround = false ∧ (Player.new 100 581).hasJumpedSinceGround = false ∧
      (594 ≤ (Player.new 100 581).y + 16 ∧ (Player.new 100 581).y + 16 ≤ 606) ∧
      spacePressed keysJump Controller.idle = true ∧
      (Player.new 100 581).previousSpaceDown = false) ∧
    (handleMovement exactMath (1 / 60) keysJump Controller.idle World.empty
      (Player.new 100 581)).vy = -300 :=
  ⟨by decide!,
    (forgiveness_jump exactMath (1 / 60) keysJump Controller.idle World.empty (Player.new 100 581)
      rfl rfl (Or.inl (by decide!)) rfl rfl).2.2.2.2.2.2 (Or.inl (by decide!))⟩

end Claims

end Player

/-! ## Where generated entities lie (C4) -/

section Placement

variable (E : JsMath) (rnd : ℕ → ℚ) (P : ℚ → Prop)

theorem World.AllX.transfer {w w2 : World} (h : w.AllX P) (h1 : w2.platforms = w.platforms)
    (h2 : w2.buildings = w.buildings) (h3 : w2.metalSources = w.metalSources)
    (h4 : w2.streetLamps = w.streetLamps) (h5 : w2.groundMetals = w.groundMetals)
    (h6 : w2.trees = w.trees) : w2.AllX P :=
  ⟨h1 ▸ h.platforms, h2 ▸ h.buildings, h3 ▸ h.metalSources, h4 ▸ h.streetLamps,
    h5 ▸ h.groundMetals, h6 ▸ h.trees⟩

theorem World.AllX.mono {Q : ℚ → Prop} {w : World} (h : w.AllX P) (hpq : ∀ x, P x → Q x) :
    w.AllX Q :=
  ⟨fun e he => hpq _ (h.platforms e he), fun e he => hpq _ (h.buildings e he),
    fun e he => hpq _ (h.metalSources e he), fun e he => hpq _ (h.streetLamps e he),
    fun e he => hpq _ (h.groundMetals e he), fun e he => hpq _ (h.trees e he)⟩

theorem allX_random {w : World} (h : w.AllX P) : (w.random rnd).2.AllX P :=
  h.transfer P rfl rfl rfl rfl rfl rfl

theorem allX_randomInRange (range : Option (List ℚ)) (fb : ℚ) {w : World} (h : w.AllX P) :
    (randomInRange rnd range fb w).2.AllX P := by
  unfold randomInRange
  split <;> exact h.transfer P rfl rfl rfl rfl rfl rfl

theorem allX_addMetals (ms : List MetalSource) {w : World} (h : w.AllX P)
    (hms : ∀ m ∈ ms, P m.x) : ({ w with metalSources := w.metalSources ++ ms } : World).AllX P :=
  ⟨h.platforms, h.buildings,
    fun e he => (List.mem_append.mp he).elim (h.metalSources e) (hms e),
    h.streetLamps, h.groundMetals, h.trees⟩

theorem mkPlatform_geometry (x y wd ht : ℚ) (ty b : String) (k1 k2 : Option String) :
    (mkPlatform E x y wd ht ty b k1 k2).x = x ∧ (mkPlatform E x y wd ht ty b k1 k2).width = wd ∧
      (mkPlatform E x y wd ht ty b k1 k2).height = ht := by
  unfold mkPlatform
  simp only []
  split_ifs <;> exact ⟨rfl, rfl, rfl⟩

theorem roofRadius_pos (wd ht : ℚ) : 0 < roofRadius wd ht := by
  unfold roofRadius
  simp only []
  split_ifs with h
  · exact lt_of_lt_of_le (by norm_num) (le_max_left _ _)
  · push_neg at h
    exact lt_of_lt_of_le (by norm_num) h

theorem roofTriangleBase_bounds (pf : Platform) (hw : 0 ≤ pf.width) :
    0 ≤ roofTriangleBase pf ∧ roofTriangleBase pf ≤ pf.width * (45 / 100) := by
  unfold roofTriangleBase
  refine ⟨le_min ?_ ?_, min_le_right _ _⟩
  · exact mul_nonneg (le_of_lt (roofRadius_pos _ _)) (by norm_num)
  · exact mul_nonneg hw (by norm_num)

/-- The two roof triangles of a platform lie between its left and right
edges. -/
theorem roofTriangles_x (pf : Platform) (hw : 0 ≤ pf.width) :
    ∀ m ∈ roofTriangles pf, pf.x ≤ m.x ∧ m.x ≤ pf.x + pf.width := by
  obtain ⟨h0, h1⟩ := roofTriangleBase_bounds pf hw
  intro m hm
  unfold roofTriangles at hm
  simp only [List.mem_cons, List.mem_singleton, List.not_mem_nil, or_false] at hm
  rcases hm with rfl | rfl
  · constructor <;> simp only <;> linarith
  · constructor <;> simp only <;> linarith

/-- A platform placed with its whole width inside `[lo, hi)` adds only entities
inside `[lo, hi)`. -/
theorem allX_createPlatform (lo hi : ℚ) (hP : ∀ t, lo ≤ t → t < hi → P t) (x y wd ht : ℚ)
    (ty b : String) (am : Bool) (k1 k2 : Option String) {w : World} (h : w.AllX P)
    (hx : lo ≤ x) (hwd : 0 ≤ wd) (hr : x + wd < hi) :
    (createPlatform E x y wd ht ty b am k1 k2 w).2.AllX P := by
  obtain ⟨gx, gw, -⟩ := mkPlatform_geometry E x y wd ht ty b k1 k2
  have hpx : P (mkPlatform E x y wd ht ty b k1 k2).x := by
    rw [gx]; exact hP x hx (by linarith)
  have hbase : ((if ty = "building" then
      { w with buildings := w.buildings ++ [mkPlatform E x y wd ht ty b k1 k2] } else w) :
        World).AllX P := by
    split_ifs
    · exact ⟨h.platforms,
        fun e he => (List.mem_append.mp he).elim (h.buildings e)
          (fun h1 => by rw [List.mem_singleton.mp h1]; exact hpx),
        h.metalSources, h.streetLamps, h.groundMetals, h.trees⟩
    · exact h
  have hplat : ({ (if ty = "building" then
      { w with buildings := w.buildings ++ [mkPlatform E x y wd ht ty b k1 k2] } else w) with
      platforms := (if ty = "building" then
        { w with buildings := w.buildings ++ [mkPlatform E x y wd ht ty b k1 k2] }
          else w).platforms ++ [mkPlatform E x y wd ht ty b k1 k2] } : World).AllX P :=
    ⟨fun e he => (List.mem_append.mp he).elim (hbase.platforms e)
        (fun h1 => by rw [List.mem_singleton.mp h1]; exact hpx),
      hbase.buildings, hbase.metalSources, hbase.streetLamps, hbase.groundMetals, hbase.trees⟩
  unfold createPlatform
  simp only []
  cases am
  · exact hplat
  · simp only [if_true]
    unfold addRoofMetalSources
    apply allX_addMetals P _ hplat
    intro m hm
    obtain ⟨m1, m2⟩ := roofTriangles_x _ (by rw [gw]; exact hwd) m hm
    rw [gx] at m1 m2
    rw [gw] at m2
    exact hP _ (by linarith) (by linarith)

end Placement

section Placement2

variable (E : JsMath) (rnd : ℕ → ℚ) (P : ℚ → Prop)

theorem jsRound_bounds (x : ℚ) : x - 1 / 2 < (jsRound x : ℚ) ∧ (jsRound x : ℚ) ≤ x + 1 / 2 := by
  unfold jsRound
  constructor
  · have := Int.lt_floor_add_one (x + 1 / 2)
    linarith
  · exact Int.floor_le _

theorem allX_createBuilding (lo hi : ℚ) (hP : ∀ t, lo ≤ t → t < hi → P t) (x wd ht : ℚ)
    (b : String) (am : Bool) (k1 k2 : String) {w : World} (h : w.AllX P)
    (hx : lo ≤ x) (hwd : 0 ≤ wd) (hr : x + wd < hi) :
    (createBuilding E x wd ht b am k1 k2 w).2.AllX P :=
  allX_createPlatform E P lo hi hP _ _ _ _ _ _ _ _ _ h hx hwd hr

theorem createBuilding_geometry (x wd ht : ℚ) (b : String) (am : Bool) (k1 k2 : String)
    (w : World) :
    (createBuilding E x wd ht b am k1 k2 w).1.x = x ∧
      (createBuilding E x wd ht b am k1 k2 w).1.width = wd := by
  obtain ⟨g1, g2, -⟩ := mkPlatform_geometry E x (getGroundY - ht) wd ht "building" b
    (some (orString (some k1) b)) (if k2 = "" then none else some k2)
  exact ⟨g1, g2⟩

theorem allX_addRooftop (lo hi : ℚ) (hP : ∀ t, lo ≤ t → t < hi → P t) (bld : Platform)
    (roof : Option Rooftop) (b : String) (am : Bool) {w : World} (h : w.AllX P)
    (hoh : 0 ≤ (roof.map Rooftop.overhang).getD 0)
    (hx : lo ≤ bld.x - (roof.map Rooftop.overhang).getD 0) (hwd : 0 ≤ bld.width)
    (hr : bld.x + bld.width + (roof.map Rooftop.overhang).getD 0 < hi) :
    (addRooftop E bld roof b am w).AllX P := by
  unfold addRooftop
  cases roof with
  | none => exact h
  | some r =>
    simp only [Option.map_some', Option.getD_some] at hoh hx hr
    exact allX_createPlatform E P lo hi hP _ _ _ _ _ _ _ _ _ h hx (by linarith) (by linarith)

/-- One building placed by `generateBiome` at `x`, whose rounded width and
rooftop overhang fit in `[lo, hi)`, adds only entities inside `[lo, hi)`. -/
theorem allX_generateBiome (lo hi : ℚ) (hP : ∀ t, lo ≤ t → t < hi → P t) (x : ℚ) (b : String)
    (o : BuildOptions) {w : World} (h : w.AllX P)
    (hoh : 0 ≤ o.buildingDefinition.overhang) (hx : lo ≤ x - o.buildingDefinition.overhang)
    (hwd : 60 ≤ o.width)
    (hr : x + o.width + 1 / 2 + o.buildingDefinition.overhang < hi) :
    (generateBiome E x b o w).AllX P := by
  obtain ⟨r1, r2⟩ := jsRound_bounds o.width
  have hround : (0 : ℚ) ≤ (jsRound o.width : ℚ) := by linarith
  have hmax : max (60 : ℚ) (jsRound o.width : ℚ) = (jsRound o.width : ℚ) := by
    apply max_eq_right
    have : (60 : ℤ) ≤ jsRound o.width := by
      unfold jsRound
      rw [Int.le_floor]
      push_cast
      linarith
    exact_mod_cast this
  have hbuild : ∀ (bi : String) (am : Bool) (k1 k2 : String) (ht : ℚ),
      (createBuilding E x (jsRound o.width) ht bi am k1 k2 w).2.AllX P := fun bi am k1 k2 ht =>
    allX_createBuilding E P lo hi hP _ _ _ _ _ _ _ h (by linarith) hround (by linarith)
  have hroof : ∀ (bi : String) (am am2 : Bool) (k1 k2 : String) (ht : ℚ) {w2 : World},
      w2.AllX P →
      (addRooftop E (createBuilding E x (jsRound o.width) ht bi am k1 k2 w).1
        o.buildingDefinition.rooftop bi am2 w2).AllX P := by
    intro bi am am2 k1 k2 ht w2 h2
    obtain ⟨g1, g2⟩ := createBuilding_geometry E x (jsRound o.width) ht bi am k1 k2 w
    apply allX_addRooftop E P lo hi hP _ _ _ _ h2 hoh
    · rw [g1]; exact hx
    · rw [g2]; exact hround
    · rw [g1, g2]
      have : o.buildingDefinition.overhang
          = (o.buildingDefinition.rooftop.map Rooftop.overhang).getD 0 := rfl
      linarith
  unfold generateBiome
  split_ifs
  · unfold generateSlums
    simp only [hmax]
    exact hbuild _ _ _ _ _
  · unfold generateNobleHousing
    exact hroof _ _ _ _ _ _ (hbuild _ _ _ _ _)
  · unfold generateTownSquare
    exact hbuild _ _ _ _ _
  · unfold generateMarketplace
    exact hbuild _ _ _ _ _
  · unfold generateGrandKeep
    simp only []
    apply hroof
    apply allX_addMetals P _ (hbuild _ _ _ _ _)
    intro m hm
    simp only [List.mem_cons, List.mem_singleton, List.not_mem_nil, or_false] at hm
    rcases hm with rfl | rfl | rfl | rfl <;> simp only [midLevelMetal]
    · exact hP _ (by linarith) (by linarith)
    · exact hP _ (by linarith) (by linarith)
    · exact hP _ (by linarith) (by linarith)
    · exact hP _ (by linarith) (by linarith)
  · exact h

theorem allX_createStreetLamp (x g : ℚ) (b : String) (c : BiomeConfig) {w : World}
    (h : w.AllX P) (hx : P x) : (createStreetLamp rnd x g b c w).AllX P := by
  have h1 := allX_randomInRange rnd P c.streetLampHeightRange 140 h
  unfold createStreetLamp
  exact ⟨h1.platforms, h1.buildings,
    fun e he => (List.mem_append.mp he).elim (h1.metalSources e)
      (fun h2 => by rw [List.mem_singleton.mp h2]; exact hx),
    fun e he => (List.mem_append.mp he).elim (h1.streetLamps e)
      (fun h2 => by rw [List.mem_singleton.mp h2]; exact hx),
    h1.groundMetals, h1.trees⟩

theorem allX_createManhole (x g : ℚ) (b : String) {w : World} (h : w.AllX P) (hx : P x) :
    (createManhole x g b w).AllX P := by
  unfold createManhole
  exact ⟨h.platforms, h.buildings,
    fun e he => (List.mem_append.mp he).elim (h.metalSources e)
      (fun h2 => by rw [List.mem_singleton.mp h2]; exact hx),
    h.streetLamps,
    fun e he => (List.mem_append.mp he).elim (h.groundMetals e)
      (fun h2 => by rw [List.mem_singleton.mp h2]; exact hx),
    h.trees⟩

theorem allX_createTree (x g : ℚ) (b : String) {w : World} (h : w.AllX P) (hx : P x) :
    (createTree rnd x g b w).AllX P := by
  unfold createTree World.random
  exact ⟨h.platforms, h.buildings, h.metalSources, h.streetLamps, h.groundMetals,
    fun e he => (List.mem_append.mp he).elim (h.trees e)
      (fun h2 => by rw [List.mem_singleton.mp h2]; exact hx)⟩

end Placement2

section Placement3

variable (E : JsMath) (rnd : ℕ → ℚ) (P : ℚ → Prop)

theorem randomInRange_pair (lo hi fb : ℚ) (w : World) :
    (randomInRange rnd (some [lo, hi]) fb w).1 = lo + rnd w.draws * (hi - lo) := rfl

theorem randomInRange_bounds (hr : ∀ n, 0 ≤ rnd n ∧ rnd n < 1) (lo hi fb : ℚ) (h : lo ≤ hi)
    (w : World) :
    lo ≤ (randomInRange rnd (some [lo, hi]) fb w).1 ∧
      (randomInRange rnd (some [lo, hi]) fb w).1 ≤ hi := by
  rw [randomInRange_pair]
  obtain ⟨h0, h1⟩ := hr w.draws
  have hd : 0 ≤ hi - lo := by linarith
  constructor
  · nlinarith [mul_nonneg h0 hd]
  · nlinarith [mul_nonneg (by linarith : (0 : ℚ) ≤ 1 - rnd w.draws) hd]

theorem allX_lampLoop (lo endX : ℚ) (hP : ∀ t, lo ≤ t → t < endX → P t) (c : BiomeConfig)
    (b : String) (bs : List BuildingSpan) (fuel : ℕ) :
    ∀ (lampX : ℚ) (w : World), lo ≤ lampX → w.AllX P →
      (lampLoop rnd endX c b bs fuel lampX w).AllX P := by
  induction fuel with
  | zero => intro _ w _ h; exact h
  | succ n ih =>
    intro lampX w hx h
    unfold lampLoop
    simp only []
    have hstep : ∀ s : ℚ, lo ≤ lampX + max 40 s := fun s => by
      have : (40 : ℚ) ≤ max 40 s := le_max_left _ _
      linarith
    split_ifs with h1 h2
    · exact ih _ _ (hstep _) (allX_randomInRange rnd P _ _
        (allX_createStreetLamp rnd P _ _ _ _ (allX_random rnd P h) (hP _ hx (by linarith))))
    · exact ih _ _ (hstep _) (allX_randomInRange rnd P _ _ (allX_random rnd P h))
    · exact h

theorem allX_manholeLoop (hr : ∀ n, 0 ≤ rnd n ∧ rnd n < 1) (startX : ℚ)
    (hP : ∀ t, startX ≤ t → t < startX + 480 → P t) (ch : ℚ) (b : String)
    (bs : List BuildingSpan) (fuel : ℕ) :
    ∀ (toPlace : ℕ) (w : World), w.AllX P →
      (manholeLoop rnd startX ch b bs fuel toPlace w).AllX P := by
  induction fuel with
  | zero => intro _ w h; exact h
  | succ n ih =>
    intro toPlace w h
    unfold manholeLoop
    simp only []
    have hb : ∀ w : World,
        40 ≤ (randomInRange rnd (some [40, chunkSize - 40]) (chunkSize / 2) w).1 ∧
        (randomInRange rnd (some [40, chunkSize - 40]) (chunkSize / 2) w).1 < 440 := by
      intro w
      rw [randomInRange_pair]
      obtain ⟨h0, h1⟩ := hr w.draws
      unfold chunkSize
      constructor <;> nlinarith
    split_ifs with h1 h2
    · obtain ⟨b1, b2⟩ := hb w
      exact ih _ _ (allX_createManhole P _ _ _
        (allX_random rnd P (allX_randomInRange rnd P _ _ h))
        (hP _ (by linarith) (by linarith)))
    · exact ih _ _ (allX_random rnd P (allX_randomInRange rnd P _ _ h))
    · exact h

theorem allX_treeLoop (hr : ∀ n, 0 ≤ rnd n ∧ rnd n < 1) (lo hi : ℚ)
    (hP : ∀ t, lo ≤ t → t < hi → P t) (gap : Gap) (hg1 : lo ≤ gap.start) (hg2 : gap.stop ≤ hi)
    (hg3 : 25 ≤ gap.stop - gap.start) (tc : ℚ) (b : String) (n : ℕ) :
    ∀ w : World, w.AllX P → (treeLoop rnd gap tc b n w).AllX P := by
  induction n with
  | zero => intro w h; exact h
  | succ n ih =>
    intro w h
    unfold treeLoop
    simp only []
    split_ifs
    · exact ih _ (allX_random rnd P h)
    · apply ih
      apply allX_createTree rnd P _ _ _ (allX_random rnd P (allX_random rnd P h))
      have hm : max 1 (gap.stop - gap.start - 12 * 2) = gap.stop - gap.start - 12 * 2 :=
        max_eq_right (by linarith)
      rw [hm]
      obtain ⟨h0, h1⟩ := hr (w.random rnd).2.draws
      have e : ((w.random rnd).2.random rnd).1 = rnd (w.random rnd).2.draws := rfl
      rw [e]
      apply hP
      · nlinarith
      · nlinarith

theorem allX_gapLoop (hr : ∀ n, 0 ≤ rnd n ∧ rnd n < 1) (lo hi : ℚ)
    (hP : ∀ t, lo ≤ t → t < hi → P t) (c : BiomeConfig) (tc : ℚ) (b : String)
    (gaps : List Gap) :
    (∀ g ∈ gaps, lo ≤ g.start ∧ g.stop ≤ hi) → ∀ w : World, w.AllX P →
      (gapLoop rnd c tc b gaps w).AllX P := by
  induction gaps with
  | nil => intro _ w h; exact h
  | cons g rest ih =>
    intro hg w h
    have hrest : ∀ g2 ∈ rest, lo ≤ g2.start ∧ g2.stop ≤ hi :=
      fun g2 h2 => hg g2 (List.mem_cons_of_mem _ h2)
    obtain ⟨g1, g2⟩ := hg g (List.mem_cons_self _ _)
    unfold gapLoop
    simp only []
    split_ifs with h1
    · exact ih hrest w h
    · exact ih hrest _ (allX_treeLoop rnd P hr lo hi hP g g1 g2 (by linarith) _ _ _ _
        (allX_randomInRange rnd P _ _ h))

theorem scanGaps_valid (lo hi : ℚ) (bs : List BuildingSpan) :
    ∀ (cursor : ℚ) (gaps : List Gap), lo ≤ cursor → (∀ b ∈ bs, b.x ≤ hi) →
      (∀ g ∈ gaps, lo ≤ g.start ∧ g.stop ≤ hi) →
      (∀ g ∈ (scanGaps bs cursor gaps).1, lo ≤ g.start ∧ g.stop ≤ hi) ∧
        lo ≤ (scanGaps bs cursor gaps).2 := by
  induction bs with
  | nil => intro cursor gaps hc _ hg; exact ⟨hg, hc⟩
  | cons b rest ih =>
    intro cursor gaps hc hb hg
    unfold scanGaps
    apply ih
    · exact le_trans hc (le_max_left _ _)
    · exact fun b2 h2 => hb b2 (List.mem_cons_of_mem _ h2)
    · split_ifs
      · intro g hgm
        rcases List.mem_append.mp hgm with h1 | h1
        · exact hg g h1
        · rw [List.mem_singleton.mp h1]
          exact ⟨hc, hb b (List.mem_cons_self _ _)⟩
      · exact hg

theorem allX_placeTreesInOpenSpaces (hr : ∀ n, 0 ≤ rnd n ∧ rnd n < 1) (startX endX : ℚ)
    (hP : ∀ t, startX ≤ t → t < endX → P t) (c : BiomeConfig) (bs : List BuildingSpan)
    (hbs : ∀ b ∈ bs, b.x ≤ endX) (b : String) {w : World} (h : w.AllX P) :
    (placeTreesInOpenSpaces rnd startX endX c bs b w).AllX P := by
  have hsorted : ∀ b2 ∈ bs.insertionSort (fun a b => a.x ≤ b.x), b2.x ≤ endX :=
    fun b2 h2 => hbs b2 ((List.perm_insertionSort _ bs).mem_iff.mp h2)
  obtain ⟨v1, v2⟩ := scanGaps_valid startX endX _ startX [] (le_refl _) hsorted
    (fun g hg => absurd hg (List.not_mem_nil g))
  unfold placeTreesInOpenSpaces
  simp only []
  split_ifs
  · exact h
  · apply allX_gapLoop rnd P hr startX endX hP _ _ _ _ _ w h
    intro g hg
    rcases List.mem_append.mp hg with h1 | h1
    · exact v1 g h1
    · rw [List.mem_singleton.mp h1]
      exact ⟨v2, le_refl _⟩
  · exact allX_gapLoop rnd P hr startX endX hP _ _ _ _ v1 w h

end Placement3

section Placement4

variable (E : JsMath) (rnd : ℕ → ℚ) (P : ℚ → Prop)

theorem getD_mod_mem (types : List String) (h : types ≠ []) (i : ℕ) (d : String) :
    types.getD (i % types.length) d ∈ types := by
  have hlen : 0 < types.length := List.length_pos.mpr h
  have hi : i % types.length < types.length := Nat.mod_lt _ hlen
  rw [List.getD_eq_getElem _ _ hi]
  exact List.getElem_mem _

theorem LayoutOK.plo_pos {c : BiomeConfig} {types : List String} {plo phi : ℚ}
    (L : LayoutOK c types plo phi) : 1 / 2 < plo := by
  obtain ⟨key, hkey⟩ := List.exists_mem_of_ne_nil _ L.nonempty
  obtain ⟨wlo, whi, -, -, -, -, h0, h1⟩ := L.types key hkey
  linarith

theorem allX_buildingLoop (hr : ∀ n, 0 ≤ rnd n ∧ rnd n < 1) (c : BiomeConfig)
    (types : List String) (plo phi : ℚ) (L : LayoutOK c types plo phi) (b : String) (startX : ℚ)
    (hP : ∀ t, startX ≤ t → t < startX + 480 → P t) (pad : ℚ) (hpad : plo ≤ pad ∧ pad ≤ phi)
    (fuel : ℕ) :
    ∀ (i : ℕ) (cx : ℚ) (cb : List BuildingSpan) (w : World), startX + pad ≤ cx →
      (∀ s ∈ cb, s.x ≤ startX + 480) → w.AllX P →
      (buildingLoop E rnd c b types startX (startX + 480) pad fuel i cx cb w).1.AllX P ∧
      ∀ s ∈ (buildingLoop E rnd c b types startX (startX + 480) pad fuel i cx cb w).2,
        s.x ≤ startX + 480 := by
  have hplo := L.plo_pos
  induction fuel with
  | zero => intro _ _ cb w _ hcb h; exact ⟨h, hcb⟩
  | succ n ih =>
    intro i cx cb w hcx hcb h
    obtain ⟨wlo, whi, hrange, h60, hle, hfit, hoh0, hoh1⟩ :=
      L.types _ (getD_mod_mem types L.nonempty i "undefined")
    obtain ⟨hw1, hw2⟩ := randomInRange_bounds rnd hr wlo whi 90 hle w
    have hA1 := allX_randomInRange rnd P (some [wlo, whi]) 90 h
    unfold buildingLoop
    simp only []
    generalize types.getD (i % types.length) "undefined" = key at hrange hoh0 hoh1 ⊢
    generalize (BUILDING_TYPES key).getD BUILDING_TYPES_default = d at hrange hoh0 hoh1 ⊢
    rw [hrange]
    generalize randomInRange rnd (some [wlo, whi]) 90 w = rw at hw1 hw2 hA1 ⊢
    have hA := allX_randomInRange rnd P d.heightRange 240 hA1
    generalize randomInRange rnd d.heightRange 240 rw.2 = rh at hA ⊢
    by_cases h1 : cx < startX + 480 - pad
    · rw [if_pos h1]
      by_cases h2 : cx + rw.1 > startX + 480 - pad ∧ i ≠ 0
      · rw [if_pos h2]; exact ⟨hA, hcb⟩
      · rw [if_neg h2]
        have hpx : startX + pad ≤
            (if cx + rw.1 > startX + 480 - pad then
              max (startX + pad) (startX + 480 - pad - rw.1) else cx) ∧
            (if cx + rw.1 > startX + 480 - pad then
              max (startX + pad) (startX + 480 - pad - rw.1) else cx) + rw.1
              ≤ startX + 480 - pad := by
          split_ifs with h3
          · refine ⟨le_max_left _ _, ?_⟩
            rcases max_cases (startX + pad) (startX + 480 - pad - rw.1) with ⟨e, -⟩ | ⟨e, -⟩
            · rw [e]; linarith [hpad.2]
            · rw [e]; linarith
          · exact ⟨hcx, by linarith⟩
        generalize (if cx + rw.1 > startX + 480 - pad then
              max (startX + pad) (startX + 480 - pad - rw.1) else cx) = px at hpx ⊢
        obtain ⟨hp1, hp2⟩ := hpx
        have hB : (generateBiome E px b ⟨rw.1, rh.1, key, d⟩ rh.2).AllX P :=
          allX_generateBiome E P startX (startX + 480) hP px b ⟨rw.1, rh.1, key, d⟩ hA hoh0
            (by linarith [hpad.1]) (by show (60 : ℚ) ≤ rw.1; linarith)
            (by show px + rw.1 + 1 / 2 + d.overhang < startX + 480; linarith [hpad.1])
        have hC := allX_randomInRange rnd P c.spacingRange 50 hB
        generalize randomInRange rnd c.spacingRange 50
          (generateBiome E px b ⟨rw.1, rh.1, key, d⟩ rh.2) = rs at hC ⊢
        apply ih
        · have : (10 : ℚ) ≤ max 10 rs.1 := le_max_left _ _
          linarith
        · intro s hs
          rcases List.mem_append.mp hs with h4 | h4
          · exact hcb s h4
          · rw [List.mem_singleton.mp h4]
            show px ≤ startX + 480
            linarith
        · exact hC
    · rw [if_neg h1]; exact ⟨h, hcb⟩

end Placement4

section Placement5

variable (E : JsMath) (rnd : ℕ → ℚ) (P : ℚ → Prop)

theorem allX_placeChunkStreetFeatures (hr : ∀ n, 0 ≤ rnd n ∧ rnd n < 1) (c : BiomeConfig)
    (types : List String) (plo phi : ℚ) (L : LayoutOK c types plo phi) (b : String) (startX : ℚ)
    (hP : ∀ t, startX ≤ t → t < startX + 480 → P t) (bs : List BuildingSpan)
    (hbs : ∀ s ∈ bs, s.x ≤ startX + 480) {w : World} (h : w.AllX P) :
    (placeChunkStreetFeatures rnd startX (startX + 480) c b bs w).AllX P := by
  have hplo := L.plo_pos
  have h1 : (placeLamps rnd startX (startX + 480) c b bs w).AllX P := by
    unfold placeLamps
    split
    · exact h
    · rw [L.padding]
      obtain ⟨p1, -⟩ := randomInRange_bounds rnd hr plo phi 40 L.plo_le w
      exact allX_lampLoop rnd P startX (startX + 480) hP c b bs 20 _ _ (by linarith)
        (allX_randomInRange rnd P _ _ h)
  have h2 : (placeManholes rnd startX c b bs
      (placeLamps rnd startX (startX + 480) c b bs w)).AllX P := by
    unfold placeManholes
    split
    · exact h1
    · split_ifs
      · exact allX_manholeLoop rnd P hr startX hP _ b bs _ _ _
          (allX_randomInRange rnd P _ _ h1)
      · exact h1
  unfold placeChunkStreetFeatures placeTrees
  split
  · split_ifs
    · exact allX_placeTreesInOpenSpaces rnd P hr startX (startX + 480) hP c bs hbs b h2
    · exact h2
  · exact h2

theorem biome_ne_empty {b : String} (hb : b ∈ biomes) : b ≠ "" := by
  rintro rfl
  exact absurd hb (by decide)

theorem selectBiome_mem (hr : ∀ n, 0 ≤ rnd n ∧ rnd n < 1) (fb : Option String)
    (hfb : ∀ b, fb = some b → b ∈ biomes) (w : World) : (selectBiome rnd fb w).1 ∈ biomes := by
  have hdraw : (if 0 ≤ jsFloor ((w.random rnd).1 * (biomes.length : ℚ)) then
      biomes.getD (jsFloor ((w.random rnd).1 * (biomes.length : ℚ))).toNat "undefined"
      else "undefined") ∈ biomes := by
    obtain ⟨h0, h1⟩ := hr w.draws
    have e : (w.random rnd).1 = rnd w.draws := rfl
    have hlen : (biomes.length : ℚ) = 5 := by simp [biomes]
    rw [e, hlen]
    have f0 : 0 ≤ jsFloor (rnd w.draws * 5) := by
      unfold jsFloor
      exact Int.floor_nonneg.mpr (by linarith)
    have f1 : jsFloor (rnd w.draws * 5) < 5 := by
      unfold jsFloor
      rw [Int.floor_lt]
      push_cast
      linarith
    rw [if_pos f0]
    have hn : (jsFloor (rnd w.draws * 5)).toNat < 5 := by omega
    generalize (jsFloor (rnd w.draws * 5)).toNat = n at hn
    interval_cases n <;> decide
  unfold selectBiome
  cases fb with
  | none => exact hdraw
  | some b =>
    have hb := hfb b rfl
    simp only [biome_ne_empty hb, if_false]
    exact hb

theorem allX_selectBiome (fb : Option String) {w : World} (h : w.AllX P) :
    (selectBiome rnd fb w).2.AllX P := by
  unfold selectBiome
  cases fb with
  | none => exact h.transfer P rfl rfl rfl rfl rfl rfl
  | some b => by_cases hb : b = "" <;> simp only [hb, if_true, if_false] <;>
      exact h.transfer P rfl rfl rfl rfl rfl rfl

/-- Each of the five configured biomes satisfies the layout conditions. -/
theorem layout_of_biome {b : String} (hb : b ∈ biomes) :
    ∃ plo phi : ℚ, LayoutOK ((BIOME_CONFIGS b).getD BIOME_CONFIGS_default)
      (if ((BIOME_CONFIGS b).getD BIOME_CONFIGS_default).buildingTypes.length ≠ 0 then
        ((BIOME_CONFIGS b).getD BIOME_CONFIGS_default).buildingTypes
        else BIOME_CONFIGS_default.buildingTypes) plo phi := by
  have key : ∀ (cfg : BiomeConfig) (k : String) (plo phi wlo whi : ℚ),
      (BIOME_CONFIGS b).getD BIOME_CONFIGS_default = cfg → cfg.buildingTypes = [k] →
      cfg.edgePaddingRange = some [plo, phi] → plo ≤ phi →
      ((BUILDING_TYPES k).getD BUILDING_TYPES_default).widthRange = some [wlo, whi] →
      60 ≤ wlo → wlo ≤ whi → whi + 2 * phi ≤ 480 →
      0 ≤ ((BUILDING_TYPES k).getD BUILDING_TYPES_default).overhang →
      ((BUILDING_TYPES k).getD BUILDING_TYPES_default).overhang + 1 / 2 < plo →
      ∃ plo phi : ℚ, LayoutOK ((BIOME_CONFIGS b).getD BIOME_CONFIGS_default)
        (if ((BIOME_CONFIGS b).getD BIOME_CONFIGS_default).buildingTypes.length ≠ 0 then
          ((BIOME_CONFIGS b).getD BIOME_CONFIGS_default).buildingTypes
          else BIOME_CONFIGS_default.buildingTypes) plo phi := by
    intro cfg k plo phi wlo whi e1 e2 e3 e4 e5 e6 e7 e8 e9 e10
    rw [e1, e2]
    refine ⟨plo, phi, e3, e4, ?_, ?_⟩
    · simp
    · intro key hkey
      have : key = k := by simpa using hkey
      rw [this]
      exact ⟨wlo, whi, e5, e6, e7, e8, e9, e10⟩
  simp only [biomes, List.mem_cons, List.mem_singleton, List.not_mem_nil, or_false] at hb
  rcases hb with rfl | rfl | rfl | rfl | rfl
  · exact key _ "slum_shack" 6 20 72 100 rfl rfl rfl (by norm_num) rfl (by norm_num)
      (by norm_num) (by norm_num) (by decide!) (by decide!)
  · exact key _ "noble_estate" 40 70 120 160 rfl rfl rfl (by norm_num) rfl (by norm_num)
      (by norm_num) (by norm_num) (by decide!) (by decide!)
  · exact key _ "town_square_hall" 120 120 140 160 rfl rfl rfl (by norm_num) rfl (by norm_num)
      (by norm_num) (by norm_num) (by decide!) (by decide!)
  · exact key _ "marketplace_stall" 25 40 64 96 rfl rfl rfl (by norm_num) rfl (by norm_num)
      (by norm_num) (by norm_num) (by decide!) (by decide!)
  · exact key _ "keep_tower" 80 100 160 200 rfl rfl rfl (by norm_num) rfl (by norm_num)
      (by norm_num) (by norm_num) (by decide!) (by decide!)

end Placement5

section Placement6

variable (E : JsMath) (rnd : ℕ → ℚ) (P : ℚ → Prop)

/-- The generation body for chunk `K` with one of the five configured biomes
adds only entities with `K * 480 ≤ x < (K + 1) * 480`. -/
theorem allX_generateChunkBody (hr : ∀ n, 0 ≤ rnd n ∧ rnd n < 1) (K : ℤ) (fb : Option String)
    (hfb : ∀ b, fb = some b → b ∈ biomes)
    (hP : ∀ t, (K : ℚ) * 480 ≤ t → t < ((K : ℚ) + 1) * 480 → P t) {w : World} (h : w.AllX P) :
    (generateChunkBody E rnd K fb w).AllX P := by
  have hP2 : ∀ t, (K : ℚ) * 480 ≤ t → t < (K : ℚ) * 480 + 480 → P t :=
    fun t h1 h2 => hP t h1 (by linarith)
  have h0 : ({ w with
      generatedChunks := w.generatedChunks ++ [K], bodyRuns := w.bodyRuns ++ [K] } : World).AllX P :=
    h.transfer P rfl rfl rfl rfl rfl rfl
  have hsel := selectBiome_mem rnd hr fb hfb { w with
      generatedChunks := w.generatedChunks ++ [K], bodyRuns := w.bodyRuns ++ [K] }
  have h1 := allX_selectBiome rnd P fb h0
  unfold generateChunkBody
  simp only [chunkSize]
  generalize selectBiome rnd fb { w with
      generatedChunks := w.generatedChunks ++ [K], bodyRuns := w.bodyRuns ++ [K] } = sel
    at hsel h1 ⊢
  obtain ⟨plo, phi, L⟩ := layout_of_biome hsel
  generalize (BIOME_CONFIGS sel.1).getD BIOME_CONFIGS_default = cfg at L ⊢
  generalize (if cfg.buildingTypes.length ≠ 0 then cfg.buildingTypes
    else BIOME_CONFIGS_default.buildingTypes) = types at L ⊢
  have h2 : ({ sel.2 with chunkBiomes := mapSet sel.2.chunkBiomes K sel.1 } : World).AllX P :=
    h1.transfer P rfl rfl rfl rfl rfl rfl
  generalize ({ sel.2 with chunkBiomes := mapSet sel.2.chunkBiomes K sel.1 } : World) = w1
    at h2 ⊢
  have hpad : plo ≤ (randomInRange rnd cfg.edgePaddingRange 40 w1).1 ∧
      (randomInRange rnd cfg.edgePaddingRange 40 w1).1 ≤ phi := by
    rw [L.padding]
    exact randomInRange_bounds rnd hr plo phi 40 L.plo_le w1
  have h3 := allX_randomInRange rnd P cfg.edgePaddingRange 40 h2
  generalize randomInRange rnd cfg.edgePaddingRange 40 w1 = pad at hpad h3 ⊢
  have h4 : (randomIntInRange rnd cfg.buildingCountRange 3 pad.2).2.AllX P :=
    allX_randomInRange rnd P cfg.buildingCountRange 3 h3
  generalize randomIntInRange rnd cfg.buildingCountRange 3 pad.2 = cnt at h4 ⊢
  obtain ⟨h5, h6⟩ := allX_buildingLoop E rnd P hr cfg types plo phi L sel.1 ((K : ℚ) * 480) hP2
    pad.1 hpad (max 1 cnt.1).toNat 0 ((K : ℚ) * 480 + pad.1) [] cnt.2 (le_refl _)
    (fun s hs => absurd hs (List.not_mem_nil s)) h4
  exact allX_placeChunkStreetFeatures rnd P hr cfg types plo phi L sel.1 _ hP2 _ h6 h5

theorem chunkOf_of_span (K : ℤ) (t : ℚ) (h1 : (K : ℚ) * 480 ≤ t) (h2 : t < ((K : ℚ) + 1) * 480) :
    chunkOf t = K :=
  chunkOf_eq h1 h2

theorem consistent_generateChunk (hr : ∀ n, 0 ≤ rnd n ∧ rnd n < 1) (K : ℤ)
    (fb : Option String) (hfb : ∀ b, fb = some b → b ∈ biomes) {w : World}
    (h : w.Consistent) : (generateChunk E rnd K fb w).Consistent := by
  have hg := congrArg Prod.fst (genRuns_generateChunk E rnd K fb w)
  simp only [World.genRuns] at hg
  unfold World.Consistent
  rw [hg]
  have hmono : w.AllX fun x => chunkOf x ∈ (genStep K (w.generatedChunks, w.bodyRuns)).1 :=
    World.AllX.mono _ h fun x hx => subset_genStep K _ _ hx
  unfold generateChunk
  split_ifs with hK
  · exact hmono
  · apply allX_generateChunkBody E rnd _ hr K fb hfb _ hmono
    intro t h1 h2
    rw [chunkOf_of_span K t h1 h2]
    exact self_mem_genStep K _

theorem consistent_generateChunksFrom (hr : ∀ n, 0 ≤ rnd n ∧ rnd n < 1) (n : ℕ) :
    ∀ (c : ℤ) (w : World), w.Consistent → (generateChunksFrom E rnd none n c w).Consistent := by
  induction n with
  | zero => intro _ w h; exact h
  | succ n ih =>
    intro c w h
    exact ih _ _ (consistent_generateChunk E rnd hr c none (fun b hb => by cases hb) h)

theorem consistent_cleanup (pc : ℤ) {w : World} (h : w.Consistent) :
    (cleanupDistantChunks pc w).Consistent := by
  obtain ⟨⟨e1, e2, e3, e4, e5, e6⟩, -⟩ := cleanupDistantChunks_registries w pc
  have hg := generatedChunks_cleanup pc w
  unfold World.Consistent
  rw [hg]
  constructor
  · intro e he
    rw [e1, List.mem_filter] at he
    exact List.mem_filter.mpr ⟨h.platforms e he.1, he.2⟩
  · intro e he
    rw [e2, List.mem_filter] at he
    exact List.mem_filter.mpr ⟨h.buildings e he.1, he.2⟩
  · intro e he
    rw [e3, List.mem_filter] at he
    exact List.mem_filter.mpr ⟨h.metalSources e he.1, he.2⟩
  · intro e he
    rw [e4, List.mem_filter] at he
    exact List.mem_filter.mpr ⟨h.streetLamps e he.1, he.2⟩
  · intro e he
    rw [e5, List.mem_filter] at he
    exact List.mem_filter.mpr ⟨h.groundMetals e he.1, he.2⟩
  · intro e he
    rw [e6, List.mem_filter] at he
    exact List.mem_filter.mpr ⟨h.trees e he.1, he.2⟩

theorem consistent_checkAndGenerate (hr : ∀ n, 0 ≤ rnd n ∧ rnd n < 1) (playerX : ℚ)
    {w : World} (h : w.Consistent) : (checkAndGenerate E rnd playerX w).Consistent := by
  unfold checkAndGenerate
  exact consistent_cleanup _ (consistent_generateChunksFrom E rnd hr _ _ _ h)

theorem consistent_new (hr : ∀ n, 0 ≤ rnd n ∧ rnd n < 1) : (World.new E rnd).Consistent := by
  have h0 : World.empty.Consistent := by
    constructor <;> intro e he <;> exact absurd he (List.not_mem_nil e)
  have hb : ∀ b0 : String, b0 ∈ biomes → ∀ b, some b0 = some b → b ∈ biomes := by
    intro b0 h0 b hb
    cases hb
    exact h0
  unfold World.new generateWorld
  simp only []
  have hw0 : ({ World.empty with
      platforms := [], metalSources := [], buildings := [], streetLamps := [],
      groundMetals := [], trees := [], chunkBiomes := [], generatedChunks := [] } :
        World).Consistent := h0
  exact consistent_generateChunk E rnd hr 3 _ (hb _ (by decide))
    (consistent_generateChunk E rnd hr 2 _ (hb _ (by decide))
    (consistent_generateChunk E rnd hr 1 _ (hb _ (by decide))
    (consistent_generateChunk E rnd hr 0 _ (hb _ (by decide))
    (consistent_generateChunk E rnd hr (-1) _ (hb _ (by decide))
    (consistent_generateChunk E rnd hr (-2) _ (hb _ (by decide))
    (consistent_generateChunk E rnd hr (-3) _ (hb _ (by decide)) hw0))))))

end Placement6

/-- C4. Registry/chunk consistency: in every world reached from `new World()`
by any sequence of `checkAndGenerate(playerX)` calls, for every outcome of the
random draws (each in `[0, 1)`), every entity of `platforms`, `buildings`,
`metalSources`, `streetLamps`, `groundMetals` and `trees` has its derived chunk
index `floor(x/480)` in `generatedChunks`. It rests on the second part: for
each of the five configured biomes (or a random one of them),
`generateChunk(K, biome)` adds only entities with `K*480 ≤ x < (K+1)*480`,
that is, any property of `x` that holds on that span and for the entities
already present holds for all entities afterwards. -/
theorem registry_chunk_consistency (E : JsMath) (rnd : ℕ → ℚ)
    (hr : ∀ n, 0 ≤ rnd n ∧ rnd n < 1) :
    (∀ xs : List ℚ, (runChecks E rnd xs).AllX fun x =>
      jsFloor (x / 480) ∈ (runChecks E rnd xs).generatedChunks) ∧
    (∀ (K : ℤ) (biome : Option String) (w : World) (P : ℚ → Prop),
      (∀ b, biome = some b → b ∈ biomes) →
      (∀ t, (K : ℚ) * 480 ≤ t → t < ((K : ℚ) + 1) * 480 → P t) →
      w.AllX P → (generateChunk E rnd K biome w).AllX P) := by
  constructor
  · intro xs
    show (runChecks E rnd xs).Consistent
    unfold runChecks
    have h0 := consistent_new E rnd hr
    generalize World.new E rnd = w at h0
    induction xs generalizing w with
    | nil => exact h0
    | cons x xs ih =>
      rw [List.foldl_cons]
      exact ih _ (consistent_checkAndGenerate E rnd hr x h0)
  · intro K biome w P hb hP h
    unfold generateChunk
    split_ifs
    · exact h
    · exact allX_generateChunkBody E rnd P hr K biome hb hP h

/-- C4, for the stream of draws that are all `1/2` and the walk
`1000, 9600, 0`. -/
theorem registry_chunk_consistency_witness :
    (∀ n : ℕ, (0 : ℚ) ≤ (fun _ => 1 / 2 : ℕ → ℚ) n ∧ (fun _ => 1 / 2 : ℕ → ℚ) n < 1) ∧
      (runChecks exactMath (fun _ => 1 / 2) [1000, 9600, 0]).AllX fun x =>
        jsFloor (x / 480) ∈ (runChecks exactMath (fun _ => 1 / 2) [1000, 9600, 0]).generatedChunks :=
  ⟨fun _ => by norm_num,
    (registry_chunk_consistency exactMath (fun _ => 1 / 2) (fun _ => by norm_num)).1
      [1000, 9600, 0]⟩

/-! ## Ground speed (C11, C12) -/

namespace Player

section SpeedCap

variable (E : JsMath)

theorem groundMove_vx_bounds (dt : ℚ) (keys : Keys) (c : Controller) (b : Bool) (p : Player) :
    -260 ≤ (groundMove dt keys c b p).vx ∧ (groundMove dt keys c b p).vx ≤ 260 := by
  have hb : ∀ v : ℚ, -260 ≤ clamp v (-maxSpeedX) maxSpeedX ∧ clamp v (-maxSpeedX) maxSpeedX ≤ 260 := by
    intro v
    have := @clamp_bounds v (-maxSpeedX) maxSpeedX (by unfold maxSpeedX; norm_num)
    unfold maxSpeedX at this ⊢
    exact this
  unfold groundMove
  simp only []
  split_ifs <;> exact hb _

/-- The air-sense step keeps `vx` within its own speed limit (1.5 or 2 times
`maxSpeedX`) when it starts within `maxSpeedX`. -/
theorem air_vx_bounds (dt ix iy : ℚ) (sh : Bool) (w : World) (p : Player)
    (hlo : -260 ≤ p.vx) (hhi : p.vx ≤ 260) :
    -(260 * (if sh = true then 2 else 3 / 2 : ℚ))
        ≤ (handleAirDirectionalAllomancy E dt ix iy sh w p).vx ∧
      (handleAirDirectionalAllomancy E dt ix iy sh w p).vx
        ≤ 260 * (if sh = true then 2 else 3 / 2 : ℚ) := by
  have hm : (0 : ℚ) ≤ 260 * (if sh = true then 2 else 3 / 2 : ℚ) - 260 := by
    split_ifs <;> norm_num
  have e : maxSpeedX * (if sh = true then 2 else 15 / 10 : ℚ)
      = 260 * (if sh = true then 2 else 3 / 2 : ℚ) := by
    unfold maxSpeedX; split_ifs <;> norm_num
  unfold handleAirDirectionalAllomancy
  simp only [e]
  split_ifs <;> first
    | exact ⟨by show _ ≤ p.vx; linarith, by show p.vx ≤ _; linarith⟩
    | exact ⟨le_max_left _ _, max_le (by linarith) (min_le_left _ _)⟩

theorem finishMove_vx (dt : ℚ) (keys : Keys) (c : Controller) (w : World) (p : Player) :
    (finishMove E dt keys c w p).vx =
      (handleAirDirectionalAllomancy E dt (combinedX keys c) (combinedY keys c)
        (shiftActive keys c) w p).vx := by
  unfold finishMove
  simp only []
  split_ifs <;> rfl

/-- While grounded `handleMovement` is the grounded branch followed by the
tail. -/
theorem handleMovement_grounded (dt : ℚ) (keys : Keys) (c : Controller) (w : World)
    (p : Player) (hg : p.onGround = true) :
    handleMovement E dt keys c w p =
      finishMove E dt keys c w
        (groundMove dt keys c (spacePressed keys c && !p.previousSpaceDown)
          { p with currentAllomancyShift := shiftActive keys c }) := by
  have h1 : ({ p with currentAllomancyShift := shiftActive keys c } : Player).onGround
      = true := hg
  unfold handleMovement
  simp only []
  rw [if_pos h1]

theorem groundMove_x (dt : ℚ) (keys : Keys) (c : Controller) (b : Bool) (p : Player) :
    (groundMove dt keys c b p).x = p.x ∧ (groundMove dt keys c b p).y = p.y := by
  unfold groundMove
  simp only []
  split_ifs <;> exact ⟨rfl, rfl⟩

end SpeedCap

section SpeedClaims

/-- C11. For every grounded player state, whatever its incoming `vx`, and an
input whose combined horizontal movement axis is zero (any vertical axis), with
neither push nor pull held, the horizontal velocity after one `update` lies in
`[-260, 260]`. -/
theorem grounded_speed_bound_zero_input (E : JsMath) (dt : ℚ) (keys : Keys) (mouse : Mouse)
    (c : Controller) (w : World) (camera : Camera) (p : Player) (hg : p.onGround = true)
    (hx : combinedX keys c = 0) (hpush : mouse.leftDown = false ∧ c.rightBumper = false)
    (hpull : mouse.rightDown = false ∧ c.leftBumper = false) :
    -260 ≤ (update E dt keys mouse c w camera p).vx ∧
      (update E dt keys mouse c w camera p).vx ≤ 260 := by
  have hg2 : (beginTick dt p).onGround = true := by rw [(beginTick_vx_onGround dt p).2, hg]
  rw [update_vx_idle E dt keys mouse c w camera p hpush hpull,
    handleMovement_vx_of_ground E dt keys c w _ hg2 hx]
  have := @clamp_bounds ((beginTick dt p).vx * groundFriction) (-maxSpeedX) maxSpeedX
    (by unfold maxSpeedX; norm_num)
  unfold maxSpeedX at this ⊢
  exact this

/-- C11 at a concrete input: a grounded player sliding at `vx = 400` with no
input ends the tick inside the bound. -/
theorem grounded_speed_bound_zero_input_witness :
    slidingPlayer.onGround = true ∧ combinedX Keys.none Controller.idle = 0 ∧
    -260 ≤ (update exactMath (1 / 60) Keys.none ⟨0, 0, false, false⟩ Controller.idle
      World.empty ⟨0, 0⟩ slidingPlayer).vx ∧
    (update exactMath (1 / 60) Keys.none ⟨0, 0, false, false⟩ Controller.idle
      World.empty ⟨0, 0⟩ slidingPlayer).vx ≤ 260 :=
  ⟨rfl, by decide!,
    grounded_speed_bound_zero_input exactMath (1 / 60) Keys.none ⟨0, 0, false, false⟩
      Controller.idle World.empty ⟨0, 0⟩ slidingPlayer rfl (by decide!) ⟨rfl, rfl⟩ ⟨rfl, rfl⟩⟩

/-- C12, refuted as stated. A grounded player running at `vx = 260` below a
lamp 99 pixels up holds the move-right key: `handleMovement` leaves
`vx = 264.25`, above `maxSpeedX`, because the air-sense step runs after the
cap of the grounded branch. -/
theorem grounded_speed_cap_exceeded :
    runningPlayer.onGround = true ∧ combinedX keysRight Controller.idle = 1 ∧
      (handleMovement exactMath (1 / 60) keysRight Controller.idle lampWorld runningPlayer).vx
        = 1057 / 4 ∧
      ¬ |(1057 / 4 : ℚ)| ≤ 260 := by
  refine ⟨rfl, by decide!, by decide!, ?_⟩
  norm_num [abs_le]

/-- C12, amended. For every grounded player state, every movement input and
every metal registry, `handleMovement` leaves `|vx| ≤ 260` when the combined
horizontal input is zero or no metal source is within `allomancyRange` of the
player; in general the air-sense step of the same call may add to the capped
velocity, and `|vx|` is at most `390` (`520` with shift). -/
theorem grounded_speed_cap (E : JsMath) (dt : ℚ) (keys : Keys) (c : Controller) (w : World)
    (p : Player) (hg : p.onGround = true) :
    |(handleMovement E dt keys c w p).vx|
        ≤ 260 * (if shiftActive keys c = true then 2 else 3 / 2 : ℚ) ∧
    ((combinedX keys c = 0 ∨ getNearbyMetalSources w p.x p.y allomancyRange = []) →
      |(handleMovement E dt keys c w p).vx| ≤ 260) := by
  have hb := groundMove_vx_bounds dt keys c (spacePressed keys c && !p.previousSpaceDown)
    { p with currentAllomancyShift := shiftActive keys c }
  have hxy := groundMove_x dt keys c (spacePressed keys c && !p.previousSpaceDown)
    { p with currentAllomancyShift := shiftActive keys c }
  rw [handleMovement_grounded E dt keys c w p hg, finishMove_vx]
  constructor
  · rw [abs_le]
    exact air_vx_bounds E dt _ _ _ w _ hb.1 hb.2
  · intro h
    rw [air_vx E dt _ _ _ w _ (by rw [hxy.1, hxy.2]; exact h) (by linarith) (by linarith),
      abs_le]
    exact hb

/-- C12, amended, at a concrete input: the running player of the
counterexample, away from every metal, stays at the cap. -/
theorem grounded_speed_cap_witness :
    runningPlayer.onGround = true ∧
    |(handleMovement exactMath (1 / 60) keysRight Controller.idle World.empty runningPlayer).vx|
      ≤ 260 :=
  ⟨rfl, (grounded_speed_cap exactMath (1 / 60) keysRight Controller.idle World.empty
    runningPlayer rfl).2 (Or.inr rfl)⟩

end SpeedClaims

end Player

/-! ## Collisions (C13, C14) -/

namespace Player

section Collide

theorem collideStep_bottom (r : List (ℚ × ℚ)) (p : Player) (pf : Platform)
    (h : p.y + height / 2 ≤ getGroundY) : (collideStep r p pf).y + height / 2 ≤ getGroundY := by
  unfold collideStep
  split_ifs with h1 h2
  · exact h
  · have hc := h2.1
    unfold checkPlatformCollision at hc
    rw [decide_eq_true_iff] at hc
    show pf.y - height / 2 + height / 2 ≤ getGroundY
    linarith [hc.2.2.1]
  · exact h

theorem foldl_collideStep_bottom (r : List (ℚ × ℚ)) (l : List Platform) (p : Player)
    (h : p.y + height / 2 ≤ getGroundY) :
    (l.foldl (collideStep r) p).y + height / 2 ≤ getGroundY := by
  induction l generalizing p with
  | nil => exact h
  | cons a l ih => rw [List.foldl_cons]; exact ih _ (collideStep_bottom r p a h)

theorem collideStep_at_rest (r : List (ℚ × ℚ)) (p : Player) (pf : Platform) (h : p.vy = 0) :
    collideStep r p pf = p := by
  unfold collideStep
  split_ifs with h1 h2
  · rfl
  · rw [h] at h2; exact absurd h2.2.1 (lt_irrefl 0)
  · rfl

theorem foldl_collideStep_at_rest (r : List (ℚ × ℚ)) (l : List Platform) (p : Player)
    (h : p.vy = 0) : l.foldl (collideStep r) p = p := by
  induction l with
  | nil => rfl
  | cons a l ih => rw [List.foldl_cons, collideStep_at_rest r p a h, ih]

theorem collideStep_x (r : List (ℚ × ℚ)) (p : Player) (pf : Platform) :
    (collideStep r p pf).x = p.x := by
  unfold collideStep
  split_ifs <;> rfl

/-- Where the chunk filter lets a platform through, or the platform does not
overlap the player horizontally, the filtered step is the unfiltered step. -/
theorem collideStep_eq_all (r : List (ℚ × ℚ)) (p : Player) (pf : Platform)
    (h : (p.x + width / 2 > pf.x ∧ p.x - width / 2 < pf.x + pf.width) →
      r.any (fun range => decide (pf.x + pf.width > range.1 ∧ pf.x < range.2)) = true) :
    collideStep r p pf = collideStepAll p pf := by
  unfold collideStep collideStepAll
  by_cases hf : r.any (fun range => decide (pf.x + pf.width > range.1 ∧ pf.x < range.2)) = false
  · rw [if_pos hf]
    have hx : ¬ (p.x + width / 2 > pf.x ∧ p.x - width / 2 < pf.x + pf.width) := by
      intro hx
      rw [h hx] at hf
      exact Bool.noConfusion hf
    have hc : ¬ (p.checkPlatformCollision pf = true ∧ p.vy > 0 ∧ p.y - height / 2 < pf.y) := by
      rintro ⟨hc, -⟩
      unfold checkPlatformCollision at hc
      rw [decide_eq_true_iff] at hc
      exact hx ⟨hc.1, hc.2.1⟩
    rw [if_neg hc]
  · rw [if_neg hf]

theorem floor_chunk (x : ℚ) :
    (jsFloor (x / chunkSize) : ℚ) * chunkSize ≤ x ∧
      x < (jsFloor (x / chunkSize) : ℚ) * chunkSize + chunkSize := by
  have h1 := Int.floor_le (x / chunkSize)
  have h2 := Int.lt_floor_add_one (x / chunkSize)
  unfold jsFloor chunkSize at *
  constructor
  · have := (le_div_iff₀ (by norm_num : (0 : ℚ) < 480)).mp h1
    linarith
  · have := (div_lt_iff₀ (by norm_num : (0 : ℚ) < 480)).mp h2
    linarith

/-- Two chunks whose spans are less than a chunk apart are neighbours or
equal. -/
theorem chunk_le_succ (a b : ℤ) (h : (a : ℚ) * chunkSize < (b : ℚ) * chunkSize + 2 * chunkSize) :
    (a : ℚ) * chunkSize ≤ (b : ℚ) * chunkSize + chunkSize := by
  unfold chunkSize at *
  have h1 : (a : ℚ) < (b : ℚ) + 2 := by linarith
  have h2 : a < b + 2 := by exact_mod_cast h1
  have h3 : a ≤ b + 1 := by omega
  have h4 : (a : ℚ) ≤ (b : ℚ) + 1 := by exact_mod_cast h3
  linarith

/-- With the trailing edge inside the current chunk, a platform of positive
width that overlaps the player horizontally passes the chunk filter. -/
theorem filter_passes (p : Player) (pf : Platform) (ht : trailingEdgeInChunk p)
    (hw : 0 < pf.width) (hx : p.x + width / 2 > pf.x ∧ p.x - width / 2 < pf.x + pf.width) :
    (collisionChunkRanges p).any
      (fun range => decide (pf.x + pf.width > range.1 ∧ pf.x < range.2)) = true := by
  have hr : collisionChunkRanges p =
      if jsFloor ((if travelDirection p ≥ 0 then p.x + width / 2 else p.x - width / 2) / chunkSize)
          = jsFloor (p.x / chunkSize) then
        [((jsFloor (p.x / chunkSize) : ℚ) * chunkSize,
          (jsFloor (p.x / chunkSize) : ℚ) * chunkSize + chunkSize)]
      else
        [((jsFloor (p.x / chunkSize) : ℚ) * chunkSize,
          (jsFloor (p.x / chunkSize) : ℚ) * chunkSize + chunkSize),
         ((jsFloor ((if travelDirection p ≥ 0 then p.x + width / 2 else p.x - width / 2)
            / chunkSize) : ℚ) * chunkSize,
          (jsFloor ((if travelDirection p ≥ 0 then p.x + width / 2 else p.x - width / 2)
            / chunkSize) : ℚ) * chunkSize + chunkSize)] := rfl
  rw [hr]
  obtain ⟨c1, c2⟩ := floor_chunk p.x
  unfold trailingEdgeInChunk at ht
  obtain ⟨hx1, hx2⟩ := hx
  have hwd : width = 20 := rfl
  have hcs : chunkSize = 480 := rfl
  by_cases hd : travelDirection p ≥ 0
  · rw [if_pos hd] at ht
    simp only [if_pos hd]
    obtain ⟨m1, m2⟩ := floor_chunk (p.x + width / 2)
    generalize jsFloor ((p.x + width / 2) / chunkSize) = M at m1 m2 ⊢
    generalize jsFloor (p.x / chunkSize) = C at c1 c2 ht ⊢
    have hMC := chunk_le_succ M C (by rw [hwd, hcs] at *; linarith)
    split_ifs with e
    · subst e
      simp only [List.any_cons, List.any_nil, Bool.or_false, decide_eq_true_iff]
      constructor <;> linarith
    · simp only [List.any_cons, List.any_nil, Bool.or_false, Bool.or_eq_true, decide_eq_true_iff]
      by_cases hs : pf.x < (C : ℚ) * chunkSize + chunkSize
      · exact Or.inl ⟨by linarith, hs⟩
      · exact Or.inr ⟨by linarith, by linarith⟩
  · rw [if_neg hd] at ht
    simp only [if_neg hd]
    obtain ⟨m1, m2⟩ := floor_chunk (p.x - width / 2)
    generalize jsFloor ((p.x - width / 2) / chunkSize) = M at m1 m2 ⊢
    generalize jsFloor (p.x / chunkSize) = C at c1 c2 ht ⊢
    have hCM := chunk_le_succ C M (by rw [hwd, hcs] at *; linarith)
    split_ifs with e
    · subst e
      simp only [List.any_cons, List.any_nil, Bool.or_false, decide_eq_true_iff]
      constructor <;> linarith
    · simp only [List.any_cons, List.any_nil, Bool.or_false, Bool.or_eq_true, decide_eq_true_iff]
      by_cases hs : pf.x + pf.width > (C : ℚ) * chunkSize
      · exact Or.inl ⟨hs, by linarith⟩
      · exact Or.inr ⟨by linarith, by linarith⟩

theorem foldl_collideStep_eq_all (p : Player) (ht : trailingEdgeInChunk p) (l : List Platform)
    (hw : ∀ pf ∈ l, 0 < pf.width) (q : Player) (hq : q.x = p.x) :
    l.foldl (collideStep (collisionChunkRanges p)) q = l.foldl collideStepAll q := by
  induction l generalizing q with
  | nil => rfl
  | cons a l ih =>
    have ha := hw a (List.mem_cons_self _ _)
    have hstep : collideStep (collisionChunkRanges p) q a = collideStepAll q a :=
      collideStep_eq_all _ q a fun hx => filter_passes p a ht ha (by rw [← hq]; exact hx)
    rw [List.foldl_cons, List.foldl_cons, ← hstep]
    exact ih (fun pf hpf => hw pf (List.mem_cons_of_mem _ hpf)) _
      (by rw [collideStep_x, hq])

end Collide

section CollideClaims

/-- C13. For every player state and every platform list, after
`checkCollisions` the bottom edge `y + height/2` is at most `groundY`; and when
the incoming bottom edge is at or below `groundY` the result has
`y = groundY - height/2`, `vy = 0`, `onGround = true` and
`hasJumpedSinceGround = false`, whatever the platforms are. -/
theorem ground_collision (w : World) (p : Player) :
    (checkCollisions w p).y + height / 2 ≤ getGroundY ∧
    (p.y + height / 2 ≥ getGroundY →
      (checkCollisions w p).y = getGroundY - height / 2 ∧ (checkCollisions w p).vy = 0 ∧
      (checkCollisions w p).onGround = true ∧
      (checkCollisions w p).hasJumpedSinceGround = false) := by
  constructor
  · unfold checkCollisions
    simp only []
    apply foldl_collideStep_bottom
    split_ifs with h
    · show getGroundY - height / 2 + height / 2 ≤ getGroundY
      linarith
    · show p.y + height / 2 ≤ getGroundY
      exact le_of_lt (not_le.mp h)
  · intro h
    have h1 : ({ p with onGround := false } : Player).y + height / 2 ≥ getGroundY := h
    unfold checkCollisions
    simp only []
    rw [if_pos h1, foldl_collideStep_at_rest _ _ _ rfl]
    exact ⟨rfl, rfl, rfl, rfl⟩

/-- C13 at a concrete input: a player who has sunk below the ground plane
next to `ledge` is put back on the ground. -/
theorem ground_collision_witness :
    (fallingPlayer.y + 400) + height / 2 ≥ getGroundY ∧
    (checkCollisions ledgeWorld { fallingPlayer with y := fallingPlayer.y + 400 }).y = 584 := by
  refine ⟨by decide!, ?_⟩
  rw [((ground_collision ledgeWorld { fallingPlayer with y := fallingPlayer.y + 400 }).2
    (by decide!)).1]
  decide!

/-- C14, refuted as stated. A player falling at `x = 2` (chunk 0), heading
right, overlaps a ledge that ends at `x = -5` in chunk -1: the chunk filter
skips the ledge and the player keeps falling, while the unfiltered variant
lands the player on it. -/
theorem chunk_filter_skips_ledge :
    (checkCollisions ledgeWorld fallingPlayer).onGround = false ∧
      (checkCollisions ledgeWorld fallingPlayer).y = 300 ∧
      (checkCollisionsAll ledgeWorld fallingPlayer).onGround = true ∧
      (checkCollisionsAll ledgeWorld fallingPlayer).y = 294 := by
  decide!

/-- C14, amended. When the trailing edge of the player's box lies in the
player's current chunk and every platform has positive width,
`checkCollisions` returns the same state as the variant that tests every
platform without the chunk filter. -/
theorem chunk_filter_is_optimization (w : World) (p : Player) (ht : trailingEdgeInChunk p)
    (hw : ∀ pf ∈ w.platforms, 0 < pf.width) :
    checkCollisions w p = checkCollisionsAll w p := by
  unfold checkCollisions checkCollisionsAll
  simp only []
  split_ifs with h
  · exact foldl_collideStep_eq_all p ht w.platforms hw _ rfl
  · exact foldl_collideStep_eq_all p ht w.platforms hw _ rfl

/-- C14, amended, at a concrete input: the falling player twenty pixels
further right, with the ledge reaching under it. -/
theorem chunk_filter_is_optimization_witness :
    checkCollisions { World.empty with platforms := [{ ledge with width := 80 }] }
        { fallingPlayer with x := 22 }
      = checkCollisionsAll { World.empty with platforms := [{ ledge with width := 80 }] }
        { fallingPlayer with x := 22 } ∧
    (checkCollisions { World.empty with platforms := [{ ledge with width := 80 }] }
        { fallingPlayer with x := 22 }).onGround = true :=
  ⟨chunk_filter_is_optimization _ _ (by decide!) (by decide!), by decide!⟩

end CollideClaims

end Player
/-! ## Push and pull (C15, C16, C17) -/

namespace Player

section PushPull

variable (E : JsMath)

theorem handleAllomancy_eq_apply (mouse : Mouse) (c : Controller) (w : World) (camera : Camera)
    (p : Player) :
    handleAllomancy E mouse c w camera p = applyAllomancy E (lockTargets E mouse c w camera p) :=
  rfl

/-- The fields that `updateTargeter` never writes. -/
theorem updateTargeter_frame (mouse : Mouse) (c : Controller) (w : World) (camera : Camera)
    (p : Player) :
    (updateTargeter E mouse c w camera p).x = p.x ∧
    (updateTargeter E mouse c w camera p).y = p.y ∧
    (updateTargeter E mouse c w camera p).vx = p.vx ∧
    (updateTargeter E mouse c w camera p).vy = p.vy ∧
    (updateTargeter E mouse c w camera p).steelTarget = p.steelTarget ∧
    (updateTargeter E mouse c w camera p).ironTarget = p.ironTarget ∧
    (updateTargeter E mouse c w camera p).allomancyStrength = p.allomancyStrength := by
  unfold updateTargeter
  simp only []
  split <;> exact ⟨rfl, rfl, rfl, rfl, rfl, rfl, rfl⟩

theorem steelBlock_fields (b : Bool) (pref cand : Option MetalSource) (bumper : Bool)
    (p : Player) :
    (steelBlock E b pref cand bumper p).x = p.x ∧
    (steelBlock E b pref cand bumper p).y = p.y ∧
    (steelBlock E b pref cand bumper p).vx = p.vx ∧
    (steelBlock E b pref cand bumper p).vy = p.vy ∧
    (steelBlock E b pref cand bumper p).ironTarget = p.ironTarget ∧
    (steelBlock E b pref cand bumper p).steelTarget =
      (if b = true then acquireTarget p.steelTarget pref cand bumper else none) ∧
    (steelBlock E b pref cand bumper p).allomancyStrength =
      (match (steelBlock E b pref cand bumper p).steelTarget with
        | some ts => max (1 / 10) (1 - distanceTo E p ts / allomancyRange)
        | none => p.allomancyStrength) := by
  unfold steelBlock
  cases b
  · exact ⟨rfl, rfl, rfl, rfl, rfl, rfl, rfl⟩
  · simp only [if_true]
    generalize acquireTarget p.steelTarget pref cand bumper = a
    cases a <;> exact ⟨rfl, rfl, rfl, rfl, rfl, rfl, rfl⟩

theorem ironBlock_fields (b : Bool) (pref cand : Option MetalSource) (bumper : Bool)
    (p : Player) :
    (ironBlock E b pref cand bumper p).x = p.x ∧
    (ironBlock E b pref cand bumper p).y = p.y ∧
    (ironBlock E b pref cand bumper p).vx = p.vx ∧
    (ironBlock E b pref cand bumper p).vy = p.vy ∧
    (ironBlock E b pref cand bumper p).steelTarget = p.steelTarget ∧
    (ironBlock E b pref cand bumper p).ironTarget =
      (if b = true then acquireTarget p.ironTarget pref cand bumper else none) ∧
    (ironBlock E b pref cand bumper p).allomancyStrength =
      (match (ironBlock E b pref cand bumper p).ironTarget with
        | some ti => max (1 / 10) (1 - distanceTo E p ti / allomancyRange)
        | none => p.allomancyStrength) := by
  unfold ironBlock
  cases b
  · exact ⟨rfl, rfl, rfl, rfl, rfl, rfl, rfl⟩
  · simp only [if_true]
    generalize acquireTarget p.ironTarget pref cand bumper = a
    cases a <;> exact ⟨rfl, rfl, rfl, rfl, rfl, rfl, rfl⟩

theorem distanceTo_congr (p q : Player) (t : MetalSource) (hx : q.x = p.x) (hy : q.y = p.y) :
    distanceTo E q t = distanceTo E p t := by
  unfold distanceTo
  rw [hx, hy]

/-- The position, the velocity, the targets and the strength that the
targeting part of `handleAllomancy` leaves. -/
theorem lockTargets_fields (mouse : Mouse) (c : Controller) (w : World) (camera : Camera)
    (p : Player) :
    (lockTargets E mouse c w camera p).x = p.x ∧
    (lockTargets E mouse c w camera p).y = p.y ∧
    (lockTargets E mouse c w camera p).vx = p.vx ∧
    (lockTargets E mouse c w camera p).vy = p.vy ∧
    (lockTargets E mouse c w camera p).steelTarget =
      (if (mouse.leftDown || c.rightBumper) = true then
        acquireTarget p.steelTarget (updateTargeter E mouse c w camera p).targetedMetal
          (targetCandidate c.rightBumper (updateTargeter E mouse c w camera p).targetedMetal
            (closestMetal E w (mouse.x + camera.x) (mouse.y + camera.y)))
          c.rightBumper
       else none) ∧
    (lockTargets E mouse c w camera p).ironTarget =
      (if (mouse.rightDown || c.leftBumper) = true then
        acquireTarget p.ironTarget (updateTargeter E mouse c w camera p).targetedMetal
          (targetCandidate c.leftBumper (updateTargeter E mouse c w camera p).targetedMetal
            (closestMetal E w (mouse.x + camera.x) (mouse.y + camera.y)))
          c.leftBumper
       else none) ∧
    (lockTargets E mouse c w camera p).allomancyStrength =
      (match (lockTargets E mouse c w camera p).ironTarget,
          (lockTargets E mouse c w camera p).steelTarget with
        | some ti, _ => max (1 / 10) (1 - distanceTo E p ti / allomancyRange)
        | none, some ts => max (1 / 10) (1 - distanceTo E p ts / allomancyRange)
        | none, none => p.allomancyStrength) := by
  obtain ⟨hx, hy, hvx, hvy, hs, hi, ha⟩ := updateTargeter_frame E mouse c w camera p
  unfold lockTargets
  simp only []
  generalize updateTargeter E mouse c w camera p = u at hx hy hvx hvy hs hi ha ⊢
  generalize closestMetal E w (mouse.x + camera.x) (mouse.y + camera.y) = cm
  obtain ⟨s1, s2, s3, s4, s5, s6, s7⟩ := steelBlock_fields E (mouse.leftDown || c.rightBumper)
    u.targetedMetal (targetCandidate c.rightBumper u.targetedMetal cm) c.rightBumper u
  generalize steelBlock E (mouse.leftDown || c.rightBumper)
    u.targetedMetal (targetCandidate c.rightBumper u.targetedMetal cm) c.rightBumper u = v
    at s1 s2 s3 s4 s5 s6 s7 ⊢
  obtain ⟨i1, i2, i3, i4, i5, i6, i7⟩ := ironBlock_fields E (mouse.rightDown || c.leftBumper)
    u.targetedMetal (targetCandidate c.leftBumper u.targetedMetal cm) c.leftBumper v
  generalize ironBlock E (mouse.rightDown || c.leftBumper)
    u.targetedMetal (targetCandidate c.leftBumper u.targetedMetal cm) c.leftBumper v = z
    at i1 i2 i3 i4 i5 i6 i7 ⊢
  refine ⟨by rw [i1, s1, hx], by rw [i2, s2, hy], by rw [i3, s3, hvx], by rw [i4, s4, hvy],
    by rw [i5, s6, hs], by rw [i6, s5, hi], ?_⟩
  rw [i7, i5]
  have e1 : ∀ t, distanceTo E v t = distanceTo E p t := fun t =>
    distanceTo_congr E p v t (by rw [s1, hx]) (by rw [s2, hy])
  have e2 : ∀ t, distanceTo E u t = distanceTo E p t := fun t =>
    distanceTo_congr E p u t hx hy
  cases hz : z.ironTarget with
  | some ti => simp only [e1]
  | none =>
    simp only [s7]
    cases hv : v.steelTarget with
    | some ts => simp only [e2]
    | none => simp only [ha]

theorem applyForce_pos (dx dy force : ℚ) (p : Player) (h : 0 < E.sqrt (dx * dx + dy * dy)) :
    applyForce E dx dy force p =
      { p with
        vx := p.vx + dx / E.sqrt (dx * dx + dy * dy) * force * (16 / 1000)
        vy := p.vy + dy / E.sqrt (dx * dx + dy * dy) * force * (16 / 1000) } := by
  unfold applyForce
  simp only []
  rw [if_pos h]

theorem applyForce_frame (dx dy force : ℚ) (p : Player) :
    (applyForce E dx dy force p).x = p.x ∧ (applyForce E dx dy force p).y = p.y ∧
    (applyForce E dx dy force p).steelTarget = p.steelTarget ∧
    (applyForce E dx dy force p).ironTarget = p.ironTarget := by
  unfold applyForce
  simp only []
  split_ifs <;> exact ⟨rfl, rfl, rfl, rfl⟩

theorem applyAllomancy_targets (p : Player) :
    (applyAllomancy E p).steelTarget = p.steelTarget ∧
      (applyAllomancy E p).ironTarget = p.ironTarget := by
  unfold applyAllomancy
  simp only []
  cases hs : p.steelTarget with
  | none =>
    simp only []
    cases hi : p.ironTarget with
    | none => exact ⟨hs, hi⟩
    | some ti =>
      simp only []
      rw [(applyForce_frame E _ _ _ p).2.2.1, (applyForce_frame E _ _ _ p).2.2.2]
      exact ⟨hs, hi⟩
  | some ts =>
    simp only []
    obtain ⟨-, -, f3, f4⟩ := applyForce_frame E (p.x - ts.x) (p.y - ts.y)
      (airAllomancyForce * 2 * p.allomancyStrength) p
    cases hi : (applyForce E (p.x - ts.x) (p.y - ts.y)
        (airAllomancyForce * 2 * p.allomancyStrength) p).ironTarget with
    | none =>
      simp only []
      exact ⟨by rw [f3, hs], by rw [hi, ← f4, hi]⟩
    | some ti =>
      simp only []
      rw [(applyForce_frame E _ _ _ _).2.2.1, (applyForce_frame E _ _ _ _).2.2.2]
      exact ⟨by rw [f3, hs], by rw [hi, ← f4, hi]⟩

theorem sqrt_push (p : Player) (t : MetalSource) :
    E.sqrt ((p.x - t.x) * (p.x - t.x) + (p.y - t.y) * (p.y - t.y)) = distanceTo E p t := by
  unfold distanceTo
  congr 1
  ring

/-- The velocity after `applyAllomancy` with a push target only. -/
theorem applyAllomancy_push (p : Player) (ts : MetalSource) (hs : p.steelTarget = some ts)
    (hi : p.ironTarget = none) (hd : 0 < distanceTo E p ts) :
    (applyAllomancy E p).vx = p.vx + (p.x - ts.x) / distanceTo E p ts *
        (airAllomancyForce * 2 * p.allomancyStrength) * (16 / 1000) ∧
    (applyAllomancy E p).vy = p.vy + (p.y - ts.y) / distanceTo E p ts *
        (airAllomancyForce * 2 * p.allomancyStrength) * (16 / 1000) := by
  have hd2 : 0 < E.sqrt ((p.x - ts.x) * (p.x - ts.x) + (p.y - ts.y) * (p.y - ts.y)) := by
    rw [sqrt_push]; exact hd
  unfold applyAllomancy
  simp only [hs]
  rw [applyForce_pos E _ _ _ p hd2]
  simp only [hi, sqrt_push]
  exact ⟨trivial, trivial⟩

/-- The velocity after `applyAllomancy` with a pull target only. -/
theorem applyAllomancy_pull (p : Player) (ti : MetalSource) (hs : p.steelTarget = none)
    (hi : p.ironTarget = some ti) (hd : 0 < distanceTo E p ti) :
    (applyAllomancy E p).vx = p.vx + (ti.x - p.x) / distanceTo E p ti *
        (airAllomancyForce * 2 * p.allomancyStrength) * (16 / 1000) ∧
    (applyAllomancy E p).vy = p.vy + (ti.y - p.y) / distanceTo E p ti *
        (airAllomancyForce * 2 * p.allomancyStrength) * (16 / 1000) := by
  have hd2 : 0 < E.sqrt ((ti.x - p.x) * (ti.x - p.x) + (ti.y - p.y) * (ti.y - p.y)) := hd
  unfold applyAllomancy
  simp only [hs, hi]
  rw [applyForce_pos E _ _ _ p hd2]
  exact ⟨rfl, rfl⟩

/-- The velocity after `applyAllomancy` with both targets: both forces use the
one strength field. -/
theorem applyAllomancy_both (p : Player) (ts ti : MetalSource) (hs : p.steelTarget = some ts)
    (hi : p.ironTarget = some ti) (hds : 0 < distanceTo E p ts) (hdi : 0 < distanceTo E p ti) :
    (applyAllomancy E p).vx = p.vx + (p.x - ts.x) / distanceTo E p ts *
        (airAllomancyForce * 2 * p.allomancyStrength) * (16 / 1000) +
      (ti.x - p.x) / distanceTo E p ti *
        (airAllomancyForce * 2 * p.allomancyStrength) * (16 / 1000) ∧
    (applyAllomancy E p).vy = p.vy + (p.y - ts.y) / distanceTo E p ts *
        (airAllomancyForce * 2 * p.allomancyStrength) * (16 / 1000) +
      (ti.y - p.y) / distanceTo E p ti *
        (airAllomancyForce * 2 * p.allomancyStrength) * (16 / 1000) := by
  have hd2 : 0 < E.sqrt ((p.x - ts.x) * (p.x - ts.x) + (p.y - ts.y) * (p.y - ts.y)) := by
    rw [sqrt_push]; exact hds
  have hd3 : 0 < E.sqrt ((ti.x - p.x) * (ti.x - p.x) + (ti.y - p.y) * (ti.y - p.y)) := hdi
  unfold applyAllomancy
  simp only [hs]
  rw [applyForce_pos E _ _ _ p hd2]
  simp only [hi]
  rw [applyForce_pos E _ _ _ _ hd3]
  simp only [sqrt_push]
  exact ⟨rfl, rfl⟩

theorem acquireTarget_held (t : MetalSource) (pref cand : Option MetalSource) :
    acquireTarget (some t) pref cand false = some t := by
  unfold acquireTarget
  cases pref <;> simp

theorem acquireTarget_none (pref cand : Option MetalSource) (bumper : Bool) :
    acquireTarget none pref cand bumper = cand := by
  unfold acquireTarget
  cases cand <;> rfl

end PushPull

end Player
namespace Player

section Closest

variable (E : JsMath)

/-- The closest-metal loop returns what `ClosestAt` describes, with the
distance of the returned metal. -/
theorem closest_fold (ax ay : ℚ) (l : List MetalSource) :
    (∀ t d, l.foldl (closestStep E ax ay) none = some (t, d) →
      d = aimDistance E ax ay t ∧ ClosestAt E ax ay l (some t)) ∧
    (l.foldl (closestStep E ax ay) none = none → ClosestAt E ax ay l none) := by
  induction l using List.reverseRecOn with
  | nil =>
    refine ⟨fun t d h => ?_, fun _ m hm => ?_⟩
    · exact Option.noConfusion h
    · exact absurd hm (List.not_mem_nil m)
  | append_singleton l a ih =>
    rw [List.foldl_append, List.foldl_cons, List.foldl_nil]
    have hdist : E.sqrt ((a.x - ax) * (a.x - ax) + (a.y - ay) * (a.y - ay))
        = aimDistance E ax ay a := rfl
    cases hb : l.foldl (closestStep E ax ay) none with
    | none =>
      have hfar := ih.2 hb
      unfold closestStep
      simp only [hdist]
      by_cases hlt : aimDistance E ax ay a < allomancyRange
      · rw [if_pos hlt]
        refine ⟨fun t d h => ?_, fun h => Option.noConfusion h⟩
        have h1 := Option.some.inj h
        have ht : a = t := congrArg Prod.fst h1
        have hd : aimDistance E ax ay a = d := congrArg Prod.snd h1
        subst ht
        refine ⟨hd.symm, hlt, l, [], rfl, fun m hm => ?_, fun m hm => ?_⟩
        · exact lt_of_lt_of_le hlt (hfar m hm)
        · exact absurd hm (List.not_mem_nil m)
      · rw [if_neg hlt]
        refine ⟨fun t d h => Option.noConfusion h, fun _ m hm => ?_⟩
        rcases List.mem_append.mp hm with hm | hm
        · exact hfar m hm
        · rw [List.mem_singleton.mp hm]
          exact not_lt.mp hlt
    | some b =>
      obtain ⟨t0, d0⟩ := b
      obtain ⟨hd0, hlt0, l1, l2, hl, h1, h2⟩ := ih.1 t0 d0 hb
      unfold closestStep
      simp only [hdist]
      by_cases hlt : aimDistance E ax ay a < allomancyRange ∧ aimDistance E ax ay a < d0
      · rw [if_pos hlt]
        refine ⟨fun t d h => ?_, fun h => Option.noConfusion h⟩
        have h3 := Option.some.inj h
        have ht : a = t := congrArg Prod.fst h3
        have hd : aimDistance E ax ay a = d := congrArg Prod.snd h3
        subst ht
        refine ⟨hd.symm, hlt.1, l, [], rfl, fun m hm => ?_, fun m hm => ?_⟩
        · have ha0 : aimDistance E ax ay a < aimDistance E ax ay t0 := by
            rw [← hd0]; exact hlt.2
          rw [hl] at hm
          rcases List.mem_append.mp hm with hm | hm
          · exact lt_trans ha0 (h1 m hm)
          · rcases List.mem_cons.mp hm with hm | hm
            · rw [hm]; exact ha0
            · exact lt_of_lt_of_le ha0 (h2 m hm)
        · exact absurd hm (List.not_mem_nil m)
      · rw [if_neg hlt]
        refine ⟨fun t d h => ?_, fun h => Option.noConfusion h⟩
        have h3 := Option.some.inj h
        have ht : t0 = t := congrArg Prod.fst h3
        have hd : d0 = d := congrArg Prod.snd h3
        subst ht
        subst hd
        refine ⟨hd0, hlt0, l1, l2 ++ [a], by rw [hl]; simp, h1, fun m hm => ?_⟩
        rcases List.mem_append.mp hm with hm | hm
        · exact h2 m hm
        · rw [List.mem_singleton.mp hm]
          by_cases hr : aimDistance E ax ay a < allomancyRange
          · have := not_lt.mp fun hh => hlt ⟨hr, hh⟩
            rw [hd0] at this
            exact this
          · exact le_trans (le_of_lt hlt0) (not_lt.mp hr)

theorem closestMetal_spec (w : World) (ax ay : ℚ) :
    ClosestAt E ax ay w.metalSources (closestMetal E w ax ay) := by
  obtain ⟨h1, h2⟩ := closest_fold E ax ay w.metalSources
  unfold closestMetal
  cases hb : w.metalSources.foldl (closestStep E ax ay) none with
  | none => exact h2 hb
  | some b =>
    obtain ⟨t, d⟩ := b
    exact (h1 t d hb).2

theorem closestMetal_of_far (w : World) (ax ay : ℚ)
    (h : ∀ m ∈ w.metalSources, allomancyRange ≤ aimDistance E ax ay m) :
    closestMetal E w ax ay = none := by
  have hs := closestMetal_spec E w ax ay
  cases hc : closestMetal E w ax ay with
  | none => rfl
  | some t =>
    rw [hc] at hs
    obtain ⟨hlt, l1, l2, hl, -, -⟩ := hs
    have ht : t ∈ w.metalSources := by rw [hl]; simp
    exact absurd hlt (not_lt.mpr (h t ht))

end Closest

end Player
namespace Player

section PushPull2

variable (E : JsMath)

theorem unit_vector_sq (dx dy d S : ℚ) (hd : 0 < d) (h : d * d = dx * dx + dy * dy) :
    (dx / d * S) ^ 2 + (dy / d * S) ^ 2 = S ^ 2 := by
  have hne : d ≠ 0 := ne_of_gt hd
  field_simp
  linear_combination (-(S ^ 2)) * h

/-- A steel half that acquires nothing does what the released steel half
does. -/
theorem steelBlock_none (pref cand : Option MetalSource) (bumper : Bool) (p : Player)
    (h : acquireTarget p.steelTarget pref cand bumper = none) :
    steelBlock E true pref cand bumper p = steelBlock E false pref cand bumper p := by
  unfold steelBlock
  simp only [if_true, Bool.false_eq_true, if_false, h]

/-- An iron half that acquires nothing does what the released iron half
does. -/
theorem ironBlock_none (pref cand : Option MetalSource) (bumper : Bool) (p : Player)
    (h : acquireTarget p.ironTarget pref cand bumper = none) :
    ironBlock E true pref cand bumper p = ironBlock E false pref cand bumper p := by
  unfold ironBlock
  simp only [if_true, Bool.false_eq_true, if_false, h]

end PushPull2

section PushPullClaims

/-- C15 (code defect). A player at the origin holds push on a metal 30 pixels
away and pull on another metal 120 pixels away: the push adds `-4.8` to `vx`,
the force of the pull target's strength `0.2`, not the `-19.2` of the strength
`0.8` that the push block computed from its own target, because the pull block
overwrites the shared `allomancyStrength` before the forces are applied. -/
theorem push_uses_pull_strength :
    (handleAllomancy exactMath ⟨0, 0, true, true⟩ Controller.idle twoMetalWorld ⟨0, 0⟩
        twinPlayer).steelTarget = some pushMetal ∧
      (handleAllomancy exactMath ⟨0, 0, true, true⟩ Controller.idle twoMetalWorld ⟨0, 0⟩
        twinPlayer).ironTarget = some pullMetal ∧
      distanceTo exactMath twinPlayer pushMetal = 30 ∧
      distanceTo exactMath twinPlayer pullMetal = 120 ∧
      (handleAllomancy exactMath ⟨0, 0, true, true⟩ Controller.idle twoMetalWorld ⟨0, 0⟩
        twinPlayer).vx = -(24 / 5) ∧
      (handleAllomancy exactMath ⟨0, 0, true, true⟩ Controller.idle twoMetalWorld ⟨0, 0⟩
        twinPlayer).vy = 24 / 5 ∧
      twinPlayer.vx + (twinPlayer.x - pushMetal.x) / 30 * pushPullStep 30 = -(96 / 5) := by
  decide!

/-- What `handleAllomancy` adds to the velocity, with `d` the distance computed
for a target. A push target held alone adds to `(vx, vy)` the unit vector from
the target to the player times `750 * 2 * max(0.1, 1 - d/150) * 0.016`, and a
pull target held alone adds the unit vector from the player to the target
times the same expression of its own distance (the magnitudes are these
factors when `d * d` is the squared distance): the force law of the
specification. With both held the code scales both vectors by the factor of
the pull target's distance: the strength that the push block computed is lost
when the pull block overwrites the shared field. -/
theorem push_pull_force (E : JsMath) (mouse : Mouse) (c : Controller) (w : World)
    (camera : Camera) (p : Player) :
    (∀ ts, (handleAllomancy E mouse c w camera p).steelTarget = some ts →
      (handleAllomancy E mouse c w camera p).ironTarget = none → 0 < distanceTo E p ts →
      (handleAllomancy E mouse c w camera p).vx =
        p.vx + (p.x - ts.x) / distanceTo E p ts * pushPullStep (distanceTo E p ts) ∧
      (handleAllomancy E mouse c w camera p).vy =
        p.vy + (p.y - ts.y) / distanceTo E p ts * pushPullStep (distanceTo E p ts) ∧
      (distanceTo E p ts * distanceTo E p ts
          = (p.x - ts.x) * (p.x - ts.x) + (p.y - ts.y) * (p.y - ts.y) →
        ((handleAllomancy E mouse c w camera p).vx - p.vx) ^ 2 +
          ((handleAllomancy E mouse c w camera p).vy - p.vy) ^ 2
          = pushPullStep (distanceTo E p ts) ^ 2)) ∧
    (∀ ti, (handleAllomancy E mouse c w camera p).ironTarget = some ti →
      (handleAllomancy E mouse c w camera p).steelTarget = none → 0 < distanceTo E p ti →
      (handleAllomancy E mouse c w camera p).vx =
        p.vx + (ti.x - p.x) / distanceTo E p ti * pushPullStep (distanceTo E p ti) ∧
      (handleAllomancy E mouse c w camera p).vy =
        p.vy + (ti.y - p.y) / distanceTo E p ti * pushPullStep (distanceTo E p ti) ∧
      (distanceTo E p ti * distanceTo E p ti
          = (ti.x - p.x) * (ti.x - p.x) + (ti.y - p.y) * (ti.y - p.y) →
        ((handleAllomancy E mouse c w camera p).vx - p.vx) ^ 2 +
          ((handleAllomancy E mouse c w camera p).vy - p.vy) ^ 2
          = pushPullStep (distanceTo E p ti) ^ 2)) ∧
    (∀ ts ti, (handleAllomancy E mouse c w camera p).steelTarget = some ts →
      (handleAllomancy E mouse c w camera p).ironTarget = some ti →
      0 < distanceTo E p ts → 0 < distanceTo E p ti →
      (handleAllomancy E mouse c w camera p).vx =
        p.vx + (p.x - ts.x) / distanceTo E p ts * pushPullStep (distanceTo E p ti) +
          (ti.x - p.x) / distanceTo E p ti * pushPullStep (distanceTo E p ti) ∧
      (handleAllomancy E mouse c w camera p).vy =
        p.vy + (p.y - ts.y) / distanceTo E p ts * pushPullStep (distanceTo E p ti) +
          (ti.y - p.y) / distanceTo E p ti * pushPullStep (distanceTo E p ti)) := by
  obtain ⟨lx, ly, lvx, lvy, -, -, la⟩ := lockTargets_fields E mouse c w camera p
  obtain ⟨eqs, eqi⟩ := applyAllomancy_targets E (lockTargets E mouse c w camera p)
  rw [handleAllomancy_eq_apply]
  generalize lockTargets E mouse c w camera p = L at lx ly lvx lvy la eqs eqi ⊢
  have hdist : ∀ t, distanceTo E L t = distanceTo E p t := fun t =>
    distanceTo_congr E p L t lx ly
  refine ⟨fun ts hs hi hd => ?_, fun ti hi hs hd => ?_, fun ts ti hs hi hds hdi => ?_⟩
  · rw [eqs] at hs
    rw [eqi] at hi
    rw [hs, hi] at la
    simp only [] at la
    obtain ⟨h1, h2⟩ := applyAllomancy_push E L ts hs hi (by rw [hdist]; exact hd)
    have e1 : (applyAllomancy E L).vx =
        p.vx + (p.x - ts.x) / distanceTo E p ts * pushPullStep (distanceTo E p ts) := by
      rw [h1, la, hdist, lvx, lx]; unfold pushPullStep; ring
    have e2 : (applyAllomancy E L).vy =
        p.vy + (p.y - ts.y) / distanceTo E p ts * pushPullStep (distanceTo E p ts) := by
      rw [h2, la, hdist, lvy, ly]; unfold pushPullStep; ring
    refine ⟨e1, e2, fun hsq => ?_⟩
    rw [e1, e2, add_sub_cancel_left, add_sub_cancel_left]
    exact unit_vector_sq _ _ _ _ hd hsq
  · rw [eqs] at hs
    rw [eqi] at hi
    rw [hi] at la
    simp only [] at la
    obtain ⟨h1, h2⟩ := applyAllomancy_pull E L ti hs hi (by rw [hdist]; exact hd)
    have e1 : (applyAllomancy E L).vx =
        p.vx + (ti.x - p.x) / distanceTo E p ti * pushPullStep (distanceTo E p ti) := by
      rw [h1, la, hdist, lvx, lx]; unfold pushPullStep; ring
    have e2 : (applyAllomancy E L).vy =
        p.vy + (ti.y - p.y) / distanceTo E p ti * pushPullStep (distanceTo E p ti) := by
      rw [h2, la, hdist, lvy, ly]; unfold pushPullStep; ring
    refine ⟨e1, e2, fun hsq => ?_⟩
    rw [e1, e2, add_sub_cancel_left, add_sub_cancel_left]
    exact unit_vector_sq _ _ _ _ hd hsq
  · rw [eqs] at hs
    rw [eqi] at hi
    rw [hi] at la
    simp only [] at la
    obtain ⟨h1, h2⟩ := applyAllomancy_both E L ts ti hs hi (by rw [hdist]; exact hds)
      (by rw [hdist]; exact hdi)
    constructor
    · rw [h1, la, hdist, hdist, lvx, lx]; unfold pushPullStep; ring
    · rw [h2, la, hdist, hdist, lvy, ly]; unfold pushPullStep; ring

/-- The player of `push_uses_pull_strength` holding the push alone is pushed
with the strength of its own target. -/
theorem push_pull_force_witness :
    0 < distanceTo exactMath twinPlayer pushMetal ∧
    (handleAllomancy exactMath ⟨0, 0, true, false⟩ Controller.idle twoMetalWorld ⟨0, 0⟩
      twinPlayer).vx = -(96 / 5) := by
  have h := ((push_pull_force exactMath ⟨0, 0, true, false⟩ Controller.idle twoMetalWorld ⟨0, 0⟩
    twinPlayer).1 pushMetal (by decide!) (by decide!) (by decide!)).1
  refine ⟨by decide!, ?_⟩
  rw [h]
  decide!

/-- C16. A steel target held at the start of a tick is still the steel target
after `handleAllomancy` when push is held by the mouse and the right bumper is
not pressed, whatever the registry, the cursor and the targeter; the same for
the iron target with pull and the left bumper; and a target whose input is
not held is null afterwards. -/
theorem sticky_target (E : JsMath) (mouse : Mouse) (c : Controller) (w : World)
    (camera : Camera) (p : Player) :
    (∀ t, p.steelTarget = some t → mouse.leftDown = true → c.rightBumper = false →
      (handleAllomancy E mouse c w camera p).steelTarget = some t) ∧
    (∀ t, p.ironTarget = some t → mouse.rightDown = true → c.leftBumper = false →
      (handleAllomancy E mouse c w camera p).ironTarget = some t) ∧
    (mouse.leftDown = false → c.rightBumper = false →
      (handleAllomancy E mouse c w camera p).steelTarget = none) ∧
    (mouse.rightDown = false → c.leftBumper = false →
      (handleAllomancy E mouse c w camera p).ironTarget = none) := by
  obtain ⟨-, -, -, -, ls, li, -⟩ := lockTargets_fields E mouse c w camera p
  obtain ⟨eqs, eqi⟩ := applyAllomancy_targets E (lockTargets E mouse c w camera p)
  rw [handleAllomancy_eq_apply, eqs, eqi, ls, li]
  refine ⟨fun t ht hl hb => ?_, fun t ht hl hb => ?_, fun hl hb => ?_, fun hl hb => ?_⟩
  · rw [ht, hl, hb, if_pos (show (true || false) = true from rfl)]
    exact acquireTarget_held t _ _
  · rw [ht, hl, hb, if_pos (show (true || false) = true from rfl)]
    exact acquireTarget_held t _ _
  · rw [hl, hb, if_neg (show ¬ (false || false) = true by decide)]
  · rw [hl, hb, if_neg (show ¬ (false || false) = true by decide)]

/-- C16 at a concrete input: the player keeps `pushMetal` as steel target
while the cursor rests on `pullMetal`. -/
theorem sticky_target_witness :
    twinPlayer.steelTarget = some pushMetal ∧
    closestMetal exactMath twoMetalWorld 0 120 = some pullMetal ∧
    (handleAllomancy exactMath ⟨0, 120, true, false⟩ Controller.idle twoMetalWorld ⟨0, 0⟩
      twinPlayer).steelTarget = some pushMetal :=
  ⟨rfl, by decide!,
    (sticky_target exactMath ⟨0, 120, true, false⟩ Controller.idle twoMetalWorld ⟨0, 0⟩
      twinPlayer).1 pushMetal rfl rfl rfl⟩

/-- C17. When push is held by the mouse (right bumper up) and no steel target
is locked, the steel target after `handleAllomancy` is what `ClosestAt`
describes for the aim point `mouse + camera`: an entry of `world.metalSources`
closer than 150 to the aim point, strictly closer than every earlier entry and
at least as close as every later one, or null when no entry is closer than
150; when it stays null the call does what it does with push released. The
same holds for pull and the iron target. When no entry is closer than 150 and
neither target is locked nor a bumper pressed, both targets stay null and the
velocity is unchanged. -/
theorem target_acquisition (E : JsMath) (mouse : Mouse) (c : Controller) (w : World)
    (camera : Camera) (p : Player) :
    (p.steelTarget = none → mouse.leftDown = true → c.rightBumper = false →
      ClosestAt E (mouse.x + camera.x) (mouse.y + camera.y) w.metalSources
        (handleAllomancy E mouse c w camera p).steelTarget ∧
      ((handleAllomancy E mouse c w camera p).steelTarget = none →
        handleAllomancy E mouse c w camera p =
          handleAllomancy E { mouse with leftDown := false } c w camera p)) ∧
    (p.ironTarget = none → mouse.rightDown = true → c.leftBumper = false →
      ClosestAt E (mouse.x + camera.x) (mouse.y + camera.y) w.metalSources
        (handleAllomancy E mouse c w camera p).ironTarget ∧
      ((handleAllomancy E mouse c w camera p).ironTarget = none →
        handleAllomancy E mouse c w camera p =
          handleAllomancy E { mouse with rightDown := false } c w camera p)) ∧
    ((∀ m ∈ w.metalSources,
        allomancyRange ≤ aimDistance E (mouse.x + camera.x) (mouse.y + camera.y) m) →
      p.steelTarget = none → p.ironTarget = none → c.rightBumper = false →
      c.leftBumper = false →
      (handleAllomancy E mouse c w camera p).steelTarget = none ∧
      (handleAllomancy E mouse c w camera p).ironTarget = none ∧
      (handleAllomancy E mouse c w camera p).vx = p.vx ∧
      (handleAllomancy E mouse c w camera p).vy = p.vy) := by
  obtain ⟨-, -, lvx, lvy, ls, li, -⟩ := lockTargets_fields E mouse c w camera p
  obtain ⟨eqs, eqi⟩ := applyAllomancy_targets E (lockTargets E mouse c w camera p)
  obtain ⟨-, -, -, -, us, ui, -⟩ := updateTargeter_frame E mouse c w camera p
  have hspec := closestMetal_spec E w (mouse.x + camera.x) (mouse.y + camera.y)
  refine ⟨fun ht hl hb => ?_, fun ht hl hb => ?_, fun hfar hs hi hrb hlb => ?_⟩
  · have hq : (handleAllomancy E mouse c w camera p).steelTarget =
        closestMetal E w (mouse.x + camera.x) (mouse.y + camera.y) := by
      rw [handleAllomancy_eq_apply, eqs, ls, ht, hl, hb, if_pos (show (true || false) = true from rfl), acquireTarget_none]
      rfl
    rw [hq]
    refine ⟨hspec, fun hn => ?_⟩
    have hacq : acquireTarget (updateTargeter E mouse c w camera p).steelTarget
        (updateTargeter E mouse c w camera p).targetedMetal
        (targetCandidate c.rightBumper (updateTargeter E mouse c w camera p).targetedMetal
          (closestMetal E w (mouse.x + camera.x) (mouse.y + camera.y))) c.rightBumper = none := by
      rw [us, ht, acquireTarget_none, hb]
      exact hn
    have key := steelBlock_none E _ _ _ _ hacq
    rw [handleAllomancy_eq_apply, handleAllomancy_eq_apply]
    unfold lockTargets
    simp only [hl, hb, Bool.or_false]
    rw [hb] at key
    rw [key]
    rfl
  · have hq : (handleAllomancy E mouse c w camera p).ironTarget =
        closestMetal E w (mouse.x + camera.x) (mouse.y + camera.y) := by
      rw [handleAllomancy_eq_apply, eqi, li, ht, hl, hb, if_pos (show (true || false) = true from rfl), acquireTarget_none]
      rfl
    rw [hq]
    refine ⟨hspec, fun hn => ?_⟩
    obtain ⟨-, -, -, -, si, -, -⟩ := steelBlock_fields E (mouse.leftDown || c.rightBumper)
      (updateTargeter E mouse c w camera p).targetedMetal
      (targetCandidate c.rightBumper (updateTargeter E mouse c w camera p).targetedMetal
        (closestMetal E w (mouse.x + camera.x) (mouse.y + camera.y))) c.rightBumper
      (updateTargeter E mouse c w camera p)
    have hacq : acquireTarget (steelBlock E (mouse.leftDown || c.rightBumper)
          (updateTargeter E mouse c w camera p).targetedMetal
          (targetCandidate c.rightBumper (updateTargeter E mouse c w camera p).targetedMetal
            (closestMetal E w (mouse.x + camera.x) (mouse.y + camera.y))) c.rightBumper
          (updateTargeter E mouse c w camera p)).ironTarget
        (updateTargeter E mouse c w camera p).targetedMetal
        (targetCandidate c.leftBumper (updateTargeter E mouse c w camera p).targetedMetal
          (closestMetal E w (mouse.x + camera.x) (mouse.y + camera.y))) c.leftBumper = none := by
      rw [si, ui, ht, acquireTarget_none, hb]
      exact hn
    have key := ironBlock_none E _ _ _ _ hacq
    rw [handleAllomancy_eq_apply, handleAllomancy_eq_apply]
    unfold lockTargets
    simp only [hl, hb, Bool.or_false]
    rw [hb] at key
    rw [key]
    rfl
  · have hc := closestMetal_of_far E w _ _ hfar
    have h1 : (lockTargets E mouse c w camera p).steelTarget = none := by
      rw [ls, hs, acquireTarget_none, hrb, hc]
      split_ifs <;> rfl
    have h2 : (lockTargets E mouse c w camera p).ironTarget = none := by
      rw [li, hi, acquireTarget_none, hlb, hc]
      split_ifs <;> rfl
    rw [handleAllomancy_eq_apply, applyForce_none_vx E _ h1 h2]
    exact ⟨h1, h2, lvx, lvy⟩

/-- C17 at a concrete input: a player without targets presses push with the
cursor 5 pixels left of `pushMetal` and acquires it. -/
theorem target_acquisition_witness :
    (Player.new 0 0).steelTarget = none ∧
    (handleAllomancy exactMath ⟨25, 0, true, false⟩ Controller.idle twoMetalWorld ⟨0, 0⟩
      (Player.new 0 0)).steelTarget = some pushMetal ∧
    ClosestAt exactMath 25 0 twoMetalWorld.metalSources
      (handleAllomancy exactMath ⟨25, 0, true, false⟩ Controller.idle twoMetalWorld ⟨0, 0⟩
        (Player.new 0 0)).steelTarget := by
  have h := ((target_acquisition exactMath ⟨25, 0, true, false⟩ Controller.idle twoMetalWorld
    ⟨0, 0⟩ (Player.new 0 0)).1 rfl rfl rfl).1
  refine ⟨rfl, by decide!, ?_⟩
  have e : ((⟨25, 0, true, false⟩ : Mouse).x + (⟨0, 0⟩ : Camera).x) = 25 := by norm_num
  have e2 : ((⟨25, 0, true, false⟩ : Mouse).y + (⟨0, 0⟩ : Camera).y) = 0 := by norm_num
  rw [e, e2] at h
  exact h

end PushPullClaims

end Player

/-! ## The targeter (C18) -/

namespace Player

section Targeter

variable (E : JsMath)

theorem directionalStep_skip (p : Player) (dirX dirY : ℚ) (best : Option (DirectionalMatch × ℚ))
    (m : MetalSource) (h : AimSkipped E p dirX dirY m) :
    directionalStep E p dirX dirY best m = best := by
  have e : E.hypot (m.x - p.x) (m.y - p.y) = distanceTo E p m := rfl
  unfold AimSkipped aimAlignment at h
  unfold directionalStep
  simp only [e]
  rcases h with h | h
  · rw [if_pos h]
  · by_cases h0 : distanceTo E p m > allomancyRange ∨ distanceTo E p m = 0
    · rw [if_pos h0]
    · rw [if_neg h0, if_pos h]

theorem directionalStep_first (p : Player) (dirX dirY : ℚ) (m : MetalSource)
    (h : AimQualifies E p dirX dirY m) :
    directionalStep E p dirX dirY none m =
      some (⟨m, distanceTo E p m, aimAlignment E p dirX dirY m⟩, aimScore E p dirX dirY m) := by
  have e : E.hypot (m.x - p.x) (m.y - p.y) = distanceTo E p m := rfl
  obtain ⟨h1, h2, h3⟩ := h
  have h0 : ¬ (distanceTo E p m > allomancyRange ∨ distanceTo E p m = 0) := by
    rintro (h | h)
    · exact absurd h2 (not_le.mpr h)
    · exact absurd h (ne_of_gt h1)
  unfold aimAlignment at h3
  unfold directionalStep
  simp only [e]
  rw [if_neg h0, if_neg (not_lt.mpr h3)]
  rfl

theorem directionalStep_next (p : Player) (dirX dirY : ℚ) (b : DirectionalMatch) (bs : ℚ)
    (m : MetalSource) (h : AimQualifies E p dirX dirY m) :
    directionalStep E p dirX dirY (some (b, bs)) m =
      if aimScore E p dirX dirY m > bs ∨
          (|aimScore E p dirX dirY m - bs| < 1 / 1000000 ∧ distanceTo E p m < b.distance) then
        some (⟨m, distanceTo E p m, aimAlignment E p dirX dirY m⟩, aimScore E p dirX dirY m)
      else some (b, bs) := by
  have e : E.hypot (m.x - p.x) (m.y - p.y) = distanceTo E p m := rfl
  obtain ⟨h1, h2, h3⟩ := h
  have h0 : ¬ (distanceTo E p m > allomancyRange ∨ distanceTo E p m = 0) := by
    rintro (h | h)
    · exact absurd h2 (not_le.mpr h)
    · exact absurd h (ne_of_gt h1)
  unfold aimAlignment at h3
  unfold directionalStep
  simp only [e]
  rw [if_neg h0, if_neg (not_lt.mpr h3)]
  rfl

theorem foldl_directionalStep_skip (p : Player) (dirX dirY : ℚ) (l : List MetalSource)
    (best : Option (DirectionalMatch × ℚ)) (h : ∀ m ∈ l, AimSkipped E p dirX dirY m) :
    l.foldl (directionalStep E p dirX dirY) best = best := by
  induction l with
  | nil => rfl
  | cons a l ih =>
    rw [List.foldl_cons, directionalStep_skip E p dirX dirY best a (h a (List.mem_cons_self _ _))]
    exact ih fun m hm => h m (List.mem_cons_of_mem _ hm)

/-- The loop over a registry in which exactly `m1` and, later, `m2` qualify. -/
theorem foldl_directionalStep_pair (p : Player) (dirX dirY : ℚ) (m1 m2 : MetalSource)
    (l1 l2 l3 : List MetalSource) (h1 : AimQualifies E p dirX dirY m1)
    (h2 : AimQualifies E p dirX dirY m2)
    (hl : ∀ m ∈ l1 ++ l2 ++ l3, AimSkipped E p dirX dirY m) :
    ((l1 ++ m1 :: l2 ++ m2 :: l3).foldl (directionalStep E p dirX dirY) none).map
        (fun r => r.1.metal) =
      some (if aimScore E p dirX dirY m2 > aimScore E p dirX dirY m1 ∨
          (|aimScore E p dirX dirY m2 - aimScore E p dirX dirY m1| < 1 / 1000000 ∧
            distanceTo E p m2 < distanceTo E p m1) then m2 else m1) := by
  have s1 : ∀ m ∈ l1, AimSkipped E p dirX dirY m := fun m hm => hl m (by simp [hm])
  have s2 : ∀ m ∈ l2, AimSkipped E p dirX dirY m := fun m hm => hl m (by simp [hm])
  have s3 : ∀ m ∈ l3, AimSkipped E p dirX dirY m := fun m hm => hl m (by simp [hm])
  rw [List.append_assoc, List.foldl_append, foldl_directionalStep_skip E p dirX dirY l1 none s1,
    List.cons_append, List.foldl_cons, directionalStep_first E p dirX dirY m1 h1,
    List.foldl_append, foldl_directionalStep_skip E p dirX dirY l2 _ s2, List.foldl_cons,
    directionalStep_next E p dirX dirY _ _ m2 h2]
  split_ifs with hc
  · rw [foldl_directionalStep_skip E p dirX dirY l3 _ s3]
    rfl
  · rw [foldl_directionalStep_skip E p dirX dirY l3 _ s3]
    rfl

end Targeter

section TargeterClaims

/-- C18 (code defect). With the player at the origin aiming along `(1, 0)`, a
metal at distance 30 (score `0.75`) listed before a metal at distance 149.9997
(score `0.7500005`): both qualify, the scores differ by `5e-7`, and
`findDirectionalMetal` returns the farther one, because the test
`score > bestScore` accepts it before the near-tie rule is consulted. -/
theorem farther_metal_selected :
    AimQualifies exactMath (Player.new 0 0) 1 0 nearAimMetal ∧
      AimQualifies exactMath (Player.new 0 0) 1 0 farAimMetal ∧
      |aimScore exactMath (Player.new 0 0) 1 0 nearAimMetal
        - aimScore exactMath (Player.new 0 0) 1 0 farAimMetal| < 1 / 1000000 ∧
      distanceTo exactMath (Player.new 0 0) nearAimMetal
        < distanceTo exactMath (Player.new 0 0) farAimMetal ∧
      (findDirectionalMetal exactMath (Player.new 0 0) aimWorld (1, 0) (1 / 4)).map
        DirectionalMatch.metal = some farAimMetal := by
  decide!

/-- What `findDirectionalMetal` returns on a near tie. Let `a` and `b` be the
only metals of the registry that qualify, with scores less than `1e-6` apart
and `a` closer to the player. When `b` comes first the near-tie rule applies
and `a` is returned; when `a` comes first the code returns `a` only if the
score of `b` is not higher than that of `a`, and the farther `b` otherwise:
the test `score > bestScore` runs before the near-tie rule, so the outcome
depends on the registry order. -/
theorem directional_tie_break (E : JsMath) (p : Player) (w : World) (direction : ℚ × ℚ)
    (minMagnitude : ℚ) (a b : MetalSource) (l1 l2 l3 : List MetalSource)
    (hm : ¬ E.hypot direction.1 direction.2 < minMagnitude)
    (ha : AimQualifies E p (direction.1 / E.hypot direction.1 direction.2)
      (direction.2 / E.hypot direction.1 direction.2) a)
    (hb : AimQualifies E p (direction.1 / E.hypot direction.1 direction.2)
      (direction.2 / E.hypot direction.1 direction.2) b)
    (hs : |aimScore E p (direction.1 / E.hypot direction.1 direction.2)
        (direction.2 / E.hypot direction.1 direction.2) a -
      aimScore E p (direction.1 / E.hypot direction.1 direction.2)
        (direction.2 / E.hypot direction.1 direction.2) b| < 1 / 1000000)
    (hd : distanceTo E p a < distanceTo E p b)
    (hl : ∀ m ∈ l1 ++ l2 ++ l3, AimSkipped E p (direction.1 / E.hypot direction.1 direction.2)
      (direction.2 / E.hypot direction.1 direction.2) m) :
    (w.metalSources = l1 ++ b :: l2 ++ a :: l3 →
      (findDirectionalMetal E p w direction minMagnitude).map DirectionalMatch.metal = some a) ∧
    (w.metalSources = l1 ++ a :: l2 ++ b :: l3 →
      (findDirectionalMetal E p w direction minMagnitude).map DirectionalMatch.metal =
        some (if aimScore E p (direction.1 / E.hypot direction.1 direction.2)
              (direction.2 / E.hypot direction.1 direction.2) a <
            aimScore E p (direction.1 / E.hypot direction.1 direction.2)
              (direction.2 / E.hypot direction.1 direction.2) b then b else a)) := by
  have hfind : ∀ l, w.metalSources = l →
      (findDirectionalMetal E p w direction minMagnitude).map DirectionalMatch.metal =
        (l.foldl (directionalStep E p (direction.1 / E.hypot direction.1 direction.2)
          (direction.2 / E.hypot direction.1 direction.2)) none).map fun r => r.1.metal := by
    intro l hw
    unfold findDirectionalMetal
    simp only []
    rw [if_neg hm, hw, Option.map_map]
    rfl
  constructor
  · intro hw
    rw [hfind _ hw, foldl_directionalStep_pair E p _ _ b a l1 l2 l3 hb ha hl,
      if_pos (Or.inr ⟨hs, hd⟩)]
  · intro hw
    rw [hfind _ hw, foldl_directionalStep_pair E p _ _ a b l1 l2 l3 ha hb hl]
    by_cases hlt : aimScore E p (direction.1 / E.hypot direction.1 direction.2)
        (direction.2 / E.hypot direction.1 direction.2) a <
      aimScore E p (direction.1 / E.hypot direction.1 direction.2)
        (direction.2 / E.hypot direction.1 direction.2) b
    · rw [if_pos (Or.inl hlt), if_pos hlt]
    · rw [if_neg hlt, if_neg]
      rintro (h | ⟨-, h⟩)
      · exact hlt h
      · exact absurd h (not_lt.mpr (le_of_lt hd))

/-- The two metals of `farther_metal_selected` in the other registry order,
where the closer one is returned. -/
theorem directional_tie_break_witness :
    distanceTo exactMath (Player.new 0 0) nearAimMetal
      < distanceTo exactMath (Player.new 0 0) farAimMetal ∧
    (findDirectionalMetal exactMath (Player.new 0 0)
        { World.empty with metalSources := [farAimMetal, nearAimMetal] } (1, 0) (1 / 4)).map
      DirectionalMatch.metal = some nearAimMetal :=
  ⟨by decide!,
    (directional_tie_break exactMath (Player.new 0 0)
      { World.empty with metalSources := [farAimMetal, nearAimMetal] } (1, 0) (1 / 4)
      nearAimMetal farAimMetal [] [] [] (by decide!) (by decide!) (by decide!) (by decide!)
      (by decide!) (fun m hm => absurd hm (List.not_mem_nil m))).1 rfl⟩

end TargeterClaims

end Player
/-! ## Air-sense influence and burst gating (C19, C20) -/

namespace Player

section Influence

variable (E : JsMath)

theorem proximity_eq (d : ℚ) : max 0 (1 - min (d / allomancyRange) 1) = max 0 (1 - d / allomancyRange) := by
  by_cases h : d / allomancyRange ≤ 1
  · rw [min_eq_left h]
  · have h2 : 1 ≤ d / allomancyRange := le_of_lt (not_le.mp h)
    rw [min_eq_right h2, sub_self, max_self, max_eq_left (by linarith)]

theorem foldl_contribution (p : Player) (l : List MetalSource) (c0 : ℚ) :
    l.foldl (fun contribution metal => contribution +
        max 0 (1 - min (E.hypot (metal.x - p.x) (metal.y - p.y) / allomancyRange) 1)) c0 =
      c0 + (l.map fun m => max 0 (1 - distanceTo E p m / allomancyRange)).sum := by
  induction l generalizing c0 with
  | nil => simp
  | cons a l ih =>
    have e : E.hypot (a.x - p.x) (a.y - p.y) = distanceTo E p a := rfl
    rw [List.foldl_cons, ih, List.map_cons, List.sum_cons, e, proximity_eq]
    ring

theorem calculateMetalInfluence_eq (p : Player) (l : List MetalSource) :
    calculateMetalInfluence E p l = influenceOf E p l := by
  unfold calculateMetalInfluence influenceOf
  rw [foldl_contribution, zero_add]
  norm_num

theorem influenceOf_bounds (p : Player) (l : List MetalSource) :
    0 ≤ influenceOf E p l ∧ influenceOf E p l ≤ 3 / 2 := by
  unfold influenceOf
  refine ⟨le_min (by norm_num) (List.sum_nonneg fun x hx => ?_), min_le_left _ _⟩
  obtain ⟨m, -, rfl⟩ := List.mem_map.mp hx
  exact le_max_left _ _

/-- `getNearbyMetals(world, 5)` is the first five entries of the in-range
metals sorted by squared distance. -/
theorem getNearbyMetals_five (p : Player) (w : World) :
    p.getNearbyMetals w (some 5) =
      ((getNearbyMetalSources w p.x p.y allomancyRange).insertionSort
        fun a b => p.distSq a ≤ p.distSq b).take 5 := by
  unfold getNearbyMetals
  simp only []
  split_ifs with h
  · rfl
  · rw [List.take_of_length_le (not_lt.mp h)]

theorem mem_getNearbyMetalSources (w : World) (x y r : ℚ) (m : MetalSource) :
    m ∈ getNearbyMetalSources w x y r ↔
      m ∈ w.metalSources ∧ (m.x - x) * (m.x - x) + (m.y - y) * (m.y - y) ≤ r * r := by
  unfold getNearbyMetalSources
  rw [List.mem_filter, decide_eq_true_iff]

theorem sorted_nearby (p : Player) (l : List MetalSource) :
    (l.insertionSort fun a b => p.distSq a ≤ p.distSq b).Sorted
      fun a b => p.distSq a ≤ p.distSq b := by
  haveI : IsTotal MetalSource (fun a b => p.distSq a ≤ p.distSq b) :=
    ⟨fun a b => le_total (p.distSq a) (p.distSq b)⟩
  haveI : IsTrans MetalSource (fun a b => p.distSq a ≤ p.distSq b) :=
    ⟨fun a b c hab hbc => le_trans hab hbc⟩
  exact List.sorted_insertionSort _ l

/-- What `getNearbyMetals(world, 5)` returns: at most five registry metals in
range, in order of squared distance, none farther than an in-range registry
metal that was left out. -/
theorem getNearbyMetals_spec (p : Player) (w : World) :
    (p.getNearbyMetals w (some 5)).length ≤ 5 ∧
    (∀ m ∈ p.getNearbyMetals w (some 5),
      m ∈ w.metalSources ∧ p.distSq m ≤ allomancyRange * allomancyRange) ∧
    (p.getNearbyMetals w (some 5)).Pairwise (fun a b => p.distSq a ≤ p.distSq b) ∧
    (∀ m ∈ w.metalSources, p.distSq m ≤ allomancyRange * allomancyRange →
      m ∉ p.getNearbyMetals w (some 5) →
      ∀ n ∈ p.getNearbyMetals w (some 5), p.distSq n ≤ p.distSq m) := by
  have hs := sorted_nearby p (getNearbyMetalSources w p.x p.y allomancyRange)
  have hperm := List.perm_insertionSort (fun a b => p.distSq a ≤ p.distSq b)
    (getNearbyMetalSources w p.x p.y allomancyRange)
  rw [getNearbyMetals_five]
  generalize (getNearbyMetalSources w p.x p.y allomancyRange).insertionSort
    (fun a b => p.distSq a ≤ p.distSq b) = sorted at hs hperm
  refine ⟨List.length_take_le 5 sorted, fun m hm => ?_, ?_, fun m hm hr hn n hn2 => ?_⟩
  · have h1 := hperm.mem_iff.mp (List.mem_of_mem_take hm)
    exact (mem_getNearbyMetalSources w p.x p.y allomancyRange m).mp h1
  · exact List.Pairwise.sublist (List.take_sublist 5 sorted) hs
  · have h1 : m ∈ sorted :=
      hperm.mem_iff.mpr ((mem_getNearbyMetalSources w p.x p.y allomancyRange m).mpr ⟨hm, hr⟩)
    rw [← List.take_append_drop 5 sorted] at h1 hs
    rcases List.mem_append.mp h1 with h2 | h2
    · exact absurd h2 hn
    · exact (List.pairwise_append.mp hs).2.2 n hn2 m h2

theorem burstMetals_of_idle (p : Player) (w : World) (h : p.activeAirMetals = []) :
    burstMetals p w = p.getNearbyMetals w (some 5) := by
  unfold burstMetals
  rw [h]
  simp only [List.length_nil, ne_eq, not_true_eq_false, if_false]
  exact List.take_of_length_le (getNearbyMetals_spec p w).1

theorem burstApply_vel (dx dy inf : ℚ) (sh : Bool) (ms : List MetalSource) (p : Player) :
    (burstApply E dx dy inf sh ms p).vx =
        max (-(maxSpeedX * (if sh = true then 3 else 25 / 10 : ℚ)))
          (min (maxSpeedX * (if sh = true then 3 else 25 / 10 : ℚ))
            (p.vx + dx * (burstImpulse * inf * (if sh = true then shiftAllomancyMultiplier else 1)))) ∧
    (burstApply E dx dy inf sh ms p).vy =
        max (-(maxSpeedY * (if sh = true then 3 else 25 / 10 : ℚ)))
          (min (maxSpeedY * (if sh = true then 3 else 25 / 10 : ℚ))
            (p.vy + dy * (burstImpulse * inf * (if sh = true then shiftAllomancyMultiplier else 1)))) :=
  ⟨rfl, rfl⟩

end Influence

end Player
namespace Player

section InfluenceClaims

/-- C19. With `M = getNearbyMetals(world, 5)`: `M` has at most 5 entries, each
a registry metal within 150 of the player (squared distance at most `150²`,
boundary included), in order of non-decreasing (squared) distance, and no
entry of `M` is farther than an in-range registry metal outside `M`. The
influence that `calculateMetalInfluence` computes from `M` is
`min(1.5, Σ max(0, 1 - dist/150))` and lies in `[0, 1.5]`. It is the influence
in the force of `handleAirDirectionalAllomancy`, and in the impulse of
`tryAllomancyBurst` when `activeAirMetals` is empty, as it is when `update`
(which clears it in `beginTick`) reaches the burst. -/
theorem air_sense_influence (E : JsMath) (dt ix iy : ℚ) (sh : Bool) (w : World) (p : Player) :
    ((p.getNearbyMetals w (some 5)).length ≤ 5 ∧
      (∀ m ∈ p.getNearbyMetals w (some 5),
        m ∈ w.metalSources ∧ p.distSq m ≤ allomancyRange * allomancyRange) ∧
      (p.getNearbyMetals w (some 5)).Pairwise (fun a b => p.distSq a ≤ p.distSq b) ∧
      (∀ m ∈ w.metalSources, p.distSq m ≤ allomancyRange * allomancyRange →
        m ∉ p.getNearbyMetals w (some 5) →
        ∀ n ∈ p.getNearbyMetals w (some 5), p.distSq n ≤ p.distSq m)) ∧
    calculateMetalInfluence E p (p.getNearbyMetals w (some 5))
      = influenceOf E p (p.getNearbyMetals w (some 5)) ∧
    (0 ≤ influenceOf E p (p.getNearbyMetals w (some 5)) ∧
      influenceOf E p (p.getNearbyMetals w (some 5)) ≤ 3 / 2) ∧
    (E.hypot ix iy ≠ 0 → p.getNearbyMetals w (some 5) ≠ [] →
      0 < influenceOf E p (p.getNearbyMetals w (some 5)) →
      (handleAirDirectionalAllomancy E dt ix iy sh w p).vx =
        max (-(maxSpeedX * (if sh = true then 2 else 15 / 10 : ℚ)))
          (min (maxSpeedX * (if sh = true then 2 else 15 / 10 : ℚ))
            (p.vx + ix / E.hypot ix iy *
              (airAllomancyForce * influenceOf E p (p.getNearbyMetals w (some 5)) *
                (if sh = true then shiftAllomancyMultiplier else 1)) * dt)) ∧
      (handleAirDirectionalAllomancy E dt ix iy sh w p).vy =
        max (-(maxSpeedY * (if sh = true then 2 else 15 / 10 : ℚ)))
          (min (maxSpeedY * (if sh = true then 2 else 15 / 10 : ℚ))
            (p.vy + iy / E.hypot ix iy *
              (airAllomancyForce * influenceOf E p (p.getNearbyMetals w (some 5)) *
                (if sh = true then shiftAllomancyMultiplier else 1)) * dt))) ∧
    (p.activeAirMetals = [] → p.onGround = false → p.burstCooldownRemaining ≤ 0 →
      p.getNearbyMetals w (some 5) ≠ [] →
      0 < influenceOf E p (p.getNearbyMetals w (some 5)) →
      E.hypot (if ix = 0 ∧ iy = 0 then p.facing else ix)
        (if ix = 0 ∧ iy = 0 then -(4 / 10) else iy) ≠ 0 →
      (tryAllomancyBurst E ix iy sh w p).vx =
        max (-(maxSpeedX * (if sh = true then 3 else 25 / 10 : ℚ)))
          (min (maxSpeedX * (if sh = true then 3 else 25 / 10 : ℚ))
            (p.vx + (if ix = 0 ∧ iy = 0 then p.facing else ix) /
              E.hypot (if ix = 0 ∧ iy = 0 then p.facing else ix)
                (if ix = 0 ∧ iy = 0 then -(4 / 10) else iy) *
              (burstImpulse * influenceOf E p (p.getNearbyMetals w (some 5)) *
                (if sh = true then shiftAllomancyMultiplier else 1)))) ∧
      (tryAllomancyBurst E ix iy sh w p).vy =
        max (-(maxSpeedY * (if sh = true then 3 else 25 / 10 : ℚ)))
          (min (maxSpeedY * (if sh = true then 3 else 25 / 10 : ℚ))
            (p.vy + (if ix = 0 ∧ iy = 0 then -(4 / 10) else iy) /
              E.hypot (if ix = 0 ∧ iy = 0 then p.facing else ix)
                (if ix = 0 ∧ iy = 0 then -(4 / 10) else iy) *
              (burstImpulse * influenceOf E p (p.getNearbyMetals w (some 5)) *
                (if sh = true then shiftAllomancyMultiplier else 1))))) ∧
    (beginTick dt p).activeAirMetals = [] := by
  have heq := calculateMetalInfluence_eq E p (p.getNearbyMetals w (some 5))
  refine ⟨getNearbyMetals_spec p w, heq, influenceOf_bounds E p _, fun h1 h2 h3 => ?_,
    fun ha hg hc h2 h3 h4 => ?_, rfl⟩
  · rw [← heq] at h3 ⊢
    have c1 : ¬ ((({ p with activeAirMetals := [] } : Player).getNearbyMetals w (some 5)).length
        = 0) := fun h => h2 (List.length_eq_zero.mp h)
    have c2 : ¬ (calculateMetalInfluence E ({ p with activeAirMetals := [] } : Player)
        (({ p with activeAirMetals := [] } : Player).getNearbyMetals w (some 5)) ≤ 0) :=
      not_le.mpr h3
    unfold handleAirDirectionalAllomancy
    simp only []
    rw [if_neg h1, if_neg c1, if_neg c2]
    exact ⟨rfl, rfl⟩
  · rw [← heq] at h3 ⊢
    have hb := burstMetals_of_idle p w ha
    have c0 : ¬ (p.onGround = true ∨ p.burstCooldownRemaining > 0) := by
      rintro (h | h)
      · rw [hg] at h; exact Bool.noConfusion h
      · exact absurd hc (not_le.mpr h)
    have c1 : ¬ ((burstMetals p w).length = 0) := by
      rw [hb]; exact fun h => h2 (List.length_eq_zero.mp h)
    have c2 : ¬ (calculateMetalInfluence E p (burstMetals p w) ≤ 0) := by
      rw [hb]; exact not_le.mpr h3
    unfold tryAllomancyBurst
    rw [if_neg c0, if_neg c1, if_neg c2]
    simp only []
    rw [if_neg h4, hb]
    exact burstApply_vel E _ _ _ sh _ p

/-- C19 at a concrete input: below the lamp of `lampWorld` the influence is
`1 - 99/150`, and it scales the air-sense force along `(1, 0)`. -/
theorem air_sense_influence_witness :
    influenceOf exactMath (Player.new 100 584)
      ((Player.new 100 584).getNearbyMetals lampWorld (some 5)) = 17 / 50 ∧
    (handleAirDirectionalAllomancy exactMath (1 / 60) 1 0 false lampWorld
      (Player.new 100 584)).vx = 17 / 4 := by
  have h := ((air_sense_influence exactMath (1 / 60) 1 0 false lampWorld
    (Player.new 100 584)).2.2.2.1 (by decide!) (by decide!) (by decide!)).1
  refine ⟨by decide!, ?_⟩
  rw [h]
  decide!

/-- C20. `tryAllomancyBurst` returns the player state unchanged when the
player is on the ground, or the burst cooldown is running, or no registry metal
is within `allomancyRange` of the player (and none of `activeAirMetals`, which
`update` has emptied when the burst is reached), or the computed influence is
zero. -/
theorem burst_gating (E : JsMath) (ix iy : ℚ) (sh : Bool) (w : World) (p : Player)
    (h : p.onGround = true ∨ p.burstCooldownRemaining > 0 ∨
      (getNearbyMetalSources w p.x p.y allomancyRange = [] ∧
        ∀ m ∈ p.activeAirMetals, allomancyRange ≤ E.hypot (m.x - p.x) (m.y - p.y)) ∨
      calculateMetalInfluence E p (burstMetals p w) = 0) :
    tryAllomancyBurst E ix iy sh w p = p := by
  rcases h with h | h | h | h
  · unfold tryAllomancyBurst
    rw [if_pos (Or.inl h)]
  · exact tryAllomancyBurst_eq_self E ix iy sh w p (Or.inl h)
  · exact tryAllomancyBurst_eq_self E ix iy sh w p (Or.inr h)
  · unfold tryAllomancyBurst
    rw [if_pos (le_of_eq h)]
    split_ifs <;> rfl

/-- C20 at a concrete input: the airborne player of `fallingPlayer`, with no
metal in the world, presses jump and nothing changes. -/
theorem burst_gating_witness :
    getNearbyMetalSources ledgeWorld fallingPlayer.x fallingPlayer.y allomancyRange = [] ∧
    tryAllomancyBurst exactMath 1 0 false ledgeWorld fallingPlayer = fallingPlayer :=
  ⟨rfl, burst_gating exactMath 1 0 false ledgeWorld fallingPlayer
    (Or.inr (Or.inr (Or.inl ⟨rfl, fun m hm => absurd hm (List.not_mem_nil m)⟩)))⟩

end InfluenceClaims

end Player

/-! ## The burst (C21, C22) -/

namespace Player

section Burst

variable (E : JsMath)

theorem calculateMetalInfluence_nil (p : Player) : calculateMetalInfluence E p [] = 0 := by
  unfold calculateMetalInfluence
  rw [List.foldl_nil]
  norm_num

/-- A burst that passes the gates is `burstApply` along the normalised
direction. -/
theorem tryAllomancyBurst_fires (ix iy : ℚ) (sh : Bool) (w : World) (p : Player)
    (hair : p.onGround = false) (hcd : p.burstCooldownRemaining ≤ 0)
    (hI : 0 < calculateMetalInfluence E p (burstMetals p w))
    (hdir : E.hypot (burstDirX p ix iy) (burstDirY ix iy) ≠ 0) :
    burstMetals p w ≠ [] ∧
    tryAllomancyBurst E ix iy sh w p =
      burstApply E (burstDirX p ix iy / E.hypot (burstDirX p ix iy) (burstDirY ix iy))
        (burstDirY ix iy / E.hypot (burstDirX p ix iy) (burstDirY ix iy))
        (calculateMetalInfluence E p (burstMetals p w)) sh (burstMetals p w) p := by
  have hne : burstMetals p w ≠ [] := by
    intro h
    rw [h, calculateMetalInfluence_nil] at hI
    exact lt_irrefl 0 hI
  have c0 : ¬ (p.onGround = true ∨ p.burstCooldownRemaining > 0) := by
    rintro (h | h)
    · rw [hair] at h; exact Bool.noConfusion h
    · exact absurd hcd (not_le.mpr h)
  have c1 : ¬ ((burstMetals p w).length = 0) := fun h => hne (List.length_eq_zero.mp h)
  have c2 : ¬ (calculateMetalInfluence E p (burstMetals p w) ≤ 0) := not_le.mpr hI
  refine ⟨hne, ?_⟩
  unfold burstDirX burstDirY at hdir ⊢
  unfold tryAllomancyBurst
  rw [if_neg c0, if_neg c1, if_neg c2]
  simp only []
  rw [if_neg hdir]

theorem isPullingTowardsMetal_eq (p q : Player) (metal : MetalSource)
    (h1 : q.ironTarget = p.ironTarget) (h2 : q.x = p.x) (h3 : q.y = p.y)
    (h4 : q.airAllomancyDirection = p.airAllomancyDirection) (h5 : q.activeAirMetals ≠ []) :
    isPullingTowardsMetal E q metal = decide (PullAligned E p metal) := by
  have c1 : ¬ (q.activeAirMetals.length = 0) := fun h => h5 (List.length_eq_zero.mp h)
  unfold isPullingTowardsMetal PullAligned
  simp only [h1, h2, h3, h4]
  by_cases hi : p.ironTarget = some metal
  · rw [if_pos hi]
    simp [hi]
  · rw [if_neg hi, if_neg c1]
    simp only [hi, false_or]
    split_ifs with hc
    · simp only [hc.1, hc.2, true_and]
    · symm
      rw [decide_eq_false_iff_not]
      exact fun h => hc ⟨h.1, h.2.1⟩

end Burst

section BurstClaims

/-- C21. When `tryAllomancyBurst` fires (airborne, cooldown not running,
influence `I > 0`, direction of non-zero length) with `(dx, dy)` the normalised
input, or the normalised `(facing, -0.4)` on zero input, and `m` the shift
multiplier, then `vx' = clamp(vx + dx*900*I*m, -L, L)` and
`vy' = clamp(vy + dy*900*I*m, -L, L)` with `L = 650` (`780` with shift), and
`burstCooldownRemaining` becomes `2`. -/
theorem burst_effect (E : JsMath) (ix iy : ℚ) (sh : Bool) (w : World) (p : Player)
    (hair : p.onGround = false) (hcd : p.burstCooldownRemaining ≤ 0)
    (hI : 0 < calculateMetalInfluence E p (burstMetals p w))
    (hdir : E.hypot (burstDirX p ix iy) (burstDirY ix iy) ≠ 0) :
    (tryAllomancyBurst E ix iy sh w p).vx =
      clamp (p.vx + burstDirX p ix iy / E.hypot (burstDirX p ix iy) (burstDirY ix iy) * 900 *
          calculateMetalInfluence E p (burstMetals p w) * (if sh = true then 14 / 10 else 1))
        (-(if sh = true then 780 else 650)) (if sh = true then 780 else 650) ∧
    (tryAllomancyBurst E ix iy sh w p).vy =
      clamp (p.vy + burstDirY ix iy / E.hypot (burstDirX p ix iy) (burstDirY ix iy) * 900 *
          calculateMetalInfluence E p (burstMetals p w) * (if sh = true then 14 / 10 else 1))
        (-(if sh = true then 780 else 650)) (if sh = true then 780 else 650) ∧
    (tryAllomancyBurst E ix iy sh w p).burstCooldownRemaining = 2 := by
  rw [(tryAllomancyBurst_fires E ix iy sh w p hair hcd hI hdir).2]
  obtain ⟨h1, h2⟩ := burstApply_vel E
    (burstDirX p ix iy / E.hypot (burstDirX p ix iy) (burstDirY ix iy))
    (burstDirY ix iy / E.hypot (burstDirX p ix iy) (burstDirY ix iy))
    (calculateMetalInfluence E p (burstMetals p w)) sh (burstMetals p w) p
  have eL : maxSpeedX * (if sh = true then 3 else 25 / 10 : ℚ)
      = (if sh = true then 780 else 650 : ℚ) := by
    unfold maxSpeedX; split_ifs <;> norm_num
  have eL2 : maxSpeedY * (if sh = true then 3 else 25 / 10 : ℚ)
      = (if sh = true then 780 else 650 : ℚ) := by
    unfold maxSpeedY; split_ifs <;> norm_num
  have em : (if sh = true then shiftAllomancyMultiplier else 1 : ℚ)
      = (if sh = true then 14 / 10 else 1 : ℚ) := rfl
  refine ⟨?_, ?_, rfl⟩
  · rw [h1, eL, em]
    unfold clamp burstImpulse
    congr 2
    ring
  · rw [h2, eL2, em]
    unfold clamp burstImpulse
    congr 2
    ring

/-- C21 at a concrete input: the hovering player bursts upwards below the lamp
(influence `0.9`) and reaches the limit `-650`. -/
theorem burst_effect_witness :
    hoverPlayer.onGround = false ∧
    0 < calculateMetalInfluence exactMath hoverPlayer (burstMetals hoverPlayer lampWorld) ∧
    (tryAllomancyBurst exactMath 0 (-1) false lampWorld hoverPlayer).vy = -650 ∧
    (tryAllomancyBurst exactMath 0 (-1) false lampWorld hoverPlayer).burstCooldownRemaining
      = 2 := by
  have h := burst_effect exactMath 0 (-1) false lampWorld hoverPlayer rfl (by decide!)
    (by decide!) (by decide!)
  refine ⟨rfl, by decide!, ?_, h.2.2⟩
  rw [h.2.1]
  decide!

/-- C22 (code defect). The hovering player, whose `airAllomancyDirection` is
still null, bursts straight up towards the lamp head 15 pixels above: the
impulse direction `(0, -1)` is the direction to the metal (alignment `1`), yet
the line recorded for it is tagged push, because `isPullingTowardsMetal` reads
`airAllomancyDirection`, which the burst does not set. -/
theorem aligned_line_tagged_push :
    hoverPlayer.airAllomancyDirection = none ∧ hoverPlayer.ironTarget = none ∧
      burstMetals hoverPlayer lampWorld = [lampMetal] ∧
      burstDirX hoverPlayer 0 (-1) / exactMath.hypot (burstDirX hoverPlayer 0 (-1))
            (burstDirY 0 (-1)) *
          ((lampMetal.x - hoverPlayer.x) /
            exactMath.hypot (lampMetal.x - hoverPlayer.x) (lampMetal.y - hoverPlayer.y)) +
        burstDirY 0 (-1) / exactMath.hypot (burstDirX hoverPlayer 0 (-1)) (burstDirY 0 (-1)) *
          ((lampMetal.y - hoverPlayer.y) /
            exactMath.hypot (lampMetal.x - hoverPlayer.x) (lampMetal.y - hoverPlayer.y)) = 1 ∧
      (tryAllomancyBurst exactMath 0 (-1) false lampWorld hoverPlayer).lingeringAllomancyLines
        = [⟨lampMetal, 0, 75 / 100, "launch", 1, false⟩] := by
  decide!

/-- What a burst records. When `tryAllomancyBurst` fires, one line per metal
of the burst, with age `0` and duration `0.75`, is appended to
`lingeringAllomancyLines` (of which the last 20 are kept), and the code tags
the line of a metal pull exactly when `PullAligned` holds on the state before
the burst: the metal is the iron target, or its direction from the player has
alignment above `0.2` with the `airAllomancyDirection` left by an earlier
air-sense step. The impulse direction of the burst itself is never stored, so
the tag is computed from a stale direction. -/
theorem lingering_line_tags (E : JsMath) (ix iy : ℚ) (sh : Bool) (w : World) (p : Player)
    (hair : p.onGround = false) (hcd : p.burstCooldownRemaining ≤ 0)
    (hI : 0 < calculateMetalInfluence E p (burstMetals p w))
    (hdir : E.hypot (burstDirX p ix iy) (burstDirY ix iy) ≠ 0) :
    (tryAllomancyBurst E ix iy sh w p).lingeringAllomancyLines =
      (if (p.lingeringAllomancyLines ++ (burstMetals p w).map fun metal =>
            (⟨metal, 0, 75 / 100, "launch", if sh = true then 14 / 10 else 1,
              decide (PullAligned E p metal)⟩ : LingeringLine)).length > 20 then
        (p.lingeringAllomancyLines ++ (burstMetals p w).map fun metal =>
            (⟨metal, 0, 75 / 100, "launch", if sh = true then 14 / 10 else 1,
              decide (PullAligned E p metal)⟩ : LingeringLine)).drop
          ((p.lingeringAllomancyLines ++ (burstMetals p w).map fun metal =>
            (⟨metal, 0, 75 / 100, "launch", if sh = true then 14 / 10 else 1,
              decide (PullAligned E p metal)⟩ : LingeringLine)).length - 20)
      else
        p.lingeringAllomancyLines ++ (burstMetals p w).map fun metal =>
            (⟨metal, 0, 75 / 100, "launch", if sh = true then 14 / 10 else 1,
              decide (PullAligned E p metal)⟩ : LingeringLine)) := by
  obtain ⟨hne, hf⟩ := tryAllomancyBurst_fires E ix iy sh w p hair hcd hI hdir
  rw [hf]
  have em : (if sh = true then shiftAllomancyMultiplier else 1 : ℚ)
      = (if sh = true then 14 / 10 else 1 : ℚ) := rfl
  unfold burstApply
  simp only [isPullingTowardsMetal_eq E p, hne, ne_eq, not_false_eq_true, em]
  rfl

/-- With the air-sense direction `(0, -1)` left by an earlier step, the burst
of `aligned_line_tagged_push` tags the line pull. -/
theorem lingering_line_tags_witness :
    ({ hoverPlayer with airAllomancyDirection := some (0, -1) } : Player).onGround = false ∧
    PullAligned exactMath { hoverPlayer with airAllomancyDirection := some (0, -1) } lampMetal ∧
    (tryAllomancyBurst exactMath 0 (-1) false lampWorld
        { hoverPlayer with airAllomancyDirection := some (0, -1) }).lingeringAllomancyLines
      = [⟨lampMetal, 0, 75 / 100, "launch", 1, true⟩] := by
  have h := lingering_line_tags exactMath 0 (-1) false lampWorld
    { hoverPlayer with airAllomancyDirection := some (0, -1) } rfl (by decide!) (by decide!)
    (by decide!)
  refine ⟨rfl, by decide!, ?_⟩
  rw [h]
  decide!

end BurstClaims

end Player
/-! ## Effect lists (C23) -/

namespace Player

section Effects

variable (E : JsMath)

theorem length_keep_last {α : Type} (l : List α) (n : ℕ) :
    (if l.length > n then l.drop (l.length - n) else l).length ≤ n := by
  split_ifs with h
  · rw [List.length_drop]
    omega
  · exact not_lt.mp h

theorem mem_keep_last {α : Type} (l : List α) (n : ℕ) (a : α)
    (h : a ∈ (if l.length > n then l.drop (l.length - n) else l)) : a ∈ l := by
  split_ifs at h
  · exact List.mem_of_mem_drop h
  · exact h

theorem effects_beginTick (dt : ℚ) (p : Player) :
    (beginTick dt p).effects =
      ((p.lingeringAllomancyLines.map fun line => { line with age := line.age + dt }).filter
          (fun line => decide (line.age < line.duration)),
        (p.windRushes.map (stepWindRush dt)).filter fun rush => decide (rush.age < rush.duration)) := by
  unfold beginTick updateWindRushes updateLingeringLines updateCooldowns effects
  split_ifs <;> rfl

theorem capped_beginTick (dt : ℚ) (p : Player) (h : EffectsCapped p.effects) :
    EffectsCapped (beginTick dt p).effects ∧
      ∀ line ∈ (beginTick dt p).lingeringAllomancyLines, line.age < line.duration := by
  obtain ⟨h1, h2, h3⟩ := h
  have hl : (beginTick dt p).lingeringAllomancyLines = (beginTick dt p).effects.1 := rfl
  rw [hl, effects_beginTick]
  refine ⟨⟨?_, ?_, ?_⟩, ?_⟩
  · refine le_trans (List.length_filter_le _ _) ?_
    rw [List.length_map]
    exact h1
  · refine le_trans (List.length_filter_le _ _) ?_
    rw [List.length_map]
    exact h2
  · intro line hline
    obtain ⟨hm, ha⟩ := List.mem_filter.mp hline
    obtain ⟨l0, hl0, rfl⟩ := List.mem_map.mp hm
    have hd := (h3 l0 hl0).1
    rw [decide_eq_true_iff] at ha
    exact ⟨hd, by simp only [] at ha ⊢; rw [hd] at ha; exact ha⟩
  · intro line hline
    obtain ⟨-, ha⟩ := List.mem_filter.mp hline
    rw [decide_eq_true_iff] at ha
    exact ha

theorem capped_burstApply (dx dy inf : ℚ) (sh : Bool) (ms : List MetalSource) (p : Player)
    (h : EffectsCapped p.effects) : EffectsCapped (burstApply E dx dy inf sh ms p).effects := by
  obtain ⟨-, -, h3⟩ := h
  unfold burstApply spawnWindRushEffect effects
  simp only []
  refine ⟨length_keep_last _ 20, length_keep_last _ 10, fun line hline => ?_⟩
  have hm := mem_keep_last _ 20 line hline
  rcases List.mem_append.mp hm with hm | hm
  · exact h3 line hm
  · obtain ⟨m, -, rfl⟩ := List.mem_map.mp hm
    exact ⟨rfl, by norm_num⟩

theorem capped_tryAllomancyBurst (ix iy : ℚ) (sh : Bool) (w : World) (p : Player)
    (h : EffectsCapped p.effects) : EffectsCapped (tryAllomancyBurst E ix iy sh w p).effects := by
  unfold tryAllomancyBurst
  simp only []
  split_ifs <;> first | exact h | exact capped_burstApply E _ _ _ _ _ p h

theorem effects_groundMove (dt : ℚ) (keys : Keys) (c : Controller) (b : Bool) (p : Player) :
    (groundMove dt keys c b p).effects = p.effects := by
  unfold groundMove
  simp only []
  split_ifs <;> rfl

theorem capped_airMove (keys : Keys) (c : Controller) (w : World) (b : Bool) (p : Player)
    (h : EffectsCapped p.effects) : EffectsCapped (airMove E keys c w b p).effects := by
  have hb := capped_tryAllomancyBurst E (combinedX keys c) (combinedY keys c)
    (shiftActive keys c) w p h
  unfold airMove
  simp only []
  split_ifs <;> first | exact h | exact hb

theorem effects_finishMove (dt : ℚ) (keys : Keys) (c : Controller) (w : World) (p : Player) :
    (finishMove E dt keys c w p).effects = p.effects := by
  obtain ⟨-, -, -, h4, h5, -⟩ := finishMove_frame E dt keys c w p
  unfold effects
  rw [h4, h5]

theorem capped_handleMovement (dt : ℚ) (keys : Keys) (c : Controller) (w : World) (p : Player)
    (h : EffectsCapped p.effects) : EffectsCapped (handleMovement E dt keys c w p).effects := by
  have h0 : EffectsCapped
      ({ p with currentAllomancyShift := shiftActive keys c } : Player).effects := h
  unfold handleMovement
  simp only []
  rw [effects_finishMove]
  split_ifs
  · rw [effects_groundMove]; exact h0
  · exact capped_airMove E keys c w _ _ h0

theorem effects_updateTargeter (mouse : Mouse) (c : Controller) (w : World) (camera : Camera)
    (p : Player) : (updateTargeter E mouse c w camera p).effects = p.effects := by
  unfold updateTargeter
  simp only []
  split <;> rfl

theorem effects_steelBlock (b : Bool) (pref cand : Option MetalSource) (bumper : Bool)
    (p : Player) : (steelBlock E b pref cand bumper p).effects = p.effects := by
  unfold steelBlock
  cases b
  · rfl
  · simp only [if_true]
    generalize acquireTarget p.steelTarget pref cand bumper = a
    cases a <;> rfl

theorem effects_ironBlock (b : Bool) (pref cand : Option MetalSource) (bumper : Bool)
    (p : Player) : (ironBlock E b pref cand bumper p).effects = p.effects := by
  unfold ironBlock
  cases b
  · rfl
  · simp only [if_true]
    generalize acquireTarget p.ironTarget pref cand bumper = a
    cases a <;> rfl

theorem effects_applyForce (dx dy force : ℚ) (p : Player) :
    (applyForce E dx dy force p).effects = p.effects := by
  unfold applyForce
  simp only []
  split_ifs <;> rfl

theorem effects_applyAllomancy (p : Player) : (applyAllomancy E p).effects = p.effects := by
  unfold applyAllomancy
  simp only []
  cases p.steelTarget with
  | none =>
    simp only []
    cases p.ironTarget with
    | none => rfl
    | some ti => exact effects_applyForce E _ _ _ p
  | some ts =>
    simp only []
    cases (applyForce E (p.x - ts.x) (p.y - ts.y)
        (airAllomancyForce * 2 * p.allomancyStrength) p).ironTarget with
    | none => exact effects_applyForce E _ _ _ p
    | some ti =>
      simp only []
      rw [effects_applyForce, effects_applyForce]

theorem effects_handleAllomancy (mouse : Mouse) (c : Controller) (w : World) (camera : Camera)
    (p : Player) : (handleAllomancy E mouse c w camera p).effects = p.effects := by
  rw [handleAllomancy_eq_apply, effects_applyAllomancy]
  unfold lockTargets
  simp only []
  rw [effects_ironBlock, effects_steelBlock, effects_updateTargeter]

theorem effects_applyPhysics (dt : ℚ) (p : Player) : (applyPhysics dt p).effects = p.effects := by
  unfold applyPhysics
  simp only []
  split_ifs <;> rfl

theorem effects_collideStep (r : List (ℚ × ℚ)) (p : Player) (pf : Platform) :
    (collideStep r p pf).effects = p.effects := by
  unfold collideStep
  split_ifs <;> rfl

theorem effects_checkCollisions (w : World) (p : Player) :
    (checkCollisions w p).effects = p.effects := by
  have key : ∀ (r : List (ℚ × ℚ)) (l : List Platform) (q : Player),
      (l.foldl (collideStep r) q).effects = q.effects := by
    intro r l
    induction l with
    | nil => intro q; rfl
    | cons a l ih => intro q; rw [List.foldl_cons, ih, effects_collideStep]
  unfold checkCollisions
  simp only []
  rw [key]
  split_ifs <;> rfl

theorem capped_update (dt : ℚ) (keys : Keys) (mouse : Mouse) (c : Controller) (w : World)
    (camera : Camera) (p : Player) (h : EffectsCapped p.effects) :
    EffectsCapped (update E dt keys mouse c w camera p).effects := by
  have h1 := (capped_beginTick dt p h).1
  have h2 := capped_handleMovement E dt keys c w _ h1
  unfold update
  simp only []
  have e : ∀ q : Player, (updateTilt dt w q).effects = q.effects := fun _ => rfl
  rw [e, effects_checkCollisions, effects_applyPhysics, effects_handleAllomancy]
  exact h2

theorem capped_runUpdates (ticks : List Tick) (p : Player) (h : EffectsCapped p.effects) :
    EffectsCapped (runUpdates E ticks p).effects := by
  unfold runUpdates
  induction ticks generalizing p with
  | nil => exact h
  | cons t rest ih =>
    rw [List.foldl_cons]
    exact ih _ (capped_update E _ _ _ _ _ _ p h)

end Effects

section EffectsClaims

/-- C23. In every player state reached from `new Player(x, y)` by a sequence
of `update` calls (whatever the inputs, the worlds and the time steps, positive
or not), `lingeringAllomancyLines` has at most 20 entries, each of duration
`0.75` and of age below `0.75`, and `windRushes` has at most 10 entries; and
every line that `updateLingeringLines` keeps in such a state has an age below
its duration `0.75`. -/
theorem effect_list_caps (E : JsMath) (x y : ℚ) (ticks : List Tick) :
    (runUpdates E ticks (Player.new x y)).lingeringAllomancyLines.length ≤ 20 ∧
    (runUpdates E ticks (Player.new x y)).windRushes.length ≤ 10 ∧
    (∀ line ∈ (runUpdates E ticks (Player.new x y)).lingeringAllomancyLines,
      line.duration = 75 / 100 ∧ line.age < 75 / 100) ∧
    (∀ dt : ℚ, ∀ line ∈ (updateLingeringLines dt
        (runUpdates E ticks (Player.new x y))).lingeringAllomancyLines,
      line.duration = 75 / 100 ∧ line.age < line.duration) := by
  have h0 : EffectsCapped (Player.new x y).effects :=
    ⟨Nat.zero_le _, Nat.zero_le _, fun line hline => absurd hline (List.not_mem_nil line)⟩
  obtain ⟨h1, h2, h3⟩ := capped_runUpdates E ticks _ h0
  refine ⟨h1, h2, h3, fun dt line hline => ?_⟩
  unfold updateLingeringLines at hline
  obtain ⟨hm, ha⟩ := List.mem_filter.mp hline
  obtain ⟨l0, hl0, rfl⟩ := List.mem_map.mp hm
  rw [decide_eq_true_iff] at ha
  exact ⟨(h3 l0 hl0).1, ha⟩

end EffectsClaims

end Player
/-! ## The spawn point (C24) -/

section Spawn

theorem spawnStep_skip (best : Option (Platform × ℚ)) (pf : Platform) (h : ¬ SpawnEligible pf) :
    spawnStep best pf = best := by
  unfold spawnStep
  by_cases ht : pf.type ≠ "rooftop"
  · rw [if_pos ht]
  · rw [if_neg ht]
    simp only []
    rw [if_pos]
    push_neg at ht
    constructor
    · exact fun hc => h ⟨ht, Or.inl hc⟩
    · exact fun hc => h ⟨ht, Or.inr hc⟩

theorem spawnStep_eligible (best : Option (Platform × ℚ)) (pf : Platform)
    (h : SpawnEligible pf) :
    spawnStep best pf =
      match best with
      | none => some (pf, spawnDistance pf)
      | some (_, bestDistance) =>
        if spawnDistance pf < bestDistance then some (pf, spawnDistance pf) else best := by
  have ht : ¬ (pf.type ≠ "rooftop") := fun hn => hn h.1
  have hc : ¬ (jsFloor ((pf.x + pf.width / 2) / chunkSize) ≠ 0 ∧
      ¬ (pf.x < chunkSize ∧ pf.x + pf.width > 0)) := by
    rintro ⟨h1, h2⟩
    rcases h.2 with h3 | h3
    · exact h1 h3
    · exact h2 h3
  have hd : |pf.x + pf.width / 2 - chunkSize * (1 / 2)| = spawnDistance pf := by
    unfold spawnDistance chunkSize
    norm_num
  unfold spawnStep
  rw [if_neg ht]
  simp only []
  rw [if_neg hc, hd]

/-- The loop of `getSpawnPoint` returns what `SpawnBest` describes, with the
distance of the selected platform. -/
theorem spawn_fold (l : List Platform) :
    (∀ p d, l.foldl spawnStep none = some (p, d) → d = spawnDistance p ∧ SpawnBest l (some p)) ∧
    (l.foldl spawnStep none = none → SpawnBest l none) := by
  induction l using List.reverseRecOn with
  | nil =>
    refine ⟨fun p d h => ?_, fun _ pf hpf => ?_⟩
    · exact Option.noConfusion h
    · exact absurd hpf (List.not_mem_nil pf)
  | append_singleton l a ih =>
    rw [List.foldl_append, List.foldl_cons, List.foldl_nil]
    by_cases ha : SpawnEligible a
    · rw [spawnStep_eligible _ a ha]
      cases hb : l.foldl spawnStep none with
      | none =>
        have hnone := ih.2 hb
        simp only []
        refine ⟨fun p d h => ?_, fun h => Option.noConfusion h⟩
        have h1 := Option.some.inj h
        have hp : a = p := congrArg Prod.fst h1
        have hd : spawnDistance a = d := congrArg Prod.snd h1
        subst hp
        exact ⟨hd.symm, ha, l, [], rfl, fun q hq he => absurd he (hnone q hq),
          fun q hq => absurd hq (List.not_mem_nil q)⟩
      | some b =>
        obtain ⟨p0, d0⟩ := b
        obtain ⟨hd0, he0, l1, l2, hl, h1, h2⟩ := ih.1 p0 d0 hb
        simp only []
        by_cases hlt : spawnDistance a < d0
        · rw [if_pos hlt]
          refine ⟨fun p d h => ?_, fun h => Option.noConfusion h⟩
          have h3 := Option.some.inj h
          have hp : a = p := congrArg Prod.fst h3
          have hd : spawnDistance a = d := congrArg Prod.snd h3
          subst hp
          rw [hd0] at hlt
          refine ⟨hd.symm, ha, l, [], rfl, fun q hq he => ?_,
            fun q hq => absurd hq (List.not_mem_nil q)⟩
          rw [hl] at hq
          rcases List.mem_append.mp hq with hq | hq
          · exact lt_trans hlt (h1 q hq he)
          · rcases List.mem_cons.mp hq with hq | hq
            · rw [hq]; exact hlt
            · exact lt_of_lt_of_le hlt (h2 q hq he)
        · rw [if_neg hlt]
          refine ⟨fun p d h => ?_, fun h => Option.noConfusion h⟩
          have h3 := Option.some.inj h
          have hp : p0 = p := congrArg Prod.fst h3
          have hd : d0 = d := congrArg Prod.snd h3
          subst hp
          subst hd
          refine ⟨hd0, he0, l1, l2 ++ [a], by rw [hl]; simp, h1, fun q hq he => ?_⟩
          rcases List.mem_append.mp hq with hq | hq
          · exact h2 q hq he
          · rw [List.mem_singleton.mp hq, ← hd0]
            exact not_lt.mp hlt
    · rw [spawnStep_skip _ a ha]
      refine ⟨fun p d h => ?_, fun h pf hpf => ?_⟩
      · obtain ⟨hd0, he0, l1, l2, hl, h1, h2⟩ := ih.1 p d h
        refine ⟨hd0, he0, l1, l2 ++ [a], by rw [hl]; simp, h1, fun q hq he => ?_⟩
        rcases List.mem_append.mp hq with hq | hq
        · exact h2 q hq he
        · rw [List.mem_singleton.mp hq] at he
          exact absurd he ha
      · rcases List.mem_append.mp hpf with hpf | hpf
        · exact ih.2 h pf hpf
        · rw [List.mem_singleton.mp hpf]
          exact ha

theorem spawnBest_platform (w : World) :
    SpawnBest w.platforms ((w.platforms.foldl spawnStep none).map Prod.fst) := by
  obtain ⟨h1, h2⟩ := spawn_fold w.platforms
  cases hb : w.platforms.foldl spawnStep none with
  | none => exact h2 hb
  | some b =>
    obtain ⟨p, d⟩ := b
    exact (h1 p d hb).2

end Spawn

section SpawnClaims

/-- C24. For every platform list, `getSpawnPoint` returns `(240, 588)` when no
rooftop platform has its centre in chunk 0 or intersects the span `(0, 480)`;
otherwise it returns `(p.x + p.width/2, p.y - 12)` for an eligible rooftop `p`
of the list that is strictly nearer to `x = 240` than every eligible rooftop
before it and at least as near as every eligible rooftop after it. -/
theorem spawn_point (w : World) :
    ((∀ pf ∈ w.platforms, ¬ SpawnEligible pf) → getSpawnPoint w = (240, 588)) ∧
    ((∃ pf ∈ w.platforms, SpawnEligible pf) →
      ∃ p l1 l2, w.platforms = l1 ++ p :: l2 ∧ SpawnEligible p ∧
        getSpawnPoint w = (p.x + p.width / 2, p.y - 12) ∧
        (∀ q ∈ l1, SpawnEligible q → spawnDistance p < spawnDistance q) ∧
        (∀ q ∈ l2, SpawnEligible q → spawnDistance p ≤ spawnDistance q)) := by
  have hs := spawnBest_platform w
  unfold getSpawnPoint
  cases hb : (w.platforms.foldl spawnStep none).map Prod.fst with
  | none =>
    rw [hb] at hs
    refine ⟨fun _ => ?_, fun ⟨pf, hpf, he⟩ => absurd he (hs pf hpf)⟩
    simp only [chunkSize, getGroundY]
    norm_num
  | some p =>
    rw [hb] at hs
    obtain ⟨he, l1, l2, hl, h1, h2⟩ := hs
    refine ⟨fun hno => ?_, fun _ => ⟨p, l1, l2, hl, he, rfl, h1, h2⟩⟩
    exact absurd he (hno p (by rw [hl]; simp))

/-- C24 at a concrete input: of two rooftops equally far from the centre of
chunk 0 the first in list order is selected. -/
theorem spawn_point_witness :
    SpawnEligible keepRoof ∧ spawnDistance keepRoof = spawnDistance keepRoof2 ∧
    getSpawnPoint { World.empty with platforms := [ledge, keepRoof, keepRoof2] } = (140, 28) ∧
    ∃ p l1 l2, [ledge, keepRoof, keepRoof2] = l1 ++ p :: l2 ∧ SpawnEligible p ∧
      getSpawnPoint { World.empty with platforms := [ledge, keepRoof, keepRoof2] }
        = (p.x + p.width / 2, p.y - 12) ∧
      (∀ q ∈ l1, SpawnEligible q → spawnDistance p < spawnDistance q) ∧
      (∀ q ∈ l2, SpawnEligible q → spawnDistance p ≤ spawnDistance q) :=
  ⟨by decide!, by decide!, by decide!,
    (spawn_point { World.empty with platforms := [ledge, keepRoof, keepRoof2] }).2
      ⟨keepRoof, by simp, by decide!⟩⟩

end SpawnClaims
/-! ## Bounded catch-up (C30) -/

section GameLoop

variable (E : JsMath) (rnd : ℕ → ℚ)

theorem frameBody_accumulator (g : Game) :
    (g.frameBody E rnd).accumulator = g.accumulator - frameInterval := rfl

theorem frameInterval_pos : (0 : ℚ) < frameInterval := by
  unfold frameInterval; norm_num

/-- The catch-up loop with enough fuel runs its body once per whole frame
interval in the accumulator and stops with the accumulator below one frame
interval. -/
theorem catchUp_spec (fuel : ℕ) :
    ∀ g : Game, ⌊g.accumulator / frameInterval⌋.toNat ≤ fuel →
      Game.catchUp E rnd fuel g =
        (Game.frameBody E rnd)^[⌊g.accumulator / frameInterval⌋.toNat] g ∧
      (Game.catchUp E rnd fuel g).accumulator < frameInterval ∧
      (0 ≤ g.accumulator → 0 ≤ (Game.catchUp E rnd fuel g).accumulator) := by
  have hpos := frameInterval_pos
  induction fuel with
  | zero =>
    intro g hf
    have h0 : ⌊g.accumulator / frameInterval⌋.toNat = 0 := Nat.le_zero.mp hf
    have hlt : g.accumulator < frameInterval := by
      by_contra hge
      have h1 : (1 : ℚ) ≤ g.accumulator / frameInterval := by
        rw [le_div_iff₀ hpos]; linarith [not_lt.mp hge]
      have h2 : (1 : ℤ) ≤ ⌊g.accumulator / frameInterval⌋ := Int.le_floor.mpr (by exact_mod_cast h1)
      omega
    rw [h0]
    exact ⟨rfl, hlt, fun h => h⟩
  | succ n ih =>
    intro g hf
    unfold Game.catchUp
    by_cases hge : g.accumulator ≥ frameInterval
    · rw [if_pos hge]
      have hfl : ⌊(g.frameBody E rnd).accumulator / frameInterval⌋
          = ⌊g.accumulator / frameInterval⌋ - 1 := by
        rw [frameBody_accumulator, sub_div, div_self (ne_of_gt hpos)]
        exact Int.floor_sub_one _
      have h1 : (1 : ℚ) ≤ g.accumulator / frameInterval := by
        rw [le_div_iff₀ hpos]; linarith
      have h2 : (1 : ℤ) ≤ ⌊g.accumulator / frameInterval⌋ := Int.le_floor.mpr (by exact_mod_cast h1)
      have hn : ⌊g.accumulator / frameInterval⌋.toNat
          = ⌊(g.frameBody E rnd).accumulator / frameInterval⌋.toNat + 1 := by
        rw [hfl]; omega
      obtain ⟨i1, i2, i3⟩ := ih (g.frameBody E rnd) (by omega)
      refine ⟨?_, i2, fun _ => i3 ?_⟩
      · rw [i1, hn, Function.iterate_succ_apply]
      · rw [frameBody_accumulator]; linarith
    · rw [if_neg hge]
      have hlt : g.accumulator < frameInterval := not_le.mp hge
      have hfl : ⌊g.accumulator / frameInterval⌋.toNat = 0 := by
        have h1 : g.accumulator / frameInterval < 1 := by
          rw [div_lt_iff₀ hpos]; linarith
        have h2 : ⌊g.accumulator / frameInterval⌋ < 1 := Int.floor_lt.mpr (by exact_mod_cast h1)
        omega
      rw [hfl]
      exact ⟨rfl, hlt, fun h => h⟩

end GameLoop

section GameLoopClaims

/-- C30. For a frame whose wall-clock delta is non-negative, however large,
entered with `0 ≤ accumulator < frameInterval`: `gameLoop` adds between `0` and
`2 * frameInterval` to the accumulator, runs the body of the fixed-timestep
loop `n ≤ 2` times (each run calls `update` with `fixedTimeStep = 1/60` when the
game is playing), and leaves `0 ≤ accumulator < frameInterval`. -/
theorem bounded_catch_up (E : JsMath) (rnd : ℕ → ℚ) (currentTime : ℚ) (controller : Controller)
    (playing : Bool) (g : Game) (hd : 0 ≤ currentTime - g.lastTime)
    (ha : 0 ≤ g.accumulator ∧ g.accumulator < frameInterval) :
    (g.accumulator ≤ (g.enterFrame currentTime controller playing).accumulator ∧
      (g.enterFrame currentTime controller playing).accumulator
        ≤ g.accumulator + 2 * frameInterval) ∧
    (∃ n : ℕ, n ≤ 2 ∧
      g.gameLoop E rnd currentTime controller playing =
        (Game.frameBody E rnd)^[n] (g.enterFrame currentTime controller playing)) ∧
    (∀ h : Game, Game.frameBody E rnd h =
      { (if h.playing = true then h.update E rnd (1 / 60) else h) with
        accumulator := h.accumulator - frameInterval }) ∧
    0 ≤ (g.gameLoop E rnd currentTime controller playing).accumulator ∧
    (g.gameLoop E rnd currentTime controller playing).accumulator < frameInterval := by
  have hpos := frameInterval_pos
  have hacc : (g.enterFrame currentTime controller playing).accumulator
      = g.accumulator + min (currentTime - g.lastTime) (frameInterval * 2) := rfl
  have hc0 : 0 ≤ min (currentTime - g.lastTime) (frameInterval * 2) :=
    le_min hd (by linarith)
  have hc1 : min (currentTime - g.lastTime) (frameInterval * 2) ≤ frameInterval * 2 :=
    min_le_right _ _
  obtain ⟨s1, s2, s3⟩ := catchUp_spec E rnd _ (g.enterFrame currentTime controller playing)
    (le_refl _)
  have hn : ⌊(g.enterFrame currentTime controller playing).accumulator / frameInterval⌋.toNat
      ≤ 2 := by
    have h1 : (g.enterFrame currentTime controller playing).accumulator / frameInterval < 3 := by
      rw [div_lt_iff₀ hpos, hacc]; linarith [ha.2]
    have h2 : ⌊(g.enterFrame currentTime controller playing).accumulator / frameInterval⌋ < 3 :=
      Int.floor_lt.mpr (by exact_mod_cast h1)
    omega
  refine ⟨⟨by rw [hacc]; linarith, by rw [hacc]; linarith⟩, ⟨_, hn, s1⟩, fun _ => rfl,
    s3 (by rw [hacc]; linarith [ha.1]), s2⟩

/-- C30 at a concrete input: after a stall of one second the accumulator
`10` grows by two frame intervals, and the loop, run twice, leaves `10`. -/
theorem bounded_catch_up_witness :
    (0 : ℚ) ≤ 1000 - stalledGame.lastTime ∧
    (stalledGame.enterFrame 1000 Controller.idle true).accumulator = 10 + 2 * frameInterval ∧
    (stalledGame.gameLoop exactMath (fun _ => 1 / 2) 1000 Controller.idle true).accumulator
      < frameInterval :=
  ⟨by decide!, by decide!,
    (bounded_catch_up exactMath (fun _ => 1 / 2) 1000 Controller.idle true stalledGame
      (by decide!) (by decide!)).2.2.2.2⟩

end GameLoopClaims

/-! ## Window grids (C27, C28) -/

section Windows

variable (E : JsMath)

/-- The coercion of a list of naturals to a list of rationals, as it occurs in
the loops over `List.range`. -/
theorem castList (l : List ℕ) :
    ((l : List ℕ) : List ℚ) = List.map (fun (a : ℕ) => (a : ℚ)) l := by
  induction l with
  | nil => rfl
  | cons a l ih =>
    rw [List.map_cons, ← ih]
    rfl

/-- `generateWindowRects` is the grid of `windowCell` over the rows and
columns. -/
theorem generateWindowRects_cells (platform : Platform) (style : WindowStyle) :
    generateWindowRects E platform style =
      ((List.range (loopCount (windowRows platform style))).map fun row =>
        (List.range (loopCount (windowColumns platform style))).filterMap
          (windowCell E platform style row)).flatten := by
  unfold generateWindowRects
  simp only [castList, List.map_map, List.filterMap_map]
  rfl

theorem mem_generateWindowRects (platform : Platform) (style : WindowStyle) (rect : Rect)
    (h : rect ∈ generateWindowRects E platform style) :
    ∃ row col : ℕ, col < loopCount (windowColumns platform style) ∧
      windowCell E platform style row col = some rect := by
  rw [generateWindowRects_cells] at h
  obtain ⟨l, hl, hr⟩ := List.mem_flatten.mp h
  obtain ⟨row, -, rfl⟩ := List.mem_map.mp hl
  obtain ⟨col, hcol, hc⟩ := List.mem_filterMap.mp hr
  exact ⟨row, col, List.mem_range.mp hcol, hc⟩

theorem windowSpacingX_nonneg (platform : Platform) (style : WindowStyle) :
    0 ≤ windowSpacingX platform style := by
  unfold windowSpacingX
  simp only []
  split_ifs
  · exact le_max_left _ _
  · exact le_refl _

theorem windowSpacingY_nonneg (platform : Platform) (style : WindowStyle) :
    0 ≤ windowSpacingY platform style := by
  unfold windowSpacingY
  simp only []
  split_ifs
  · exact le_max_left _ _
  · exact le_refl _

/-- The rectangle of a cell and the guard it passed. -/
theorem windowCell_some (platform : Platform) (style : WindowStyle) (row col : ℕ) (rect : Rect)
    (h : windowCell E platform style row col = some rect) :
    rect.x = platform.x + style.marginX.getD 12 +
      (col : ℚ) * (style.windowWidth.getD 16 + windowSpacingX platform style) ∧
    rect.y = platform.y + style.marginTop.getD 16 +
      (row : ℚ) * (style.windowHeight.getD 22 + windowSpacingY platform style) ∧
    rect.width = style.windowWidth.getD 16 ∧ rect.height = style.windowHeight.getD 22 ∧
    rect.y + rect.height ≤
      platform.y + platform.height - style.marginBottom.getD 16 + 1 / 10 ∧
    ¬ WindowOmitted E platform.x platform.y row col (omissionChance style) := by
  unfold windowCell at h
  simp only [] at h
  split_ifs at h with h1 h2
  have hr := Option.some.inj h
  subst hr
  exact ⟨rfl, rfl, rfl, rfl, not_lt.mp h1, h2⟩

end Windows

section Windows2

variable (E : JsMath)

/-- When the style's minimum column count is a whole number that fits the
facade, the last column ends inside the facade inset by `marginX`. -/
theorem columns_fit (platform : Platform) (style : WindowStyle) (col : ℕ) (k : ℤ)
    (hww : 0 < style.windowWidth.getD 16) (hhs : 0 ≤ style.horizontalSpacing.getD 12)
    (hk : style.minColumns.getD 1 = k) (h1 : 1 ≤ fitColumns platform style)
    (hfit : k ≤ fitColumns platform style)
    (hcol : col < loopCount (windowColumns platform style)) :
    (col : ℚ) * (style.windowWidth.getD 16 + windowSpacingX platform style)
        + style.windowWidth.getD 16
      ≤ platform.width - style.marginX.getD 12 * 2 := by
  have hcols : windowColumns platform style =
      max (style.minColumns.getD 1)
        (min ((jsFloor (clamp (style.maxColumns.getD (max 1 (fitColumns platform style : ℚ)))
            (style.minColumns.getD 1) (max 1 (fitColumns platform style : ℚ))) : ℤ) : ℚ)
          (max 1 (fitColumns platform style : ℚ))) := rfl
  have hsp : windowSpacingX platform style =
      if windowColumns platform style > 1 then
        max 0 ((max 0 (platform.width - style.marginX.getD 12 * 2)
          - windowColumns platform style * style.windowWidth.getD 16)
            / (windowColumns platform style - 1))
      else 0 := rfl
  have hF : (jsFloor ((max 0 (platform.width - style.marginX.getD 12 * 2)
        + style.horizontalSpacing.getD 12)
      / max 1 (style.windowWidth.getD 16 + style.horizontalSpacing.getD 12)) : ℤ)
      = fitColumns platform style := rfl
  have hD1 : (1 : ℚ) ≤ max 1 (style.windowWidth.getD 16 + style.horizontalSpacing.getD 12) :=
    le_max_left _ _
  have hD2 : style.windowWidth.getD 16 + style.horizontalSpacing.getD 12
      ≤ max 1 (style.windowWidth.getD 16 + style.horizontalSpacing.getD 12) := le_max_right _ _
  have hFD : (fitColumns platform style : ℚ) *
      max 1 (style.windowWidth.getD 16 + style.horizontalSpacing.getD 12)
      ≤ max 0 (platform.width - style.marginX.getD 12 * 2) + style.horizontalSpacing.getD 12 := by
    have := Int.floor_le ((max 0 (platform.width - style.marginX.getD 12 * 2)
        + style.horizontalSpacing.getD 12)
      / max 1 (style.windowWidth.getD 16 + style.horizontalSpacing.getD 12))
    rw [le_div_iff₀ (by linarith)] at this
    exact this
  have h1q : (1 : ℚ) ≤ (fitColumns platform style : ℚ) := by exact_mod_cast h1
  have hkq : (k : ℚ) ≤ (fitColumns platform style : ℚ) := by exact_mod_cast hfit
  rw [hsp]
  rw [hcols, hk, max_eq_right h1q] at hcol ⊢
  generalize jsFloor (clamp (style.maxColumns.getD (fitColumns platform style : ℚ)) (k : ℚ)
    (fitColumns platform style : ℚ)) = c at hcol ⊢
  have hint : max (k : ℚ) (min (c : ℚ) (fitColumns platform style : ℚ))
      = ((max k (min c (fitColumns platform style)) : ℤ) : ℚ) := by push_cast; rfl
  have hNF : ((max k (min c (fitColumns platform style)) : ℤ) : ℚ)
      ≤ (fitColumns platform style : ℚ) := by
    rw [← hint]
    exact max_le hkq (min_le_right _ _)
  rw [hint] at hcol ⊢
  generalize max k (min c (fitColumns platform style)) = N at hcol hNF ⊢
  have hcN : (col : ℚ) + 1 ≤ (N : ℚ) := by
    unfold loopCount at hcol
    rw [Int.ceil_intCast] at hcol
    have : (col : ℤ) + 1 ≤ N := by omega
    exact_mod_cast this
  have hc0 : (0 : ℚ) ≤ (col : ℚ) := Nat.cast_nonneg col
  generalize (fitColumns platform style : ℚ) = F at hFD h1q hkq hNF
  generalize max 1 (style.windowWidth.getD 16 + style.horizontalSpacing.getD 12) = D
    at hD1 hD2 hFD
  generalize style.windowWidth.getD 16 = ww at hww hD2 ⊢
  generalize style.horizontalSpacing.getD 12 = hs at hhs hD2 hFD
  generalize (col : ℚ) = cq at hcN hc0 ⊢
  generalize (N : ℚ) = n at hNF hcN ⊢
  have hn1 : 1 ≤ n := by linarith
  have hnD : n * (ww + hs) ≤ F * D := by
    calc n * (ww + hs) ≤ n * D := mul_le_mul_of_nonneg_left hD2 (by linarith)
      _ ≤ F * D := mul_le_mul_of_nonneg_right hNF (by linarith)
  have hnw : n * ww ≤ max 0 (platform.width - style.marginX.getD 12 * 2) := by
    have : 0 ≤ (n - 1) * hs := mul_nonneg (by linarith) hhs
    nlinarith
  have hApos : 0 < max 0 (platform.width - style.marginX.getD 12 * 2) := by
    have : ww ≤ n * ww := by nlinarith
    linarith
  have hA : max 0 (platform.width - style.marginX.getD 12 * 2)
      = platform.width - style.marginX.getD 12 * 2 := by
    rcases le_total (platform.width - style.marginX.getD 12 * 2) 0 with h | h
    · rw [max_eq_left h] at hApos
      exact absurd hApos (lt_irrefl 0)
    · exact max_eq_right h
  rw [hA] at hnw ⊢
  generalize platform.width - style.marginX.getD 12 * 2 = A at hnw ⊢
  by_cases hgt : n > 1
  · rw [if_pos hgt]
    have hq : 0 ≤ (A - n * ww) / (n - 1) := div_nonneg (by linarith) (by linarith)
    rw [max_eq_right hq]
    have hne : n - 1 ≠ 0 := by linarith
    have hle : cq * (ww + (A - n * ww) / (n - 1)) ≤ (n - 1) * (ww + (A - n * ww) / (n - 1)) :=
      mul_le_mul_of_nonneg_right (by linarith) (by linarith)
    have heq : (n - 1) * (ww + (A - n * ww) / (n - 1)) = A - ww := by
      field_simp
      ring
    linarith
  · rw [if_neg hgt]
    have hn : n = 1 := le_antisymm (not_lt.mp hgt) hn1
    have hc : cq = 0 := by linarith
    rw [hc]
    rw [hn] at hnw
    linarith

end Windows2

section WindowClaims

/-- C27, refuted as stated. A market stall facade 40 wide with the
marketplace window style (two columns at least, windows 24 wide, margin 6):
`generateWindowRects` returns two windows side by side, and the second one ends
at `x = 54`, beyond the inset facade edge `34` and beyond the facade itself. -/
theorem window_outside_facade :
    generateWindowRects exactMath narrowStall (getWindowStyle "marketplace")
        = [⟨6, 558, 24, 24⟩, ⟨30, 558, 24, 24⟩] ∧
      (getWindowStyle "marketplace").marginX = some 6 ∧
      ¬ ((30 : ℚ) + 24 ≤ narrowStall.x + narrowStall.width - 6) := by
  decide!

/-- C27, amended. Every rectangle that `generateWindowRects` returns ends at
or above `platform.y + platform.height - marginBottom + 0.1` (the loop checks
it); it starts at or below `platform.y + marginTop` and at or right of
`platform.x + marginX` when the window height and width are not negative; and
it ends at or left of `platform.x + platform.width - marginX` when the
window width is positive, the spacing not negative and the style's minimum
column count is a whole number that fits the facade (`minColumns` wins over
the available space, so a narrower facade is overrun). -/
theorem window_grid_fits (E : JsMath) (platform : Platform) (style : WindowStyle) (rect : Rect)
    (h : rect ∈ generateWindowRects E platform style) :
    rect.y + rect.height ≤
      platform.y + platform.height - style.marginBottom.getD 16 + 1 / 10 ∧
    (0 ≤ style.windowHeight.getD 22 → platform.y + style.marginTop.getD 16 ≤ rect.y) ∧
    (0 ≤ style.windowWidth.getD 16 → platform.x + style.marginX.getD 12 ≤ rect.x) ∧
    (0 < style.windowWidth.getD 16 → 0 ≤ style.horizontalSpacing.getD 12 →
      (∃ k : ℤ, style.minColumns.getD 1 = k) → 1 ≤ fitColumns platform style →
      style.minColumns.getD 1 ≤ fitColumns platform style →
      rect.x + rect.width ≤ platform.x + platform.width - style.marginX.getD 12) := by
  obtain ⟨row, col, hcol, hcell⟩ := mem_generateWindowRects E platform style rect h
  obtain ⟨hx, hy, hw, hh, hb, -⟩ := windowCell_some E platform style row col rect hcell
  have sx := windowSpacingX_nonneg platform style
  have sy := windowSpacingY_nonneg platform style
  have hr : (0 : ℚ) ≤ (row : ℚ) := Nat.cast_nonneg row
  have hc : (0 : ℚ) ≤ (col : ℚ) := Nat.cast_nonneg col
  refine ⟨hb, fun h0 => ?_, fun h0 => ?_, fun h0 h1 ⟨k, hk⟩ h2 h3 => ?_⟩
  · rw [hy]
    have := mul_nonneg hr (add_nonneg h0 sy)
    linarith
  · rw [hx]
    have := mul_nonneg hc (add_nonneg h0 sx)
    linarith
  · have hfit : k ≤ fitColumns platform style := by
      rw [hk] at h3
      exact_mod_cast h3
    have := columns_fit platform style col k h0 h1 hk h2 hfit hcol
    rw [hx, hw]
    linarith

/-- C27, amended, at a concrete input: a stall facade 64 wide takes the two
columns, and the second window ends at the inset edge `58`. -/
theorem window_grid_fits_witness :
    (⟨34, 558, 24, 24⟩ : Rect) ∈ generateWindowRects exactMath { narrowStall with width := 64 }
      (getWindowStyle "marketplace") ∧
    (34 : ℚ) + 24 ≤ 0 + 64 - 6 := by
  have hm : (⟨34, 558, 24, 24⟩ : Rect) ∈ generateWindowRects exactMath
      { narrowStall with width := 64 } (getWindowStyle "marketplace") := by decide!
  have h := (window_grid_fits exactMath { narrowStall with width := 64 }
    (getWindowStyle "marketplace") ⟨34, 558, 24, 24⟩ hm).2.2.2 (by decide!) (by decide!)
    ⟨2, by decide!⟩ (by decide!) (by decide!)
  exact ⟨hm, by norm_num⟩

/-- C28. The omission test of `generateWindowRects` for a cell is
`WindowOmitted` on the building position, the cell and the omission chance:
the rectangle list is the grid of `windowCell`, two buildings at the same
position with the same omission chance omit the same cells whatever their
sizes and other style fields, the platform that `createPlatform` builds (its
window rectangles included) is the same in every world state, and equal
platforms and styles give equal rectangle lists. -/
theorem window_omission_pure (E : JsMath) :
    (∀ (platform : Platform) (style : WindowStyle),
      generateWindowRects E platform style =
        ((List.range (loopCount (windowRows platform style))).map fun row =>
          (List.range (loopCount (windowColumns platform style))).filterMap
            (windowCell E platform style row)).flatten) ∧
    (∀ (platform : Platform) (style : WindowStyle) (row col : ℕ),
      (windowCell E platform style row col).isSome = true →
        ¬ WindowOmitted E platform.x platform.y row col (omissionChance style)) ∧
    (∀ (p1 p2 : Platform) (s1 s2 : WindowStyle) (row col : ℕ),
      p1.x = p2.x → p1.y = p2.y → s1.randomOmissions = s2.randomOmissions →
      (WindowOmitted E p1.x p1.y row col (omissionChance s1) ↔
        WindowOmitted E p2.x p2.y row col (omissionChance s2))) ∧
    (∀ (x y wd ht : ℚ) (ty b : String) (am : Bool) (k1 k2 : Option String) (w1 w2 : World),
      (createPlatform E x y wd ht ty b am k1 k2 w1).1
        = (createPlatform E x y wd ht ty b am k1 k2 w2).1) ∧
    (∀ (p1 p2 : Platform) (s1 s2 : WindowStyle), p1 = p2 → s1 = s2 →
      generateWindowRects E p1 s1 = generateWindowRects E p2 s2) := by
  refine ⟨generateWindowRects_cells E, fun platform style row col h => ?_,
    fun p1 p2 s1 s2 row col hx hy hs => ?_, fun _ _ _ _ _ _ _ _ _ _ _ => rfl,
    fun p1 p2 s1 s2 hp hs => by rw [hp, hs]⟩
  · obtain ⟨rect, hr⟩ := Option.isSome_iff_exists.mp h
    exact (windowCell_some E platform style row col rect hr).2.2.2.2.2
  · unfold omissionChance
    rw [hx, hy, hs]

/-- C28 at a concrete input: the narrow stall and a stall four times as wide
at the same position omit the same cell. -/
theorem window_omission_pure_witness :
    narrowStall.x = ({ narrowStall with width := 160, height := 90 } : Platform).x ∧
    (WindowOmitted exactMath narrowStall.x narrowStall.y 0 1
        (omissionChance (getWindowStyle "marketplace")) ↔
      WindowOmitted exactMath ({ narrowStall with width := 160, height := 90 } : Platform).x
        ({ narrowStall with width := 160, height := 90 } : Platform).y 0 1
        (omissionChance (getWindowStyle "town_square"))) :=
  ⟨rfl, (window_omission_pure exactMath).2.2.1 narrowStall
    { narrowStall with width := 160, height := 90 } (getWindowStyle "marketplace")
    (getWindowStyle "town_square") 0 1 rfl rfl (by decide!)⟩

end WindowClaims

/-! ## What a chunk adds to the platform registry (C25, C26, C29) -/

section Built

variable (E : JsMath) (rnd : ℕ → ℚ)

theorem built_random (w : World) : (w.random rnd).2.built = w.built := rfl

theorem built_randomInRange (range : Option (List ℚ)) (fb : ℚ) (w : World) :
    (randomInRange rnd range fb w).2.built = w.built := by
  unfold randomInRange
  split <;> rfl

theorem built_randomIntInRange (range : Option (List ℚ)) (fb : ℚ) (w : World) :
    (randomIntInRange rnd range fb w).2.built = w.built :=
  built_randomInRange rnd range fb w

theorem built_createStreetLamp (x g : ℚ) (b : String) (c : BiomeConfig) (w : World) :
    (createStreetLamp rnd x g b c w).built = w.built :=
  built_randomInRange rnd c.streetLampHeightRange 140 w

theorem built_createManhole (x g : ℚ) (b : String) (w : World) :
    (createManhole x g b w).built = w.built := rfl

theorem built_createTree (x g : ℚ) (b : String) (w : World) :
    (createTree rnd x g b w).built = w.built := rfl

theorem built_lampLoop (endX : ℚ) (c : BiomeConfig) (b : String) (bs : List BuildingSpan)
    (fuel : ℕ) : ∀ (lampX : ℚ) (w : World),
    (lampLoop rnd endX c b bs fuel lampX w).built = w.built := by
  induction fuel with
  | zero => intro _ _; rfl
  | succ n ih =>
    intro lampX w
    unfold lampLoop
    simp only []
    split_ifs <;>
      simp only [ih, built_randomInRange, built_createStreetLamp, built_random]

theorem built_manholeLoop (startX ch : ℚ) (b : String) (bs : List BuildingSpan) (fuel : ℕ) :
    ∀ (toPlace : ℕ) (w : World),
    (manholeLoop rnd startX ch b bs fuel toPlace w).built = w.built := by
  induction fuel with
  | zero => intro _ _; rfl
  | succ n ih =>
    intro toPlace w
    unfold manholeLoop
    simp only []
    split_ifs <;>
      simp only [ih, built_createManhole, built_random, built_randomInRange]

theorem built_treeLoop (gap : Gap) (tc : ℚ) (b : String) (n : ℕ) :
    ∀ w : World, (treeLoop rnd gap tc b n w).built = w.built := by
  induction n with
  | zero => intro _; rfl
  | succ n ih =>
    intro w
    unfold treeLoop
    simp only []
    split_ifs <;> simp only [ih, built_createTree, built_random]

theorem built_gapLoop (c : BiomeConfig) (tc : ℚ) (b : String) (gaps : List Gap) :
    ∀ w : World, (gapLoop rnd c tc b gaps w).built = w.built := by
  induction gaps with
  | nil => intro _; rfl
  | cons g rest ih =>
    intro w
    unfold gapLoop
    simp only []
    split_ifs <;> simp only [ih, built_treeLoop, built_randomIntInRange]

theorem built_placeTreesInOpenSpaces (startX endX : ℚ) (c : BiomeConfig)
    (bs : List BuildingSpan) (b : String) (w : World) :
    (placeTreesInOpenSpaces rnd startX endX c bs b w).built = w.built := by
  unfold placeTreesInOpenSpaces
  simp only []
  split_ifs <;> simp only [built_gapLoop]

theorem built_placeLamps (startX endX : ℚ) (c : BiomeConfig) (b : String)
    (bs : List BuildingSpan) (w : World) :
    (placeLamps rnd startX endX c b bs w).built = w.built := by
  unfold placeLamps
  split
  · rfl
  · simp only [built_lampLoop, built_randomInRange]

theorem built_placeManholes (startX : ℚ) (c : BiomeConfig) (b : String)
    (bs : List BuildingSpan) (w : World) :
    (placeManholes rnd startX c b bs w).built = w.built := by
  unfold placeManholes
  split
  · rfl
  · split_ifs
    · simp only [built_manholeLoop, built_randomIntInRange]
    · rfl

theorem built_placeTrees (startX endX : ℚ) (c : BiomeConfig) (bs : List BuildingSpan)
    (b : String) (w : World) : (placeTrees rnd startX endX c bs b w).built = w.built := by
  unfold placeTrees
  split
  · split_ifs
    · exact built_placeTreesInOpenSpaces rnd _ _ _ _ _ w
    · rfl
  · rfl

theorem built_placeChunkStreetFeatures (startX endX : ℚ) (c : BiomeConfig) (b : String)
    (bs : List BuildingSpan) (w : World) :
    (placeChunkStreetFeatures rnd startX endX c b bs w).built = w.built := by
  unfold placeChunkStreetFeatures
  rw [built_placeTrees, built_placeManholes, built_placeLamps]

theorem built_selectBiome (fb : Option String) (w : World) :
    (selectBiome rnd fb w).2.built = w.built := by
  unfold selectBiome
  cases fb with
  | none => rfl
  | some b => by_cases hb : b = "" <;> simp [hb, built_random]

theorem mkPlatform_kind (x y wd ht : ℚ) (ty b : String) (k1 k2 : Option String) :
    (mkPlatform E x y wd ht ty b k1 k2).type = ty ∧
      (mkPlatform E x y wd ht ty b k1 k2).biome = b := by
  unfold mkPlatform
  simp only []
  split_ifs <;> exact ⟨rfl, rfl⟩

theorem createPlatform_built (x y wd ht : ℚ) (ty b : String) (am : Bool)
    (k1 k2 : Option String) (w : World) :
    (createPlatform E x y wd ht ty b am k1 k2 w).1 = mkPlatform E x y wd ht ty b k1 k2 ∧
    (createPlatform E x y wd ht ty b am k1 k2 w).2.platforms
      = w.platforms ++ [mkPlatform E x y wd ht ty b k1 k2] ∧
    (createPlatform E x y wd ht ty b am k1 k2 w).2.buildings
      = if ty = "building" then w.buildings ++ [mkPlatform E x y wd ht ty b k1 k2]
        else w.buildings := by
  unfold createPlatform addRoofMetalSources
  by_cases h1 : ty = "building" <;> cases am <;> simp [h1]

/-- The building that `createBuilding` adds. -/
theorem createBuilding_built (x wd ht : ℚ) (b : String) (am : Bool) (k1 k2 : String)
    (w : World) :
    (createBuilding E x wd ht b am k1 k2 w).2.platforms
      = w.platforms ++ [(createBuilding E x wd ht b am k1 k2 w).1] ∧
    (createBuilding E x wd ht b am k1 k2 w).2.buildings
      = w.buildings ++ [(createBuilding E x wd ht b am k1 k2 w).1] ∧
    (createBuilding E x wd ht b am k1 k2 w).1.type = "building" ∧
    (createBuilding E x wd ht b am k1 k2 w).1.x = x ∧
    (createBuilding E x wd ht b am k1 k2 w).1.width = wd := by
  obtain ⟨c1, c2, c3⟩ := createPlatform_built E x (getGroundY - ht) wd ht "building" b am
    (some (orString (some k1) b)) (if k2 = "" then none else some k2) w
  obtain ⟨g1, g2⟩ := createBuilding_geometry E x wd ht b am k1 k2 w
  unfold createBuilding at g1 g2 ⊢
  rw [c2, c3, if_pos rfl, c1]
  refine ⟨rfl, rfl, (mkPlatform_kind E _ _ _ _ _ _ _ _).1, ?_, ?_⟩
  · rw [← c1]; exact g1
  · rw [← c1]; exact g2

/-- The rooftop platforms that `addRooftop` adds: none without a rooftop
record, else one. -/
theorem addRooftop_built (bld : Platform) (roof : Option Rooftop) (b : String) (am : Bool)
    (w : World) :
    ∃ roofs : List Platform,
      (addRooftop E bld roof b am w).platforms = w.platforms ++ roofs ∧
      (addRooftop E bld roof b am w).buildings = w.buildings ∧
      (∀ r ∈ roofs, r.type = "rooftop" ∧ r.biome = b ∧
        r.x = bld.x - (roof.map Rooftop.overhang).getD 0 ∧
        r.width = bld.width + (roof.map Rooftop.overhang).getD 0 * 2) ∧
      (roof ≠ none → roofs ≠ []) := by
  unfold addRooftop
  cases roof with
  | none => exact ⟨[], by simp, rfl, fun r hr => absurd hr (List.not_mem_nil r), fun h => absurd rfl h⟩
  | some rf =>
    simp only []
    obtain ⟨-, c2, c3⟩ := createPlatform_built E (bld.x - rf.overhang)
      (bld.y - rf.thickness.getD 16 + rf.verticalOffset) (bld.width + rf.overhang * 2)
      (rf.thickness.getD 16) "rooftop" b am none none w
    obtain ⟨k1, k2⟩ := mkPlatform_kind E (bld.x - rf.overhang)
      (bld.y - rf.thickness.getD 16 + rf.verticalOffset) (bld.width + rf.overhang * 2)
      (rf.thickness.getD 16) "rooftop" b none none
    obtain ⟨g1, g2, -⟩ := mkPlatform_geometry E (bld.x - rf.overhang)
      (bld.y - rf.thickness.getD 16 + rf.verticalOffset) (bld.width + rf.overhang * 2)
      (rf.thickness.getD 16) "rooftop" b none none
    refine ⟨[_], c2, ?_, fun r hr => ?_, fun _ => List.cons_ne_nil _ _⟩
    · rw [c3, if_neg (by decide)]
    · rw [List.mem_singleton.mp hr]
      exact ⟨k1, k2, g1, g2⟩

end Built

section BiomeAdds

variable (E : JsMath) (rnd : ℕ → ℚ)

/-- The `switch` of `generateBiome` has no case for a name outside the five
biomes: the world is returned as it is. -/
theorem generateBiome_unknown (x : ℚ) (b : String) (o : BuildOptions) (w : World)
    (hb : b ∉ biomes) : generateBiome E x b o w = w := by
  simp only [biomes, List.mem_cons, List.mem_singleton, List.not_mem_nil, or_false,
    not_or] at hb
  obtain ⟨h1, h2, h3, h4, h5⟩ := hb
  unfold generateBiome
  rw [if_neg h1, if_neg h2, if_neg h3, if_neg h4, if_neg h5]

/-- One call of `generateBiome` for one of the five biomes adds exactly one
`building` platform at `x` with the rounded width, followed by the rooftop
platforms of that building (none, or one of the same biome). -/
theorem generateBiome_adds (x : ℚ) (b : String) (o : BuildOptions) (w : World)
    (hb : b ∈ biomes) (hwd : 60 ≤ o.width) :
    ∃ (bld : Platform) (roofs : List Platform),
      (generateBiome E x b o w).platforms = w.platforms ++ bld :: roofs ∧
      (generateBiome E x b o w).buildings = w.buildings ++ [bld] ∧
      bld.type = "building" ∧ bld.x = x ∧ bld.width = (jsRound o.width : ℚ) ∧
      (∀ r ∈ roofs, r.type = "rooftop" ∧ r.biome = b ∧
        r.x = x - o.buildingDefinition.overhang ∧
        r.width = (jsRound o.width : ℚ) + o.buildingDefinition.overhang * 2) ∧
      (b = "grand_keep" ∨ b = "noble_housing" → o.buildingDefinition.rooftop ≠ none →
        roofs ≠ []) := by
  have hmax : max (60 : ℚ) (jsRound o.width : ℚ) = (jsRound o.width : ℚ) := by
    apply max_eq_right
    have : (60 : ℤ) ≤ jsRound o.width := by
      unfold jsRound
      rw [Int.le_floor]
      push_cast
      linarith
    exact_mod_cast this
  have plain : ∀ (bi : String) (am : Bool) (k1 k2 : String) (ht : ℚ),
      (bi = "grand_keep" ∨ bi = "noble_housing" → False) →
      ∃ (bld : Platform) (roofs : List Platform),
        (createBuilding E x (jsRound o.width) ht bi am k1 k2 w).2.platforms
          = w.platforms ++ bld :: roofs ∧
        (createBuilding E x (jsRound o.width) ht bi am k1 k2 w).2.buildings
          = w.buildings ++ [bld] ∧
        bld.type = "building" ∧ bld.x = x ∧ bld.width = (jsRound o.width : ℚ) ∧
        (∀ r ∈ roofs, r.type = "rooftop" ∧ r.biome = bi ∧
          r.x = x - o.buildingDefinition.overhang ∧
          r.width = (jsRound o.width : ℚ) + o.buildingDefinition.overhang * 2) ∧
        (bi = "grand_keep" ∨ bi = "noble_housing" → o.buildingDefinition.rooftop ≠ none →
          roofs ≠ []) := by
    intro bi am k1 k2 ht hbi
    obtain ⟨c1, c2, c3, c4, c5⟩ := createBuilding_built E x (jsRound o.width) ht bi am k1 k2 w
    exact ⟨_, [], c1, c2, c3, c4, c5, fun r hr => absurd hr (List.not_mem_nil r),
      fun h => absurd h hbi⟩
  have roofed : ∀ (bi : String) (am am2 : Bool) (k1 k2 : String) (ht : ℚ) (w2 : World),
      w2.platforms = (createBuilding E x (jsRound o.width) ht bi am k1 k2 w).2.platforms →
      w2.buildings = (createBuilding E x (jsRound o.width) ht bi am k1 k2 w).2.buildings →
      ∃ (bld : Platform) (roofs : List Platform),
        (addRooftop E (createBuilding E x (jsRound o.width) ht bi am k1 k2 w).1
          o.buildingDefinition.rooftop bi am2 w2).platforms = w.platforms ++ bld :: roofs ∧
        (addRooftop E (createBuilding E x (jsRound o.width) ht bi am k1 k2 w).1
          o.buildingDefinition.rooftop bi am2 w2).buildings = w.buildings ++ [bld] ∧
        bld.type = "building" ∧ bld.x = x ∧ bld.width = (jsRound o.width : ℚ) ∧
        (∀ r ∈ roofs, r.type = "rooftop" ∧ r.biome = bi ∧
          r.x = x - o.buildingDefinition.overhang ∧
          r.width = (jsRound o.width : ℚ) + o.buildingDefinition.overhang * 2) ∧
        (bi = "grand_keep" ∨ bi = "noble_housing" → o.buildingDefinition.rooftop ≠ none →
          roofs ≠ []) := by
    intro bi am am2 k1 k2 ht w2 e1 e2
    obtain ⟨c1, c2, c3, c4, c5⟩ := createBuilding_built E x (jsRound o.width) ht bi am k1 k2 w
    obtain ⟨roofs, r1, r2, r3, r4⟩ := addRooftop_built E
      (createBuilding E x (jsRound o.width) ht bi am k1 k2 w).1 o.buildingDefinition.rooftop bi
      am2 w2
    refine ⟨_, roofs, ?_, ?_, c3, c4, c5, fun r hr => ?_, fun _ hne => r4 hne⟩
    · rw [r1, e1, c1, List.append_assoc, List.singleton_append]
    · rw [r2, e2, c2]
    · obtain ⟨q1, q2, q3, q4⟩ := r3 r hr
      rw [c4] at q3
      rw [c5] at q4
      exact ⟨q1, q2, q3, q4⟩
  simp only [biomes, List.mem_cons, List.mem_singleton, List.not_mem_nil, or_false] at hb
  rcases hb with rfl | rfl | rfl | rfl | rfl
  · have e : generateBiome E x "slums" o w = generateSlums E x o w := by
      simp [generateBiome]
    rw [e]
    unfold generateSlums
    simp only [hmax]
    exact plain _ _ _ _ _ (by decide)
  · have e : generateBiome E x "noble_housing" o w = generateNobleHousing E x o w := by
      simp [generateBiome]
    rw [e]
    unfold generateNobleHousing
    exact roofed _ _ _ _ _ _ _ rfl rfl
  · have e : generateBiome E x "town_square" o w = generateTownSquare E x o w := by
      simp [generateBiome]
    rw [e]
    unfold generateTownSquare
    exact plain _ _ _ _ _ (by decide)
  · have e : generateBiome E x "marketplace" o w = generateMarketplace E x o w := by
      simp [generateBiome]
    rw [e]
    unfold generateMarketplace
    exact plain _ _ _ _ _ (by decide)
  · have e : generateBiome E x "grand_keep" o w = generateGrandKeep E x o w := by
      simp [generateBiome]
    rw [e]
    unfold generateGrandKeep
    exact roofed _ _ _ _ _ _ _ rfl rfl

end BiomeAdds

section Layout

variable (E : JsMath) (rnd : ℕ → ℚ)

theorem laidOut_mono (hi : ℚ) {lo lo2 : ℚ} (h : lo2 ≤ lo) :
    ∀ l : List Platform, laidOut hi lo l → laidOut hi lo2 l
  | [], _ => trivial
  | _ :: _, ⟨h1, h2, h3, h4, h5⟩ => ⟨h1, le_trans h h2, h3, h4, h5⟩

theorem filter_roofs (roofs : List Platform) (h : ∀ r ∈ roofs, r.type = "rooftop") :
    roofs.filter Platform.isBuilding = [] := by
  rw [List.filter_eq_nil_iff]
  intro r hr
  unfold Platform.isBuilding
  rw [h r hr]
  decide

theorem built_platforms {w w2 : World} (h : w2.built = w.built) :
    w2.platforms = w.platforms ∧ w2.buildings = w.buildings :=
  ⟨congrArg Prod.fst h, congrArg Prod.snd h⟩

/-- For a biome name outside the five, the building loop adds no platform. -/
theorem built_buildingLoop_unknown (c : BiomeConfig) (b : String) (hb : b ∉ biomes)
    (types : List String) (startX endX pad : ℚ) (fuel : ℕ) :
    ∀ (i : ℕ) (cx : ℚ) (cb : List BuildingSpan) (w : World),
    (buildingLoop E rnd c b types startX endX pad fuel i cx cb w).1.built = w.built := by
  induction fuel with
  | zero => intro _ _ _ _; rfl
  | succ n ih =>
    intro i cx cb w
    unfold buildingLoop
    simp only []
    split_ifs <;>
      simp only [ih, built_randomInRange, generateBiome_unknown E _ b _ _ hb]

/-- The building loop of a chunk of one of the five biomes lays its buildings
out from `cx` inside the chunk, and the first iteration always places one. -/
theorem layout_buildingLoop (hr : ∀ n, 0 ≤ rnd n ∧ rnd n < 1) (c : BiomeConfig)
    (types : List String) (plo phi : ℚ) (L : LayoutOK c types plo phi) (b : String)
    (hb : b ∈ biomes) (startX : ℚ) (pad : ℚ) (hpad : plo ≤ pad ∧ pad ≤ phi) (fuel : ℕ) :
    ∀ (i : ℕ) (cx : ℚ) (cb : List BuildingSpan) (w : World), startX + pad ≤ cx →
      (i = 0 → cx = startX + pad) →
      ∃ added : List Platform,
        ChunkAdds b startX (startX + 480) cx w
          (buildingLoop E rnd c b types startX (startX + 480) pad fuel i cx cb w).1 added ∧
        (0 < fuel → i = 0 → added.filter Platform.isBuilding ≠ [] ∧
          (b = "grand_keep" ∨ b = "noble_housing" →
            (∀ key ∈ types,
              ((BUILDING_TYPES key).getD BUILDING_TYPES_default).rooftop ≠ none) →
            ∃ pf ∈ added, pf.type = "rooftop")) := by
  have hplo := L.plo_pos
  induction fuel with
  | zero =>
    intro _ _ cb w _ _
    exact ⟨[], ⟨(List.append_nil _).symm, (List.append_nil _).symm, trivial,
      fun pf hpf => absurd hpf (List.not_mem_nil pf)⟩, fun h => absurd h (lt_irrefl 0)⟩
  | succ n ih =>
    intro i cx cb w hcx hi0
    have hmem := getD_mod_mem types L.nonempty i "undefined"
    obtain ⟨wlo, whi, hrange, h60, hle, hfit, hoh0, hoh1⟩ := L.types _ hmem
    obtain ⟨hw1, hw2⟩ := randomInRange_bounds rnd hr wlo whi 90 hle w
    have hA1 := built_platforms (built_randomInRange rnd (some [wlo, whi]) 90 w)
    have hroofkey : (∀ key ∈ types,
        ((BUILDING_TYPES key).getD BUILDING_TYPES_default).rooftop ≠ none) →
        ((BUILDING_TYPES (types.getD (i % types.length) "undefined")).getD
          BUILDING_TYPES_default).rooftop ≠ none := fun h => h _ hmem
    unfold buildingLoop
    simp only []
    generalize types.getD (i % types.length) "undefined" = key at hrange hoh0 hoh1 hroofkey ⊢
    generalize (BUILDING_TYPES key).getD BUILDING_TYPES_default = d
      at hrange hoh0 hoh1 hroofkey ⊢
    rw [hrange]
    generalize randomInRange rnd (some [wlo, whi]) 90 w = rw at hw1 hw2 hA1 ⊢
    have hA2 := built_platforms (built_randomInRange rnd d.heightRange 240 rw.2)
    generalize randomInRange rnd d.heightRange 240 rw.2 = rh at hA2 ⊢
    have hAp : rh.2.platforms = w.platforms := hA2.1.trans hA1.1
    have hAb : rh.2.buildings = w.buildings := hA2.2.trans hA1.2
    by_cases h1 : cx < startX + 480 - pad
    · rw [if_pos h1]
      by_cases h2 : cx + rw.1 > startX + 480 - pad ∧ i ≠ 0
      · rw [if_pos h2]
        exact ⟨[], ⟨by rw [hAp, List.append_nil], by rw [hAb]; exact (List.append_nil _).symm,
          trivial, fun pf hpf => absurd hpf (List.not_mem_nil pf)⟩,
          fun _ h0 => absurd h0 h2.2⟩
      · rw [if_neg h2]
        have hpx : startX + pad ≤
            (if cx + rw.1 > startX + 480 - pad then
              max (startX + pad) (startX + 480 - pad - rw.1) else cx) ∧
            (if cx + rw.1 > startX + 480 - pad then
              max (startX + pad) (startX + 480 - pad - rw.1) else cx) + rw.1
              ≤ startX + 480 - pad ∧
            cx ≤ (if cx + rw.1 > startX + 480 - pad then
              max (startX + pad) (startX + 480 - pad - rw.1) else cx) := by
          split_ifs with h3
          · have hi : i = 0 := by
              by_contra hne
              exact h2 ⟨h3, hne⟩
            refine ⟨le_max_left _ _, ?_, ?_⟩
            · rcases max_cases (startX + pad) (startX + 480 - pad - rw.1) with ⟨e, -⟩ | ⟨e, -⟩
              · rw [e]; linarith [hpad.2]
              · rw [e]; linarith
            · rw [hi0 hi]; exact le_max_left _ _
          · exact ⟨hcx, by linarith, le_refl _⟩
        generalize (if cx + rw.1 > startX + 480 - pad then
              max (startX + pad) (startX + 480 - pad - rw.1) else cx) = px at hpx ⊢
        obtain ⟨hp1, hp2, hp3⟩ := hpx
        obtain ⟨bld, roofs, g1, g2, g3, g4, g5, g6, g7⟩ :=
          generateBiome_adds E px b ⟨rw.1, rh.1, key, d⟩ rh.2 hb
            (by show (60 : ℚ) ≤ rw.1; linarith)
        have g5b : bld.width = (jsRound rw.1 : ℚ) := g5
        have g6b : ∀ r ∈ roofs, r.type = "rooftop" ∧ r.biome = b ∧ r.x = px - d.overhang ∧
            r.width = (jsRound rw.1 : ℚ) + d.overhang * 2 := g6
        have g7b : b = "grand_keep" ∨ b = "noble_housing" → d.rooftop ≠ none → roofs ≠ [] := g7
        obtain ⟨r1, r2⟩ := jsRound_bounds rw.1
        have hC := built_platforms (built_randomInRange rnd c.spacingRange 50
          (generateBiome E px b ⟨rw.1, rh.1, key, d⟩ rh.2))
        rw [g1, hAp] at hC
        rw [g2, hAb] at hC
        generalize randomInRange rnd c.spacingRange 50
          (generateBiome E px b ⟨rw.1, rh.1, key, d⟩ rh.2) = rs at hC ⊢
        have h10 : (10 : ℚ) ≤ max 10 rs.1 := le_max_left _ _
        obtain ⟨rest, ⟨a1, a2, a3, a4⟩, -⟩ := ih (i + 1) (px + rw.1 + max 10 rs.1)
          (cb ++ [⟨px, rw.1, rh.1⟩]) rs.2 (by linarith)
          (fun h => absurd h (Nat.succ_ne_zero i))
        have hfil : (bld :: roofs ++ rest).filter Platform.isBuilding
            = bld :: rest.filter Platform.isBuilding := by
          have hb1 : Platform.isBuilding bld = true := by
            unfold Platform.isBuilding
            rw [g3]
            decide
          rw [List.cons_append, List.filter_cons_of_pos hb1, List.filter_append,
            filter_roofs roofs fun r hr => (g6b r hr).1, List.nil_append]
        refine ⟨bld :: roofs ++ rest, ⟨?_, ?_, ?_, ?_⟩, fun _ _ => ⟨?_, fun hbk hall => ?_⟩⟩
        · rw [a1, hC.1, List.append_assoc]
        · rw [a2, hC.2, hfil, List.append_assoc, List.singleton_append]
        · rw [hfil]
          refine ⟨g3, ?_, ?_, ?_, laidOut_mono _ ?_ _ a3⟩
          · rw [g4]; exact hp3
          · rw [g5b]; linarith
          · rw [g4, g5b]; linarith [hpad.1]
          · rw [g4, g5b]; linarith
        · intro pf hpf
          rw [List.cons_append, List.mem_cons, List.mem_append] at hpf
          rcases hpf with hpf | hpf | hpf
          · left; rw [hpf]; exact g3
          · right
            obtain ⟨q1, q2, q3, q4⟩ := g6b pf hpf
            refine ⟨q1, q2, ?_, ?_, ?_⟩
            · rw [q3]; linarith [hpad.1]
            · rw [q4]; linarith
            · rw [q3, q4]; linarith [hpad.1]
          · exact a4 pf hpf
        · rw [hfil]
          exact List.cons_ne_nil _ _
        · obtain ⟨r, rt, e⟩ := List.exists_cons_of_ne_nil (g7b hbk (hroofkey hall))
          refine ⟨r, ?_, (g6b r (by rw [e]; exact List.mem_cons_self _ _)).1⟩
          rw [e]
          simp
    · rw [if_neg h1]
      refine ⟨[], ⟨(List.append_nil _).symm, (List.append_nil _).symm, trivial,
        fun pf hpf => absurd hpf (List.not_mem_nil pf)⟩, fun _ h0 => ?_⟩
      exfalso
      apply h1
      rw [hi0 h0]
      linarith [hpad.2]

end Layout

section ChunkLayout

variable (E : JsMath) (rnd : ℕ → ℚ)

theorem selectBiome_forced (b : String) (hne : b ≠ "") (w : World) :
    selectBiome rnd (some b) w = (b, w) := by
  unfold selectBiome
  simp only [hne, if_false]

/-- The bookkeeping of one `generateChunk(K, b)` call with a non-empty forced
biome on a chunk not yet generated. -/
theorem track_generateChunk_forced (K : ℤ) (b : String) (hne : b ≠ "") (w : World)
    (hK : K ∉ w.generatedChunks) :
    (generateChunk E rnd K (some b) w).track =
      (w.generatedChunks ++ [K], w.bodyRuns ++ [K], mapSet w.chunkBiomes K b) := by
  unfold generateChunk
  rw [if_neg hK]
  unfold generateChunkBody
  simp only [track_placeChunkStreetFeatures, track_buildingLoop, track_randomIntInRange,
    track_randomInRange, selectBiome_forced rnd b hne]
  rfl

/-- An unknown forced biome leaves both platform registries as they were. -/
theorem built_generateChunk_unknown (K : ℤ) (b : String) (hb : b ∉ biomes) (hne : b ≠ "")
    (w : World) : (generateChunk E rnd K (some b) w).built = w.built := by
  unfold generateChunk
  split_ifs
  · rfl
  · unfold generateChunkBody
    simp only [built_placeChunkStreetFeatures, selectBiome_forced rnd b hne,
      built_buildingLoop_unknown E rnd _ b hb, built_randomIntInRange, built_randomInRange]
    rfl

theorem keep_types_roofed :
    ∀ key ∈ (if ((BIOME_CONFIGS "grand_keep").getD BIOME_CONFIGS_default).buildingTypes.length
          ≠ 0 then
        ((BIOME_CONFIGS "grand_keep").getD BIOME_CONFIGS_default).buildingTypes
        else BIOME_CONFIGS_default.buildingTypes),
      ((BUILDING_TYPES key).getD BUILDING_TYPES_default).rooftop ≠ none := by
  have e : (if ((BIOME_CONFIGS "grand_keep").getD BIOME_CONFIGS_default).buildingTypes.length
          ≠ 0 then
        ((BIOME_CONFIGS "grand_keep").getD BIOME_CONFIGS_default).buildingTypes
        else BIOME_CONFIGS_default.buildingTypes) = ["keep_tower"] := rfl
  rw [e]
  intro key hkey
  rw [List.mem_singleton.mp hkey]
  intro h
  exact Option.noConfusion h

/-- One `generateChunk(K, b)` call for one of the five biomes on a chunk not
yet generated: what it adds to the platform registries. -/
theorem layout_generateChunk (hr : ∀ n, 0 ≤ rnd n ∧ rnd n < 1) (K : ℤ) (b : String)
    (hb : b ∈ biomes) (w : World) (hK : K ∉ w.generatedChunks) :
    ∃ added : List Platform,
      ChunkAdds b ((K : ℚ) * 480) ((K : ℚ) * 480 + 480) ((K : ℚ) * 480) w
        (generateChunk E rnd K (some b) w) added ∧
      added.filter Platform.isBuilding ≠ [] ∧
      (b = "grand_keep" → ∃ pf ∈ added, pf.type = "rooftop") := by
  obtain ⟨plo, phi, L⟩ := layout_of_biome hb
  have hroofs : b = "grand_keep" →
      ∀ key ∈ (if ((BIOME_CONFIGS b).getD BIOME_CONFIGS_default).buildingTypes.length ≠ 0 then
        ((BIOME_CONFIGS b).getD BIOME_CONFIGS_default).buildingTypes
        else BIOME_CONFIGS_default.buildingTypes),
      ((BUILDING_TYPES key).getD BUILDING_TYPES_default).rooftop ≠ none := by
    rintro rfl
    exact keep_types_roofed
  unfold generateChunk
  rw [if_neg hK]
  unfold generateChunkBody
  simp only [chunkSize, selectBiome_forced rnd b (biome_ne_empty hb)]
  generalize (BIOME_CONFIGS b).getD BIOME_CONFIGS_default = cfg at L hroofs ⊢
  generalize (if cfg.buildingTypes.length ≠ 0 then cfg.buildingTypes
    else BIOME_CONFIGS_default.buildingTypes) = types at L hroofs ⊢
  have h1 : ({ w with
      generatedChunks := w.generatedChunks ++ [K], bodyRuns := w.bodyRuns ++ [K],
      chunkBiomes := mapSet w.chunkBiomes K b } : World).built = w.built := rfl
  generalize ({ w with
      generatedChunks := w.generatedChunks ++ [K], bodyRuns := w.bodyRuns ++ [K],
      chunkBiomes := mapSet w.chunkBiomes K b } : World) = w1 at h1 ⊢
  have hpad : plo ≤ (randomInRange rnd cfg.edgePaddingRange 40 w1).1 ∧
      (randomInRange rnd cfg.edgePaddingRange 40 w1).1 ≤ phi := by
    rw [L.padding]
    exact randomInRange_bounds rnd hr plo phi 40 L.plo_le w1
  have h2 := (built_randomInRange rnd cfg.edgePaddingRange 40 w1).trans h1
  generalize randomInRange rnd cfg.edgePaddingRange 40 w1 = pad at hpad h2 ⊢
  have h3 := (built_randomIntInRange rnd cfg.buildingCountRange 3 pad.2).trans h2
  generalize randomIntInRange rnd cfg.buildingCountRange 3 pad.2 = cnt at h3 ⊢
  obtain ⟨h3p, h3b⟩ := built_platforms h3
  have hfuel : 0 < (max 1 cnt.1).toNat := by
    have := le_max_left 1 cnt.1
    omega
  have hplo := L.plo_pos
  obtain ⟨added, ⟨a1, a2, a3, a4⟩, hfirst⟩ := layout_buildingLoop E rnd hr cfg types plo phi L
    b hb ((K : ℚ) * 480) pad.1 hpad (max 1 cnt.1).toNat 0 ((K : ℚ) * 480 + pad.1) [] cnt.2
    (le_refl _) (fun _ => rfl)
  obtain ⟨f1, f2⟩ := hfirst hfuel rfl
  generalize buildingLoop E rnd cfg b types ((K : ℚ) * 480) ((K : ℚ) * 480 + 480) pad.1
    (max 1 cnt.1).toNat 0 ((K : ℚ) * 480 + pad.1) [] cnt.2 = r at a1 a2 ⊢
  obtain ⟨s1, s2⟩ := built_platforms (built_placeChunkStreetFeatures rnd ((K : ℚ) * 480)
    ((K : ℚ) * 480 + 480) cfg b r.2 r.1)
  refine ⟨added, ⟨?_, ?_, laidOut_mono _ (by linarith [hpad.1]) _ a3, a4⟩, f1,
    fun hg => f2 (Or.inl hg) (hroofs hg)⟩
  · rw [s1, a1, h3p]
  · rw [s2, a2, h3b]

theorem laidOut_spec (hi : ℚ) : ∀ (l : List Platform) (lo : ℚ), laidOut hi lo l →
    (∀ p ∈ l, p.type = "building" ∧ lo ≤ p.x ∧ 0 < p.width ∧ p.x + p.width < hi) ∧
    l.Pairwise fun p q => p.x < q.x ∧ p.x + p.width ≤ q.x := by
  intro l
  induction l with
  | nil => intro _ _; exact ⟨fun p hp => absurd hp (List.not_mem_nil p), List.Pairwise.nil⟩
  | cons a rest ih =>
    intro lo h
    obtain ⟨h1, h2, h3, h4, h5⟩ := h
    obtain ⟨i1, i2⟩ := ih _ h5
    refine ⟨fun p hp => ?_, List.Pairwise.cons (fun q hq => ?_) i2⟩
    · rcases List.mem_cons.mp hp with hp | hp
      · rw [hp]; exact ⟨h1, h2, h3, h4⟩
      · obtain ⟨j1, j2, j3, j4⟩ := i1 p hp
        exact ⟨j1, by linarith, j3, j4⟩
    · obtain ⟨-, j2, -, -⟩ := i1 q hq
      exact ⟨by linarith, j2⟩

/-- With an eligible rooftop in the list, the loop of `getSpawnPoint` selects
an eligible platform and the centre of its top is returned. -/
theorem spawn_selected (w : World) (h : ∃ pf ∈ w.platforms, SpawnEligible pf) :
    ∃ p ∈ w.platforms, SpawnEligible p ∧
      (w.platforms.foldl spawnStep none).map Prod.fst = some p ∧
      getSpawnPoint w = (p.x + p.width / 2, p.y - 12) := by
  have hs := spawnBest_platform w
  obtain ⟨pf, hpf, he⟩ := h
  unfold getSpawnPoint
  cases hb : (w.platforms.foldl spawnStep none).map Prod.fst with
  | none =>
    rw [hb] at hs
    exact absurd he (hs pf hpf)
  | some p =>
    rw [hb] at hs
    obtain ⟨hep, l1, l2, hl, -, -⟩ := hs
    exact ⟨p, by rw [hl]; simp, hep, rfl, rfl⟩

end ChunkLayout

section Init

variable (E : JsMath) (rnd : ℕ → ℚ)

theorem roofPlacement_of_span (K : ℤ) (b : String) (hK0 : K = 0 → b = "grand_keep")
    (pf : Platform) (hbio : pf.biome = b) (h1 : (K : ℚ) * 480 ≤ pf.x) (h2 : 0 < pf.width)
    (h3 : pf.x + pf.width < (K : ℚ) * 480 + 480) : RoofPlacement pf := by
  rcases lt_trichotomy K 0 with h | h | h
  · have hq : (K : ℚ) ≤ -1 := by exact_mod_cast (show K ≤ -1 by omega)
    exact Or.inr (Or.inl ⟨h2, by linarith⟩)
  · subst h
    refine Or.inl ⟨hbio.trans (hK0 rfl), ?_, h2, ?_⟩
    · simpa using h1
    · simpa using h3
  · have hq : (1 : ℚ) ≤ (K : ℚ) := by exact_mod_cast (show (1 : ℤ) ≤ K by omega)
    exact Or.inr (Or.inr ⟨h2, by linarith⟩)

/-- An eligible rooftop placed as `RoofPlacement` allows is a `grand_keep`
rooftop inside chunk 0. -/
theorem roofPlacement_eligible (pf : Platform) (hq : RoofPlacement pf)
    (he : SpawnEligible pf) :
    pf.biome = "grand_keep" ∧ 0 ≤ pf.x ∧ 0 < pf.width ∧ pf.x + pf.width < 480 := by
  rcases hq with h | ⟨q1, q2⟩ | ⟨q1, q2⟩
  · exact h
  · exfalso
    rcases he.2 with h | h
    · unfold jsFloor chunkSize at h
      rw [Int.floor_eq_iff] at h
      have h0 := h.1
      rw [le_div_iff₀ (by norm_num)] at h0
      push_cast at h0
      linarith
    · linarith [h.2]
  · exfalso
    rcases he.2 with h | h
    · unfold jsFloor chunkSize at h
      rw [Int.floor_eq_iff] at h
      have h0 := h.2
      rw [div_lt_iff₀ (by norm_num)] at h0
      push_cast at h0
      linarith
    · unfold chunkSize at h
      linarith [h.1]

/-- One forced `generateChunk` call of `generateWorld` keeps `InitState`. -/
theorem initState_generateChunk (hr : ∀ n, 0 ≤ rnd n ∧ rnd n < 1) (K : ℤ) (b : String)
    (hb : b ∈ biomes) (hK0 : K = 0 → b = "grand_keep") {w : World} {gen : List ℤ}
    {bio : List (ℤ × String)} (h : InitState w gen bio) (hK : K ∉ gen) :
    InitState (generateChunk E rnd K (some b) w) (gen ++ [K]) (mapSet bio K b) := by
  have hKw : K ∉ w.generatedChunks := by rw [h.gen_eq]; exact hK
  have ht := track_generateChunk_forced E rnd K b (biome_ne_empty hb) w hKw
  simp only [World.track, Prod.mk.injEq] at ht
  obtain ⟨t1, -, t3⟩ := ht
  obtain ⟨added, ⟨a1, -, -, a4⟩, -, hkeep⟩ := layout_generateChunk E rnd hr K b hb w hKw
  have hroof : ∀ pf ∈ added, pf.type = "rooftop" →
      pf.biome = b ∧ (K : ℚ) * 480 ≤ pf.x ∧ 0 < pf.width ∧
        pf.x + pf.width < (K : ℚ) * 480 + 480 := by
    intro pf hpf ht
    rcases a4 pf hpf with hbd | ⟨-, q⟩
    · rw [ht] at hbd
      exact absurd hbd (by decide)
    · exact q
  refine ⟨by rw [t1, h.gen_eq], by rw [t3, h.bio_eq], fun pf hpf ht => ?_, fun h0 => ?_⟩
  · rw [a1] at hpf
    rcases List.mem_append.mp hpf with hpf | hpf
    · exact h.roofs pf hpf ht
    · obtain ⟨q1, q2, q3, q4⟩ := hroof pf hpf ht
      exact roofPlacement_of_span K b hK0 pf q1 q2 q3 q4
  · rw [a1]
    rcases List.mem_append.mp h0 with h0 | h0
    · obtain ⟨pf, hpf, q⟩ := h.keep h0
      exact ⟨pf, List.mem_append_left _ hpf, q⟩
    · have hK : K = 0 := (List.mem_singleton.mp h0).symm
      obtain ⟨pf, hpf, ht⟩ := hkeep (hK0 hK)
      obtain ⟨q1, q2, q3, q4⟩ := hroof pf hpf ht
      subst hK
      refine ⟨pf, List.mem_append_right _ hpf, ht, q1.trans (hK0 rfl), ?_, q3, ?_⟩
      · simpa using q2
      · simpa using q4

/-- The world of `new World()` is in `InitState` with the seven forced chunks. -/
theorem initState_new (hr : ∀ n, 0 ≤ rnd n ∧ rnd n < 1) :
    InitState (World.new E rnd) [-3, -2, -1, 0, 1, 2, 3]
      [(-3, "slums"), (-2, "marketplace"), (-1, "noble_housing"), (0, "grand_keep"),
        (1, "slums"), (2, "slums"), (3, "town_square")] := by
  have s0 : InitState ({ World.empty with
      platforms := [], metalSources := [], buildings := [], streetLamps := [],
      groundMetals := [], trees := [], chunkBiomes := [], generatedChunks := [] } : World)
      [] [] :=
    ⟨rfl, rfl, fun pf hpf => absurd hpf (List.not_mem_nil pf),
      fun h => absurd h (List.not_mem_nil _)⟩
  have s1 := initState_generateChunk E rnd hr (-3) "slums" (by decide) (by decide) s0
    (by decide)
  have s2 := initState_generateChunk E rnd hr (-2) "marketplace" (by decide) (by decide) s1
    (by decide)
  have s3 := initState_generateChunk E rnd hr (-1) "noble_housing" (by decide) (by decide) s2
    (by decide)
  have s4 := initState_generateChunk E rnd hr 0 "grand_keep" (by decide) (by decide) s3
    (by decide)
  have s5 := initState_generateChunk E rnd hr 1 "slums" (by decide) (by decide) s4
    (by decide)
  have s6 := initState_generateChunk E rnd hr 2 "slums" (by decide) (by decide) s5
    (by decide)
  have s7 := initState_generateChunk E rnd hr 3 "town_square" (by decide) (by decide) s6
    (by decide)
  exact s7

end Init

section WorldClaims

variable (E : JsMath) (rnd : ℕ → ℚ)

/-- C29 (code defect). `generateChunk(K, b)` with a non-empty biome name `b`
outside the five that `generateBiome` switches on, for a chunk not yet
generated, marks `K` generated and records `b` as its biome, but adds no
platform and no building: the `switch` of `generateBiome` has no default case,
so the default archetype that `generateChunk` falls back to is never built. -/
theorem unknown_biome_places_nothing (K : ℤ) (b : String) (hb : b ∉ biomes) (hne : b ≠ "")
    (w : World) (hK : K ∉ w.generatedChunks) :
    (generateChunk E rnd K (some b) w).platforms = w.platforms ∧
    (generateChunk E rnd K (some b) w).buildings = w.buildings ∧
    K ∈ (generateChunk E rnd K (some b) w).generatedChunks ∧
    (generateChunk E rnd K (some b) w).chunkBiomes = mapSet w.chunkBiomes K b := by
  obtain ⟨h1, h2⟩ := built_platforms (built_generateChunk_unknown E rnd K b hb hne w)
  have ht := track_generateChunk_forced E rnd K b hne w hK
  simp only [World.track, Prod.mk.injEq] at ht
  refine ⟨h1, h2, ?_, ht.2.2⟩
  rw [ht.1]
  exact List.mem_append_right _ (List.mem_singleton_self K)

/-- C29 at a concrete input: `generateChunk(4, "swamp")` on the world of
`new World()` leaves that world without any new platform. -/
theorem unknown_biome_places_nothing_witness :
    "swamp" ∉ biomes ∧ "swamp" ≠ "" ∧
    (4 : ℤ) ∉ (World.new exactMath fun _ => 0).generatedChunks ∧
    (generateChunk exactMath (fun _ => 0) 4 (some "swamp")
      (World.new exactMath fun _ => 0)).platforms = (World.new exactMath fun _ => 0).platforms ∧
    (generateChunk exactMath (fun _ => 0) 4 (some "swamp")
      (World.new exactMath fun _ => 0)).buildings = (World.new exactMath fun _ => 0).buildings ∧
    (4 : ℤ) ∈ (generateChunk exactMath (fun _ => 0) 4 (some "swamp")
      (World.new exactMath fun _ => 0)).generatedChunks :=
  have hg : (World.new exactMath fun _ => 0).generatedChunks = [-3, -2, -1, 0, 1, 2, 3] :=
    congrArg Prod.fst (genRuns_new exactMath fun _ => 0)
  have h4 : (4 : ℤ) ∉ (World.new exactMath fun _ => 0).generatedChunks := by rw [hg]; decide
  have h := unknown_biome_places_nothing exactMath (fun _ => 0) 4 "swamp" (by decide)
    (by decide) (World.new exactMath fun _ => 0) h4
  ⟨by decide, by decide, h4, h.1, h.2.1, h.2.2.1⟩

/-- C26. For each of the five configured biomes `b`, every stream of draws in
`[0, 1)` and every chunk `K` not yet generated, the `building` platforms that
one `generateChunk(K, b)` call creates form a non-empty list `added`, appended
to both registries in creation order, in which every building lies inside
`[K*480, (K+1)*480)` and every later building starts at or beyond the right
edge of every earlier one (so at a strictly larger `x`). -/
theorem building_layout (hr : ∀ n, 0 ≤ rnd n ∧ rnd n < 1) (K : ℤ) (b : String)
    (hb : b ∈ biomes) (w : World) (hK : K ∉ w.generatedChunks) :
    ∃ added : List Platform, added ≠ [] ∧
      (generateChunk E rnd K (some b) w).buildings = w.buildings ++ added ∧
      (generateChunk E rnd K (some b) w).platforms.filter Platform.isBuilding
        = w.platforms.filter Platform.isBuilding ++ added ∧
      (∀ p ∈ added, p.type = "building" ∧ (K : ℚ) * 480 ≤ p.x ∧ 0 < p.width ∧
        p.x + p.width < ((K : ℚ) + 1) * 480) ∧
      added.Pairwise fun p q => p.x < q.x ∧ p.x + p.width ≤ q.x := by
  obtain ⟨added, ⟨a1, a2, a3, -⟩, hne, -⟩ := layout_generateChunk E rnd hr K b hb w hK
  obtain ⟨s1, s2⟩ := laidOut_spec _ _ _ a3
  refine ⟨added.filter Platform.isBuilding, hne, a2, by rw [a1, List.filter_append],
    fun p hp => ?_, s2⟩
  obtain ⟨q1, q2, q3, q4⟩ := s1 p hp
  exact ⟨q1, q2, q3, by linarith⟩

/-- C26 at a concrete input: chunk 0 as `slums` on the empty world, every draw
being 0. -/
theorem building_layout_witness :
    (∀ n : ℕ, 0 ≤ (fun _ => (0 : ℚ)) n ∧ (fun _ => (0 : ℚ)) n < 1) ∧ "slums" ∈ biomes ∧
    (0 : ℤ) ∉ World.empty.generatedChunks ∧
    ∃ added : List Platform, added ≠ [] ∧
      (generateChunk exactMath (fun _ => 0) 0 (some "slums") World.empty).buildings
        = World.empty.buildings ++ added ∧
      (generateChunk exactMath (fun _ => 0) 0 (some "slums") World.empty).platforms.filter
          Platform.isBuilding
        = World.empty.platforms.filter Platform.isBuilding ++ added ∧
      (∀ p ∈ added, p.type = "building" ∧ ((0 : ℤ) : ℚ) * 480 ≤ p.x ∧ 0 < p.width ∧
        p.x + p.width < (((0 : ℤ) : ℚ) + 1) * 480) ∧
      added.Pairwise fun p q => p.x < q.x ∧ p.x + p.width ≤ q.x :=
  ⟨fun _ => ⟨le_refl 0, zero_lt_one⟩, by decide, List.not_mem_nil 0,
    building_layout exactMath (fun _ => 0) (fun _ => ⟨le_refl 0, zero_lt_one⟩) 0 "slums"
      (by decide) World.empty (List.not_mem_nil 0)⟩

/-- C25. For every stream of draws in `[0, 1)`, after `new World()` the
generated set is `-3 .. 3` with the biomes slums, marketplace, noble_housing,
grand_keep, slums, slums, town_square in that order, and the loop of
`getSpawnPoint` selects a platform (so the fallback point is not used): a
`grand_keep` rooftop of the world lying inside the span `[0, 480)` of chunk 0,
whose top centre, 12 above the top, is the point returned. -/
theorem world_initialisation (hr : ∀ n, 0 ≤ rnd n ∧ rnd n < 1) :
    (World.new E rnd).generatedChunks = [-3, -2, -1, 0, 1, 2, 3] ∧
    (World.new E rnd).chunkBiomes =
      [(-3, "slums"), (-2, "marketplace"), (-1, "noble_housing"), (0, "grand_keep"),
        (1, "slums"), (2, "slums"), (3, "town_square")] ∧
    ∃ pf ∈ (World.new E rnd).platforms,
      pf.type = "rooftop" ∧ pf.biome = "grand_keep" ∧ chunkOf pf.x = 0 ∧
      0 ≤ pf.x ∧ pf.x + pf.width < 480 ∧
      ((World.new E rnd).platforms.foldl spawnStep none).map Prod.fst = some pf ∧
      getSpawnPoint (World.new E rnd) = (pf.x + pf.width / 2, pf.y - 12) := by
  have s := initState_new E rnd hr
  refine ⟨s.gen_eq, s.bio_eq, ?_⟩
  obtain ⟨pf0, hpf0, ht0, -, hx0, hw0, hr0⟩ := s.keep (by decide)
  have he0 : SpawnEligible pf0 := ⟨ht0, Or.inr ⟨by unfold chunkSize; linarith, by linarith⟩⟩
  obtain ⟨p, hp, hep, hsel, hget⟩ := spawn_selected (World.new E rnd) ⟨pf0, hpf0, he0⟩
  obtain ⟨q1, q2, hwp, q3⟩ := roofPlacement_eligible p (s.roofs p hp hep.1) hep
  exact ⟨p, hp, hep.1, q1, chunkOf_eq (by simpa using q2) (by push_cast; linarith), q2, q3,
    hsel, hget⟩

/-- C25 at a concrete input: every draw being 1/2. -/
theorem world_initialisation_witness :
    (∀ n : ℕ, 0 ≤ (fun _ => (1 / 2 : ℚ)) n ∧ (fun _ => (1 / 2 : ℚ)) n < 1) ∧
    (World.new exactMath fun _ => 1 / 2).generatedChunks = [-3, -2, -1, 0, 1, 2, 3] ∧
    (World.new exactMath fun _ => 1 / 2).chunkBiomes =
      [(-3, "slums"), (-2, "marketplace"), (-1, "noble_housing"), (0, "grand_keep"),
        (1, "slums"), (2, "slums"), (3, "town_square")] ∧
    ∃ pf ∈ (World.new exactMath fun _ => 1 / 2).platforms,
      pf.type = "rooftop" ∧ pf.biome = "grand_keep" ∧ chunkOf pf.x = 0 ∧
      0 ≤ pf.x ∧ pf.x + pf.width < 480 ∧
      ((World.new exactMath fun _ => 1 / 2).platforms.foldl spawnStep none).map Prod.fst
        = some pf ∧
      getSpawnPoint (World.new exactMath fun _ => 1 / 2) = (pf.x + pf.width / 2, pf.y - 12) :=
  ⟨fun _ => ⟨by norm_num, by norm_num⟩,
    world_initialisation exactMath (fun _ => 1 / 2) fun _ => ⟨by norm_num, by norm_num⟩⟩

end WorldClaims

end Mistborn
